import Mathlib

/-!
The LDAP keyserver helper `gpgkeys_ldap`: a shallow embedding

The definitions below follow `src/keyserver/gpgkeys_ldap.c` function by
function.  Conventions of the embedding:

* a C string is the list of its bytes before the terminating NUL
  (`List Char`); where the code builds a buffer that may hold a NUL in the
  middle the buffer is modelled explicitly and read back with `cstr`;
* `malloc`, `realloc` and `strdup` are assumed to succeed;
* text written to the diagnostic stream `console` is not modelled;
* `int` is 32 bits wide and `long` 64 bits: `atoi` and the `%d` of the
  `VERSION` line give the value `strtol` reads, reduced to an `int`;
* the text `sprintf` formats is a list; the size of the destination array
  is checked where a text can exceed it (`search_key`), and a run that
  writes beyond the array is marked `crashed`;
* a run in which the process is killed has no return value.
-/

namespace GpgkeysLdap

/-! ## C library helpers -/

/-- The NUL byte. -/
def NUL : Char := Char.ofNat 0

/-- The C string held by a buffer: the bytes before the first NUL. -/
def cstr (buf : List Char) : List Char := buf.takeWhile (fun c => c != NUL)

/-- C `isspace` in the C locale: space, `\t`, `\n`, `\v`, `\f`, `\r`. -/
def isspace (c : Char) : Bool :=
  c == ' ' || c == '\t' || c == '\n' || c == Char.ofNat 11 || c == Char.ofNat 12 || c == '\r'

/-- Modelled from the spec: `ascii_isspace` of util.h is not under src/; the
spec calls what `build_attrs` strips "trailing whitespace", taken here as the
ASCII whitespace bytes. -/
def ascii_isspace (c : Char) : Bool := isspace c

/-- C `isdigit`. -/
def isdigit (c : Char) : Bool := decide ('0' ≤ c) && decide (c ≤ '9')

/-- C `tolower` in the C locale. -/
def tolower (c : Char) : Char :=
  if 'A' ≤ c ∧ c ≤ 'Z' then Char.ofNat (c.toNat + 32) else c

/-- The test `strcasecmp(a,b)==0`. -/
def strcasecmp_eq (a b : List Char) : Bool := a.map tolower == b.map tolower

/-- Modelled from the spec: `ascii_strcasecmp` of util.h is not under src/;
the test `ascii_strcasecmp(a,b)==0` is the case-insensitive comparison of the
record name. -/
def ascii_strcasecmp_eq (a b : List Char) : Bool := a.map tolower == b.map tolower

/-- The test `strncasecmp(a,b,n)==0`. -/
def strncasecmp_eq (a b : List Char) (n : Nat) : Bool :=
  (a.take n).map tolower == (b.take n).map tolower

/-- The test `strncmp(a,b,n)==0`. -/
def strncmp_eq (a b : List Char) (n : Nat) : Bool := a.take n == b.take n

/-- Value of a run of decimal digits, most significant first. -/
def digitsVal (ds : List Char) : Nat := ds.foldl (fun a c => 10 * a + (c.toNat - 48)) 0

/-- The `strtol`-style number at the head of `s`: optional sign, then the
longest run of digits (0 when there is none). -/
def signedDigits (s : List Char) : Int :=
  match s with
  | '-' :: r => - ((digitsVal (r.takeWhile isdigit) : Nat) : Int)
  | '+' :: r => ((digitsVal (r.takeWhile isdigit) : Nat) : Int)
  | _ => ((digitsVal (s.takeWhile isdigit) : Nat) : Int)

/-- The value `strtol` returns for a number outside the range of a 64-bit
`long`: the nearest bound. -/
def clampLong (n : Int) : Int :=
  if n < -9223372036854775808 then -9223372036854775808
  else if 9223372036854775807 < n then 9223372036854775807
  else n

/-- The conversion of a `long` to a 32-bit `int`: the value modulo 2^32. -/
def toInt32 (n : Int) : Int := (n + 2147483648) % 4294967296 - 2147483648

/-- C `atoi`, that is `(int) strtol(s, NULL, 10)`: skip white space, read an
optionally signed run of digits, and reduce the `long` to an `int`. -/
def atoi (s : List Char) : Int := toInt32 (clampLong (signedDigits (s.dropWhile isspace)))

/-- Decimal digits of a natural number, as `%d` and `%u` print them. -/
def decimal (n : Nat) : List Char := Nat.toDigits 10 n

/-- Lower-case hexadecimal digits of a natural number, as `%x` prints them. -/
def hexadecimal (n : Nat) : List Char := Nat.toDigits 16 n

/-- Left padding with `0` to a minimum field width (the `0` flag of printf). -/
def zeroPad (w : Nat) (ds : List Char) : List Char := List.replicate (w - ds.length) '0' ++ ds

/-- The conversion `%d` of a C `int`. -/
def fmt_d (n : Int) : List Char :=
  if n < 0 then '-' :: decimal n.natAbs else decimal n.toNat

/-- The conversion `%0<w>d` of a C `int`: the sign counts towards the width. -/
def fmt_0d (w : Nat) (n : Int) : List Char :=
  if n < 0 then '-' :: zeroPad (w - 1) (decimal n.natAbs) else zeroPad w (decimal n.toNat)

/-- The value an `int` argument has when printed by an unsigned conversion
(`%u`, `%x`) with a 32-bit `int`. -/
def asUnsigned (n : Int) : Nat := (n % 4294967296).toNat

/-- The value of a `char` holding byte `c` after promotion to `int`:
bytes from 128 up are negative where `char` is signed. -/
def charToInt (charSigned : Bool) (c : Char) : Int :=
  if charSigned && decide (128 ≤ c.toNat) then (c.toNat : Int) - 256 else (c.toNat : Int)

/-- The byte a `char` holds after an `int` is assigned to it. -/
def intToChar (n : Int) : Char := Char.ofNat (n % 256).toNat

/-- Value of one hexadecimal digit. -/
def hexval (c : Char) : Option Nat :=
  if isdigit c then some (c.toNat - 48)
  else if 'A' ≤ c ∧ c ≤ 'F' then some (c.toNat - 55)
  else if 'a' ≤ c ∧ c ≤ 'f' then some (c.toNat - 87)
  else none

/-- Modelled from the spec: `hextobyte` of util.h is not under src/; per the
spec two hex digits "become the corresponding byte" and anything else is
"invalid hex", reported by the caller's test against -1. -/
def hextobyte (s : List Char) : Int :=
  match s with
  | a :: b :: _ =>
    match hexval a, hexval b with
    | some x, some y => ((16 * x + y : Nat) : Int)
    | _, _ => -1
  | _ => -1

/-- C `strsep(&line, delim)` for a one-character delimiter set: `none` when
`line` is NULL, otherwise the token before the first delimiter together with
the new value of `line` (NULL when no delimiter was found). -/
def strsep (line : Option (List Char)) (delim : Char) :
    Option (List Char × Option (List Char)) :=
  match line with
  | none => none
  | some l =>
    let tok := l.takeWhile (fun c => c != delim)
    some (tok, if l.contains delim then some (l.drop (tok.length + 1)) else none)

/-! ## printquoted -/

/-- Source: `printquoted`.  The bytes written to `stream` for `string`:
`fprintf(stream,"%%%02x",*string)` for the delimiter and for `%`,
`fputc` otherwise. -/
def printquoted (charSigned : Bool) (string : List Char) (delim : Char) : List Char :=
  match string with
  | [] => []
  | c :: rest =>
    (if c = delim ∨ c = '%' then
        '%' :: zeroPad 2 (hexadecimal (asUnsigned (charToInt charSigned c)))
      else [c]) ++ printquoted charSigned rest delim

/-! ## The attribute-modification list -/

/-- `LDAP_MOD_ADD` of ldap.h. -/
def LDAP_MOD_ADD : Nat := 0

/-- `LDAP_MOD_REPLACE` of ldap.h. -/
def LDAP_MOD_REPLACE : Nat := 2

/-- One `LDAPMod`: operation, attribute name and the NULL-terminated value
array (a NULL `mod_values` is the empty list). -/
structure LDAPMod where
  mod_op : Nat
  mod_type : List Char
  mod_values : List (List Char)
deriving DecidableEq, Repr

/-- Source: `make_one_attr`.  Walks the NULL-terminated `modlist`; at the
first entry whose `mod_type` equals `attr` (`strcmp`) the value is appended to
that entry's values, otherwise a new `LDAP_MOD_REPLACE` entry holding the
value is added at the end.  Allocation succeeds, so the C function returns 1
and leaves this list in `*modlist`. -/
def make_one_attr (modlist : List LDAPMod) (attr value : List Char) : List LDAPMod :=
  match modlist with
  | [] => [⟨LDAP_MOD_REPLACE, attr, [value]⟩]
  | m :: ms =>
    if m.mod_type = attr then
      ⟨m.mod_op, m.mod_type, m.mod_values ++ [value]⟩ :: ms
    else m :: make_one_attr ms attr value

/-- The in-place `%HH` decoding loop of `build_attrs` over the buffer that
holds the token: `tok` is the read index, `i` the write index.  The loop stops
at the first NUL read; it does not write a terminator at `i`. -/
def uid_decode (charSigned : Bool) : Nat → List Char → Nat → Nat → List Char
  | 0, buf, _, _ => buf
  | fuel + 1, buf, i, tok =>
    if buf.getD tok NUL = NUL then buf
    else if buf.getD tok NUL = '%' ∧ buf.getD (tok + 1) NUL ≠ NUL ∧ buf.getD (tok + 2) NUL ≠ NUL then
      let stored := intToChar (hextobyte (buf.drop (tok + 1)))
      let v := if charToInt charSigned stored = -1 then '?' else stored
      uid_decode charSigned fuel (buf.set i v) (i + 1) (tok + 3)
    else
      uid_decode charSigned fuel (buf.set i (buf.getD tok NUL)) (i + 1) (tok + 1)

/-- Removal of trailing white space at the start of `build_attrs`. -/
def strip_trailing (line : List Char) : List Char :=
  (line.reverse.dropWhile ascii_isspace).reverse

/-- Source: the `pub` branch of `build_attrs`, from the flags field on. -/
def build_attrs_flags (m5 : List LDAPMod) (line : Option (List Char)) : List LDAPMod :=
  match strsep line ':' with
  | none => m5
  | some (tok, _) =>
    let revoked := tok.any (fun c => c == 'r' || c == 'R')
    let disabled := tok.any (fun c => c == 'd' || c == 'D')
    make_one_attr
      (make_one_attr m5 "pgpDisabled".toList (if disabled then "1".toList else "0".toList))
      "pgpRevoked".toList (if revoked then "1".toList else "0".toList)

/-- Source: the `pub` branch of `build_attrs`, from the expiration field on.
`epoch2ldaptime` returns a fresh string, so the test `if(stamp)` holds. -/
def build_attrs_expire (m4 : List LDAPMod) (line : Option (List Char)) : List LDAPMod :=
  match strsep line ':' with
  | none => m4
  | some (tok, line) =>
    build_attrs_flags
      (if 0 < atoi tok then make_one_attr m4 "pgpKeyExpireTime".toList tok else m4) line

/-- Source: the `pub` branch of `build_attrs`, from the creation field on. -/
def build_attrs_create (m3 : List LDAPMod) (line : Option (List Char)) : List LDAPMod :=
  match strsep line ':' with
  | none => m3
  | some (tok, line) =>
    build_attrs_expire
      (if 0 < atoi tok then make_one_attr m3 "pgpKeyCreateTime".toList tok else m3) line

/-- Source: the `pub` branch of `build_attrs`, from the key-size field on:
`sprintf(padded,"%05u",atoi(tok))` under the guard `val<99999 && val>0`. -/
def build_attrs_size (m2 : List LDAPMod) (line : Option (List Char)) : List LDAPMod :=
  match strsep line ':' with
  | none => m2
  | some (tok, line) =>
    build_attrs_create
      (if 0 < atoi tok ∧ atoi tok < 99999 then
        make_one_attr m2 "pgpKeySize".toList (zeroPad 5 (decimal (asUnsigned (atoi tok))))
       else m2) line

/-- Source: the `pub` branch of `build_attrs`, from the algorithm field on. -/
def build_attrs_algo (m1 : List LDAPMod) (line : Option (List Char)) : List LDAPMod :=
  match strsep line ':' with
  | none => m1
  | some (tok, line) =>
    build_attrs_size
      (if atoi tok = 1 then make_one_attr m1 "pgpKeyType".toList "RSA".toList
       else if atoi tok = 17 then make_one_attr m1 "pgpKeyType".toList "DSS/DH".toList
       else m1) line

/-- Source: the `pub` branch of `build_attrs`, after the record name: the
long keyid, then the remaining fields. -/
def build_attrs_pub (m0 : List LDAPMod) (line : Option (List Char)) : List LDAPMod :=
  match strsep line ':' with
  | none => m0
  | some (tok, line) =>
    if tok.length = 16 then
      build_attrs_algo
        (make_one_attr (make_one_attr m0 "pgpCertID".toList tok) "pgpKeyID".toList (tok.drop 8))
        line
    else m0

/-- Source: the `uid` branch of `build_attrs`, after the record name.  The
token sits in the line buffer followed by the NUL that ends it; the value
handed to `make_one_attr` is the C string found at `userid` after the loop. -/
def build_attrs_uid (charSigned : Bool) (m0 : List LDAPMod) (line : Option (List Char)) :
    List LDAPMod :=
  match strsep line ':' with
  | none => m0
  | some (tok, _) =>
  if tok.length = 0 then m0 else
  let buf := tok ++ [NUL]
  make_one_attr m0 "pgpUserID".toList (cstr (uid_decode charSigned buf.length buf 0 0))

/-- Source: `build_attrs`. -/
def build_attrs (charSigned : Bool) (modlist : List LDAPMod) (line : List Char) : List LDAPMod :=
  match strsep (some (strip_trailing line)) ':' with
  | none => modlist
  | some (record, rest) =>
    if ascii_strcasecmp_eq "pub".toList record then build_attrs_pub modlist rest
    else if ascii_strcasecmp_eq "uid".toList record then build_attrs_uid charSigned modlist rest
    else modlist

/-! ## LDAP generalized time -/

/-- The fields of `struct tm` the program uses (`tm_isdst` plays no part in
UTC conversions). -/
structure Tm where
  tm_sec : Int
  tm_min : Int
  tm_hour : Int
  tm_mday : Int
  tm_mon : Int
  tm_year : Int
deriving DecidableEq, Repr

/-- Day number (days since 1970-01-01) of a date of the proleptic Gregorian
calendar, month in 1..12. -/
def days_from_civil (y m d : Int) : Int :=
  let y1 := if m ≤ 2 then y - 1 else y
  let era := y1 / 400
  let yoe := y1 - era * 400
  let mp := if 2 < m then m - 3 else m + 9
  let doy := (153 * mp + 2) / 5 + d - 1
  let doe := yoe * 365 + yoe / 4 - yoe / 100 + doy
  era * 146097 + doe - 719468

/-- Year, month (1..12) and day of month of a day number. -/
def civil_from_days (z : Int) : Int × Int × Int :=
  let z1 := z + 719468
  let era := z1 / 146097
  let doe := z1 - era * 146097
  let yoe := (doe - doe / 1460 + doe / 36524 - doe / 146096) / 365
  let doy := doe - (365 * yoe + yoe / 4 - yoe / 100)
  let mp := (5 * doy + 2) / 153
  let d := doy - (153 * mp + 2) / 5 + 1
  let m := if mp < 10 then mp + 3 else mp - 9
  (if m ≤ 2 then yoe + era * 400 + 1 else yoe + era * 400, m, d)

/-- C library `gmtime`: the broken-down UTC time of an epoch value. -/
def gmtime (stamp : Int) : Tm :=
  let days := stamp / 86400
  let rem := stamp % 86400
  let ymd := civil_from_days days
  { tm_sec := rem % 60, tm_min := rem % 3600 / 60, tm_hour := rem / 3600,
    tm_mday := ymd.2.2, tm_mon := ymd.2.1 - 1, tm_year := ymd.1 - 1900 }

/-- C library `timegm` (equally `mktime` under `TZ=UTC`, the fallback of the
source): the epoch value of a broken-down UTC time; fields out of range are
carried over. -/
def timegm (tm : Tm) : Int :=
  (days_from_civil (tm.tm_year + 1900 + tm.tm_mon / 12) (tm.tm_mon % 12 + 1) 1 + (tm.tm_mday - 1))
      * 86400
    + tm.tm_hour * 3600 + tm.tm_min * 60 + tm.tm_sec

/-- One `%<w>d` conversion of `sscanf`: white space is skipped, then at most
`w` bytes are read as an optional sign followed by digits; the conversion
fails when no digit is found.  Returns the value and the unread input. -/
def scan_int (w : Nat) (s : List Char) : Option (Int × List Char) :=
  let s1 := s.dropWhile isspace
  let field := s1.take w
  match field with
  | '-' :: r =>
    let ds := r.takeWhile isdigit
    if ds.length = 0 then none else some (- ((digitsVal ds : Nat) : Int), s1.drop (ds.length + 1))
  | '+' :: r =>
    let ds := r.takeWhile isdigit
    if ds.length = 0 then none else some (((digitsVal ds : Nat) : Int), s1.drop (ds.length + 1))
  | _ =>
    let ds := field.takeWhile isdigit
    if ds.length = 0 then none else some (((digitsVal ds : Nat) : Int), s1.drop ds.length)

/-- The conversions of one `sscanf` call in order: the values stored before
the first conversion that fails. -/
def scan_ints (ws : List Nat) (s : List Char) : List Int :=
  match ws with
  | [] => []
  | w :: rest =>
    match scan_int w s with
    | none => []
    | some (v, s1) => v :: scan_ints rest s1

/-- Source: `ldap2epochtime`.  `pgptime` is zeroed, the six fields are read
by `sscanf(timestr,"%4d%2d%2d%2d%2d%2d",...)` (a field that is not converted
stays 0), year and month are rebased and the result is converted as UTC. -/
def ldap2epochtime (timestr : List Char) : Int :=
  let f := scan_ints [4, 2, 2, 2, 2, 2] timestr
  timegm
    { tm_year := f.getD 0 0 - 1900, tm_mon := f.getD 1 0 - 1, tm_mday := f.getD 2 0,
      tm_hour := f.getD 3 0, tm_min := f.getD 4 0, tm_sec := f.getD 5 0 }

/-- Source: `epoch2ldaptime`: `gmtime`, then
`sprintf(buf,"%04d%02d%02d%02d%02d%02dZ",...)` with year and month rebased. -/
def epoch2ldaptime (stamp : Int) : List Char :=
  let t := gmtime stamp
  fmt_0d 4 (t.tm_year + 1900) ++ fmt_0d 2 (t.tm_mon + 1) ++ fmt_0d 2 t.tm_mday
    ++ fmt_0d 2 t.tm_hour ++ fmt_0d 2 t.tm_min ++ fmt_0d 2 t.tm_sec ++ ['Z']

/-! ## Error codes and the LDAP transport -/

/-- `MAX_LINE` of the source. -/
def MAX_LINE : Nat := 256

/-- Modelled from the spec: keyserver.h is not under src/.  The spec (§6,
§7) names the helper error codes and fixes `ok` as 0; the other codes are
pairwise distinct and numbered here as in GnuPG's keyserver.h. -/
def KEYSERVER_OK : Int := 0

/-- Modelled from the spec: the `internal` code of keyserver.h (see
`KEYSERVER_OK`). -/
def KEYSERVER_INTERNAL_ERROR : Int := 1

/-- Modelled from the spec: the `not-supported` code of keyserver.h (see
`KEYSERVER_OK`). -/
def KEYSERVER_NOT_SUPPORTED : Int := 2

/-- Modelled from the spec: the `version-mismatch` code of keyserver.h (see
`KEYSERVER_OK`). -/
def KEYSERVER_VERSION_ERROR : Int := 3

/-- Modelled from the spec: the `general` code of keyserver.h (see
`KEYSERVER_OK`). -/
def KEYSERVER_GENERAL_ERROR : Int := 4

/-- Modelled from the spec: the `no-memory` code of keyserver.h (see
`KEYSERVER_OK`). -/
def KEYSERVER_NO_MEMORY : Int := 5

/-- Modelled from the spec: the `key-not-found` code of keyserver.h (see
`KEYSERVER_OK`). -/
def KEYSERVER_KEY_NOT_FOUND : Int := 6

/-- Modelled from the spec: the `key-exists` code of keyserver.h (see
`KEYSERVER_OK`). -/
def KEYSERVER_KEY_EXISTS : Int := 7

/-- Modelled from the spec: the `key-incomplete` code of keyserver.h (see
`KEYSERVER_OK`). -/
def KEYSERVER_KEY_INCOMPLETE : Int := 8

/-- Modelled from the spec: the `unreachable` code of keyserver.h (see
`KEYSERVER_OK`). -/
def KEYSERVER_UNREACHABLE : Int := 9

/-- `LDAP_SUCCESS` of ldap.h. -/
def LDAP_SUCCESS : Int := 0

/-- `LDAP_SIZELIMIT_EXCEEDED` of ldap.h. -/
def LDAP_SIZELIMIT_EXCEEDED : Int := 4

/-- `LDAP_ALREADY_EXISTS` of ldap.h. -/
def LDAP_ALREADY_EXISTS : Int := 68

/-- `LDAP_SERVER_DOWN` of ldap.h (the OpenLDAP value). -/
def LDAP_SERVER_DOWN : Int := -1

/-- `LDAP_SCOPE_BASE` of ldap.h. -/
def LDAP_SCOPE_BASE : Nat := 0

/-- `LDAP_SCOPE_ONELEVEL` of ldap.h. -/
def LDAP_SCOPE_ONELEVEL : Nat := 1

/-- `LDAP_SCOPE_SUBTREE` of ldap.h. -/
def LDAP_SCOPE_SUBTREE : Nat := 2

/-- Source: `ldap_err_to_gpg_err`. -/
def ldap_err_to_gpg_err (err : Int) : Int :=
  if err = LDAP_ALREADY_EXISTS then KEYSERVER_KEY_EXISTS
  else if err = LDAP_SERVER_DOWN then KEYSERVER_UNREACHABLE
  else KEYSERVER_GENERAL_ERROR

/-- One entry of an LDAP result: attribute descriptions with their values. -/
abbrev Entry := List (List Char × List (List Char))

/-- `ldap_get_values(ldap,entry,attr)`: the values of the attribute, or NULL
(`none`) when the entry has no value for it.  Attribute descriptions are
matched without regard to case, as LDAP does.  A result is never empty, so
`vals[0]` is its head. -/
def ldap_get_values (e : Entry) (attr : List Char) : Option (List (List Char)) :=
  match e with
  | [] => none
  | (n, vs) :: rest =>
    if strcasecmp_eq n attr && !vs.isEmpty then some vs else ldap_get_values rest attr

/-- The first value `vals[0]` of an attribute, when `ldap_get_values` is not
NULL. -/
def first_value (e : Entry) (attr : List Char) : Option (List Char) :=
  (ldap_get_values e attr).map (fun vs => vs.headD [])

/-- The calls the program makes on the LDAP client library. -/
inductive LdapCall where
  | init (host : List Char) (port : Int)
  | set_option_tls_hard
  | set_option_version3
  | start_tls
  | simple_bind
  | search (base : Option (List Char)) (scope : Nat) (filter : List Char)
      (attrs : List (List Char))
  | add (dn : List Char) (mods : List LDAPMod)
  | modify (dn : List Char) (mods : List LDAPMod)
  | get_errno
deriving DecidableEq, Repr

/-- What the library answers: a result code and, for a search, the entries
of the result in the order `ldap_first_entry` / `ldap_next_entry` walk them. -/
structure LdapReply where
  err : Int
  entries : List Entry
deriving DecidableEq, Repr

/-- The remote side: the answer to a call may depend on every call made
before it. -/
abbrev Server := List LdapCall → LdapCall → LdapReply

/-- The file-scope variables of the program together with its streams.
`input` holds the results of the successive `fgets(line,MAX_LINE,input)`
calls still to come, `output` the bytes written to the stream `output`,
`printed` the bytes written by `printf` (standard output), `calls` the LDAP
calls made so far.  `crashed` records that a NULL pointer was dereferenced. -/
structure State where
  verbose : Int
  include_disabled : Bool
  include_revoked : Bool
  include_subkeys : Bool
  real_ldap : Bool
  basekeyspacedn : Option (List Char)
  host : List Char
  portstr : List Char
  pgpkeystr : List Char
  input : List (List Char)
  output : List Char
  printed : List Char
  calls : List LdapCall
  crashed : Bool
deriving DecidableEq, Repr

/-- The state at program start: the static initialisers of the source. -/
def State.initial (input : List (List Char)) : State :=
  { verbose := 0, include_disabled := false, include_revoked := false,
    include_subkeys := false, real_ldap := false, basekeyspacedn := none,
    host := [], portstr := [], pgpkeystr := "pgpKey".toList,
    input := input, output := [], printed := [], calls := [], crashed := false }

/-- One call on the LDAP library: the answer, and the call recorded. -/
def ldap_call (srv : Server) (c : LdapCall) (st : State) : LdapReply × State :=
  (srv st.calls c, { st with calls := st.calls ++ [c] })

/-- `fprintf(output, ...)` with the formatted text `s`. -/
def write_output (s : List Char) (st : State) : State :=
  { st with output := st.output ++ s }

/-- `printf(...)` with the formatted text `s`. -/
def write_printed (s : List Char) (st : State) : State :=
  { st with printed := st.printed ++ s }

/-- Source: `ldap_to_gpg_err`, in the configuration with `ldap_get_option`
and `LDAP_OPT_ERROR_NUMBER`, the call succeeding. -/
def ldap_to_gpg_err (srv : Server) (st : State) : Int × State :=
  let r := ldap_call srv LdapCall.get_errno st
  (ldap_err_to_gpg_err r.1.err, r.2)

/-! ## The filter buffers -/

/-- Source: `char search[62];` in `get_key`: the size of the array the
filter is formatted into. -/
def get_key_search_size : Nat := 62

/-- Source: `char search[2+12+MAX_LINE+2+15+14+1+1];` in `search_key`: the
size of the array the filter is formatted into. -/
def search_key_search_size : Nat := 2 + 12 + MAX_LINE + 2 + 15 + 14 + 1 + 1

/-! ## The de-duplication list -/

/-- Source: `key_in_keylist`. -/
def key_in_keylist (key : List Char) (list : List (List Char)) : Bool :=
  list.any (fun k => strcasecmp_eq key k)

/-- Source: `add_key_to_keylist`: the key is copied with
`strncpy(keyptr->str,key,MAX_LINE)` and cut at `MAX_LINE-1` bytes, then put at
the head of the list. -/
def add_key_to_keylist (key : List Char) (list : List (List Char)) : List (List Char) :=
  key.take (MAX_LINE - 1) :: list

/-! ## get_key -/

/-- The key text `get_key` works on: a leading `0x` is skipped. -/
def strip_0x (getkey : List Char) : List Char :=
  if strncmp_eq getkey "0x".toList 2 then getkey.drop 2 else getkey

/-- Source: the search string `get_key` builds for a stripped key that is
not 32 characters long (`%.16s` and `%.8s` print at most 16 and 8 bytes). -/
def get_key_filter (include_subkeys : Bool) (getkey : List Char) : List Char :=
  if 16 < getkey.length then
    let offset := getkey.drop (getkey.length - 16)
    if include_subkeys then
      "(|(pgpcertid=".toList ++ offset.take 16 ++ ")(pgpsubkeyid=".toList ++ offset.take 16
        ++ "))".toList
    else "(pgpcertid=".toList ++ offset.take 16 ++ ")".toList
  else if 8 < getkey.length then
    if include_subkeys then
      "(|(pgpcertid=".toList ++ getkey.take 16 ++ ")(pgpsubkeyid=".toList ++ getkey.take 16
        ++ "))".toList
    else "(pgpcertid=".toList ++ getkey.take 16 ++ ")".toList
  else "(pgpkeyid=".toList ++ getkey.take 8 ++ ")".toList

/-- Source: the attribute list `get_key` requests: cut after `pgpcertid`
unless verbose. -/
def get_key_attrs (st : State) : List (List Char) :=
  if st.verbose = 0 then [st.pgpkeystr, "pgpcertid".toList]
  else [st.pgpkeystr, "pgpcertid".toList, "pgpuserid".toList, "pgpkeyid".toList,
    "pgprevoked".toList, "pgpdisabled".toList, "pgpkeycreatetime".toList,
    "modifytimestamp".toList, "pgpkeysize".toList, "pgpkeytype".toList]

/-- The `ldap_search_s` call of `get_key` for the stripped key. -/
def get_key_search (st : State) (getkey : List Char) : LdapCall :=
  LdapCall.search st.basekeyspacedn LDAP_SCOPE_SUBTREE
    (get_key_filter st.include_subkeys getkey) (get_key_attrs st)

/-- Source: the entry loop of `get_key` (`getkey` already stripped): an entry
without `pgpcertid`, or whose `pgpcertid` is in `dupelist`, is skipped; for a
new one the key blob is written followed by the END line, or a FAILED line
when the blob attribute is missing. -/
def get_key_entries (srv : Server) (getkey : List Char) :
    List Entry → List (List Char) → State → State
  | [], _, st => st
  | each :: rest, dupelist, st =>
    match first_value each "pgpcertid".toList with
    | none => get_key_entries srv getkey rest dupelist st
    | some certid =>
      if key_in_keylist certid dupelist then get_key_entries srv getkey rest dupelist st
      else
        match first_value each st.pgpkeystr with
        | none =>
          let r := ldap_to_gpg_err srv st
          get_key_entries srv getkey rest (add_key_to_keylist certid dupelist)
            (write_output
              ("KEY 0x".toList ++ getkey ++ " FAILED ".toList ++ fmt_d r.1 ++ "\n".toList) r.2)
        | some blob =>
          get_key_entries srv getkey rest (add_key_to_keylist certid dupelist)
            (write_output (blob ++ "KEY 0x".toList ++ getkey ++ " END\n".toList) st)

/-- Source: `get_key`.  Returns the function result and the new state. -/
def get_key (srv : Server) (getkey0 : List Char) (st : State) : Int × State :=
  let getkey := strip_0x getkey0
  if getkey.length = 32 then
    (KEYSERVER_NOT_SUPPORTED,
      write_output
        ("KEY 0x".toList ++ getkey ++ " FAILED ".toList ++ fmt_d KEYSERVER_NOT_SUPPORTED
          ++ "\n".toList)
        (write_output ("KEY 0x".toList ++ getkey ++ " BEGIN\n".toList) st))
  else
    let st1 := write_output ("KEY 0x".toList ++ getkey ++ " BEGIN\n".toList) st
    let r := ldap_call srv (get_key_search st1 getkey) st1
    if r.1.err ≠ 0 then
      (ldap_err_to_gpg_err r.1.err,
        write_output
          ("KEY 0x".toList ++ getkey ++ " FAILED ".toList ++ fmt_d (ldap_err_to_gpg_err r.1.err)
            ++ "\n".toList) r.2)
    else if r.1.entries.length < 1 then
      (KEYSERVER_OK,
        write_output
          ("KEY 0x".toList ++ getkey ++ " FAILED ".toList ++ fmt_d KEYSERVER_KEY_NOT_FOUND
            ++ "\n".toList) r.2)
    else (KEYSERVER_OK, get_key_entries srv getkey r.1.entries [] r.2)

/-! ## search_key -/

/-- Source: the filter `search_key` formats. -/
def search_key_filter (include_disabled include_revoked : Bool) (searchkey : List Char) :
    List Char :=
  (if !(include_disabled && include_revoked) then "(&".toList else [])
    ++ "(pgpuserid=*".toList ++ searchkey ++ "*)".toList
    ++ (if include_disabled then [] else "(pgpdisabled=0)".toList)
    ++ (if include_revoked then [] else "(pgprevoked=0)".toList)
    ++ (if !(include_disabled && include_revoked) then ")".toList else [])

/-- The attribute list `search_key` requests. -/
def search_key_attrs : List (List Char) :=
  ["pgpcertid".toList, "pgpuserid".toList, "pgprevoked".toList, "pgpdisabled".toList,
   "pgpkeycreatetime".toList, "pgpkeyexpiretime".toList, "modifytimestamp".toList,
   "pgpkeysize".toList, "pgpkeytype".toList]

/-- The `ldap_search_s` call of `search_key`. -/
def search_key_search (st : State) (searchkey : List Char) : LdapCall :=
  LdapCall.search st.basekeyspacedn LDAP_SCOPE_SUBTREE
    (search_key_filter st.include_disabled st.include_revoked searchkey) search_key_attrs

/-- Source: the first pass of `search_key`: `count` is raised for every entry
whose `pgpcertid` is not yet in `dupelist`. -/
def search_key_count : List Entry → List (List Char) → Nat → Nat
  | [], _, count => count
  | each :: rest, dupelist, count =>
    match first_value each "pgpcertid".toList with
    | none => search_key_count rest dupelist count
    | some certid =>
      if key_in_keylist certid dupelist then search_key_count rest dupelist count
      else search_key_count rest (add_key_to_keylist certid dupelist) (count + 1)

/-- Source: the algorithm field of a `pub:` line, from `pgpkeytype`. -/
def pub_algo (each : Entry) : List Char :=
  match first_value each "pgpkeytype".toList with
  | none => []
  | some v =>
    if strcasecmp_eq v "RSA".toList then "1".toList
    else if strcasecmp_eq v "DSS/DH".toList then "17".toList else []

/-- Source: the key-size field of a `pub:` line, from `pgpkeysize`. -/
def pub_size (each : Entry) : List Char :=
  match first_value each "pgpkeysize".toList with
  | none => []
  | some v => if 0 < atoi v then fmt_d (atoi v) else []

/-- Source: a time field of a `pub:` line: `%u` of
`(unsigned int)ldap2epochtime(vals[0])` when the value has 15 bytes. -/
def pub_time (each : Entry) (attr : List Char) : List Char :=
  match first_value each attr with
  | none => []
  | some v => if v.length = 15 then decimal (asUnsigned (ldap2epochtime v)) else []

/-- Source: the flags field of a `pub:` line, from `pgprevoked` and
`pgpdisabled`. -/
def pub_flags (each : Entry) : List Char :=
  (match first_value each "pgprevoked".toList with
    | none => []
    | some v => if atoi v = 1 then "r".toList else [])
  ++ (match first_value each "pgpdisabled".toList with
    | none => []
    | some v => if atoi v = 1 then "d".toList else [])

/-- Source: the text of one `pub:` line of `search_key`, without the final
newline. -/
def search_key_pub_text (each : Entry) (certid : List Char) : List Char :=
  "pub:".toList ++ certid ++ ":".toList ++ pub_algo each ++ ":".toList ++ pub_size each
    ++ ":".toList ++ pub_time each "pgpkeycreatetime".toList ++ ":".toList
    ++ pub_time each "pgpkeyexpiretime".toList ++ ":".toList ++ pub_flags each

/-- Source: the text of one `pub:` line of `search_key`, newline included. -/
def search_key_pub (each : Entry) (certid : List Char) : List Char :=
  search_key_pub_text each certid ++ "\n".toList

/-- Source: the inner loop of `search_key` over the whole result: one `uid:`
line for every entry whose `pgpcertid` equals `certid` ignoring case. -/
def search_key_uids (charSigned : Bool) (certid : List Char) : List Entry → List Char
  | [] => []
  | uids :: rest =>
    (match first_value uids "pgpcertid".toList with
      | none => []
      | some v =>
        if strcasecmp_eq certid v then
          "uid:".toList
            ++ (match first_value uids "pgpuserid".toList with
                | none => []
                | some u => printquoted charSigned u ':')
            ++ "\n".toList
        else [])
    ++ search_key_uids charSigned certid rest

/-- Source: the second pass of `search_key` over the entries still to visit
(`res` is the whole result): the text written. -/
def search_key_records (charSigned : Bool) (res : List Entry) :
    List Entry → List (List Char) → List Char
  | [], _ => []
  | each :: rest, dupelist =>
    match first_value each "pgpcertid".toList with
    | none => search_key_records charSigned res rest dupelist
    | some certid =>
      if key_in_keylist certid dupelist then search_key_records charSigned res rest dupelist
      else
        search_key_pub each certid ++ search_key_uids charSigned certid res
          ++ search_key_records charSigned res rest (add_key_to_keylist certid dupelist)

/-- Source: `search_key`.  Returns the function result and the new state.
When the filter with its terminating NUL does not fit the array `search`,
`sprintf` writes beyond the array: the string handed to `ldap_search_s` is
still the whole filter, the stack is overwritten, and the state is marked
`crashed` (the process is killed, nothing more is written). -/
def search_key (charSigned : Bool) (srv : Server) (searchkey : List Char) (st : State) :
    Int × State :=
  let st1 := write_output ("SEARCH ".toList ++ searchkey ++ " BEGIN\n".toList) st
  let r := ldap_call srv (search_key_search st1 searchkey) st1
  if search_key_search_size
      < (search_key_filter st.include_disabled st.include_revoked searchkey).length + 1 then
    (KEYSERVER_INTERNAL_ERROR, { r.2 with crashed := true })
  else if r.1.err ≠ LDAP_SUCCESS ∧ r.1.err ≠ LDAP_SIZELIMIT_EXCEEDED then
    (ldap_err_to_gpg_err r.1.err,
      write_output
        ("SEARCH ".toList ++ searchkey ++ " FAILED ".toList
          ++ fmt_d (ldap_err_to_gpg_err r.1.err) ++ "\n".toList) r.2)
  else
    let count := search_key_count r.1.entries [] 0
    let st2 :=
      if count < 1 then write_output "info:1:0\n".toList r.2
      else
        write_output
          ("info:1:".toList ++ fmt_d count ++ "\n".toList
            ++ search_key_records charSigned r.1.entries r.1.entries []) r.2
    (KEYSERVER_OK, write_output ("SEARCH ".toList ++ searchkey ++ " END\n".toList) st2)

/-! ## Reading the input stream -/

/-- The successive results of `fgets(line,n,input)` on an input stream: each
holds at most `n-1` bytes and ends after the first newline.  `cur` is the
current piece, reversed. -/
def fgets_chunks (n : Nat) : List Char → List Char → List (List Char)
  | cur, [] => if cur.isEmpty then [] else [cur.reverse]
  | cur, c :: cs =>
    if c = '\n' ∨ cur.length + 2 = n then (c :: cur).reverse :: fgets_chunks n [] cs
    else fgets_chunks n (c :: cur) cs

/-- The lines the program sees: every `fgets` result read as a C string. -/
def input_lines (stream : List Char) : List (List Char) :=
  (fgets_chunks MAX_LINE [] stream).map cstr

/-- The test `sscanf(line, "<lit> %<w>s ...", word) == 1`: the literal must
match, white space is skipped, and at least one byte that is not white space
must follow; `word` receives at most `w` of them.  What the format holds
after the conversion has no effect on the result. -/
def scan_word (lit : List Char) (w : Nat) (line : List Char) : Option (List Char) :=
  if lit.isPrefixOf line then
    let word := ((((line.drop lit.length).dropWhile isspace).takeWhile
      (fun c => !isspace c)).take w)
    if word.isEmpty then none else some word
  else none

/-- The test `sscanf(line, "<lit> %d ...", &n) == 1`, with the value stored
in the `int` `n`: the number read, reduced from `long` to `int`. -/
def scan_number (lit : List Char) (line : List Char) : Option Int :=
  if lit.isPrefixOf line then
    (scan_int line.length (line.drop lit.length)).map (fun p => toInt32 (clampLong p.1))
  else none

/-- Source: the loops `while(fgets(...)!=NULL) if(sscanf(line,"<lit> %16s
BEGIN\n",keyid)==1) break;`: the keyid found (`none` at end of input) and
the input left. -/
def skip_to (lit : List Char) : List (List Char) → Option (List Char) × List (List Char)
  | [] => (none, [])
  | line :: rest =>
    match scan_word lit 16 line with
    | some keyid => (some keyid, rest)
    | none => skip_to lit rest

/-- Source: the INFO loop of `send_key`: every line before the one matching
`INFO %16s` goes to `build_attrs`. -/
def read_info (charSigned : Bool) :
    List (List Char) → List LDAPMod → Option (List Char) × List LDAPMod × List (List Char)
  | [], modlist => (none, modlist, [])
  | line :: rest, modlist =>
    match scan_word "INFO".toList 16 line with
    | some keyid => (some keyid, modlist, rest)
    | none => read_info charSigned rest (build_attrs charSigned modlist line)

/-- Source: the KEY loop of `send_key` and `send_key_keyserver`: every line
before the one matching `KEY %16s` is appended to `key`. -/
def read_key : List (List Char) → List Char → Option (List Char) × List Char × List (List Char)
  | [], key => (none, key, [])
  | line :: rest, key =>
    match scan_word "KEY".toList 16 line with
    | some keyid => (some keyid, key, rest)
    | none => read_key rest (key ++ line)

/-! ## send_key and send_key_keyserver -/

/-- What a publish driver hands back: the function result, whether `*eof`
was set, and the new state. -/
structure SendResult where
  ret : Int
  eof : Bool
  st : State
deriving DecidableEq, Repr

/-- Source: the `fail:` label of `send_key`:
`if(ret!=0 && begin) fprintf(output,"KEY %s FAILED %d\n",keyid,ret)`. -/
def send_key_fail (ret : Int) (begin : Bool) (keyid : List Char) (eof : Bool) (st : State) :
    SendResult :=
  { ret := ret, eof := eof,
    st := if ret ≠ 0 ∧ begin = true then
        write_output ("KEY ".toList ++ keyid ++ " FAILED ".toList ++ fmt_d ret ++ "\n".toList) st
      else st }

/-- Source: the end of `send_key`, once both blocks are read: the two last
attributes, `ldap_add_s`, `ldap_modify_s` when the entry exists already. -/
def send_key_submit (srv : Server) (dn : List Char) (modlist0 : List LDAPMod)
    (key keyid : List Char) (st : State) : SendResult :=
  let modlist :=
    make_one_attr (make_one_attr modlist0 "objectClass".toList "pgpKeyInfo".toList)
      "pgpKey".toList key
  let r := ldap_call srv (LdapCall.add dn modlist) st
  let r2 :=
    if r.1.err = LDAP_ALREADY_EXISTS then ldap_call srv (LdapCall.modify dn modlist) r.2 else r
  if r2.1.err ≠ LDAP_SUCCESS then
    send_key_fail (ldap_err_to_gpg_err r2.1.err) true keyid false
      (write_printed ("err ".toList ++ fmt_d r2.1.err ++ "\n".toList) r2.2)
  else send_key_fail KEYSERVER_OK true keyid false r2.2

/-- Source: `send_key`, from the KEY block on (`begin=end=0` was just done). -/
def send_key_keyblock (srv : Server) (dn : List Char) (modlist : List LDAPMod)
    (keyid : List Char) (st : State) : SendResult :=
  match skip_to "KEY".toList st.input with
  | (none, inp) => send_key_fail KEYSERVER_OK false keyid true { st with input := inp }
  | (some keyid3, inp) =>
    match read_key inp [] with
    | (none, _, inp2) =>
      send_key_fail KEYSERVER_KEY_INCOMPLETE true keyid3 true { st with input := inp2 }
    | (some keyid4, key, inp2) =>
      send_key_submit srv dn modlist key keyid4 { st with input := inp2 }

/-- Source: `send_key`.  A NULL `basekeyspacedn` is dereferenced by `strlen`
once an INFO block with a 16-byte keyid was found: the state is then marked
`crashed`. -/
def send_key (charSigned : Bool) (srv : Server) (st : State) : SendResult :=
  match skip_to "INFO".toList st.input with
  | (none, inp) => send_key_fail KEYSERVER_OK false [] true { st with input := inp }
  | (some keyid, inp) =>
    if keyid.length ≠ 16 then
      send_key_fail KEYSERVER_KEY_INCOMPLETE true keyid true
        (write_printed "bad\n".toList { st with input := inp })
    else
      match st.basekeyspacedn with
      | none =>
        { ret := KEYSERVER_INTERNAL_ERROR, eof := true,
          st := { st with input := inp, crashed := true } }
      | some base =>
        match read_info charSigned inp [] with
        | (none, _, inp2) =>
          send_key_fail KEYSERVER_KEY_INCOMPLETE true keyid true { st with input := inp2 }
        | (some keyid2, modlist, inp2) =>
          send_key_keyblock srv ("pgpCertID=".toList ++ keyid ++ ",".toList ++ base) modlist
            keyid2 { st with input := inp2 }

/-- Source: `send_key_keyserver`.  `strlen(basekeyspacedn)` comes first, so a
NULL base DN crashes at once.  At `fail:` the FAILED line is written before
`KEYSERVER_KEY_EXISTS` is turned into `KEYSERVER_OK`. -/
def send_key_keyserver (srv : Server) (st : State) : SendResult :=
  match st.basekeyspacedn with
  | none => { ret := KEYSERVER_INTERNAL_ERROR, eof := true, st := { st with crashed := true } }
  | some base =>
    let dn := "pgpCertid=virtual,".toList ++ base
    let r : SendResult :=
      match skip_to "KEY".toList st.input with
      | (none, inp) => send_key_fail KEYSERVER_OK false [] true { st with input := inp }
      | (some keyid, inp) =>
        match read_key inp [] with
        | (none, _, inp2) =>
          send_key_fail KEYSERVER_KEY_INCOMPLETE true keyid true { st with input := inp2 }
        | (some keyid2, key, inp2) =>
          let a := ldap_call srv (LdapCall.add dn [⟨LDAP_MOD_ADD, st.pgpkeystr, [key]⟩])
            { st with input := inp2 }
          if a.1.err ≠ LDAP_SUCCESS then
            send_key_fail (ldap_err_to_gpg_err a.1.err) true keyid2 false a.2
          else send_key_fail KEYSERVER_OK true keyid2 false a.2
    if r.ret = KEYSERVER_KEY_EXISTS then { r with ret := KEYSERVER_OK } else r

/-! ## fail_all, the server probe and main -/

/-- `GET` of the source. -/
def GET : Int := 0

/-- `SEND` of the source. -/
def SEND : Int := 1

/-- `SEARCH` of the source. -/
def SEARCH : Int := 2

/-- Constants of headers that are not under src/ (config.h, keyserver.h) and
the signedness of `char` on the platform. -/
structure Build where
  proto_version : Int
  version : List Char
  charSigned : Bool
deriving DecidableEq, Repr

/-- Source: `fail_all`. -/
def fail_all (keylist : List (List Char)) (action : Int) (err : Int) (st : State) : State :=
  if keylist.isEmpty then st
  else if action = SEARCH then
    write_output
      ("SEARCH ".toList ++ keylist.flatMap (fun k => k ++ " ".toList) ++ "FAILED ".toList
        ++ fmt_d err ++ "\n".toList) st
  else
    write_output
      (keylist.flatMap (fun k =>
        "KEY ".toList ++ k ++ " FAILED ".toList ++ fmt_d err ++ "\n".toList)) st

/-- Source: the loop of `find_basekeyspacedn` over the naming contexts, run
while `basekeyspacedn` is NULL. -/
def find_in_contexts (srv : Server) : List (List Char) → State → Int × State
  | [], st => (LDAP_SUCCESS, st)
  | ctx :: rest, st =>
    if st.basekeyspacedn.isSome then (LDAP_SUCCESS, st)
    else
      let r := ldap_call srv
        (LdapCall.search (some ctx) LDAP_SCOPE_ONELEVEL "(cn=pgpServerInfo)".toList
          ["pgpBaseKeySpaceDN".toList, "pgpVersion".toList, "pgpSoftware".toList]) st
      if r.1.err ≠ LDAP_SUCCESS then (r.1.err, r.2)
      else
        find_in_contexts srv rest
          (match first_value (r.1.entries.headD []) "pgpBaseKeySpaceDN".toList with
            | some v => { r.2 with basekeyspacedn := some v }
            | none => r.2)

/-- Source: `find_basekeyspacedn`.  `ldap_get_values` on a result reads its
first entry. -/
def find_basekeyspacedn (srv : Server) (st : State) : Int × State :=
  let r := ldap_call srv
    (LdapCall.search (some []) LDAP_SCOPE_BASE "(objectClass=*)".toList
      ["namingContexts".toList]) st
  if r.1.err = LDAP_SUCCESS then
    match ldap_get_values (r.1.entries.headD []) "namingContexts".toList with
    | none => (LDAP_SUCCESS, r.2)
    | some context => find_in_contexts srv context { r.2 with real_ldap := true }
  else
    let r2 := ldap_call srv
      (LdapCall.search (some "cn=pgpServerInfo".toList) LDAP_SCOPE_BASE
        "(objectClass=*)".toList
        ["pgpBaseKeySpaceDN".toList, "version".toList, "software".toList]) r.2
    if r2.1.err ≠ LDAP_SUCCESS then (r2.1.err, r2.2)
    else
      let st1 :=
        match first_value (r2.1.entries.headD []) "baseKeySpaceDN".toList with
        | some v => { r2.2 with basekeyspacedn := some v }
        | none => r2.2
      let st2 :=
        match first_value (r2.1.entries.headD []) "version".toList with
        | some v => if 1 < atoi v then { st1 with pgpkeystr := "pgpKeyV2".toList } else st1
        | none => st1
      (LDAP_SUCCESS, st2)

/-- The local variables of `main` that the header block sets. -/
structure Locals where
  port : Int
  action : Int
  use_ssl : Bool
  use_tls : Nat
deriving DecidableEq, Repr

/-- The initialisers of `main`: `port=0`, `action=-1`, `use_ssl=0`,
`use_tls=0`. -/
def Locals.initial : Locals := { port := 0, action := -1, use_ssl := false, use_tls := 0 }

/-- Source: the body of `if(sscanf(line,"OPTION %29s\n",optionstr)==1)` in
`main`. -/
def parse_option (optionstr : List Char) (loc : Locals) (st : State) : Locals × State :=
  let no := strncasecmp_eq optionstr "no-".toList 3
  let start := if no then optionstr.drop 3 else optionstr
  if strcasecmp_eq start "verbose".toList then
    (loc, { st with verbose := if no then st.verbose - 1 else st.verbose + 1 })
  else if strcasecmp_eq start "include-disabled".toList then
    (loc, { st with include_disabled := !no })
  else if strcasecmp_eq start "include-revoked".toList then
    (loc, { st with include_revoked := !no })
  else if strcasecmp_eq start "include-subkeys".toList then
    (loc, { st with include_subkeys := !no })
  else if strncasecmp_eq start "tls".toList 3 then
    if no then ({ loc with use_tls := 0 }, st)
    else if start.getD 3 NUL = '=' then
      if strcasecmp_eq (start.drop 4) "no".toList then ({ loc with use_tls := 0 }, st)
      else if strcasecmp_eq (start.drop 4) "try".toList then ({ loc with use_tls := 1 }, st)
      else if strcasecmp_eq (start.drop 4) "warn".toList then ({ loc with use_tls := 2 }, st)
      else if strcasecmp_eq (start.drop 4) "require".toList then ({ loc with use_tls := 3 }, st)
      else ({ loc with use_tls := 1 }, st)
    else if start.getD 3 NUL = NUL then ({ loc with use_tls := 1 }, st)
    else (loc, st)
  else (loc, st)

/-- Source: one pass of the header loop of `main` on a line that is neither
the blank separator nor a comment.  `none` is the `goto fail` of a VERSION
mismatch. -/
def header_line (b : Build) (line : List Char) (loc : Locals) (st : State) :
    Option (Locals × State) :=
  match scan_word "COMMAND".toList 6 line with
  | some commandstr =>
    some
      (if strcasecmp_eq commandstr "get".toList then { loc with action := GET }
        else if strcasecmp_eq commandstr "send".toList then { loc with action := SEND }
        else if strcasecmp_eq commandstr "search".toList then { loc with action := SEARCH }
        else loc, st)
  | none =>
  match scan_word "HOST".toList 79 line with
  | some h => some (loc, { st with host := h })
  | none =>
  match scan_word "PORT".toList 9 line with
  | some p => some ({ loc with port := atoi p }, { st with portstr := p })
  | none =>
  match scan_word "SCHEME".toList 79 line with
  | some schemestr =>
    some
      (if strcasecmp_eq schemestr "ldaps".toList then { loc with port := 636, use_ssl := true }
        else loc, st)
  | none =>
  match scan_number "VERSION".toList line with
  | some version => if version ≠ b.proto_version then none else some (loc, st)
  | none =>
  match scan_word "OPTION".toList 29 line with
  | some optionstr => some (parse_option optionstr loc st)
  | none => some (loc, st)

/-- Source: the header loop of `main`.  The flag tells whether the loop was
left by the `goto fail` of a VERSION mismatch. -/
def parse_header (b : Build) : List (List Char) → Locals → State → Bool × Locals × State
  | [], loc, st => (false, loc, { st with input := [] })
  | line :: rest, loc, st =>
    if line.head? = some '\n' then (false, loc, { st with input := rest })
    else if line.head? = some '#' then parse_header b rest loc st
    else
      match header_line b line loc st with
      | none => (true, loc, { st with input := rest })
      | some p => parse_header b rest p.1 p.2

/-- Source: `while(fgets(line,MAX_LINE,input)!=NULL && line[0]!='\n');` for
SEND: the input left. -/
def skip_recipients : List (List Char) → List (List Char)
  | [] => []
  | line :: rest => if line.head? = some '\n' then rest else skip_recipients rest

/-- Source: the key-list loop of `main` for GET and SEARCH: the keys in input
order (each line without its last byte) and the input left. -/
def read_keylist : List (List Char) → List (List Char) × List (List Char)
  | [] => ([], [])
  | line :: rest =>
    if line.head? = some '\n' ∨ line.isEmpty then ([], rest)
    else ((line.dropLast) :: (read_keylist rest).1, (read_keylist rest).2)

/-- Source: the GET case of `main`: `failed` counts the keys for which
`get_key` did not return `KEYSERVER_OK`. -/
def get_loop (srv : Server) : List (List Char) → Nat → State → Nat × State
  | [], failed, st => (failed, st)
  | key :: rest, failed, st =>
    let r := get_key srv key st
    get_loop srv rest (if r.1 ≠ KEYSERVER_OK then failed + 1 else failed) r.2

/-- Source: the SEND case of `main`: the do-while loop over the publish
driver.  Every pass that does not set `eof` reads at least one line, so
`fuel` is started at one more than the number of lines left. -/
def send_loop (b : Build) (srv : Server) : Nat → Nat → State → Nat × State
  | 0, failed, st => (failed, st)
  | fuel + 1, failed, st =>
    let r := if st.real_ldap then send_key b.charSigned srv st else send_key_keyserver srv st
    let failed1 := if r.ret ≠ KEYSERVER_OK then failed + 1 else failed
    if r.eof ∨ r.st.crashed then (failed1, r.st) else send_loop b srv fuel failed1 r.st

/-- Source: the search string `main` builds for SEARCH: every key followed by
`*`, the last `*` removed. -/
def join_searchkey (keylist : List (List Char)) : List Char :=
  (keylist.flatMap (fun k => k ++ "*".toList)).dropLast

/-- Source: the `switch(action)` of `main` and `if(!failed) ret=KEYSERVER_OK`:
the value of `failed` and the new state. -/
def dispatch (b : Build) (srv : Server) (action : Int) (keylist : List (List Char))
    (st : State) : Nat × State :=
  if action = GET then get_loop srv keylist 0 st
  else if action = SEND then send_loop b srv (st.input.length + 1) 0 st
  else if action = SEARCH then
    let r := search_key b.charSigned srv (join_searchkey keylist) st
    (if r.1 ≠ KEYSERVER_OK then 1 else 0, r.2)
  else (0, st)

/-- What a run of `main` leaves: its return value (`none` when the process
is killed before `main` returns), the final value of `failed`, whether
control reached the `switch(action)`, and the final state. -/
structure MainResult where
  ret : Option Int
  failed : Nat
  dispatched : Bool
  st : State
deriving DecidableEq, Repr

/-- Source: `main` after the response preamble was written: `ldap_init`, the
LDAPS branch, the probe, TLS, the bind and the dispatch.  `ret` is still
`KEYSERVER_INTERNAL_ERROR` on every `goto fail` of this part.  A run that
crashes in a driver is killed there and returns nothing. -/
def main_connect (b : Build) (srv : Server) (loc : Locals) (keylist : List (List Char))
    (st : State) : MainResult :=
  let i := ldap_call srv (LdapCall.init st.host loc.port) st
  if i.1.err ≠ 0 then
    ⟨some KEYSERVER_INTERNAL_ERROR, 0, false, fail_all keylist loc.action KEYSERVER_INTERNAL_ERROR i.2⟩
  else
  let ssl : Option Int × State :=
    if loc.use_ssl then
      if !i.2.real_ldap then (some KEYSERVER_INTERNAL_ERROR, i.2)
      else
        let o := ldap_call srv LdapCall.set_option_tls_hard i.2
        if o.1.err ≠ LDAP_SUCCESS then (some (ldap_err_to_gpg_err o.1.err), o.2)
        else (none, o.2)
    else (none, i.2)
  match ssl with
  | (some e, st1) => ⟨some KEYSERVER_INTERNAL_ERROR, 0, false, fail_all keylist loc.action e st1⟩
  | (none, st1) =>
  let p := find_basekeyspacedn srv st1
  if p.1 ≠ 0 then
    ⟨some KEYSERVER_INTERNAL_ERROR, 0, false, fail_all keylist loc.action (ldap_err_to_gpg_err p.1) p.2⟩
  else
  let tls : Option Int × State :=
    if loc.use_tls ≠ 0 then
      if !p.2.real_ldap then
        if loc.use_tls = 3 then (some KEYSERVER_INTERNAL_ERROR, p.2) else (none, p.2)
      else
        let v := ldap_call srv LdapCall.set_option_version3 p.2
        let t := if v.1.err = LDAP_SUCCESS then ldap_call srv LdapCall.start_tls v.2 else v
        if t.1.err ≠ LDAP_SUCCESS ∧ 2 ≤ loc.use_tls ∧ loc.use_tls = 3 then
          (some (ldap_err_to_gpg_err t.1.err), t.2)
        else (none, t.2)
    else (none, p.2)
  match tls with
  | (some e, st2) => ⟨some KEYSERVER_INTERNAL_ERROR, 0, false, fail_all keylist loc.action e st2⟩
  | (none, st2) =>
  let bd := ldap_call srv LdapCall.simple_bind st2
  if bd.1.err ≠ 0 then
    ⟨some KEYSERVER_INTERNAL_ERROR, 0, false,
      fail_all keylist loc.action (ldap_err_to_gpg_err bd.1.err) bd.2⟩
  else
    let d := dispatch b srv loc.action keylist bd.2
    ⟨if d.2.crashed then none
      else some (if d.1 = 0 then KEYSERVER_OK else KEYSERVER_INTERNAL_ERROR), d.1, true, d.2⟩

/-- Source: `main` after the header loop: the `goto fail` of a VERSION
mismatch, the key list, the response preamble, then `main_connect`. -/
def main_request (b : Build) (srv : Server) (version_error : Bool) (loc : Locals)
    (st1 : State) : MainResult :=
  if version_error then ⟨some KEYSERVER_VERSION_ERROR, 0, false, st1⟩
  else if loc.action = SEND then
    main_connect b srv loc []
      (write_output
        ("VERSION ".toList ++ fmt_d b.proto_version ++ "\nPROGRAM ".toList ++ b.version
          ++ "\n\n".toList)
        { st1 with input := skip_recipients st1.input })
  else if loc.action = GET ∨ loc.action = SEARCH then
    main_connect b srv loc (read_keylist st1.input).1
      (write_output
        ("VERSION ".toList ++ fmt_d b.proto_version ++ "\nPROGRAM ".toList ++ b.version
          ++ "\n\n".toList)
        { st1 with input := (read_keylist st1.input).2 })
  else ⟨some KEYSERVER_INTERNAL_ERROR, 0, false, st1⟩

/-- The outcome of the header loop of `main` on an input stream. -/
def main_header (b : Build) (stream : List Char) : Bool × Locals × State :=
  parse_header b (input_lines stream) Locals.initial (State.initial (input_lines stream))

/-- Source: `main`, from the point where `input` and `output` are set
(options `-h`, `-V`, `-o` and the file arguments are not modelled): the header
block, then `main_request`. -/
def main (b : Build) (srv : Server) (stream : List Char) : MainResult :=
  main_request b srv (main_header b stream).1 (main_header b stream).2.1
    (main_header b stream).2.2

/-- A server that answers every call with success and no entries. -/
def okServer : Server := fun _ _ => ⟨0, []⟩

/-- The build constants used in the concrete runs below. -/
def demoBuild : Build := { proto_version := 1, version := "1.4".toList, charSigned := true }

/-- A server on which the probe finds a base DN (legacy dialect) and every
other call succeeds. -/
def probeServer : Server := fun _ c =>
  match c with
  | LdapCall.search (some []) _ _ _ => ⟨1, []⟩
  | LdapCall.search _ _ _ _ => ⟨0, [[("baseKeySpaceDN".toList, ["OU=X".toList])]]⟩
  | _ => ⟨0, []⟩

/-- A server on which the probe finds a base DN and the bind fails with
`LDAP_SERVER_DOWN`. -/
def bindDownServer : Server := fun _ c =>
  match c with
  | LdapCall.search (some []) _ _ _ => ⟨1, []⟩
  | LdapCall.search _ _ _ _ => ⟨0, [[("baseKeySpaceDN".toList, ["OU=X".toList])]]⟩
  | LdapCall.simple_bind => ⟨LDAP_SERVER_DOWN, []⟩
  | _ => ⟨0, []⟩

/-! ## send_pinentry_environment (src/common/asshelp.c) -/

/-- What `send_pinentry_environment` reads from its surroundings: the
environment variables `DISPLAY`, `GPG_TTY` and `TERM`, the result of
`ttyname (0)`, and the results of `setlocale (LC_CTYPE, "")` and
`setlocale (LC_MESSAGES, "")`; `none` is NULL. -/
structure PinEnv where
  display : Option (List Char)
  gpg_tty : Option (List Char)
  term : Option (List Char)
  ttyname0 : Option (List Char)
  lc_ctype : Option (List Char)
  lc_messages : Option (List Char)
deriving DecidableEq, Repr

/-- The Assuan peer: the result code of `assuan_transact` for a command,
given the commands sent before it. -/
abbrev AssuanPeer := List (List Char) → List Char → Int

/-- The conversion `%s` of `asprintf`: a NULL argument is printed as
`(null)`, as the GNU C library does. -/
def fmt_s (s : Option (List Char)) : List Char :=
  match s with
  | some v => v
  | none => "(null)".toList

/-- The C expression `a ? a : b` on two pointers. -/
def ptr_or (a b : Option (List Char)) : Option (List Char) :=
  match a with
  | some v => some v
  | none => b

/-- One `asprintf` / `assuan_transact` pair: the result code and the command
appended to those sent. -/
def assuan_option (peer : AssuanPeer) (sent : List (List Char)) (optname : List Char)
    (value : Option (List Char)) : Int × List (List Char) :=
  (peer sent ("OPTION ".toList ++ optname ++ "=".toList ++ fmt_s value),
    sent ++ ["OPTION ".toList ++ optname ++ "=".toList ++ fmt_s value])

/-- Source: `send_pinentry_environment`, built with `setlocale`, `LC_CTYPE`
and `LC_MESSAGES`; `asprintf` and `strdup` succeed.  `map_assuan_err` of the
Assuan library is a parameter.  Returns the function result and the commands
sent, in order.  The `ttytype` value is chosen by the test of `opt_ttyname`,
as the source has it. -/
def send_pinentry_environment (map_assuan_err : Int → Int) (peer : AssuanPeer) (env : PinEnv)
    (opt_display opt_ttyname opt_ttytype opt_lc_ctype opt_lc_messages : Option (List Char)) :
    Int × List (List Char) :=
  let dft_display := env.display
  let r1 : Int × List (List Char) :=
    if opt_display.isSome ∨ dft_display.isSome then
      assuan_option peer [] "display".toList (ptr_or opt_display dft_display)
    else (0, [])
  if r1.1 ≠ 0 then (map_assuan_err r1.1, r1.2) else
  let dft_ttyname : Option (List Char) :=
    if opt_ttyname.isNone then
      (match env.gpg_tty with
        | some t => if t.isEmpty ∧ env.ttyname0.isSome then env.ttyname0 else some t
        | none => env.ttyname0)
    else none
  let r2 : Int × List (List Char) :=
    if opt_ttyname.isSome ∨ dft_ttyname.isSome then
      assuan_option peer r1.2 "ttyname".toList (ptr_or opt_ttyname dft_ttyname)
    else (0, r1.2)
  if r2.1 ≠ 0 then (map_assuan_err r2.1, r2.2) else
  let dft_ttytype := env.term
  let r3 : Int × List (List Char) :=
    if opt_ttytype.isSome ∨ (dft_ttyname.isSome ∧ dft_ttytype.isSome) then
      assuan_option peer r2.2 "ttytype".toList
        (if opt_ttyname.isSome then opt_ttytype else dft_ttytype)
    else (0, r2.2)
  if r3.1 ≠ 0 then (map_assuan_err r3.1, r3.2) else
  let dft_lc := env.lc_ctype
  let r4 : Int × List (List Char) :=
    if opt_lc_ctype.isSome ∨ (dft_ttyname.isSome ∧ dft_lc.isSome) then
      let t := assuan_option peer r3.2 "lc-ctype".toList (ptr_or opt_lc_ctype dft_lc)
      (if t.1 ≠ 0 then map_assuan_err t.1 else t.1, t.2)
    else (0, r3.2)
  if r4.1 ≠ 0 then r4 else
  let dft_lc2 := env.lc_messages
  if opt_lc_messages.isSome ∨ (dft_ttyname.isSome ∧ dft_lc2.isSome) then
    let t := assuan_option peer r4.2 "lc-messages".toList (ptr_or opt_lc_messages dft_lc2)
    (if t.1 ≠ 0 then map_assuan_err t.1 else t.1, t.2)
  else (0, r4.2)


/-- Source: the `if(use_ssl)` block of `main`, run on the state left by
`ldap_init`: `some e` is the code handed to `fail_all` before `goto fail`,
`none` lets `main` go on. -/
def connect_ssl (srv : Server) (loc : Locals) (st : State) : Option Int × State :=
  if loc.use_ssl then
    if !st.real_ldap then (some KEYSERVER_INTERNAL_ERROR, st)
    else
      let o := ldap_call srv LdapCall.set_option_tls_hard st
      if o.1.err ≠ LDAP_SUCCESS then (some (ldap_err_to_gpg_err o.1.err), o.2)
      else (none, o.2)
  else (none, st)

/-- Source: the `if(use_tls)` block of `main`, run on the state left by the
probe: `some e` is the code handed to `fail_all` before `goto fail`, `none`
lets `main` go on to the bind. -/
def connect_tls (srv : Server) (loc : Locals) (st : State) : Option Int × State :=
  if loc.use_tls ≠ 0 then
    if !st.real_ldap then
      if loc.use_tls = 3 then (some KEYSERVER_INTERNAL_ERROR, st) else (none, st)
    else
      let v := ldap_call srv LdapCall.set_option_version3 st
      let t := if v.1.err = LDAP_SUCCESS then ldap_call srv LdapCall.start_tls v.2 else v
      if t.1.err ≠ LDAP_SUCCESS ∧ 2 ≤ loc.use_tls ∧ loc.use_tls = 3 then
        (some (ldap_err_to_gpg_err t.1.err), t.2)
      else (none, t.2)
  else (none, st)


/-- Source: the do-while loop of the SEND case of `main`, run with a bound
on the number of passes: `none` when the bound is used up before a pass sets
`eof` (or the program crashes), otherwise what `send_loop` gives. -/
def send_loop_run (b : Build) (srv : Server) : Nat → Nat → State → Option (Nat × State)
  | 0, _, _ => none
  | fuel + 1, failed, st =>
    let r := if st.real_ldap then send_key b.charSigned srv st else send_key_keyserver srv st
    let failed1 := if r.ret ≠ KEYSERVER_OK then failed + 1 else failed
    if r.eof ∨ r.st.crashed then some (failed1, r.st) else send_loop_run b srv fuel failed1 r.st


/-! ## Spec-side definitions -/

/-- The `%HH` decoding the spec describes for a `uid:` field: `%` followed by
two hex digits becomes the byte of that value, `%` followed by two other
bytes becomes `?`, every other byte stays. -/
def decodeSpec : List Char → List Char
  | [] => []
  | [c] => [c]
  | [c, d] => [c, d]
  | c :: a :: b :: rest =>
    if c = '%' then
      (match hexval a, hexval b with
        | some x, some y => Char.ofNat (16 * x + y)
        | _, _ => '?') :: decodeSpec rest
    else c :: decodeSpec (a :: b :: rest)

/-- The escaping the spec describes for `uid:` response values: `:` becomes
`%3a`, `%` becomes `%25`, every other byte stays. -/
def escapeColon (s : List Char) : List Char :=
  s.flatMap (fun c => if c = ':' then "%3a".toList else if c = '%' then "%25".toList else [c])

/-- The attribute names of a modification list, in order. -/
def modNames (l : List LDAPMod) : List (List Char) := l.map LDAPMod.mod_type

/-- The lines of an output text: the pieces ended by `\n`, and a last piece
without `\n` when it is not empty.  `cur` holds the current line reversed. -/
def splitLinesAux : List Char → List Char → List (List Char)
  | cur, [] => if cur.isEmpty then [] else [cur.reverse]
  | cur, c :: cs =>
    if c = '\n' then cur.reverse :: splitLinesAux [] cs else splitLinesAux (c :: cur) cs

/-- The lines of an output text. -/
def splitLines (s : List Char) : List (List Char) := splitLinesAux [] s

/-- Number of lines of `out` that start with `pub:`. -/
def pubLineCount (out : List Char) : Nat :=
  ((splitLines out).filter (fun l => "pub:".toList.isPrefixOf l)).length

/-- Number of lines of `out` that start with `start`. -/
def lineCountFrom (start : List Char) (out : List Char) : Nat :=
  ((splitLines out).filter (fun l => start.isPrefixOf l)).length

/-- Number of lines of `out` that are `KEY 0x<key> END` or start with
`KEY 0x<key> FAILED `. -/
def closingLineCount (key : List Char) (out : List Char) : Nat :=
  ((splitLines out).filter (fun l =>
    l == "KEY 0x".toList ++ key ++ " END".toList
      || ("KEY 0x".toList ++ key ++ " FAILED ".toList).isPrefixOf l)).length

/-- Number of lines of `out` that are `KEY 0x<key> BEGIN`. -/
def beginLineCount (key : List Char) (out : List Char) : Nat :=
  ((splitLines out).filter (fun l => l == "KEY 0x".toList ++ key ++ " BEGIN".toList)).length

/-- The entries `search_key` (and `get_key`) treat as new while walking a
result with the de-duplication list `dl`, each with its first `pgpcertid`
value. -/
def first_seen : List Entry → List (List Char) → List (Entry × List Char)
  | [], _ => []
  | e :: rest, dl =>
    match first_value e "pgpcertid".toList with
    | none => first_seen rest dl
    | some certid =>
      if key_in_keylist certid dl then first_seen rest dl
      else (e, certid) :: first_seen rest (add_key_to_keylist certid dl)

/-- A server whose searches return three entries, two of them carrying the
same certid in different case. -/
def demoServer : Server := fun _ c =>
  match c with
  | LdapCall.search _ _ _ _ =>
    ⟨0, [[("pgpCertID".toList, ["DEADBEEFDEADBEEF".toList]),
          ("pgpUserID".toList, ["Alice:Example <a@e>".toList]),
          ("pgpKeyType".toList, ["RSA".toList]),
          ("pgpKeySize".toList, ["2048".toList]),
          ("pgpKeyCreateTime".toList, ["20100101000000Z".toList]),
          ("pgpKey".toList, ["k1\n".toList])],
         [("pgpCertID".toList, ["deadbeefdeadbeef".toList]),
          ("pgpUserID".toList, ["Bob".toList]),
          ("pgpKey".toList, ["k1\n".toList])],
         [("pgpCertID".toList, ["AAAABEEFDEADBEEF".toList]),
          ("pgpUserID".toList, ["Carol".toList]),
          ("pgpKey".toList, ["k2\n".toList])]]⟩
  | _ => ⟨0, []⟩

/-- A server whose searches return one entry whose certid holds a newline. -/
def newlineServer : Server := fun _ c =>
  match c with
  | LdapCall.search _ _ _ _ =>
    ⟨0, [[("pgpCertID".toList, ["A\npub:B".toList]), ("pgpUserID".toList, ["x".toList])]]⟩
  | _ => ⟨0, []⟩

/-- A server whose searches return the same 256-byte certid twice. -/
def longCertidServer : Server := fun _ c =>
  match c with
  | LdapCall.search _ _ _ _ =>
    ⟨0, [[("pgpCertID".toList, [List.replicate 256 'A'])],
         [("pgpCertID".toList, [List.replicate 256 'A'])]]⟩
  | _ => ⟨0, []⟩

/-- A server whose searches return one entry and whose other calls succeed. -/
def oneKeyServer : Server := fun _ c =>
  match c with
  | LdapCall.search _ _ _ _ =>
    ⟨0, [[("pgpCertID".toList, ["DEADBEEFDEADBEEF".toList]),
          ("pgpUserID".toList, ["Alice".toList]),
          ("pgpKey".toList, ["k1\n".toList])],
         [("pgpCertID".toList, ["deadbeefdeadbeef".toList]),
          ("pgpUserID".toList, ["Bob".toList]),
          ("pgpKey".toList, ["k1\n".toList])]]⟩
  | _ => ⟨0, []⟩

/-- The `pub:` line of an INFO block as the tool writes it. -/
def pubLine (K algo size created expires flags : List Char) : List Char :=
  "pub".toList ++ ':' :: (K ++ ':' :: (algo ++ ':' :: (size ++ ':' :: (created ++ ':' ::
    (expires ++ ':' :: (flags ++ ['\n']))))))

/-- The attributes the spec lists for a real-LDAP publish of key `K` (§8,
scenario S4), in the order the code builds them: `expires` is present only
when the expiration is positive, `d` and `r` are the pgpDisabled and
pgpRevoked values, `key` the key blob. -/
def publishAttrs (K keytype size created : List Char) (expires : Option (List Char))
    (d r key : List Char) : List LDAPMod :=
  [⟨LDAP_MOD_REPLACE, "pgpCertID".toList, [K]⟩,
   ⟨LDAP_MOD_REPLACE, "pgpKeyID".toList, [K.drop 8]⟩,
   ⟨LDAP_MOD_REPLACE, "pgpKeyType".toList, [keytype]⟩,
   ⟨LDAP_MOD_REPLACE, "pgpKeySize".toList, [size]⟩,
   ⟨LDAP_MOD_REPLACE, "pgpKeyCreateTime".toList, [created]⟩]
  ++ (match expires with
      | some e => [⟨LDAP_MOD_REPLACE, "pgpKeyExpireTime".toList, [e]⟩]
      | none => [])
  ++ [⟨LDAP_MOD_REPLACE, "pgpDisabled".toList, [d]⟩,
      ⟨LDAP_MOD_REPLACE, "pgpRevoked".toList, [r]⟩,
      ⟨LDAP_MOD_REPLACE, "objectClass".toList, ["pgpKeyInfo".toList]⟩,
      ⟨LDAP_MOD_REPLACE, "pgpKey".toList, [key]⟩]

/-- The pgpDisabled or pgpRevoked value for a flags field: `1` when one of
the two letters occurs in it. -/
def flagValue (lower upper : Char) (flags : List Char) : List Char :=
  if flags.any (fun c => c == lower || c == upper) then "1".toList else "0".toList

/-- A framing line `<tag> <keyid> <word>` of the publish input, newline
included. -/
def frameLine (tag keyid word : List Char) : List Char :=
  tag ++ ' ' :: (keyid ++ ' ' :: (word ++ ['\n']))

/-- The publish input of scenario S4: an INFO block for `K` holding one
`pub:` line, then a KEY block holding `keylines`, then `rest`. -/
def publishInput (K algo size created expires flags : List Char)
    (keylines rest : List (List Char)) : List (List Char) :=
  frameLine "INFO".toList K "BEGIN".toList
    :: pubLine K algo size created expires flags
    :: frameLine "INFO".toList K "END".toList
    :: frameLine "KEY".toList K "BEGIN".toList
    :: (keylines ++ frameLine "KEY".toList K "END".toList :: rest)

/-- The state of scenario S4: the publish input for key `AAAAAAAAAAAAAAAA`
(algo 17, size 2048, created 1, expires 0, no flags, one key line) and the
base DN `OU=X`. -/
def s4State : State :=
  { State.initial
      (publishInput "AAAAAAAAAAAAAAAA".toList "17".toList "2048".toList "1".toList "0".toList []
        ["-----BEGIN PGP PUBLIC KEY BLOCK-----\n".toList] []) with
    basekeyspacedn := some "OU=X".toList }

/-- The filter the spec gives for fetching a key of length other than 32
(leading `0x` removed): `X` is the last 16 characters of a key longer than
16 and the key itself otherwise; a key of at most 8 characters gets the
short-id form, the others the long-id form, doubled with `pgpsubkeyid` when
include-subkeys is set. -/
def getFilterSpec (include_subkeys : Bool) (key : List Char) : List Char :=
  let X := if 16 < key.length then key.drop (key.length - 16) else key
  if key.length ≤ 8 then "(pgpkeyid=".toList ++ X ++ ")".toList
  else if include_subkeys then
    "(|(pgpcertid=".toList ++ X ++ ")(pgpsubkeyid=".toList ++ X ++ "))".toList
  else "(pgpcertid=".toList ++ X ++ ")".toList

/-- The search terms joined by `*`, as the spec words it. -/
def joinTerms : List (List Char) → List Char
  | [] => []
  | [k] => k
  | k :: k2 :: ks => k ++ '*' :: joinTerms (k2 :: ks)

/-- The search filter of the spec: the user-id clause, then the disabled and
revoked clauses unless the matching option is set, the whole wrapped in
`(&` and `)` unless both options are set. -/
def searchFilterSpec (include_disabled include_revoked : Bool) (keys : List (List Char)) :
    List Char :=
  let clauses := "(pgpuserid=*".toList ++ joinTerms keys ++ "*)".toList
    ++ (if include_disabled then [] else "(pgpdisabled=0)".toList)
    ++ (if include_revoked then [] else "(pgprevoked=0)".toList)
  if include_disabled && include_revoked then clauses
  else "(&".toList ++ clauses ++ ")".toList

/-- The `uid:` lines the spec gives for a certid: one for every entry of the
result whose first `pgpcertid` value equals the certid ignoring case, in the
order of the result, each holding the entry's first `pgpuserid` value
escaped by `printquoted` (nothing when the entry has no `pgpuserid`). -/
def uidLinesSpec (charSigned : Bool) (certid : List Char) (res : List Entry) : List Char :=
  (res.filter (fun e =>
      match first_value e "pgpcertid".toList with
      | some v => strcasecmp_eq certid v
      | none => false)).flatMap
    (fun e =>
      "uid:".toList
        ++ (match first_value e "pgpuserid".toList with
            | some u => printquoted charSigned u ':'
            | none => [])
        ++ "\n".toList)

/-- The algorithm field of the spec: `1` for key type RSA, `17` for DSS/DH
(names compared without regard to case), empty otherwise. -/
def algoFieldSpec (keytype : Option (List Char)) : List Char :=
  match keytype with
  | some v =>
    if strcasecmp_eq v "RSA".toList then "1".toList
    else if strcasecmp_eq v "DSS/DH".toList then "17".toList else []
  | none => []

/-- The key-size field of the spec: the size in decimal when it is positive,
empty otherwise (`none`: the entry has no key size). -/
def sizeFieldSpec (size : Option Nat) : List Char :=
  match size with
  | some n => if 0 < n then Nat.toDigits 10 n else []
  | none => []

/-- A time field of the spec: the UTC epoch seconds of the value, in
decimal, when the value has exactly 15 characters, empty otherwise. -/
def timeFieldSpec (time : Option (List Char)) : List Char :=
  match time with
  | some v => if v.length = 15 then fmt_d (ldap2epochtime v) else []
  | none => []

/-- The flags field of the spec: `r` when pgprevoked is 1, followed by `d`
when pgpdisabled is 1 (`none`: the entry has no such value). -/
def flagsFieldSpec (revoked disabled : Option Nat) : List Char :=
  (if revoked = some 1 then "r".toList else [])
    ++ (if disabled = some 1 then "d".toList else [])

/-- The record the spec gives for a result of one entry with certid `C`: the
`pub:` line built from the entry's attribute values (key size, pgprevoked
and pgpdisabled as the numbers their numerals denote), then the `uid:` line
with the user id escaped by `printquoted`. -/
def searchRecordSpec (charSigned : Bool) (C : List Char)
    (keytype : Option (List Char)) (size : Option Nat) (created expires : Option (List Char))
    (revoked disabled : Option Nat) (userid : Option (List Char)) : List Char :=
  "pub:".toList ++ C ++ ":".toList ++ algoFieldSpec keytype ++ ":".toList ++ sizeFieldSpec size
    ++ ":".toList ++ timeFieldSpec created ++ ":".toList ++ timeFieldSpec expires ++ ":".toList
    ++ flagsFieldSpec revoked disabled ++ "\n".toList
    ++ "uid:".toList
    ++ (match userid with
        | some u => printquoted charSigned u ':'
        | none => [])
    ++ "\n".toList

/-- A server whose searches return the single entry of scenario S2. -/
def s2Server : Server := fun _ c =>
  match c with
  | LdapCall.search _ _ _ _ =>
    ⟨0, [[("pgpCertID".toList, ["DEADBEEFDEADBEEF".toList]),
          ("pgpUserID".toList, ["Alice:Example <a@e>".toList]),
          ("pgpKeyType".toList, ["RSA".toList]),
          ("pgpKeySize".toList, ["2048".toList]),
          ("pgpKeyCreateTime".toList, ["20100101000000Z".toList])]]⟩
  | _ => ⟨0, []⟩

/-- A server whose searches return one entry with a creation time before
1970. -/
def oldKeyServer : Server := fun _ c =>
  match c with
  | LdapCall.search _ _ _ _ =>
    ⟨0, [[("pgpCertID".toList, ["DEADBEEFDEADBEEF".toList]),
          ("pgpUserID".toList, ["Alice".toList]),
          ("pgpKeyCreateTime".toList, ["19600101000000Z".toList])]]⟩
  | _ => ⟨0, []⟩

/-- The values a modification list holds for an attribute name, in order. -/
def attrValues (l : List LDAPMod) (attr : List Char) : List (List Char) :=
  (l.filter (fun m => m.mod_type == attr)).flatMap LDAPMod.mod_values

/-- The first field of a text: what stands before its first `:`, or all of
it when it holds none. -/
def firstField (t : List Char) : List Char := t.takeWhile (fun c => c != ':')

/-- A `pub:` line with its first six fields and what follows the sixth
colon. -/
def pubLineTail (K algo size created expires tail : List Char) : List Char :=
  "pub".toList ++ ':' :: (K ++ ':' :: (algo ++ ':' :: (size ++ ':' :: (created ++ ':' ::
    (expires ++ ':' :: tail)))))

/-- Whether the header loop of `main`, run on these lines, is left at a blank
separator line, and not at the end of the input or at a VERSION mismatch. -/
def header_reaches_blank (b : Build) : List (List Char) → Locals → State → Bool
  | [], _, _ => false
  | line :: rest, loc, st =>
    if line.head? = some '\n' then true
    else if line.head? = some '#' then header_reaches_blank b rest loc st
    else
      match header_line b line loc st with
      | none => false
      | some p => header_reaches_blank b rest p.1 p.2

/-- A server that answers every add with `LDAP_ALREADY_EXISTS` and every
other call with success. -/
def existsServer : Server := fun _ c =>
  match c with
  | LdapCall.add _ _ => ⟨LDAP_ALREADY_EXISTS, []⟩
  | _ => ⟨0, []⟩

/-- A server whose probe ends without a base DN: the namingContexts search
fails, the `cn=pgpServerInfo` entry carries no `baseKeySpaceDN`, every other
call succeeds with no entries. -/
def noBaseServer : Server := fun _ c =>
  match c with
  | LdapCall.search (some []) _ _ _ => ⟨32, []⟩
  | LdapCall.search (some _) _ _ _ => ⟨0, [[("software".toList, ["x".toList])]]⟩
  | _ => ⟨0, []⟩

/-- A legacy-dialect state about to publish: base DN `OU=X`, key attribute
`pgpKeyV2`, and a KEY block of one line for key `AAAAAAAAAAAAAAAA`. -/
def s6State : State :=
  { State.initial
      [frameLine "KEY".toList "AAAAAAAAAAAAAAAA".toList "BEGIN".toList,
       "-----BEGIN PGP PUBLIC KEY BLOCK-----\n".toList,
       frameLine "KEY".toList "AAAAAAAAAAAAAAAA".toList "END".toList] with
    basekeyspacedn := some "OU=X".toList, pgpkeystr := "pgpKeyV2".toList }

/-- A legacy keyserver: the namingContexts search fails, the
`cn=pgpServerInfo` entry holds `baseKeySpaceDN=OU=X` and `version=2`, every
other call succeeds. -/
def legacyServer : Server := fun _ c =>
  match c with
  | LdapCall.search (some []) _ _ _ => ⟨32, []⟩
  | LdapCall.search (some _) _ _ _ =>
    ⟨0, [[("baseKeySpaceDN".toList, ["OU=X".toList]), ("version".toList, ["2".toList])]]⟩
  | _ => ⟨0, []⟩

/-- The code the spec maps an LDAP error to: key-exists for
`LDAP_ALREADY_EXISTS`, unreachable for `LDAP_SERVER_DOWN`, general-error
otherwise. -/
def mappedCode (e : Int) : Int :=
  if e = LDAP_ALREADY_EXISTS then KEYSERVER_KEY_EXISTS
  else if e = LDAP_SERVER_DOWN then KEYSERVER_UNREACHABLE
  else KEYSERVER_GENERAL_ERROR

/-- Words joined by single spaces. -/
def joinWords : List (List Char) → List Char
  | [] => []
  | [w] => w
  | w :: w2 :: ws => w ++ ' ' :: joinWords (w2 :: ws)

/-- The line `SEARCH <k1> <k2> ... FAILED <m>` of the spec, newline
included. -/
def searchFailedLine (keys : List (List Char)) (m : Int) : List Char :=
  joinWords ("SEARCH".toList :: (keys ++ ["FAILED".toList, fmt_d m])) ++ ['\n']

/-- The lines `KEY <k> FAILED <m>` of the spec, one per key, in order. -/
def keyFailedLines (keys : List (List Char)) (m : Int) : List Char :=
  keys.flatMap (fun k => joinWords ["KEY".toList, k, "FAILED".toList, fmt_d m] ++ ['\n'])

/-- The tls mode the spec gives for an option name, compared without regard
to case: 0 is off, 1 try-silently, 2 try-loudly, 3 require; `none` for any
other name. -/
def tlsModeSpec (name : List Char) : Option Nat :=
  if name.map tolower = "no-tls".toList then some 0
  else if name.map tolower = "tls=no".toList then some 0
  else if name.map tolower = "tls=try".toList then some 1
  else if name.map tolower = "tls=warn".toList then some 2
  else if name.map tolower = "tls=require".toList then some 3
  else if name.map tolower = "tls".toList then some 1
  else none

/-- An option name in lower case, without its optional `no-` prefix. -/
def optionBase (name : List Char) : List Char :=
  if (name.map tolower).take 3 = "no-".toList then (name.map tolower).drop 3
  else name.map tolower

/-- Whether an option name is one of verbose, include-disabled,
include-revoked, include-subkeys, tls or tls=<value>, with an optional `no-`
prefix and without regard to case. -/
def isKnownOption (name : List Char) : Bool :=
  optionBase name == "verbose".toList || optionBase name == "include-disabled".toList
    || optionBase name == "include-revoked".toList
    || optionBase name == "include-subkeys".toList
    || optionBase name == "tls".toList || "tls=".toList.isPrefixOf (optionBase name)

/-- The text of a get or search request: header lines, the blank separator,
the key lines, and what follows them; every line is ended by a newline. -/
def requestText (header keys : List (List Char)) (tail : List Char) : List Char :=
  header.flatMap (fun l => l ++ ['\n']) ++ '\n' :: (keys.flatMap (fun k => k ++ ['\n']) ++ tail)

/-- A search request with two key lines of 200 bytes each. -/
def longSearchRequest : List Char :=
  "COMMAND search\nHOST h\n\n".toList ++ List.replicate 200 'a'
    ++ '\n' :: List.replicate 200 'b' ++ ['\n']


/-- The number a decimal numeral denotes: defined for a non-empty run of
decimal digits only. -/
def numeralValue (v : List Char) : Option Nat :=
  if v ≠ [] ∧ v.all isdigit = true then
    some (Nat.ofDigits 10 ((v.map (fun c => c.toNat - '0'.toNat)).reverse))
  else none

/-- A number below 100000 written with five decimal digits. -/
def fiveDigits (n : Nat) : List Char :=
  [Nat.digitChar (n / 10000 % 10), Nat.digitChar (n / 1000 % 10), Nat.digitChar (n / 100 % 10),
   Nat.digitChar (n / 10 % 10), Nat.digitChar (n % 10)]


/-- A legacy keyserver whose `cn=pgpServerInfo` entry holds the version
`4294967296`. -/
def wideVersionServer : Server := fun _ c =>
  match c with
  | LdapCall.search (some []) _ _ _ => ⟨32, []⟩
  | LdapCall.search (some _) _ _ _ =>
    ⟨0, [[("baseKeySpaceDN".toList, ["OU=X".toList]),
          ("version".toList, ["4294967296".toList])]]⟩
  | _ => ⟨0, []⟩

/-- A legacy-dialect state about to publish a KEY block whose second data
line begins with `KEY`. -/
def keyLineState : State :=
  { State.initial
      [frameLine "KEY".toList "AAAAAAAAAAAAAAAA".toList "BEGIN".toList,
       "mQENBF\n".toList, "KEYzR3abc\n".toList, "=abcd\n".toList,
       frameLine "KEY".toList "AAAAAAAAAAAAAAAA".toList "END".toList] with
    basekeyspacedn := some "OU=X".toList, pgpkeystr := "pgpKeyV2".toList }


/-- A server whose searches return one entry whose key size is 4294969344
and whose pgprevoked value is 4294967297. -/
def wideSizeServer : Server := fun _ c =>
  match c with
  | LdapCall.search _ _ _ _ =>
    ⟨0, [[("pgpCertID".toList, ["DEADBEEFDEADBEEF".toList]),
          ("pgpUserID".toList, ["Alice".toList]),
          ("pgpKeySize".toList, ["4294969344".toList]),
          ("pgpRevoked".toList, ["4294967297".toList])]]⟩
  | _ => ⟨0, []⟩


/-- A legacy keyserver on which the probe finds the base DN `OU=X` and every
subtree search succeeds with no entry. -/
def emptySearchServer : Server := fun _ c =>
  match c with
  | LdapCall.search (some []) _ _ _ => ⟨32, []⟩
  | LdapCall.search _ scope _ _ =>
    if scope = LDAP_SCOPE_BASE then ⟨0, [[("baseKeySpaceDN".toList, ["OU=X".toList])]]⟩
    else ⟨0, []⟩
  | _ => ⟨0, []⟩


/-- The values `get_key` returns for the keys of a get request, in the order
`main` calls it. -/
def get_results (srv : Server) : List (List Char) → State → List Int
  | [], _ => []
  | key :: rest, st => (get_key srv key st).1 :: get_results srv rest (get_key srv key st).2

/-- The values the publish driver returns in the passes of the send loop of
`main`, in order. -/
def send_results (b : Build) (srv : Server) : Nat → State → List Int
  | 0, _ => []
  | fuel + 1, st =>
    (if st.real_ldap then send_key b.charSigned srv st else send_key_keyserver srv st).ret
      :: (if (if st.real_ldap then send_key b.charSigned srv st
              else send_key_keyserver srv st).eof = true
            ∨ (if st.real_ldap then send_key b.charSigned srv st
              else send_key_keyserver srv st).st.crashed = true then []
          else send_results b srv fuel
            (if st.real_ldap then send_key b.charSigned srv st
              else send_key_keyserver srv st).st)

/-- The values the operation drivers return while `main` works through the
request items from state `st` on: one per key for get, one per pass of the
publish loop for send, one for search. -/
def driver_results (b : Build) (srv : Server) (action : Int) (keylist : List (List Char))
    (st : State) : List Int :=
  if action = GET then get_results srv keylist st
  else if action = SEND then send_results b srv (st.input.length + 1) st
  else if action = SEARCH then
    [(search_key b.charSigned srv (join_searchkey keylist) st).1]
  else []

/-- The connection `main` sets up before it works on the request:
`ldap_init`, the LDAPS step, the probe, the TLS step and the anonymous bind,
in this order.  `some s` is the state in which `main` enters
`switch(action)`; `none` says that one of the steps failed. -/
def connected (srv : Server) (loc : Locals) (st : State) : Option State :=
  if (ldap_call srv (LdapCall.init st.host loc.port) st).1.err ≠ 0 then none
  else
    match connect_ssl srv loc (ldap_call srv (LdapCall.init st.host loc.port) st).2 with
    | (some _, _) => none
    | (none, st1) =>
      if (find_basekeyspacedn srv st1).1 ≠ 0 then none
      else
        match connect_tls srv loc (find_basekeyspacedn srv st1).2 with
        | (some _, _) => none
        | (none, st2) =>
          if (ldap_call srv LdapCall.simple_bind st2).1.err ≠ 0 then none
          else some (ldap_call srv LdapCall.simple_bind st2).2

/-- The key list of a request: the body lines for get and search, empty for
send. -/
def main_keylist (b : Build) (stream : List Char) : List (List Char) :=
  if (main_header b stream).2.1.action = SEND then []
  else (read_keylist (main_header b stream).2.2.input).1

/-- The state in which `main` calls `ldap_init` for a request whose header
selected a command: the header and the key list (for send: the recipient
lines) are read and the response preamble is written. -/
def main_prepared (b : Build) (stream : List Char) : State :=
  write_output
    ("VERSION ".toList ++ fmt_d b.proto_version ++ "\nPROGRAM ".toList ++ b.version
      ++ "\n\n".toList)
    { (main_header b stream).2.2 with
      input :=
        if (main_header b stream).2.1.action = SEND then
          skip_recipients (main_header b stream).2.2.input
        else (read_keylist (main_header b stream).2.2.input).2 }

/-- The state in which `main` starts to work on the request items: the
header holds no VERSION mismatch, it selected get, send or search, and the
connection is set up.  `none` when the run ends before that. -/
def main_switch_state (b : Build) (srv : Server) (stream : List Char) : Option State :=
  if (main_header b stream).1 = true then none
  else if (main_header b stream).2.1.action = GET ∨ (main_header b stream).2.1.action = SEND
      ∨ (main_header b stream).2.1.action = SEARCH then
    connected srv (main_header b stream).2.1 (main_prepared b stream)
  else none


/-! ## Theorems -/

set_option maxRecDepth 100000

theorem modNames_make_one_attr_of_mem (l : List LDAPMod) (a v : List Char)
    (h : a ∈ modNames l) : modNames (make_one_attr l a v) = modNames l := by
  induction l with
  | nil => simp [modNames] at h
  | cons m ms ih =>
    by_cases hm : m.mod_type = a
    · simp [make_one_attr, hm, modNames]
    · have h2 : a ∈ modNames ms := by
        simp only [modNames, List.map_cons, List.mem_cons] at h
        rcases h with h | h
        · exact absurd h.symm hm
        · exact h
      have := ih h2
      simp only [modNames] at this
      simp [make_one_attr, hm, modNames, this]

theorem modNames_make_one_attr_of_not_mem (l : List LDAPMod) (a v : List Char)
    (h : a ∉ modNames l) : make_one_attr l a v = l ++ [⟨LDAP_MOD_REPLACE, a, [v]⟩] := by
  induction l with
  | nil => simp [make_one_attr]
  | cons m ms ih =>
    simp only [modNames, List.map_cons, List.mem_cons, not_or] at h
    have hm : ¬ m.mod_type = a := fun e => h.1 e.symm
    simp [make_one_attr, hm, ih h.2]

theorem nodup_make_one_attr (l : List LDAPMod) (a v : List Char)
    (h : (modNames l).Nodup) : (modNames (make_one_attr l a v)).Nodup := by
  by_cases hm : a ∈ modNames l
  · rw [modNames_make_one_attr_of_mem l a v hm]; exact h
  · rw [modNames_make_one_attr_of_not_mem l a v hm]
    simp only [modNames, List.map_append, List.map_cons, List.map_nil]
    rw [List.nodup_append]
    refine ⟨h, List.nodup_singleton _, ?_⟩
    intro x hx hx2
    simp only [List.mem_singleton] at hx2
    subst hx2
    exact hm hx

theorem nodup_build_attrs_flags (l : List LDAPMod) (line : Option (List Char))
    (h : (modNames l).Nodup) : (modNames (build_attrs_flags l line)).Nodup := by
  unfold build_attrs_flags
  split
  · exact h
  · exact nodup_make_one_attr _ _ _ (nodup_make_one_attr _ _ _ h)

theorem nodup_build_attrs_expire (l : List LDAPMod) (line : Option (List Char))
    (h : (modNames l).Nodup) : (modNames (build_attrs_expire l line)).Nodup := by
  unfold build_attrs_expire
  split
  · exact h
  · apply nodup_build_attrs_flags
    split
    · exact nodup_make_one_attr _ _ _ h
    · exact h

theorem nodup_build_attrs_create (l : List LDAPMod) (line : Option (List Char))
    (h : (modNames l).Nodup) : (modNames (build_attrs_create l line)).Nodup := by
  unfold build_attrs_create
  split
  · exact h
  · apply nodup_build_attrs_expire
    split
    · exact nodup_make_one_attr _ _ _ h
    · exact h

theorem nodup_build_attrs_size (l : List LDAPMod) (line : Option (List Char))
    (h : (modNames l).Nodup) : (modNames (build_attrs_size l line)).Nodup := by
  unfold build_attrs_size
  split
  · exact h
  · apply nodup_build_attrs_create
    split
    · exact nodup_make_one_attr _ _ _ h
    · exact h

theorem nodup_build_attrs_algo (l : List LDAPMod) (line : Option (List Char))
    (h : (modNames l).Nodup) : (modNames (build_attrs_algo l line)).Nodup := by
  unfold build_attrs_algo
  split
  · exact h
  · apply nodup_build_attrs_size
    split
    · exact nodup_make_one_attr _ _ _ h
    · split
      · exact nodup_make_one_attr _ _ _ h
      · exact h

theorem nodup_build_attrs_pub (l : List LDAPMod) (line : Option (List Char))
    (h : (modNames l).Nodup) : (modNames (build_attrs_pub l line)).Nodup := by
  unfold build_attrs_pub
  split
  · exact h
  · split
    · exact nodup_build_attrs_algo _ _ (nodup_make_one_attr _ _ _ (nodup_make_one_attr _ _ _ h))
    · exact h

theorem nodup_build_attrs (cs : Bool) (l : List LDAPMod) (line : List Char)
    (h : (modNames l).Nodup) : (modNames (build_attrs cs l line)).Nodup := by
  unfold build_attrs
  split
  · exact h
  · split
    · exact nodup_build_attrs_pub _ _ h
    · split
      · unfold build_attrs_uid
        repeat (first | exact h | apply nodup_make_one_attr | split)
      · exact h

theorem make_one_attr_of_mem (l : List LDAPMod) (a v : List Char)
    (h : (modNames l).Nodup) (hm : a ∈ modNames l) :
    make_one_attr l a v =
      l.map (fun m => if m.mod_type = a then ⟨m.mod_op, m.mod_type, m.mod_values ++ [v]⟩ else m) := by
  induction l with
  | nil => simp [modNames] at hm
  | cons m ms ih =>
    simp only [modNames, List.map_cons, List.nodup_cons] at h
    by_cases e : m.mod_type = a
    · have hrest : ∀ x ∈ ms, ¬ x.mod_type = a := by
        intro x hx ex
        apply h.1
        rw [e, ← ex]
        exact List.mem_map_of_mem _ hx
      have hmap : ms.map (fun m => if m.mod_type = a then
          (⟨m.mod_op, m.mod_type, m.mod_values ++ [v]⟩ : LDAPMod) else m) = ms := by
        conv_rhs => rw [← List.map_id ms]
        apply List.map_congr_left
        intro x hx
        simp [hrest x hx]
      simp [make_one_attr, e, hmap]
    · have h2 : a ∈ modNames ms := by
        simp only [modNames, List.map_cons, List.mem_cons] at hm
        rcases hm with hm | hm
        · exact absurd hm.symm e
        · exact hm
      simp [make_one_attr, e, ih h.2 h2]

theorem doy_bounds_era4 (doe yoe doy : Int) (h0 : 135080 ≤ doe) (h1 : doe < 146097)
   (hyoe : yoe = (doe - doe / 1460 + doe / 36524 - doe / 146096) / 365)
   (hdoy : doy = doe - (365 * yoe + yoe / 4 - yoe / 100)) :
   369 ≤ yoe ∧ yoe ≤ 399 ∧ 0 ≤ doy ∧ doy ≤ 365 ∧ (yoe = 369 → 306 ≤ doy) := by
  have hy : 369 ≤ yoe ∧ yoe ≤ 399 := by omega
  obtain ⟨hy1, hy2⟩ := hy
  interval_cases yoe <;> omega

theorem doy_bounds_era5 (doe yoe doy : Int) (h0 : 0 ≤ doe) (h1 : doe < 13839)
   (hyoe : yoe = (doe - doe / 1460 + doe / 36524 - doe / 146096) / 365)
   (hdoy : doy = doe - (365 * yoe + yoe / 4 - yoe / 100)) :
   0 ≤ yoe ∧ yoe ≤ 37 ∧ 0 ≤ doy ∧ doy ≤ 365 := by
  have hy : 0 ≤ yoe ∧ yoe ≤ 37 := by omega
  obtain ⟨hy1, hy2⟩ := hy
  interval_cases yoe <;> omega

theorem days_from_civil_parts (era yoe doy : Int) (hy0 : 0 ≤ yoe) (hy1 : yoe < 400)
    (hd0 : 0 ≤ doy) (hd1 : doy ≤ 365) :
    days_from_civil
      (if (if (5 * doy + 2) / 153 < 10 then (5 * doy + 2) / 153 + 3 else (5 * doy + 2) / 153 - 9) ≤ 2
        then yoe + era * 400 + 1 else yoe + era * 400)
      (if (5 * doy + 2) / 153 < 10 then (5 * doy + 2) / 153 + 3 else (5 * doy + 2) / 153 - 9)
      (doy - (153 * ((5 * doy + 2) / 153) + 2) / 5 + 1)
    = era * 146097 + (yoe * 365 + yoe / 4 - yoe / 100 + doy) - 719468 := by
  generalize hmp : (5 * doy + 2) / 153 = mp
  have hmp0 : 0 ≤ mp ∧ mp ≤ 11 := by omega
  have hq : (yoe + era * 400) / 400 = era := by omega
  unfold days_from_civil
  by_cases h10 : mp < 10
  · have e1 : ¬ (mp + 3 ≤ 2) := by omega
    have e2 : (2 : Int) < mp + 3 := by omega
    simp only [h10, if_true, e1, if_false, e2, hq]
    have e3 : mp + 3 - 3 = mp := by omega
    rw [e3]
    omega
  · have e1 : mp - 9 ≤ 2 := by omega
    have e2 : ¬ ((2 : Int) < mp - 9) := by omega
    have e4 : yoe + era * 400 + 1 - 1 = yoe + era * 400 := by omega
    simp only [h10, if_false, e1, if_true, e2, e4, hq]
    have e3 : mp - 9 + 9 = mp := by omega
    rw [e3]
    omega

theorem civil_roundtrip (z : Int) (h0 : 0 ≤ z) (h1 : z < 24856) :
    days_from_civil (civil_from_days z).1 (civil_from_days z).2.1 (civil_from_days z).2.2 = z
    ∧ 1970 ≤ (civil_from_days z).1 ∧ (civil_from_days z).1 ≤ 2038
    ∧ 1 ≤ (civil_from_days z).2.1 ∧ (civil_from_days z).2.1 ≤ 12
    ∧ 1 ≤ (civil_from_days z).2.2 ∧ (civil_from_days z).2.2 ≤ 31 := by
  have he : (z + 719468) / 146097 = 4 ∨ (z + 719468) / 146097 = 5 := by omega
  simp only [civil_from_days]
  generalize hdoe : z + 719468 - (z + 719468) / 146097 * 146097 = doe
  generalize hyoe : (doe - doe / 1460 + doe / 36524 - doe / 146096) / 365 = yoe
  generalize hdoy : doe - (365 * yoe + yoe / 4 - yoe / 100) = doy
  rcases he with he | he
  · have hb := doy_bounds_era4 doe yoe doy (by omega) (by omega) hyoe.symm hdoy.symm
    rw [he] at hdoe ⊢
    refine ⟨?_, ?_⟩
    · rw [days_from_civil_parts 4 yoe doy (by omega) (by omega) (by omega) (by omega)]
      omega
    · split_ifs <;> omega
  · have hb := doy_bounds_era5 doe yoe doy (by omega) (by omega) hyoe.symm hdoy.symm
    rw [he] at hdoe ⊢
    refine ⟨?_, ?_⟩
    · rw [days_from_civil_parts 5 yoe doy (by omega) (by omega) (by omega) (by omega)]
      omega
    · split_ifs <;> omega
theorem isdigit_not_isspace (c : Char) (h : isdigit c = true) : isspace c = false := by
  by_contra hs
  simp only [Bool.not_eq_false] at hs
  simp only [isspace, Bool.or_eq_true, beq_iff_eq] at hs
  rcases hs with ((((hs | hs) | hs) | hs) | hs) | hs <;> subst hs <;> revert h <;> decide

theorem isdigit_not_sign (c : Char) (h : isdigit c = true) : c ≠ '-' ∧ c ≠ '+' := by
  constructor <;> intro hs <;> subst hs <;> revert h <;> decide

theorem scan_int_digits (w : Nat) (ds rest : List Char) (hw : 0 < w) (hl : ds.length = w)
    (hd : ∀ c ∈ ds, isdigit c = true) :
    scan_int w (ds ++ rest) = some (((digitsVal ds : Nat) : Int), rest) := by
  cases ds with
  | nil => simp at hl; omega
  | cons c cs =>
    have hc : isdigit c = true := hd c (List.mem_cons_self _ _)
    have hsp := isdigit_not_isspace c hc
    have hsg := isdigit_not_sign c hc
    have htake : ((c :: cs) ++ rest).take w = c :: cs := by
      rw [← hl]; exact List.take_left' rfl
    have htw : (c :: cs).takeWhile isdigit = c :: cs := by
      rw [List.takeWhile_eq_self_iff]; exact hd
    have hdrop : ((c :: cs) ++ rest).drop (c :: cs).length = rest := List.drop_left' rfl
    unfold scan_int
    have hdw : List.dropWhile isspace (c :: cs ++ rest) = c :: cs ++ rest := by
      simp [List.dropWhile, hsp]
    simp only [hdw, htake]
    split
    · rename_i r heq
      simp only [List.cons.injEq] at heq
      exact absurd heq.1 hsg.1
    · rename_i r heq
      simp only [List.cons.injEq] at heq
      exact absurd heq.1 hsg.2
    · simp only [htw, hdrop]
      simp

theorem fmt_0d_two (n : Nat) (h : n < 100) :
    (fmt_0d 2 (n : Int)).length = 2 ∧ (fmt_0d 2 (n : Int)).all isdigit = true
      ∧ digitsVal (fmt_0d 2 (n : Int)) = n := by
  revert n
  decide

theorem fmt_0d_year (n : Nat) (h : n < 69) :
    (fmt_0d 4 ((1970 + n : Nat) : Int)).length = 4
      ∧ (fmt_0d 4 ((1970 + n : Nat) : Int)).all isdigit = true
      ∧ digitsVal (fmt_0d 4 ((1970 + n : Nat) : Int)) = 1970 + n := by
  revert n
  decide
theorem scan_fmt_two (x : Int) (rest : List Char) (h0 : 0 ≤ x) (h1 : x < 100) :
    scan_int 2 (fmt_0d 2 x ++ rest) = some (x, rest) ∧ (fmt_0d 2 x).length = 2 := by
  obtain ⟨n, rfl⟩ := Int.eq_ofNat_of_zero_le h0
  have hn : n < 100 := by omega
  obtain ⟨hl, hd, hv⟩ := fmt_0d_two n hn
  refine ⟨?_, hl⟩
  rw [scan_int_digits 2 _ rest (by decide) hl (by simpa [List.all_eq_true] using hd), hv]

theorem scan_fmt_year (x : Int) (rest : List Char) (h0 : 1970 ≤ x) (h1 : x ≤ 2038) :
    scan_int 4 (fmt_0d 4 x ++ rest) = some (x, rest) ∧ (fmt_0d 4 x).length = 4 := by
  obtain ⟨n, hn⟩ := Int.eq_ofNat_of_zero_le (show 0 ≤ x - 1970 by omega)
  have hx : x = ((1970 + n : Nat) : Int) := by push_cast; omega
  subst hx
  have hn2 : n < 69 := by omega
  obtain ⟨hl, hd, hv⟩ := fmt_0d_year n hn2
  refine ⟨?_, hl⟩
  rw [scan_int_digits 4 _ rest (by decide) hl (by simpa [List.all_eq_true] using hd), hv]

/-- C6: for every epoch `t` with `0 <= t < 2^31`,
`ldap2epochtime (epoch2ldaptime t) = t`, and `epoch2ldaptime t` is the
15-character string `YYYYMMDDHHmmssZ`. -/
theorem ldap_time_roundtrip (t : Int) (h0 : 0 ≤ t) (h1 : t < 2147483648) :
    ldap2epochtime (epoch2ldaptime t) = t ∧ (epoch2ldaptime t).length = 15 := by
  have hz0 : 0 ≤ t / 86400 := by omega
  have hz1 : t / 86400 < 24856 := by omega
  obtain ⟨hrt, hy0, hy1, hm0, hm1, hd0, hd1⟩ := civil_roundtrip (t / 86400) hz0 hz1
  generalize hY : (civil_from_days (t / 86400)).1 = Y at hrt hy0 hy1
  generalize hM : (civil_from_days (t / 86400)).2.1 = M at hrt hm0 hm1
  generalize hD : (civil_from_days (t / 86400)).2.2 = D at hrt hd0 hd1
  have e : epoch2ldaptime t =
      fmt_0d 4 Y ++ (fmt_0d 2 M ++ (fmt_0d 2 D ++ (fmt_0d 2 (t % 86400 / 3600)
        ++ (fmt_0d 2 (t % 86400 % 3600 / 60) ++ (fmt_0d 2 (t % 86400 % 60) ++ ['Z']))))) := by
    simp only [epoch2ldaptime, gmtime, hY, hM, hD, sub_add_cancel, List.append_assoc]
  obtain ⟨s1, l1⟩ := scan_fmt_year Y (fmt_0d 2 M ++ (fmt_0d 2 D ++ (fmt_0d 2 (t % 86400 / 3600)
        ++ (fmt_0d 2 (t % 86400 % 3600 / 60) ++ (fmt_0d 2 (t % 86400 % 60) ++ ['Z']))))) hy0 hy1
  obtain ⟨s2, l2⟩ := scan_fmt_two M (fmt_0d 2 D ++ (fmt_0d 2 (t % 86400 / 3600)
        ++ (fmt_0d 2 (t % 86400 % 3600 / 60) ++ (fmt_0d 2 (t % 86400 % 60) ++ ['Z']))))
        (by omega) (by omega)
  obtain ⟨s3, l3⟩ := scan_fmt_two D (fmt_0d 2 (t % 86400 / 3600)
        ++ (fmt_0d 2 (t % 86400 % 3600 / 60) ++ (fmt_0d 2 (t % 86400 % 60) ++ ['Z'])))
        (by omega) (by omega)
  obtain ⟨s4, l4⟩ := scan_fmt_two (t % 86400 / 3600)
        (fmt_0d 2 (t % 86400 % 3600 / 60) ++ (fmt_0d 2 (t % 86400 % 60) ++ ['Z']))
        (by omega) (by omega)
  obtain ⟨s5, l5⟩ := scan_fmt_two (t % 86400 % 3600 / 60) (fmt_0d 2 (t % 86400 % 60) ++ ['Z'])
        (by omega) (by omega)
  obtain ⟨s6, l6⟩ := scan_fmt_two (t % 86400 % 60) ['Z'] (by omega) (by omega)
  refine ⟨?_, ?_⟩
  · have hs : scan_ints [4, 2, 2, 2, 2, 2] (epoch2ldaptime t) =
        [Y, M, D, t % 86400 / 3600, t % 86400 % 3600 / 60, t % 86400 % 60] := by
      rw [e]
      simp only [scan_ints, s1, s2, s3, s4, s5, s6]
    simp only [ldap2epochtime, hs, List.getD_cons_zero, List.getD_cons_succ, timegm,
      sub_add_cancel]
    have hq : (M - 1) / 12 = 0 := by omega
    have hr : (M - 1) % 12 + 1 = M := by omega
    rw [hq, hr, add_zero]
    have hlin : days_from_civil Y M 1 + (D - 1) = days_from_civil Y M D := by
      simp only [days_from_civil]
      omega
    rw [hlin, hrt]
    omega
  · rw [e]
    simp only [List.length_append, l1, l2, l3, l4, l5, l6, List.length_singleton]

/-- Witness for C6 at 2010-01-01 00:00:00 UTC. -/
theorem ldap_time_roundtrip_witness :
    (0 : Int) ≤ 1262304000 ∧ (1262304000 : Int) < 2147483648 ∧
    ldap2epochtime (epoch2ldaptime 1262304000) = 1262304000 :=
  ⟨by decide, by decide, (ldap_time_roundtrip 1262304000 (by decide) (by decide)).1⟩

/-- C5 (failing input): the user id `a:b` is written by `printquoted` as
`a%3ab`; `build_attrs` on `uid:a%3ab` stores the pgpUserID value `a:bab`
instead of `a:b`, because the in-place decoding does not terminate the
decoded string. -/
theorem uid_roundtrip_failing_input (charSigned : Bool) :
    printquoted charSigned "a:b".toList ':' = "a%3ab".toList ∧
    build_attrs charSigned [] ("uid:".toList ++ printquoted charSigned "a:b".toList ':') =
      [⟨LDAP_MOD_REPLACE, "pgpUserID".toList, ["a:bab".toList]⟩] := by
  cases charSigned <;> decide

/-- C8 (failing input): for the line `uid:a%3ab:x` the decoding the spec
describes gives `a:b`, while `build_attrs` appends the pgpUserID value
`a:bab`. -/
theorem uid_decode_failing_input (charSigned : Bool) :
    decodeSpec "a%3ab".toList = "a:b".toList ∧
    build_attrs charSigned [] "uid:a%3ab:x".toList =
      [⟨LDAP_MOD_REPLACE, "pgpUserID".toList, ["a:bab".toList]⟩] := by
  cases charSigned <;> decide

/-- C9: for every string, `printquoted` with delimiter `:` writes the string
with each `:` replaced by `%3a`, each `%` replaced by `%25` and every other
byte unchanged and in order; the bytes written never contain a raw `:`. -/
theorem printquoted_escapes_colon (charSigned : Bool) (s : List Char) :
    printquoted charSigned s ':' = escapeColon s ∧ ':' ∉ printquoted charSigned s ':' := by
  induction s with
  | nil => simp [printquoted, escapeColon]
  | cons c rest ih =>
    obtain ⟨ih1, ih2⟩ := ih
    have hc : zeroPad 2 (hexadecimal (asUnsigned (charToInt charSigned ':'))) = ['3', 'a'] := by
      cases charSigned <;> decide
    have hp : zeroPad 2 (hexadecimal (asUnsigned (charToInt charSigned '%'))) = ['2', '5'] := by
      cases charSigned <;> decide
    simp only [escapeColon] at ih1 ⊢
    by_cases h1 : c = ':'
    · subst h1
      refine ⟨?_, ?_⟩
      · simp only [printquoted, true_or, if_true, hc, ih1, List.flatMap_cons]
        rfl
      · simp only [printquoted, true_or, if_true, hc]
        intro hmem
        rcases List.mem_append.mp hmem with h | h
        · revert h; decide
        · exact ih2 h
    · by_cases h2 : c = '%'
      · subst h2
        refine ⟨?_, ?_⟩
        · simp only [printquoted, or_true, if_true, hp, ih1, List.flatMap_cons]
          rfl
        · simp only [printquoted, or_true, if_true, hp]
          intro hmem
          rcases List.mem_append.mp hmem with h | h
          · revert h; decide
          · exact ih2 h
      · refine ⟨?_, ?_⟩
        · simp [printquoted, h1, h2, ih1, List.flatMap_cons]
        · simp only [printquoted, h1, h2, or_self, if_false]
          intro hmem
          rcases List.mem_append.mp hmem with h | h
          · simp only [List.mem_singleton] at h
            exact h1 h.symm
          · exact ih2 h

/-- C7: when the attribute names of a modification list are pairwise
distinct, `make_one_attr` keeps them pairwise distinct; if `attr` is present
its entry keeps its values in order followed by `value` and every other entry
is unchanged in place, if it is absent a new last entry holding only `value`
is added; and `build_attrs` on any line keeps the names pairwise distinct. -/
theorem make_one_attr_invariant (l : List LDAPMod) (attr value : List Char)
    (h : (modNames l).Nodup) :
    (modNames (make_one_attr l attr value)).Nodup ∧
    (attr ∈ modNames l →
      make_one_attr l attr value =
        l.map (fun m => if m.mod_type = attr
          then ⟨m.mod_op, m.mod_type, m.mod_values ++ [value]⟩ else m)) ∧
    (attr ∉ modNames l →
      make_one_attr l attr value = l ++ [⟨LDAP_MOD_REPLACE, attr, [value]⟩]) ∧
    (∀ (charSigned : Bool) (line : List Char),
      (modNames (build_attrs charSigned l line)).Nodup) :=
  ⟨nodup_make_one_attr l attr value h,
   make_one_attr_of_mem l attr value h,
   modNames_make_one_attr_of_not_mem l attr value,
   fun cs line => nodup_build_attrs cs l line h⟩

/-- Witness for C7 on a two-entry list. -/
theorem make_one_attr_invariant_witness :
    (modNames (make_one_attr
        [⟨2, "pgpCertID".toList, ["A".toList]⟩, ⟨2, "pgpUserID".toList, ["u1".toList]⟩]
        "pgpUserID".toList "u2".toList)).Nodup ∧
    make_one_attr
        [⟨2, "pgpCertID".toList, ["A".toList]⟩, ⟨2, "pgpUserID".toList, ["u1".toList]⟩]
        "pgpUserID".toList "u2".toList =
      [⟨2, "pgpCertID".toList, ["A".toList]⟩,
       ⟨2, "pgpUserID".toList, ["u1".toList, "u2".toList]⟩] := by
  have h := make_one_attr_invariant
    [⟨2, "pgpCertID".toList, ["A".toList]⟩, ⟨2, "pgpUserID".toList, ["u1".toList]⟩]
    "pgpUserID".toList "u2".toList (by decide)
  exact ⟨h.1, by decide⟩

theorem splitLinesAux_line (l rest cur : List Char) (h : '\n' ∉ l) :
    splitLinesAux cur (l ++ '\n' :: rest) = (cur.reverse ++ l) :: splitLinesAux [] rest := by
  induction l generalizing cur with
  | nil => simp [splitLinesAux]
  | cons c cs ih =>
    have hc : c ≠ '\n' := fun e => h (by simp [e])
    have hcs : '\n' ∉ cs := fun e => h (List.mem_cons_of_mem _ e)
    have e := ih (c :: cur) hcs
    have step : splitLinesAux cur (c :: (cs ++ '\n' :: rest))
        = splitLinesAux (c :: cur) (cs ++ '\n' :: rest) := by
      conv_lhs => unfold splitLinesAux
      rw [if_neg hc]
    rw [List.cons_append, step, e]
    simp

theorem splitLines_line (l rest : List Char) (h : '\n' ∉ l) :
    splitLines (l ++ '\n' :: rest) = l :: splitLines rest := by
  simpa [splitLines] using splitLinesAux_line l rest [] h

theorem splitLines_nil : splitLines [] = [] := by
  simp [splitLines, splitLinesAux]

theorem digitChar_isdigit (k : Nat) (h : k < 10) : isdigit (Nat.digitChar k) = true := by
  revert k
  decide

theorem toDigitsCore_mem (fuel : Nat) : ∀ (n : Nat) (ds : List Char) (c : Char),
    c ∈ Nat.toDigitsCore 10 fuel n ds → c ∈ ds ∨ isdigit c = true := by
  induction fuel with
  | zero => intro n ds c h; left; simpa [Nat.toDigitsCore] using h
  | succ f ih =>
    intro n ds c h
    simp only [Nat.toDigitsCore] at h
    have hd : isdigit (Nat.digitChar (n % 10)) = true :=
      digitChar_isdigit _ (Nat.mod_lt _ (by decide))
    split at h
    · rcases List.mem_cons.mp h with h | h
      · right; rw [h]; exact hd
      · left; exact h
    · rcases ih _ _ _ h with h | h
      · rcases List.mem_cons.mp h with h | h
        · right; rw [h]; exact hd
        · left; exact h
      · right; exact h

theorem decimal_isdigit (n : Nat) (c : Char) (h : c ∈ decimal n) : isdigit c = true := by
  rcases toDigitsCore_mem _ _ _ _ h with h | h
  · simp at h
  · exact h

theorem newline_not_mem_decimal (n : Nat) : '\n' ∉ decimal n := by
  intro h
  have := decimal_isdigit n _ h
  revert this
  decide

theorem newline_not_mem_fmt_d (n : Int) : '\n' ∉ fmt_d n := by
  unfold fmt_d
  split
  · intro h
    rcases List.mem_cons.mp h with h | h
    · revert h; decide
    · exact newline_not_mem_decimal _ h
  · exact newline_not_mem_decimal _

theorem search_key_count_acc (es : List Entry) :
    ∀ (dl : List (List Char)) (c : Nat),
      search_key_count es dl c = c + search_key_count es dl 0 := by
  induction es with
  | nil => intro dl c; simp [search_key_count]
  | cons e rest ih =>
    intro dl c
    simp only [search_key_count]
    split
    · exact ih dl c
    · split
      · exact ih dl c
      · rw [ih _ (c + 1), ih _ (0 + 1)]; omega

theorem newline_not_mem_pub_algo (each : Entry) : '\n' ∉ pub_algo each := by
  unfold pub_algo
  split
  · simp
  · split
    · decide
    · split
      · decide
      · simp

theorem newline_not_mem_pub_size (each : Entry) : '\n' ∉ pub_size each := by
  unfold pub_size
  split
  · simp
  · split
    · exact newline_not_mem_fmt_d _
    · simp

theorem newline_not_mem_pub_time (each : Entry) (a : List Char) : '\n' ∉ pub_time each a := by
  unfold pub_time
  split
  · simp
  · split
    · exact newline_not_mem_decimal _
    · simp

theorem newline_not_mem_pub_flags (each : Entry) : '\n' ∉ pub_flags each := by
  unfold pub_flags
  intro h
  rcases List.mem_append.mp h with h | h
  · revert h
    split
    · simp
    · split
      · decide
      · simp
  · revert h
    split
    · simp
    · split
      · decide
      · simp

theorem newline_not_mem_pub_text (each : Entry) (certid : List Char) (h : '\n' ∉ certid) :
    '\n' ∉ search_key_pub_text each certid := by
  intro hm
  simp only [search_key_pub_text, List.mem_append] at hm
  rcases hm with ((((((((((hm | hm) | hm) | hm) | hm) | hm) | hm) | hm) | hm) | hm) | hm) | hm
  · revert hm; decide
  · exact h hm
  · revert hm; decide
  · exact newline_not_mem_pub_algo _ hm
  · revert hm; decide
  · exact newline_not_mem_pub_size _ hm
  · revert hm; decide
  · exact newline_not_mem_pub_time _ _ hm
  · revert hm; decide
  · exact newline_not_mem_pub_time _ _ hm
  · revert hm; decide
  · exact newline_not_mem_pub_flags _ hm

theorem pub_text_starts (each : Entry) (certid : List Char) :
    "pub:".toList.isPrefixOf (search_key_pub_text each certid) = true := by
  simp [search_key_pub_text, List.isPrefixOf]

theorem colon_not_mem_printquoted (cs : Bool) (s : List Char) :
    ':' ∉ printquoted cs s ':' := by
  induction s with
  | nil => simp [printquoted]
  | cons c rest ih =>
    have h1 : zeroPad 2 (hexadecimal (asUnsigned (charToInt cs ':'))) = ['3', 'a'] := by
      cases cs <;> decide
    have h2 : zeroPad 2 (hexadecimal (asUnsigned (charToInt cs '%'))) = ['2', '5'] := by
      cases cs <;> decide
    intro hm
    simp only [printquoted] at hm
    rcases List.mem_append.mp hm with hm | hm
    · by_cases e1 : c = ':'
      · subst e1
        simp only [true_or, if_true, h1] at hm
        revert hm; decide
      · by_cases e2 : c = '%'
        · subst e2
          simp only [or_true, if_true, h2] at hm
          revert hm; decide
        · simp only [e1, e2, or_self, if_false, List.mem_singleton] at hm
          exact e1 hm.symm
    · exact ih hm

theorem not_pub_of_no_colon (l : List Char) (h : ':' ∉ l) :
    "pub:".toList.isPrefixOf l = false := by
  cases hp : "pub:".toList.isPrefixOf l with
  | false => rfl
  | true =>
    exfalso
    rw [List.isPrefixOf_iff_prefix] at hp
    obtain ⟨t, rfl⟩ := hp
    exact h (by simp)

theorem pub_filter_text (x rest : List Char) (hx : ':' ∉ x) :
    ∀ cur : List Char, (':' ∉ cur ∨ ∃ z, cur.reverse = "uid:".toList ++ z) →
      (splitLinesAux cur (x ++ '\n' :: rest)).filter (fun l => "pub:".toList.isPrefixOf l)
        = (splitLinesAux [] rest).filter (fun l => "pub:".toList.isPrefixOf l) := by
  induction x with
  | nil =>
    intro cur hcur
    have hn : "pub:".toList.isPrefixOf cur.reverse = false := by
      rcases hcur with h | ⟨z, hz⟩
      · exact not_pub_of_no_colon _ (by simpa using h)
      · rw [hz]; simp [List.isPrefixOf]
    have step : splitLinesAux cur ('\n' :: rest) = cur.reverse :: splitLinesAux [] rest := by
      conv_lhs => unfold splitLinesAux
      simp
    rw [List.nil_append, step, List.filter_cons, hn]
    simp
  | cons c cs ih =>
    intro cur hcur
    have hc : c ≠ ':' := fun e => hx (by simp [e])
    have hcs : ':' ∉ cs := fun e => hx (List.mem_cons_of_mem _ e)
    by_cases hnl : c = '\n'
    · have hn : "pub:".toList.isPrefixOf cur.reverse = false := by
        rcases hcur with h | ⟨z, hz⟩
        · exact not_pub_of_no_colon _ (by simpa using h)
        · rw [hz]; simp [List.isPrefixOf]
      have step : splitLinesAux cur (c :: (cs ++ '\n' :: rest))
          = cur.reverse :: splitLinesAux [] (cs ++ '\n' :: rest) := by
        conv_lhs => unfold splitLinesAux
        rw [if_pos hnl]
      rw [List.cons_append, step, List.filter_cons, hn, ih hcs [] (Or.inl (by simp))]
      simp
    · have step : splitLinesAux cur (c :: (cs ++ '\n' :: rest))
          = splitLinesAux (c :: cur) (cs ++ '\n' :: rest) := by
        conv_lhs => unfold splitLinesAux
        rw [if_neg hnl]
      rw [List.cons_append, step]
      apply ih hcs
      rcases hcur with h | ⟨z, hz⟩
      · left
        intro hm
        rcases List.mem_cons.mp hm with hm | hm
        · exact hc hm.symm
        · exact h hm
      · right
        exact ⟨z ++ [c], by simp [hz]⟩

theorem pub_filter_uids (cs : Bool) (certid : List Char) (res : List Entry) (rest : List Char) :
    (splitLines (search_key_uids cs certid res ++ rest)).filter
        (fun l => "pub:".toList.isPrefixOf l)
      = (splitLines rest).filter (fun l => "pub:".toList.isPrefixOf l) := by
  induction res with
  | nil => simp [search_key_uids]
  | cons e es ih =>
    simp only [search_key_uids]
    split
    · simpa using ih
    · split
      · have hq : ':' ∉ (match first_value e "pgpuserid".toList with
            | none => []
            | some u => printquoted cs u ':') := by
          cases first_value e "pgpuserid".toList with
          | none => simp
          | some u => exact (colon_not_mem_printquoted cs u)
        have e1 : ("uid:".toList ++ (match first_value e "pgpuserid".toList with
              | none => []
              | some u => printquoted cs u ':') ++ "\n".toList
              ++ search_key_uids cs certid es ++ rest)
            = "uid:".toList ++ ((match first_value e "pgpuserid".toList with
              | none => []
              | some u => printquoted cs u ':') ++ '\n' :: (search_key_uids cs certid es ++ rest)) := by
          simp
        have e2 : ∀ y : List Char, splitLines ("uid:".toList ++ y)
            = splitLinesAux ['u', 'i', 'd', ':'].reverse.reverse.reverse y := by
          intro y
          simp [splitLines, splitLinesAux]
        rw [e1, e2, pub_filter_text _ _ hq _ (Or.inr ⟨[], by simp⟩)]
        exact ih
      · simpa using ih

theorem pub_count_records (cs : Bool) (res : List Entry) (es : List Entry) :
    ∀ (dl : List (List Char)) (rest : List Char),
      (∀ e ∈ es, '\n' ∉ (first_value e "pgpcertid".toList).getD []) →
      pubLineCount (search_key_records cs res es dl ++ rest)
        = search_key_count es dl 0 + pubLineCount rest := by
  induction es with
  | nil => intro dl rest _; simp [search_key_records, search_key_count]
  | cons e es ih =>
    intro dl rest h
    have ih2 := fun dl rest => ih dl rest (fun x hx => h x (List.mem_cons_of_mem _ hx))
    have he := h e (List.mem_cons_self _ _)
    simp only [search_key_records, search_key_count]
    cases hc : first_value e "pgpcertid".toList with
    | none => simpa using ih2 dl rest
    | some certid =>
      rw [hc] at he
      simp only [Option.getD_some] at he
      simp only []
      split
      · exact ih2 dl rest
      · have e1 : search_key_pub e certid ++ search_key_uids cs certid res
              ++ search_key_records cs res es (add_key_to_keylist certid dl) ++ rest
            = search_key_pub_text e certid ++ '\n' :: (search_key_uids cs certid res
              ++ (search_key_records cs res es (add_key_to_keylist certid dl) ++ rest)) := by
          simp [search_key_pub]
        rw [e1, search_key_count_acc _ _ (0 + 1)]
        unfold pubLineCount
        rw [splitLines_line _ _ (newline_not_mem_pub_text e certid he), List.filter_cons,
          pub_text_starts, if_pos rfl, pub_filter_uids cs certid res _]
        have := ih2 (add_key_to_keylist certid dl) rest
        unfold pubLineCount at this
        rw [List.length_cons, this]
        omega

theorem ldap_err_to_gpg_err_ne_ok (err : Int) : ldap_err_to_gpg_err err ≠ KEYSERVER_OK := by
  unfold ldap_err_to_gpg_err
  split
  · decide
  · split <;> decide

/-- A run of `search_key` that returns ok formatted a filter that fits the
array `search`. -/
theorem search_key_ok_fits (cs : Bool) (srv : Server) (searchkey : List Char) (st : State)
    (hok : (search_key cs srv searchkey st).1 = KEYSERVER_OK) :
    ¬ (search_key_search_size
      < (search_key_filter st.include_disabled st.include_revoked searchkey).length + 1) := by
  intro h
  unfold search_key at hok
  simp only [if_pos h] at hok
  exact absurd hok (by decide)

/-- C3 (counterexample): an entry whose pgpcertid value is `A\npub:B`
makes `search_key` succeed and write `info:1:1` followed by two lines that
start with `pub:`. -/
theorem search_key_info_count_newline :
    (search_key true newlineServer "s".toList (State.initial [])).1 = KEYSERVER_OK ∧
    (search_key true newlineServer "s".toList (State.initial [])).2.output =
      "SEARCH s BEGIN\ninfo:1:1\npub:A\npub:B:::::\nuid:x\nSEARCH s END\n".toList ∧
    pubLineCount (search_key true newlineServer "s".toList (State.initial [])).2.output = 2 := by
  decide

/-- C3 (amended): for every LDAP result set whose pgpcertid values hold no
newline byte and on which `search_key` succeeds, the
number `n` of the `info:1:<n>` line equals the number of `pub:` lines written
after it and before `SEARCH <terms> END`. -/
theorem search_key_info_count (cs : Bool) (srv : Server) (searchkey : List Char) (st : State)
    (hok : (search_key cs srv searchkey st).1 = KEYSERVER_OK)
    (hnl : ∀ e ∈ (srv st.calls (search_key_search st searchkey)).entries,
      '\n' ∉ (first_value e "pgpcertid".toList).getD []) :
    ∃ (n : Nat) (body : List Char),
      (search_key cs srv searchkey st).2.output =
        st.output ++ ("SEARCH ".toList ++ searchkey ++ " BEGIN\n".toList)
          ++ ("info:1:".toList ++ fmt_d n ++ "\n".toList) ++ body
          ++ ("SEARCH ".toList ++ searchkey ++ " END\n".toList)
      ∧ pubLineCount body = n := by
  have hfit := search_key_ok_fits cs srv searchkey st hok
  simp only [search_key, ldap_call, write_output, search_key_search, if_neg hfit] at hok hnl ⊢
  generalize hr : srv st.calls (LdapCall.search st.basekeyspacedn LDAP_SCOPE_SUBTREE
    (search_key_filter st.include_disabled st.include_revoked searchkey) search_key_attrs) = r
    at hok hnl ⊢
  by_cases herr : r.err ≠ LDAP_SUCCESS ∧ r.err ≠ LDAP_SIZELIMIT_EXCEEDED
  · rw [if_pos herr] at hok
    exact absurd hok (ldap_err_to_gpg_err_ne_ok _)
  · rw [if_neg herr]
    by_cases hc : search_key_count r.entries [] 0 < 1
    · refine ⟨0, [], ?_, by decide⟩
      simp only [hc, if_true]
      have : fmt_d ((0 : Nat) : Int) = "0".toList := by decide
      rw [this]
      simp
    · refine ⟨search_key_count r.entries [] 0,
        search_key_records cs r.entries r.entries [], ?_, ?_⟩
      · simp only [hc, if_false]
        simp
      · have := pub_count_records cs r.entries r.entries [] [] hnl
        simpa [pubLineCount, splitLines_nil] using this

/-- Witness for C3 on a result with three entries and two distinct certids. -/
theorem search_key_info_count_witness :
    ∃ (n : Nat) (body : List Char),
      (search_key true demoServer "alice".toList (State.initial [])).2.output =
        (State.initial []).output ++ ("SEARCH ".toList ++ "alice".toList ++ " BEGIN\n".toList)
          ++ ("info:1:".toList ++ fmt_d n ++ "\n".toList) ++ body
          ++ ("SEARCH ".toList ++ "alice".toList ++ " END\n".toList)
      ∧ pubLineCount body = n :=
  search_key_info_count true demoServer "alice".toList (State.initial []) (by decide) (by decide)

theorem strcasecmp_eq_comm (a b : List Char) : strcasecmp_eq a b = strcasecmp_eq b a := by
  unfold strcasecmp_eq
  cases h : (a.map tolower == b.map tolower) with
  | true =>
    have := (beq_iff_eq).mp h
    rw [this]; simp
  | false =>
    cases h2 : (b.map tolower == a.map tolower) with
    | false => rfl
    | true =>
      have := (beq_iff_eq).mp h2
      rw [this] at h; simp at h

theorem key_in_keylist_cons (k c : List Char) (dl : List (List Char)) :
    key_in_keylist k (c :: dl) = (strcasecmp_eq k c || key_in_keylist k dl) := by
  simp [key_in_keylist]

theorem first_seen_spec (es : List Entry) :
    ∀ dl : List (List Char),
      (∀ e ∈ es, ((first_value e "pgpcertid".toList).getD []).length < MAX_LINE) →
      (first_seen es dl).Pairwise (fun a b => strcasecmp_eq a.2 b.2 = false)
      ∧ ∀ p ∈ first_seen es dl,
          key_in_keylist p.2 dl = false ∧ p.1 ∈ es
            ∧ first_value p.1 "pgpcertid".toList = some p.2 := by
  induction es with
  | nil => intro dl _; simp [first_seen]
  | cons e es ih =>
    intro dl h
    have hes : ∀ x ∈ es, ((first_value x "pgpcertid".toList).getD []).length < MAX_LINE :=
      fun x hx => h x (List.mem_cons_of_mem _ hx)
    have he := h e (List.mem_cons_self _ _)
    simp only [first_seen]
    cases hc : first_value e "pgpcertid".toList with
    | none =>
      obtain ⟨i1, i2⟩ := ih dl hes
      exact ⟨i1, fun p hp => ⟨(i2 p hp).1, List.mem_cons_of_mem _ (i2 p hp).2.1, (i2 p hp).2.2⟩⟩
    | some c =>
      rw [hc] at he
      simp only [Option.getD_some] at he
      simp only []
      by_cases hk : key_in_keylist c dl = true
      · rw [if_pos hk]
        obtain ⟨i1, i2⟩ := ih dl hes
        exact ⟨i1, fun p hp =>
          ⟨(i2 p hp).1, List.mem_cons_of_mem _ (i2 p hp).2.1, (i2 p hp).2.2⟩⟩
      · rw [if_neg hk]
        obtain ⟨i1, i2⟩ := ih (add_key_to_keylist c dl) hes
        have htake : add_key_to_keylist c dl = c :: dl := by
          unfold add_key_to_keylist
          rw [List.take_of_length_le]
          unfold MAX_LINE at he ⊢
          omega
        rw [htake] at i1 i2
        have hsplit : ∀ p ∈ first_seen es (c :: dl),
            strcasecmp_eq p.2 c = false ∧ key_in_keylist p.2 dl = false := by
          intro p hp
          have := (i2 p hp).1
          rw [key_in_keylist_cons] at this
          simpa [Bool.or_eq_false_iff] using this
        rw [htake]
        refine ⟨?_, ?_⟩
        · rw [List.pairwise_cons]
          refine ⟨fun p hp => ?_, i1⟩
          rw [strcasecmp_eq_comm]
          exact (hsplit p hp).1
        · intro p hp
          rcases List.mem_cons.mp hp with hp | hp
          · subst hp
            exact ⟨by simpa using hk, List.mem_cons_self _ _, hc⟩
          · exact ⟨(hsplit p hp).2, List.mem_cons_of_mem _ (i2 p hp).2.1, (i2 p hp).2.2⟩

theorem search_key_records_eq (cs : Bool) (res es : List Entry) :
    ∀ dl : List (List Char),
      search_key_records cs res es dl
        = (first_seen es dl).flatMap
            (fun p => search_key_pub p.1 p.2 ++ search_key_uids cs p.2 res) := by
  induction es with
  | nil => intro dl; simp [search_key_records, first_seen]
  | cons e es ih =>
    intro dl
    simp only [search_key_records, first_seen]
    split
    · exact ih dl
    · split
      · exact ih dl
      · rw [List.flatMap_cons, ih]

theorem search_key_count_eq (es : List Entry) :
    ∀ dl : List (List Char), search_key_count es dl 0 = (first_seen es dl).length := by
  induction es with
  | nil => intro dl; simp [search_key_count, first_seen]
  | cons e es ih =>
    intro dl
    simp only [search_key_count, first_seen]
    split
    · exact ih dl
    · split
      · exact ih dl
      · rw [search_key_count_acc, ih, List.length_cons]; omega

/-- C4 (counterexample): two entries carrying the same 256-byte pgpcertid
value make `search_key` write two `pub:` lines for that certid. -/
theorem search_key_long_certid_twice :
    (search_key true longCertidServer "s".toList (State.initial [])).1 = KEYSERVER_OK ∧
    lineCountFrom ("pub:".toList ++ List.replicate 256 'A' ++ ":".toList)
      (search_key true longCertidServer "s".toList (State.initial [])).2.output = 2 := by
  decide

/-- C4 (amended): for every LDAP result set whose pgpcertid values are
shorter than `MAX_LINE` (256) bytes, the `pub:` records `search_key` writes
are those of a list of entries whose certids differ pairwise when compared
case-insensitively: at most one `pub:` line per certid. -/
theorem search_key_one_pub_per_certid (cs : Bool) (srv : Server) (searchkey : List Char)
    (st : State)
    (hok : (search_key cs srv searchkey st).1 = KEYSERVER_OK)
    (hlen : ∀ e ∈ (srv st.calls (search_key_search st searchkey)).entries,
      ((first_value e "pgpcertid".toList).getD []).length < MAX_LINE) :
    ∃ (fresh : List (Entry × List Char)) (n : Nat),
      (search_key cs srv searchkey st).2.output =
        st.output ++ ("SEARCH ".toList ++ searchkey ++ " BEGIN\n".toList)
          ++ ("info:1:".toList ++ fmt_d n ++ "\n".toList)
          ++ fresh.flatMap (fun p => search_key_pub p.1 p.2
              ++ search_key_uids cs p.2 (srv st.calls (search_key_search st searchkey)).entries)
          ++ ("SEARCH ".toList ++ searchkey ++ " END\n".toList)
      ∧ fresh.Pairwise (fun a b => strcasecmp_eq a.2 b.2 = false)
      ∧ ∀ p ∈ fresh, p.1 ∈ (srv st.calls (search_key_search st searchkey)).entries
          ∧ first_value p.1 "pgpcertid".toList = some p.2 := by
  have hfit := search_key_ok_fits cs srv searchkey st hok
  simp only [search_key, ldap_call, write_output, search_key_search, if_neg hfit] at hok hlen ⊢
  generalize hr : srv st.calls (LdapCall.search st.basekeyspacedn LDAP_SCOPE_SUBTREE
    (search_key_filter st.include_disabled st.include_revoked searchkey) search_key_attrs) = r
    at hok hlen ⊢
  by_cases herr : r.err ≠ LDAP_SUCCESS ∧ r.err ≠ LDAP_SIZELIMIT_EXCEEDED
  · rw [if_pos herr] at hok
    exact absurd hok (ldap_err_to_gpg_err_ne_ok _)
  · rw [if_neg herr]
    obtain ⟨hp, hm⟩ := first_seen_spec r.entries [] hlen
    refine ⟨first_seen r.entries [], search_key_count r.entries [] 0, ?_, hp,
      fun p h => (hm p h).2⟩
    by_cases hc : search_key_count r.entries [] 0 < 1
    · have h0 : search_key_count r.entries [] 0 = 0 := by omega
      have hnil : first_seen r.entries [] = [] := by
        rw [search_key_count_eq] at h0
        exact List.length_eq_zero.mp h0
      simp only [hc, if_true, hnil, h0]
      have : fmt_d ((0 : Nat) : Int) = "0".toList := by decide
      rw [this]
      simp
    · simp only [hc, if_false, search_key_records_eq]
      simp

/-- Witness for C4 on a result in which two entries carry the same certid in
different case. -/
theorem search_key_one_pub_per_certid_witness :
    ∃ (fresh : List (Entry × List Char)) (n : Nat),
      (search_key true demoServer "alice".toList (State.initial [])).2.output =
        (State.initial []).output ++ ("SEARCH ".toList ++ "alice".toList ++ " BEGIN\n".toList)
          ++ ("info:1:".toList ++ fmt_d n ++ "\n".toList)
          ++ fresh.flatMap (fun p => search_key_pub p.1 p.2
              ++ search_key_uids true p.2
                (demoServer (State.initial []).calls
                  (search_key_search (State.initial []) "alice".toList)).entries)
          ++ ("SEARCH ".toList ++ "alice".toList ++ " END\n".toList)
      ∧ fresh.Pairwise (fun a b => strcasecmp_eq a.2 b.2 = false)
      ∧ ∀ p ∈ fresh, p.1 ∈ (demoServer (State.initial []).calls
            (search_key_search (State.initial []) "alice".toList)).entries
          ∧ first_value p.1 "pgpcertid".toList = some p.2 :=
  search_key_one_pub_per_certid true demoServer "alice".toList (State.initial [])
    (by decide) (by decide)

theorem get_key_entries_skip (srv : Server) (k : List Char) (es : List Entry) :
    ∀ (dl : List (List Char)) (st : State),
      (∀ e ∈ es, ∃ v, first_value e "pgpcertid".toList = some v ∧ key_in_keylist v dl = true) →
      get_key_entries srv k es dl st = st := by
  induction es with
  | nil => intro dl st _; simp [get_key_entries]
  | cons e es ih =>
    intro dl st h
    obtain ⟨v, hv, hk⟩ := h e (List.mem_cons_self _ _)
    simp only [get_key_entries, hv, hk, if_true]
    exact ih dl st (fun x hx => h x (List.mem_cons_of_mem _ hx))

/-- C2 (counterexample): when the search returns entries with two distinct
certids, `get_key` writes one BEGIN line and two END lines. -/
theorem get_key_two_certids :
    (get_key demoServer "0xBEEF".toList (State.initial [])).2.output =
      "KEY 0xBEEF BEGIN\nk1\nKEY 0xBEEF END\nk2\nKEY 0xBEEF END\n".toList ∧
    beginLineCount "BEEF".toList
      (get_key demoServer "0xBEEF".toList (State.initial [])).2.output = 1 ∧
    closingLineCount "BEEF".toList
      (get_key demoServer "0xBEEF".toList (State.initial [])).2.output = 2 := by
  decide

/-- C1 (counterexample): a get whose only key is a v3 fingerprint makes
`get_key` fail with the not-supported code (the output shows `FAILED 2`), and
a failed bind is mapped to the unreachable code (`FAILED 9`); in both runs
`main` returns the internal-error code instead. -/
theorem main_returns_internal_error :
    (main demoBuild probeServer
        "COMMAND get\nHOST h\n\n0x0123456789ABCDEF0123456789ABCDEF\n".toList).ret
      = some KEYSERVER_INTERNAL_ERROR ∧
    (main demoBuild probeServer
        "COMMAND get\nHOST h\n\n0x0123456789ABCDEF0123456789ABCDEF\n".toList).st.output
      = ("VERSION 1\nPROGRAM 1.4\n\nKEY 0x0123456789ABCDEF0123456789ABCDEF BEGIN\n"
          ++ "KEY 0x0123456789ABCDEF0123456789ABCDEF FAILED 2\n").toList ∧
    (get_key probeServer "0x0123456789ABCDEF0123456789ABCDEF".toList (State.initial [])).1
      = KEYSERVER_NOT_SUPPORTED ∧
    KEYSERVER_INTERNAL_ERROR ≠ KEYSERVER_NOT_SUPPORTED ∧
    (main demoBuild bindDownServer "COMMAND get\nHOST h\n\n0xDEADBEEF\n".toList).ret
      = some KEYSERVER_INTERNAL_ERROR ∧
    (main demoBuild bindDownServer "COMMAND get\nHOST h\n\n0xDEADBEEF\n".toList).st.output
      = "VERSION 1\nPROGRAM 1.4\n\nKEY 0xDEADBEEF FAILED 9\n".toList ∧
    ldap_err_to_gpg_err LDAP_SERVER_DOWN = KEYSERVER_UNREACHABLE ∧
    KEYSERVER_INTERNAL_ERROR ≠ KEYSERVER_UNREACHABLE := by
  decide

theorem strsep_field (tok rest : List Char) (h : ':' ∉ tok) :
    strsep (some (tok ++ ':' :: rest)) ':' = some (tok, some rest) := by
  have htw : (tok ++ ':' :: rest).takeWhile (fun c => c != ':') = tok := by
    induction tok with
    | nil => simp [List.takeWhile]
    | cons c cs ih =>
      have hc : c ≠ ':' := fun e => h (by simp [e])
      have hcs : ':' ∉ cs := fun e => h (List.mem_cons_of_mem _ e)
      have hb : (c != ':') = true := by simpa using hc
      rw [List.cons_append, List.takeWhile_cons, hb, if_pos rfl, ih hcs]
  have hcont : (tok ++ ':' :: rest).contains ':' = true := by simp
  simp only [strsep, htw, hcont, if_true]
  simp

theorem strsep_last (tok : List Char) (h : ':' ∉ tok) :
    strsep (some tok) ':' = some (tok, none) := by
  have htw : tok.takeWhile (fun c => c != ':') = tok := by
    rw [List.takeWhile_eq_self_iff]
    intro c hc
    simp only [bne_iff_ne, ne_eq]
    intro e; exact h (e ▸ hc)
  have hcont : tok.contains ':' = false := by simpa using h
  simp only [strsep, htw, hcont]
  simp

theorem strip_trailing_after (pre x : List Char) (c : Char) (hc : ascii_isspace c = false) :
    strip_trailing (pre ++ c :: x) = pre ++ c :: strip_trailing x := by
  unfold strip_trailing
  simp only [List.reverse_append, List.reverse_cons, List.append_assoc, List.singleton_append]
  rw [List.dropWhile_append]
  split
  · rename_i he
    have : List.dropWhile ascii_isspace (c :: pre.reverse) = c :: pre.reverse := by
      simp [List.dropWhile, hc]
    rw [this]
    have h2 : List.dropWhile ascii_isspace x.reverse = [] := by simpa using he
    simp [h2]
  · simp

theorem colon_not_mem_strip_trailing (x : List Char) (h : ':' ∉ x) :
    ':' ∉ strip_trailing x := by
  unfold strip_trailing
  intro hm
  have h1 := List.mem_reverse.mp hm
  have h2 := (List.dropWhile_sublist ascii_isspace).subset h1
  exact h (List.mem_reverse.mp h2)

theorem scan_word_line (lit K tail : List Char) (w : Nat) (hne : K ≠ [])
    (hK : ∀ c ∈ K, isspace c = false) (hw : K.length ≤ w) :
    scan_word lit w (lit ++ ' ' :: (K ++ ' ' :: tail)) = some K := by
  have hpre : lit.isPrefixOf (lit ++ ' ' :: (K ++ ' ' :: tail)) = true := by
    rw [List.isPrefixOf_iff_prefix]; exact List.prefix_append _ _
  have hdrop : (lit ++ ' ' :: (K ++ ' ' :: tail)).drop lit.length = ' ' :: (K ++ ' ' :: tail) :=
    List.drop_left' rfl
  have hdw : (' ' :: (K ++ ' ' :: tail)).dropWhile isspace = K ++ ' ' :: tail := by
    cases K with
    | nil => exact absurd rfl hne
    | cons c cs =>
      have := hK c (List.mem_cons_self _ _)
      have hsp : isspace ' ' = true := by decide
      simp [List.dropWhile, hsp, this]
  have htw : (K ++ ' ' :: tail).takeWhile (fun c => !isspace c) = K := by
    rw [List.takeWhile_append]
    have hall : List.takeWhile (fun c => !isspace c) K = K := by
      rw [List.takeWhile_eq_self_iff]
      intro c hc; simp [hK c hc]
    have hsp : isspace ' ' = true := by decide
    simp [hall, List.takeWhile, hsp]
  have htake : K.take w = K := List.take_of_length_le hw
  have hemp : K.isEmpty = false := by
    cases K with
    | nil => exact absurd rfl hne
    | cons c cs => rfl
  simp only [scan_word, hpre, if_true, hdrop, hdw, htw, htake, hemp]
  simp

theorem build_attrs_pubLine (cs : Bool) (K algo size created expires flags : List Char)
    (hK : K.length = 16) (hKc : ':' ∉ K) (ha : ':' ∉ algo) (hs : ':' ∉ size)
    (hc : ':' ∉ created) (he : ':' ∉ expires) (hf : ':' ∉ flags)
    (halgo : atoi algo = 1 ∨ atoi algo = 17)
    (hsize : 0 < atoi size ∧ atoi size < 99999) (hcreated : 0 < atoi created) :
    build_attrs cs [] (pubLine K algo size created expires flags) =
      [⟨LDAP_MOD_REPLACE, "pgpCertID".toList, [K]⟩,
       ⟨LDAP_MOD_REPLACE, "pgpKeyID".toList, [K.drop 8]⟩,
       ⟨LDAP_MOD_REPLACE, "pgpKeyType".toList,
          [if atoi algo = 1 then "RSA".toList else "DSS/DH".toList]⟩,
       ⟨LDAP_MOD_REPLACE, "pgpKeySize".toList, [zeroPad 5 (decimal (atoi size).toNat)]⟩,
       ⟨LDAP_MOD_REPLACE, "pgpKeyCreateTime".toList, [created]⟩]
      ++ (if 0 < atoi expires then [⟨LDAP_MOD_REPLACE, "pgpKeyExpireTime".toList, [expires]⟩]
          else [])
      ++ [⟨LDAP_MOD_REPLACE, "pgpDisabled".toList,
            [flagValue 'd' 'D' (strip_trailing (flags ++ ['\n']))]⟩,
          ⟨LDAP_MOD_REPLACE, "pgpRevoked".toList,
            [flagValue 'r' 'R' (strip_trailing (flags ++ ['\n']))]⟩] := by
  have hstrip : strip_trailing (pubLine K algo size created expires flags) =
      "pub".toList ++ ':' :: (K ++ ':' :: (algo ++ ':' :: (size ++ ':' :: (created ++ ':' ::
        (expires ++ ':' :: strip_trailing (flags ++ ['\n'])))))) := by
    have e1 : pubLine K algo size created expires flags =
        ("pub".toList ++ ':' :: (K ++ ':' :: (algo ++ ':' :: (size ++ ':' :: (created ++ ':' ::
          expires))))) ++ ':' :: (flags ++ ['\n']) := by
      simp [pubLine]
    rw [e1, strip_trailing_after _ _ ':' (by decide)]
    simp
  have hF := colon_not_mem_strip_trailing (flags ++ ['\n'])
    (by
      intro hm
      rcases List.mem_append.mp hm with hm | hm
      · exact hf hm
      · revert hm; decide)
  generalize strip_trailing (flags ++ ['\n']) = F at hstrip hF ⊢
  have hpub : ':' ∉ "pub".toList := by decide
  have hsz : asUnsigned (atoi size) = (atoi size).toNat := by
    unfold asUnsigned
    congr 1
    omega
  unfold build_attrs
  rw [hstrip, strsep_field _ _ hpub]
  simp only []
  rw [if_pos (by decide)]
  unfold build_attrs_pub
  rw [strsep_field _ _ hKc]
  simp only []
  rw [if_pos hK]
  unfold build_attrs_algo
  rw [strsep_field _ _ ha]
  simp only []
  unfold build_attrs_size
  rw [strsep_field _ _ hs]
  simp only []
  rw [if_pos hsize, hsz]
  unfold build_attrs_create
  rw [strsep_field _ _ hc]
  simp only []
  rw [if_pos hcreated]
  unfold build_attrs_expire
  rw [strsep_field _ _ he]
  simp only []
  unfold build_attrs_flags
  rw [strsep_last _ hF]
  simp only []
  unfold flagValue
  by_cases hexp : 0 < atoi expires
  · rw [if_pos hexp, if_pos hexp]
    rcases halgo with h | h
    · rw [if_pos h, if_pos h]
      rfl
    · have h1 : ¬ atoi algo = 1 := by rw [h]; decide
      rw [if_neg h1, if_pos h, if_neg h1]
      rfl
  · rw [if_neg hexp, if_neg hexp]
    rcases halgo with h | h
    · rw [if_pos h, if_pos h]
      rfl
    · have h1 : ¬ atoi algo = 1 := by rw [h]; decide
      rw [if_neg h1, if_pos h, if_neg h1]
      rfl

theorem scan_word_frameLine (tag K word : List Char) (hK : K.length = 16)
    (hKs : ∀ c ∈ K, isspace c = false) :
    scan_word tag 16 (frameLine tag K word) = some K := by
  unfold frameLine
  apply scan_word_line
  · intro e; rw [e] at hK; simp at hK
  · exact hKs
  · omega

theorem scan_word_pubLine (K algo size created expires flags : List Char) :
    scan_word "INFO".toList 16 (pubLine K algo size created expires flags) = none := by
  simp [scan_word, pubLine, List.isPrefixOf]

theorem read_key_lines (K : List Char) (hK : K.length = 16)
    (hKs : ∀ c ∈ K, isspace c = false) (rest : List (List Char)) (keylines : List (List Char)) :
    ∀ acc : List Char, (∀ l ∈ keylines, scan_word "KEY".toList 16 l = none) →
      read_key (keylines ++ frameLine "KEY".toList K "END".toList :: rest) acc
        = (some K, acc ++ keylines.flatten, rest) := by
  induction keylines with
  | nil =>
    intro acc _
    simp [read_key, scan_word_frameLine _ K _ hK hKs]
  | cons l ls ih =>
    intro acc h
    have hl := h l (List.mem_cons_self _ _)
    have e := ih (acc ++ l) (fun x hx => h x (List.mem_cons_of_mem _ hx))
    have step : read_key (l :: (ls ++ frameLine "KEY".toList K "END".toList :: rest)) acc
        = read_key (ls ++ frameLine "KEY".toList K "END".toList :: rest) (acc ++ l) := by
      conv_lhs => unfold read_key
      simp only [hl]
    rw [List.cons_append, step, e]
    simp

theorem send_key_submit_calls (srv : Server) (dn : List Char) (m : List LDAPMod)
    (key keyid : List Char) (st : State) :
    (send_key_submit srv dn m key keyid st).st.calls.take (st.calls.length + 1)
      = st.calls ++ [LdapCall.add dn
          (make_one_attr (make_one_attr m "objectClass".toList "pgpKeyInfo".toList)
            "pgpKey".toList key)] := by
  unfold send_key_submit
  simp only [ldap_call, send_key_fail, write_printed, write_output]
  split <;> split <;> split <;> simp [List.take_append_eq_append_take]

theorem send_key_submit_ok (srv : Server) (dn : List Char) (m : List LDAPMod)
    (key keyid : List Char) (st : State)
    (h : (srv st.calls (LdapCall.add dn
      (make_one_attr (make_one_attr m "objectClass".toList "pgpKeyInfo".toList)
        "pgpKey".toList key))).err = LDAP_SUCCESS) :
    send_key_submit srv dn m key keyid st =
      { ret := KEYSERVER_OK, eof := false,
        st := { st with calls := st.calls ++ [LdapCall.add dn
          (make_one_attr (make_one_attr m "objectClass".toList "pgpKeyInfo".toList)
            "pgpKey".toList key)] } } := by
  have hne : LDAP_SUCCESS ≠ LDAP_ALREADY_EXISTS := by decide
  unfold send_key_submit
  simp only [ldap_call, h, hne, if_false, ne_eq, not_true_eq_false, send_key_fail]
  simp [KEYSERVER_OK]

theorem send_key_publishInput (cs : Bool) (srv : Server) (st : State)
    (K algo size created expires flags base : List Char) (keylines rest : List (List Char))
    (hK : K.length = 16) (hKs : ∀ c ∈ K, isspace c = false)
    (hbase : st.basekeyspacedn = some base)
    (hkey : ∀ l ∈ keylines, scan_word "KEY".toList 16 l = none)
    (hin : st.input = publishInput K algo size created expires flags keylines rest) :
    send_key cs srv st =
      send_key_submit srv ("pgpCertID=".toList ++ K ++ ",".toList ++ base)
        (build_attrs cs [] (pubLine K algo size created expires flags))
        keylines.flatten K { st with input := rest } := by
  have h16 : ¬ K.length ≠ 16 := by simp [hK]
  unfold send_key
  rw [hin]
  unfold publishInput
  simp only [skip_to, scan_word_frameLine _ K _ hK hKs, h16, if_false, hbase, read_info,
    scan_word_pubLine, send_key_keyblock]
  rw [read_key_lines K hK hKs rest keylines [] hkey]
  simp

theorem publishAttrs_eq (cs : Bool) (K algo size created expires flags key : List Char)
    (hK : K.length = 16) (hKc : ':' ∉ K) (ha : ':' ∉ algo) (hs : ':' ∉ size)
    (hc : ':' ∉ created) (he : ':' ∉ expires) (hf : ':' ∉ flags)
    (halgo : atoi algo = 1 ∨ atoi algo = 17)
    (hsize : 0 < atoi size ∧ atoi size < 99999) (hcreated : 0 < atoi created) :
    make_one_attr
        (make_one_attr (build_attrs cs [] (pubLine K algo size created expires flags))
          "objectClass".toList "pgpKeyInfo".toList)
        "pgpKey".toList key
      = publishAttrs K (if atoi algo = 1 then "RSA".toList else "DSS/DH".toList)
          (zeroPad 5 (decimal (atoi size).toNat)) created
          (if 0 < atoi expires then some expires else none)
          (flagValue 'd' 'D' (strip_trailing (flags ++ ['\n'])))
          (flagValue 'r' 'R' (strip_trailing (flags ++ ['\n']))) key := by
  rw [build_attrs_pubLine cs K algo size created expires flags hK hKc ha hs hc he hf halgo hsize
    hcreated]
  unfold publishAttrs
  by_cases hexp : 0 < atoi expires
  · rw [if_pos hexp, if_pos hexp]
    rfl
  · rw [if_neg hexp, if_neg hexp]
    rfl

/-- The search string `get_key` formats is the filter of the spec. -/
theorem get_key_filter_spec (s : Bool) (k : List Char) :
    get_key_filter s k = getFilterSpec s k := by
  unfold get_key_filter getFilterSpec
  by_cases h16 : 16 < k.length
  · have h8 : ¬ k.length ≤ 8 := by omega
    have ht : (k.drop (k.length - 16)).take 16 = k.drop (k.length - 16) := by
      apply List.take_of_length_le
      simp
      omega
    simp only [if_pos h16, if_neg h8, ht]
  · by_cases h8 : 8 < k.length
    · have h8' : ¬ k.length ≤ 8 := by omega
      have ht : k.take 16 = k := List.take_of_length_le (by omega)
      simp only [if_neg h16, if_pos h8, if_neg h8', ht]
    · have h8' : k.length ≤ 8 := by omega
      have ht : k.take 8 = k := List.take_of_length_le h8'
      simp only [if_neg h16, if_neg h8, if_pos h8', ht]

/-- The entry loop of `get_key` makes no LDAP call but error-number queries. -/
theorem get_key_entries_calls (srv : Server) (getkey : List Char) (es : List Entry) :
    ∀ (dl : List (List Char)) (st : State),
      ∃ n, (get_key_entries srv getkey es dl st).calls
        = st.calls ++ List.replicate n LdapCall.get_errno := by
  induction es with
  | nil => intro dl st; exact ⟨0, by simp [get_key_entries]⟩
  | cons e rest ih =>
    intro dl st
    unfold get_key_entries
    cases first_value e "pgpcertid".toList with
    | none => exact ih dl st
    | some certid =>
      simp only []
      by_cases hk : key_in_keylist certid dl = true
      · rw [if_pos hk]; exact ih dl st
      · rw [if_neg hk]
        cases first_value e st.pgpkeystr with
        | none =>
          simp only []
          obtain ⟨n, hn⟩ := ih (add_key_to_keylist certid dl)
            (write_output
              ("KEY 0x".toList ++ getkey ++ " FAILED ".toList
                ++ fmt_d (ldap_to_gpg_err srv st).1 ++ "\n".toList) (ldap_to_gpg_err srv st).2)
          refine ⟨n + 1, ?_⟩
          rw [hn]
          simp [write_output, ldap_to_gpg_err, ldap_call, List.replicate_succ]
        | some blob =>
          simp only []
          obtain ⟨n, hn⟩ := ih (add_key_to_keylist certid dl)
            (write_output (blob ++ "KEY 0x".toList ++ getkey ++ " END\n".toList) st)
          exact ⟨n, by rw [hn]; rfl⟩

/-- C13: for every key that is 32 characters long after its optional leading
`0x` is removed, `get_key` writes exactly the line `KEY 0x<key> BEGIN`
followed by the line `KEY 0x<key> FAILED <not-supported>`, returns the
not-supported code, and makes no LDAP call. -/
theorem get_key_v3_fingerprint (srv : Server) (getkey : List Char) (st : State)
    (h : (strip_0x getkey).length = 32) :
    (get_key srv getkey st).1 = KEYSERVER_NOT_SUPPORTED
      ∧ (get_key srv getkey st).2.output
          = st.output ++ ("KEY 0x".toList ++ strip_0x getkey ++ " BEGIN\n".toList)
            ++ ("KEY 0x".toList ++ strip_0x getkey ++ " FAILED ".toList
              ++ fmt_d KEYSERVER_NOT_SUPPORTED ++ "\n".toList)
      ∧ (get_key srv getkey st).2.calls = st.calls := by
  unfold get_key
  simp only [if_pos h]
  exact ⟨trivial, rfl, rfl⟩

theorem get_key_v3_fingerprint_witness :
    (strip_0x "0x0123456789ABCDEF0123456789ABCDEF".toList).length = 32
      ∧ (get_key demoServer "0x0123456789ABCDEF0123456789ABCDEF".toList (State.initial [])).1
          = KEYSERVER_NOT_SUPPORTED
      ∧ (get_key demoServer "0x0123456789ABCDEF0123456789ABCDEF".toList
            (State.initial [])).2.output
          = "KEY 0x0123456789ABCDEF0123456789ABCDEF BEGIN\nKEY 0x0123456789ABCDEF0123456789ABCDEF FAILED 2\n".toList
      ∧ (get_key demoServer "0x0123456789ABCDEF0123456789ABCDEF".toList
            (State.initial [])).2.calls = [] :=
  ⟨by decide,
    get_key_v3_fingerprint demoServer "0x0123456789ABCDEF0123456789ABCDEF".toList
      (State.initial []) (by decide)⟩

/-- Every key followed by `*` is the keys joined by `*`, followed by `*`. -/
theorem flatMap_star (k : List Char) (ks : List (List Char)) :
    (k :: ks).flatMap (fun k => k ++ "*".toList) = joinTerms (k :: ks) ++ ['*'] := by
  induction ks generalizing k with
  | nil => simp [joinTerms]
  | cons k2 ks ih =>
    rw [List.flatMap_cons, ih k2]
    simp [joinTerms]

/-- The search string `main` builds is the keys joined by `*`. -/
theorem join_searchkey_eq (keylist : List (List Char)) :
    join_searchkey keylist = joinTerms keylist := by
  cases keylist with
  | nil => rfl
  | cons k ks =>
    unfold join_searchkey
    rw [flatMap_star, List.dropLast_concat]

/-- The filter `search_key` formats for the joined keys is the one of the
spec. -/
theorem search_key_filter_spec (d r : Bool) (keylist : List (List Char)) :
    search_key_filter d r (join_searchkey keylist) = searchFilterSpec d r keylist := by
  rw [join_searchkey_eq]
  cases d <;> cases r <;> simp [search_key_filter, searchFilterSpec]

/-- C16: for every key list of a search request, `main` makes exactly one
LDAP call in its dispatch, a subtree search whose filter is
`(pgpuserid=*J*)` with `J` the keys joined by `*`, followed by
`(pgpdisabled=0)` unless include-disabled is set and `(pgprevoked=0)` unless
include-revoked is set, the whole wrapped in `(&` and `)` unless both
options are set. -/
theorem search_filter_sent (b : Build) (srv : Server) (keylist : List (List Char))
    (st : State) :
    (dispatch b srv SEARCH keylist st).2.calls
      = st.calls ++ [LdapCall.search st.basekeyspacedn LDAP_SCOPE_SUBTREE
          (searchFilterSpec st.include_disabled st.include_revoked keylist) search_key_attrs] := by
  have ha : ¬ (SEARCH = GET) := by decide
  have hb : ¬ (SEARCH = SEND) := by decide
  unfold dispatch
  simp only [if_neg ha, if_neg hb, if_true]
  unfold search_key search_key_search
  simp only [← search_key_filter_spec]
  split
  · rfl
  · split
    · rfl
    · split <;> rfl

/-- The inner loop of `search_key` writes the `uid:` lines of the spec. -/
theorem search_key_uids_eq (cs : Bool) (certid : List Char) (res : List Entry) :
    search_key_uids cs certid res = uidLinesSpec cs certid res := by
  induction res with
  | nil => rfl
  | cons e rest ih =>
    unfold search_key_uids
    rw [ih]
    unfold uidLinesSpec
    rw [List.filter_cons]
    cases first_value e "pgpcertid".toList with
    | none => simp only [Bool.false_eq_true, if_false, List.nil_append]
    | some v =>
      simp only []
      by_cases hc : strcasecmp_eq certid v = true
      · rw [if_pos hc, if_pos hc, List.flatMap_cons]
        cases first_value e "pgpuserid".toList <;> rfl
      · rw [if_neg hc, if_neg hc, List.nil_append]

/-- What a successful `search_key` writes: the BEGIN line, the `info:` line
with the number of new certids, one record per new certid, the END line. -/
theorem search_key_output_eq (cs : Bool) (srv : Server) (searchkey : List Char) (st : State)
    (hok : (search_key cs srv searchkey st).1 = KEYSERVER_OK) :
    (search_key cs srv searchkey st).2.output =
      st.output ++ ("SEARCH ".toList ++ searchkey ++ " BEGIN\n".toList)
        ++ ("info:1:".toList
          ++ fmt_d (first_seen (srv st.calls (search_key_search st searchkey)).entries []).length
          ++ "\n".toList)
        ++ (first_seen (srv st.calls (search_key_search st searchkey)).entries []).flatMap
            (fun p => search_key_pub p.1 p.2
              ++ search_key_uids cs p.2 (srv st.calls (search_key_search st searchkey)).entries)
        ++ ("SEARCH ".toList ++ searchkey ++ " END\n".toList) := by
  have hfit := search_key_ok_fits cs srv searchkey st hok
  rw [← search_key_count_eq]
  simp only [search_key, ldap_call, write_output, search_key_search, if_neg hfit] at hok ⊢
  generalize hr : srv st.calls (LdapCall.search st.basekeyspacedn LDAP_SCOPE_SUBTREE
    (search_key_filter st.include_disabled st.include_revoked searchkey) search_key_attrs) = r
    at hok ⊢
  by_cases herr : r.err ≠ LDAP_SUCCESS ∧ r.err ≠ LDAP_SIZELIMIT_EXCEEDED
  · rw [if_pos herr] at hok
    exact absurd hok (ldap_err_to_gpg_err_ne_ok _)
  · rw [if_neg herr]
    by_cases hc : search_key_count r.entries [] 0 < 1
    · have h0 : search_key_count r.entries [] 0 = 0 := by omega
      have hnil : first_seen r.entries [] = [] := by
        rw [search_key_count_eq] at h0
        exact List.length_eq_zero.mp h0
      simp only [hc, if_true, hnil, h0]
      have : fmt_d ((0 : Nat) : Int) = "0".toList := by decide
      rw [this]
      simp
    · simp only [hc, if_false, search_key_records_eq]
      simp

/-- C18: for every result set, a successful `search_key` writes, for every
certid for which it writes a `pub:` line and directly after that line, one
`uid:` line per entry whose first `pgpcertid` value equals that certid
ignoring case, in the order the server returned these entries, each holding
the entry's first `pgpuserid` value escaped by `printquoted`; the next
`pub:` line or the END line follows. -/
theorem search_key_uid_lines (cs : Bool) (srv : Server) (searchkey : List Char) (st : State)
    (hok : (search_key cs srv searchkey st).1 = KEYSERVER_OK) :
    (search_key cs srv searchkey st).2.output =
      st.output ++ ("SEARCH ".toList ++ searchkey ++ " BEGIN\n".toList)
        ++ ("info:1:".toList
          ++ fmt_d (first_seen (srv st.calls (search_key_search st searchkey)).entries []).length
          ++ "\n".toList)
        ++ (first_seen (srv st.calls (search_key_search st searchkey)).entries []).flatMap
            (fun p => search_key_pub p.1 p.2
              ++ uidLinesSpec cs p.2 (srv st.calls (search_key_search st searchkey)).entries)
        ++ ("SEARCH ".toList ++ searchkey ++ " END\n".toList) := by
  rw [search_key_output_eq cs srv searchkey st hok]
  simp only [search_key_uids_eq]

theorem search_key_uid_lines_witness :
    (search_key true demoServer "alice".toList (State.initial [])).1 = KEYSERVER_OK
      ∧ (search_key true demoServer "alice".toList (State.initial [])).2.output =
        (State.initial []).output ++ ("SEARCH ".toList ++ "alice".toList ++ " BEGIN\n".toList)
          ++ ("info:1:".toList
            ++ fmt_d (first_seen (demoServer (State.initial []).calls
                (search_key_search (State.initial []) "alice".toList)).entries []).length
            ++ "\n".toList)
          ++ (first_seen (demoServer (State.initial []).calls
                (search_key_search (State.initial []) "alice".toList)).entries []).flatMap
              (fun p => search_key_pub p.1 p.2
                ++ uidLinesSpec true p.2 (demoServer (State.initial []).calls
                    (search_key_search (State.initial []) "alice".toList)).entries)
          ++ ("SEARCH ".toList ++ "alice".toList ++ " END\n".toList)
      ∧ (search_key true demoServer "alice".toList (State.initial [])).2.output =
        ("SEARCH alice BEGIN\ninfo:1:2\npub:DEADBEEFDEADBEEF:1:2048:1262304000::\n"
          ++ "uid:Alice%3aExample <a@e>\nuid:Bob\npub:AAAABEEFDEADBEEF:::::\nuid:Carol\n"
          ++ "SEARCH alice END\n").toList :=
  ⟨by decide,
    search_key_uid_lines true demoServer "alice".toList (State.initial []) (by decide),
    by decide⟩

theorem strcasecmp_eq_refl (a : List Char) : strcasecmp_eq a a = true := by
  simp [strcasecmp_eq]

/-- A number that fits 32 unsigned bits is printed by `%u` as by `%d`. -/
theorem decimal_asUnsigned (n : Int) (h : 0 ≤ n ∧ n < 4294967296) :
    decimal (asUnsigned n) = fmt_d n := by
  unfold asUnsigned fmt_d
  rw [if_neg (by omega), Int.emod_eq_of_lt h.1 h.2]

/-- A time field of a `pub:` line is the time field of the spec when the
epoch seconds of a 15-character value fit 32 unsigned bits. -/
theorem pub_time_spec (e : Entry) (attr : List Char)
    (h : ∀ v, first_value e attr = some v → v.length = 15 →
      0 ≤ ldap2epochtime v ∧ ldap2epochtime v < 4294967296) :
    pub_time e attr = timeFieldSpec (first_value e attr) := by
  unfold pub_time timeFieldSpec
  cases hv : first_value e attr with
  | none => rfl
  | some v =>
    simp only []
    by_cases hl : v.length = 15
    · rw [if_pos hl, if_pos hl, decimal_asUnsigned _ (h v hv hl)]
    · rw [if_neg hl, if_neg hl]

/-- C17 (counterexample): for a creation time before 1970, here
`19600101000000Z` whose UTC epoch seconds are -315619200, the `pub:` line
carries 3979348096, the seconds reduced to 32 unsigned bits. -/
theorem search_key_time_before_1970 :
    ldap2epochtime "19600101000000Z".toList = -315619200
      ∧ (search_key true oldKeyServer "alice".toList (State.initial [])).2.output
        = ("SEARCH alice BEGIN\ninfo:1:1\npub:DEADBEEFDEADBEEF:::3979348096::\nuid:Alice\n"
            ++ "SEARCH alice END\n").toList := by
  decide

theorem attrValues_make_one_attr_ne (l : List LDAPMod) (a v b : List Char) (h : a ≠ b) :
    attrValues (make_one_attr l a v) b = attrValues l b := by
  induction l with
  | nil =>
    have hb : (a == b) = false := by simpa using h
    simp [make_one_attr, attrValues, List.filter_cons, hb]
  | cons m ms ih =>
    unfold make_one_attr
    by_cases hm : m.mod_type = a
    · rw [if_pos hm]
      have hb : (m.mod_type == b) = false := by rw [hm]; simpa using h
      simp [attrValues, List.filter_cons, hb]
    · rw [if_neg hm]
      unfold attrValues at ih ⊢
      by_cases hb : (m.mod_type == b) = true
      · simp only [List.filter_cons, hb, if_true, List.flatMap_cons, ih]
      · have hb2 : (m.mod_type == b) = false := by simpa using hb
        simp only [List.filter_cons, hb2]
        exact ih

theorem attrValues_make_one_attr_mem (l : List LDAPMod) (a v : List Char) :
    v ∈ attrValues (make_one_attr l a v) a := by
  induction l with
  | nil => simp [make_one_attr, attrValues, List.filter_cons]
  | cons m ms ih =>
    unfold make_one_attr
    by_cases hm : m.mod_type = a
    · rw [if_pos hm]
      have hb : (m.mod_type == a) = true := by simpa using hm
      simp [attrValues, List.filter_cons, hb]
    · rw [if_neg hm]
      have hb : (m.mod_type == a) = false := by simpa using hm
      unfold attrValues at ih ⊢
      simp only [List.filter_cons, hb]
      exact ih

theorem attrValues_make_one_attr_new (l : List LDAPMod) (a v : List Char)
    (h : attrValues l a = []) : attrValues (make_one_attr l a v) a = [v] := by
  induction l with
  | nil => simp [make_one_attr, attrValues, List.filter_cons]
  | cons m ms ih =>
    unfold make_one_attr
    by_cases hm : m.mod_type = a
    · rw [if_pos hm]
      have hb : (m.mod_type == a) = true := by simpa using hm
      unfold attrValues at h ⊢
      simp only [List.filter_cons, hb, if_true, List.flatMap_cons, List.append_eq_nil] at h ⊢
      rw [h.1, h.2]
      rfl
    · rw [if_neg hm]
      have hb : (m.mod_type == a) = false := by simpa using hm
      unfold attrValues at h ih ⊢
      simp only [List.filter_cons, hb] at h ⊢
      exact ih h

/-- A text is its stripped form followed by white space. -/
theorem strip_trailing_split (t : List Char) :
    ∃ w, (∀ c ∈ w, isspace c = true) ∧ t = strip_trailing t ++ w := by
  refine ⟨(t.reverse.takeWhile ascii_isspace).reverse, ?_, ?_⟩
  · intro c hc
    exact List.mem_takeWhile_imp (List.mem_reverse.mp hc)
  · unfold strip_trailing
    rw [← List.reverse_append, List.takeWhile_append_dropWhile, List.reverse_reverse]

theorem takeWhile_append_none (p : Char → Bool) (r w : List Char)
    (hw : ∀ c ∈ w, p c = false) : (r ++ w).takeWhile p = r.takeWhile p := by
  induction r with
  | nil =>
    cases w with
    | nil => rfl
    | cons c cs => simp [List.takeWhile, hw c (List.mem_cons_self _ _)]
  | cons c cs ih =>
    rw [List.cons_append, List.takeWhile_cons, List.takeWhile_cons, ih]

theorem takeWhile_append_space (p : Char → Bool) (w : List Char)
    (hw : ∀ c ∈ w, isspace c = true) (s : List Char) :
    ∃ v, (∀ c ∈ v, isspace c = true) ∧ (s ++ w).takeWhile p = s.takeWhile p ++ v := by
  induction s with
  | nil =>
    exact ⟨w.takeWhile p, fun c hc => hw c ((List.takeWhile_sublist p).subset hc), rfl⟩
  | cons c cs ih =>
    obtain ⟨v, hv, he⟩ := ih
    by_cases hp : p c = true
    · refine ⟨v, hv, ?_⟩
      rw [List.cons_append, List.takeWhile_cons, List.takeWhile_cons, if_pos hp, if_pos hp, he]
      rfl
    · refine ⟨[], fun c hc => absurd hc (List.not_mem_nil c), ?_⟩
      rw [List.cons_append, List.takeWhile_cons, List.takeWhile_cons, if_neg hp, if_neg hp]
      rfl

/-- The first field of a line and of its stripped form differ by trailing
white space only. -/
theorem firstField_strip_trailing (t : List Char) :
    ∃ w, (∀ c ∈ w, isspace c = true) ∧ firstField t = firstField (strip_trailing t) ++ w := by
  obtain ⟨w, hw, ht⟩ := strip_trailing_split t
  obtain ⟨v, hv, he⟩ := takeWhile_append_space (fun c => c != ':') w hw (strip_trailing t)
  refine ⟨v, hv, ?_⟩
  unfold firstField
  rw [← he, ← ht]

/-- White space after a number does not change what `atoi` reads. -/
theorem atoi_append_space (s w : List Char) (hw : ∀ c ∈ w, isspace c = true) :
    atoi (s ++ w) = atoi s := by
  have hd : ∀ c ∈ w, isdigit c = false := by
    intro c hc
    cases h : isdigit c with
    | false => rfl
    | true => exact absurd (hw c hc) (by rw [isdigit_not_isspace c h]; decide)
  unfold atoi
  rw [List.dropWhile_append]
  cases hds : List.dropWhile isspace s with
  | nil =>
    have h2 : List.dropWhile isspace w = [] := by
      rw [List.dropWhile_eq_nil_iff]
      exact hw
    simp only [List.isEmpty_nil, if_true, h2]
  | cons c r =>
    simp only [List.isEmpty_cons, Bool.false_eq_true, if_false]
    by_cases hm : c = '-'
    · subst hm
      simp only [List.cons_append, signedDigits, takeWhile_append_none isdigit r w hd]
    · by_cases hp : c = '+'
      · subst hp
        simp only [List.cons_append, signedDigits, takeWhile_append_none isdigit r w hd]
      · have e1 : signedDigits (c :: r ++ w)
            = ((digitsVal ((c :: r ++ w).takeWhile isdigit) : Nat) : Int) := by
          unfold signedDigits
          split
          · rename_i h; exact absurd (List.cons.inj h).1 hm
          · rename_i h; exact absurd (List.cons.inj h).1 hp
          · rfl
        have e2 : signedDigits (c :: r)
            = ((digitsVal ((c :: r).takeWhile isdigit) : Nat) : Int) := by
          unfold signedDigits
          split
          · rename_i h; exact absurd (List.cons.inj h).1 hm
          · rename_i h; exact absurd (List.cons.inj h).1 hp
          · rfl
        rw [e1, e2, takeWhile_append_none isdigit (c :: r) w hd]

theorem build_attrs_flags_frame (m : List LDAPMod) (line : Option (List Char)) (b : List Char)
    (h1 : "pgpDisabled".toList ≠ b) (h2 : "pgpRevoked".toList ≠ b) :
    attrValues (build_attrs_flags m line) b = attrValues m b := by
  unfold build_attrs_flags
  cases strsep line ':' with
  | none => rfl
  | some p =>
    simp only []
    rw [attrValues_make_one_attr_ne _ _ _ _ h2, attrValues_make_one_attr_ne _ _ _ _ h1]

theorem build_attrs_expire_frame (m : List LDAPMod) (line : Option (List Char)) (b : List Char)
    (h0 : "pgpKeyExpireTime".toList ≠ b) (h1 : "pgpDisabled".toList ≠ b)
    (h2 : "pgpRevoked".toList ≠ b) :
    attrValues (build_attrs_expire m line) b = attrValues m b := by
  unfold build_attrs_expire
  cases strsep line ':' with
  | none => rfl
  | some p =>
    simp only []
    rw [build_attrs_flags_frame _ _ _ h1 h2]
    split
    · rw [attrValues_make_one_attr_ne _ _ _ _ h0]
    · rfl

theorem build_attrs_create_frame (m : List LDAPMod) (line : Option (List Char)) (b : List Char)
    (hc : "pgpKeyCreateTime".toList ≠ b) (h0 : "pgpKeyExpireTime".toList ≠ b)
    (h1 : "pgpDisabled".toList ≠ b) (h2 : "pgpRevoked".toList ≠ b) :
    attrValues (build_attrs_create m line) b = attrValues m b := by
  unfold build_attrs_create
  cases strsep line ':' with
  | none => rfl
  | some p =>
    simp only []
    rw [build_attrs_expire_frame _ _ _ h0 h1 h2]
    split
    · rw [attrValues_make_one_attr_ne _ _ _ _ hc]
    · rfl

/-- The attributes `build_attrs` has stored when it reaches the key-size
field of a `pub` line: pgpCertID, pgpKeyID and, for algorithm 1 or 17,
pgpKeyType. -/
theorem build_attrs_to_size (cs : Bool) (m : List LDAPMod) (K algo tail : List Char)
    (hK : K.length = 16) (hKc : ':' ∉ K) (ha : ':' ∉ algo) :
    build_attrs cs m ("pub".toList ++ ':' :: (K ++ ':' :: (algo ++ ':' :: tail)))
      = build_attrs_size
          (if atoi algo = 1 then
            make_one_attr
              (make_one_attr (make_one_attr m "pgpCertID".toList K) "pgpKeyID".toList (K.drop 8))
              "pgpKeyType".toList "RSA".toList
           else if atoi algo = 17 then
            make_one_attr
              (make_one_attr (make_one_attr m "pgpCertID".toList K) "pgpKeyID".toList (K.drop 8))
              "pgpKeyType".toList "DSS/DH".toList
           else make_one_attr (make_one_attr m "pgpCertID".toList K) "pgpKeyID".toList (K.drop 8))
          (some (strip_trailing tail)) := by
  have hsp : ascii_isspace ':' = false := by decide
  have hpub : ':' ∉ "pub".toList := by decide
  have hcmp : ascii_strcasecmp_eq "pub".toList "pub".toList = true := by decide
  unfold build_attrs
  rw [strip_trailing_after _ _ _ hsp, strip_trailing_after _ _ _ hsp,
    strip_trailing_after _ _ _ hsp, strsep_field _ _ hpub]
  simp only [hcmp, if_true]
  unfold build_attrs_pub
  rw [strsep_field _ _ hKc]
  simp only [hK, if_true]
  unfold build_attrs_algo
  rw [strsep_field _ _ ha]

/-- C11 (counterexample): a `pub:` line with a 16-character key id and key
size 100000 gives no pgpKeySize value. -/
theorem build_attrs_keysize_100000 :
    atoi (firstField "100000:1:0:\n".toList) = 100000
      ∧ attrValues
          (build_attrs true [] "pub:AAAAAAAAAAAAAAAA:1:100000:1:0:\n".toList)
          "pgpKeySize".toList = [] := by
  decide

/-- C11 (amended): for every `pub:` line with a 16-character key id whose
key-size field (the text between the third colon and the next colon or the
end of the line) reads as an integer greater than 0 and less than 99999,
`build_attrs` adds to pgpKeySize the value that is this size left-padded
with zeros to width 5; it is the only pgpKeySize value when the list held
none before. -/
theorem build_attrs_keysize (cs : Bool) (m : List LDAPMod) (K algo tail : List Char)
    (hK : K.length = 16) (hKc : ':' ∉ K) (ha : ':' ∉ algo)
    (hsize : 0 < atoi (firstField tail) ∧ atoi (firstField tail) < 99999) :
    zeroPad 5 (decimal (atoi (firstField tail)).toNat)
        ∈ attrValues
            (build_attrs cs m ("pub".toList ++ ':' :: (K ++ ':' :: (algo ++ ':' :: tail))))
            "pgpKeySize".toList
      ∧ (attrValues m "pgpKeySize".toList = [] →
          attrValues
            (build_attrs cs m ("pub".toList ++ ':' :: (K ++ ':' :: (algo ++ ':' :: tail))))
            "pgpKeySize".toList
          = [zeroPad 5 (decimal (atoi (firstField tail)).toNat)]) := by
  obtain ⟨w, hw, hf⟩ := firstField_strip_trailing tail
  have hat : atoi (firstField (strip_trailing tail)) = atoi (firstField tail) := by
    rw [hf, atoi_append_space _ _ hw]
  have hu : asUnsigned (atoi (firstField tail)) = (atoi (firstField tail)).toNat := by
    unfold asUnsigned
    rw [Int.emod_eq_of_lt (by omega) (by omega)]
  rw [build_attrs_to_size cs m K algo tail hK hKc ha]
  generalize hm2 : (if atoi algo = 1 then
            make_one_attr
              (make_one_attr (make_one_attr m "pgpCertID".toList K) "pgpKeyID".toList (K.drop 8))
              "pgpKeyType".toList "RSA".toList
           else if atoi algo = 17 then
            make_one_attr
              (make_one_attr (make_one_attr m "pgpCertID".toList K) "pgpKeyID".toList (K.drop 8))
              "pgpKeyType".toList "DSS/DH".toList
           else make_one_attr (make_one_attr m "pgpCertID".toList K) "pgpKeyID".toList (K.drop 8))
    = m2
  have hframe : attrValues m2 "pgpKeySize".toList = attrValues m "pgpKeySize".toList := by
    rw [← hm2]
    split
    · rw [attrValues_make_one_attr_ne _ _ _ _ (by decide),
        attrValues_make_one_attr_ne _ _ _ _ (by decide),
        attrValues_make_one_attr_ne _ _ _ _ (by decide)]
    · split
      · rw [attrValues_make_one_attr_ne _ _ _ _ (by decide),
          attrValues_make_one_attr_ne _ _ _ _ (by decide),
          attrValues_make_one_attr_ne _ _ _ _ (by decide)]
      · rw [attrValues_make_one_attr_ne _ _ _ _ (by decide),
          attrValues_make_one_attr_ne _ _ _ _ (by decide)]
  have hstep : build_attrs_size m2 (some (strip_trailing tail))
      = build_attrs_create
          (make_one_attr m2 "pgpKeySize".toList
            (zeroPad 5 (decimal (atoi (firstField tail)).toNat)))
          (if (strip_trailing tail).contains ':' then
            some ((strip_trailing tail).drop ((firstField (strip_trailing tail)).length + 1))
           else none) := by
    unfold build_attrs_size strsep
    simp only []
    have : (List.takeWhile (fun c => c != ':') (strip_trailing tail))
        = firstField (strip_trailing tail) := rfl
    rw [this, hat, if_pos hsize, hu]
  rw [hstep,
    build_attrs_create_frame _ _ _ (by decide) (by decide) (by decide) (by decide)]
  refine ⟨attrValues_make_one_attr_mem _ _ _, fun h0 => ?_⟩
  exact attrValues_make_one_attr_new _ _ _ (by rw [hframe]; exact h0)

theorem build_attrs_keysize_witness :
    "02048".toList
        ∈ attrValues (build_attrs true [] "pub:AAAAAAAAAAAAAAAA:17:2048:1:0:\n".toList)
            "pgpKeySize".toList
      ∧ (attrValues [] "pgpKeySize".toList = [] →
          attrValues (build_attrs true [] "pub:AAAAAAAAAAAAAAAA:17:2048:1:0:\n".toList)
            "pgpKeySize".toList
          = ["02048".toList]) :=
  build_attrs_keysize true [] "AAAAAAAAAAAAAAAA".toList "17".toList "2048:1:0:\n".toList
    (by decide) (by decide) (by decide) (by decide)

theorem attrValues_ite_ne (c : Prop) [Decidable c] (l : List LDAPMod) (a v b : List Char)
    (h : a ≠ b) : attrValues (if c then make_one_attr l a v else l) b = attrValues l b := by
  split
  · exact attrValues_make_one_attr_ne _ _ _ _ h
  · rfl

/-- A test that fails on white space finds in a text followed by white space
what it finds in the text. -/
theorem any_append_space (q : Char → Bool) (hq : ∀ c, isspace c = true → q c = false)
    (s w : List Char) (hw : ∀ c ∈ w, isspace c = true) : (s ++ w).any q = s.any q := by
  have h0 : w.any q = false := by
    rw [List.any_eq_false]
    intro c hc
    rw [hq c (hw c hc)]
    decide
  rw [List.any_append, h0, Bool.or_false]

/-- The attributes stored when `build_attrs` reaches the flags field of a
`pub` line leave pgpDisabled and pgpRevoked as they were. -/
theorem build_attrs_to_flags (cs : Bool) (m : List LDAPMod)
    (K algo size created expires tail : List Char)
    (hK : K.length = 16) (hKc : ':' ∉ K) (ha : ':' ∉ algo) (hs : ':' ∉ size)
    (hc : ':' ∉ created) (he : ':' ∉ expires) :
    ∃ m5, attrValues m5 "pgpDisabled".toList = attrValues m "pgpDisabled".toList
      ∧ attrValues m5 "pgpRevoked".toList = attrValues m "pgpRevoked".toList
      ∧ build_attrs cs m (pubLineTail K algo size created expires tail)
          = build_attrs_flags m5 (some (strip_trailing tail)) := by
  have hsp : ascii_isspace ':' = false := by decide
  unfold pubLineTail
  rw [build_attrs_to_size cs m K algo _ hK hKc ha]
  rw [strip_trailing_after _ _ _ hsp, strip_trailing_after _ _ _ hsp,
    strip_trailing_after _ _ _ hsp]
  unfold build_attrs_size
  rw [strsep_field _ _ hs]
  simp only []
  unfold build_attrs_create
  rw [strsep_field _ _ hc]
  simp only []
  unfold build_attrs_expire
  rw [strsep_field _ _ he]
  simp only []
  refine ⟨_, ?_, ?_, rfl⟩
  · rw [attrValues_ite_ne _ _ _ _ _ (by decide), attrValues_ite_ne _ _ _ _ _ (by decide),
      attrValues_ite_ne _ _ _ _ _ (by decide)]
    split
    · rw [attrValues_make_one_attr_ne _ _ _ _ (by decide),
        attrValues_make_one_attr_ne _ _ _ _ (by decide),
        attrValues_make_one_attr_ne _ _ _ _ (by decide)]
    · split
      · rw [attrValues_make_one_attr_ne _ _ _ _ (by decide),
          attrValues_make_one_attr_ne _ _ _ _ (by decide),
          attrValues_make_one_attr_ne _ _ _ _ (by decide)]
      · rw [attrValues_make_one_attr_ne _ _ _ _ (by decide),
          attrValues_make_one_attr_ne _ _ _ _ (by decide)]
  · rw [attrValues_ite_ne _ _ _ _ _ (by decide), attrValues_ite_ne _ _ _ _ _ (by decide),
      attrValues_ite_ne _ _ _ _ _ (by decide)]
    split
    · rw [attrValues_make_one_attr_ne _ _ _ _ (by decide),
        attrValues_make_one_attr_ne _ _ _ _ (by decide),
        attrValues_make_one_attr_ne _ _ _ _ (by decide)]
    · split
      · rw [attrValues_make_one_attr_ne _ _ _ _ (by decide),
          attrValues_make_one_attr_ne _ _ _ _ (by decide),
          attrValues_make_one_attr_ne _ _ _ _ (by decide)]
      · rw [attrValues_make_one_attr_ne _ _ _ _ (by decide),
          attrValues_make_one_attr_ne _ _ _ _ (by decide)]

/-- The flags stage stores the pgpDisabled and pgpRevoked values of the
flags field of the line before stripping. -/
theorem build_attrs_flags_values (m5 : List LDAPMod) (tail : List Char) :
    build_attrs_flags m5 (some (strip_trailing tail))
      = make_one_attr
          (make_one_attr m5 "pgpDisabled".toList (flagValue 'd' 'D' (firstField tail)))
          "pgpRevoked".toList (flagValue 'r' 'R' (firstField tail)) := by
  obtain ⟨w, hw, hf⟩ := firstField_strip_trailing tail
  have hd : (firstField tail).any (fun c => c == 'd' || c == 'D')
      = (firstField (strip_trailing tail)).any (fun c => c == 'd' || c == 'D') := by
    rw [hf]
    apply any_append_space _ _ _ _ hw
    intro c hc
    simp only [isspace, Bool.or_eq_true, beq_iff_eq] at hc
    rcases hc with ((((hc | hc) | hc) | hc) | hc) | hc <;> subst hc <;> decide
  have hr : (firstField tail).any (fun c => c == 'r' || c == 'R')
      = (firstField (strip_trailing tail)).any (fun c => c == 'r' || c == 'R') := by
    rw [hf]
    apply any_append_space _ _ _ _ hw
    intro c hc
    simp only [isspace, Bool.or_eq_true, beq_iff_eq] at hc
    rcases hc with ((((hc | hc) | hc) | hc) | hc) | hc <;> subst hc <;> decide
  unfold build_attrs_flags strsep flagValue
  simp only []
  rw [hd, hr]
  rfl

/-- C12 (counterexample): a `pub:` line with a 16-character key id that ends
after the expiration field gets its pgpCertID but neither a pgpDisabled nor a
pgpRevoked value. -/
theorem build_attrs_no_flags_field :
    attrValues (build_attrs true [] "pub:AAAAAAAAAAAAAAAA:1:2048:1:0\n".toList)
        "pgpCertID".toList = ["AAAAAAAAAAAAAAAA".toList]
      ∧ attrValues (build_attrs true [] "pub:AAAAAAAAAAAAAAAA:1:2048:1:0\n".toList)
        "pgpDisabled".toList = []
      ∧ attrValues (build_attrs true [] "pub:AAAAAAAAAAAAAAAA:1:2048:1:0\n".toList)
        "pgpRevoked".toList = [] := by
  decide

/-- C12 (amended): for every `pub:` line with a 16-character key id that has
a flags field (six colon-ended fields, then the flags up to the next colon
or the end of the line), `build_attrs` adds a pgpDisabled and a pgpRevoked
value: pgpRevoked is `1` when the flags field contains `r` or `R` and `0`
otherwise, pgpDisabled is `1` when it contains `d` or `D` and `0` otherwise;
each is the only value of its attribute when the list held none before. -/
theorem build_attrs_disabled_revoked (cs : Bool) (m : List LDAPMod)
    (K algo size created expires tail : List Char)
    (hK : K.length = 16) (hKc : ':' ∉ K) (ha : ':' ∉ algo) (hs : ':' ∉ size)
    (hc : ':' ∉ created) (he : ':' ∉ expires) :
    (if (firstField tail).any (fun c => c == 'd' || c == 'D') then "1".toList else "0".toList)
        ∈ attrValues (build_attrs cs m (pubLineTail K algo size created expires tail))
            "pgpDisabled".toList
      ∧ (if (firstField tail).any (fun c => c == 'r' || c == 'R') then "1".toList
          else "0".toList)
        ∈ attrValues (build_attrs cs m (pubLineTail K algo size created expires tail))
            "pgpRevoked".toList
      ∧ (attrValues m "pgpDisabled".toList = [] →
          attrValues (build_attrs cs m (pubLineTail K algo size created expires tail))
            "pgpDisabled".toList
          = [if (firstField tail).any (fun c => c == 'd' || c == 'D') then "1".toList
              else "0".toList])
      ∧ (attrValues m "pgpRevoked".toList = [] →
          attrValues (build_attrs cs m (pubLineTail K algo size created expires tail))
            "pgpRevoked".toList
          = [if (firstField tail).any (fun c => c == 'r' || c == 'R') then "1".toList
              else "0".toList]) := by
  obtain ⟨m5, hD, hR, hb⟩ := build_attrs_to_flags cs m K algo size created expires tail
    hK hKc ha hs hc he
  rw [hb, build_attrs_flags_values]
  have hDR : "pgpDisabled".toList ≠ "pgpRevoked".toList := by decide
  have hRD : "pgpRevoked".toList ≠ "pgpDisabled".toList := by decide
  refine ⟨?_, ?_, ?_, ?_⟩
  · rw [attrValues_make_one_attr_ne _ _ _ _ hRD]
    exact attrValues_make_one_attr_mem _ _ _
  · exact attrValues_make_one_attr_mem _ _ _
  · intro h0
    rw [attrValues_make_one_attr_ne _ _ _ _ hRD]
    exact attrValues_make_one_attr_new _ _ _ (by rw [hD]; exact h0)
  · intro h0
    apply attrValues_make_one_attr_new
    rw [attrValues_make_one_attr_ne _ _ _ _ hDR, hR]
    exact h0

theorem build_attrs_disabled_revoked_witness :
    "0".toList
        ∈ attrValues (build_attrs true [] "pub:AAAAAAAAAAAAAAAA:1:2048:1:0:xR\n".toList)
            "pgpDisabled".toList
      ∧ "1".toList
        ∈ attrValues (build_attrs true [] "pub:AAAAAAAAAAAAAAAA:1:2048:1:0:xR\n".toList)
            "pgpRevoked".toList
      ∧ (attrValues [] "pgpDisabled".toList = [] →
          attrValues (build_attrs true [] "pub:AAAAAAAAAAAAAAAA:1:2048:1:0:xR\n".toList)
            "pgpDisabled".toList
          = ["0".toList])
      ∧ (attrValues [] "pgpRevoked".toList = [] →
          attrValues (build_attrs true [] "pub:AAAAAAAAAAAAAAAA:1:2048:1:0:xR\n".toList)
            "pgpRevoked".toList
          = ["1".toList]) :=
  build_attrs_disabled_revoked true [] "AAAAAAAAAAAAAAAA".toList "1".toList "2048".toList
    "1".toList "0".toList "xR\n".toList (by decide) (by decide) (by decide) (by decide)
    (by decide) (by decide)

theorem get_key_entries_output (srv : Server) (getkey : List Char) (es : List Entry) :
    ∀ (dl : List (List Char)) (st : State),
      st.output <+: (get_key_entries srv getkey es dl st).output := by
  induction es with
  | nil => intro dl st; exact List.prefix_refl _
  | cons e rest ih =>
    intro dl st
    unfold get_key_entries
    cases first_value e "pgpcertid".toList with
    | none => exact ih dl st
    | some certid =>
      simp only []
      by_cases hk : key_in_keylist certid dl = true
      · rw [if_pos hk]; exact ih dl st
      · rw [if_neg hk]
        cases first_value e st.pgpkeystr with
        | none =>
          simp only []
          refine List.IsPrefix.trans ?_ (ih _ _)
          exact List.prefix_append _ _
        | some blob =>
          simp only []
          refine List.IsPrefix.trans ?_ (ih _ _)
          exact List.prefix_append _ _

theorem get_key_output (srv : Server) (getkey : List Char) (st : State) :
    st.output <+: (get_key srv getkey st).2.output := by
  unfold get_key
  simp only []
  split
  · simp [write_output]
  · split
    · simp [write_output, ldap_call]
    · split
      · simp [write_output, ldap_call]
      · refine List.IsPrefix.trans ?_ (get_key_entries_output _ _ _ _ _)
        simp [write_output, ldap_call]

theorem get_loop_output (srv : Server) (keys : List (List Char)) :
    ∀ (failed : Nat) (st : State), st.output <+: (get_loop srv keys failed st).2.output := by
  induction keys with
  | nil => intro failed st; exact List.prefix_refl _
  | cons k rest ih =>
    intro failed st
    unfold get_loop
    exact List.IsPrefix.trans (get_key_output srv k st) (ih _ _)

theorem search_key_output_prefix (cs : Bool) (srv : Server) (searchkey : List Char)
    (st : State) : st.output <+: (search_key cs srv searchkey st).2.output := by
  unfold search_key
  simp only []
  split
  · simp [write_output, ldap_call]
  · split
    · simp [write_output, ldap_call]
    · split <;> simp [write_output, ldap_call]

theorem send_key_fail_output (ret : Int) (begin : Bool) (keyid : List Char) (eof : Bool)
    (st : State) : st.output <+: (send_key_fail ret begin keyid eof st).st.output := by
  unfold send_key_fail
  simp only []
  split
  · exact List.prefix_append _ _
  · exact List.prefix_refl _

theorem prefix_ite_send (c : Prop) [Decidable c] (a : List Char) (x y : SendResult)
    (hx : a <+: x.st.output) (hy : a <+: y.st.output) :
    a <+: (if c then x else y).st.output := by
  split <;> assumption

theorem send_key_submit_output (srv : Server) (dn : List Char) (m : List LDAPMod)
    (key keyid : List Char) (st : State) :
    st.output <+: (send_key_submit srv dn m key keyid st).st.output := by
  unfold send_key_submit
  simp only []
  apply prefix_ite_send
  · refine List.IsPrefix.trans ?_ (send_key_fail_output _ _ _ _ _)
    split <;> exact List.prefix_refl _
  · refine List.IsPrefix.trans ?_ (send_key_fail_output _ _ _ _ _)
    split <;> exact List.prefix_refl _

theorem send_key_keyblock_output (srv : Server) (dn : List Char) (m : List LDAPMod)
    (keyid : List Char) (st : State) :
    st.output <+: (send_key_keyblock srv dn m keyid st).st.output := by
  unfold send_key_keyblock
  split
  · exact (by
      refine List.IsPrefix.trans ?_ (send_key_fail_output _ _ _ _ _)
      exact List.prefix_refl _)
  · split
    · exact (by
      refine List.IsPrefix.trans ?_ (send_key_fail_output _ _ _ _ _)
      exact List.prefix_refl _)
    · exact (by
      refine List.IsPrefix.trans ?_ (send_key_submit_output _ _ _ _ _ _)
      exact List.prefix_refl _)

theorem send_key_output (cs : Bool) (srv : Server) (st : State) :
    st.output <+: (send_key cs srv st).st.output := by
  unfold send_key
  split
  · exact (by
      refine List.IsPrefix.trans ?_ (send_key_fail_output _ _ _ _ _)
      exact List.prefix_refl _)
  · split
    · exact (by
      refine List.IsPrefix.trans ?_ (send_key_fail_output _ _ _ _ _)
      exact List.prefix_refl _)
    · split
      · exact List.prefix_refl _
      · split
        · exact (by
      refine List.IsPrefix.trans ?_ (send_key_fail_output _ _ _ _ _)
      exact List.prefix_refl _)
        · exact (by
      refine List.IsPrefix.trans ?_ (send_key_keyblock_output _ _ _ _ _)
      exact List.prefix_refl _)

theorem send_key_keyserver_output (srv : Server) (st : State) :
    st.output <+: (send_key_keyserver srv st).st.output := by
  unfold send_key_keyserver
  split
  · exact List.prefix_refl _
  · simp only []
    have h : ∀ r : SendResult,
        (if r.ret = KEYSERVER_KEY_EXISTS then { r with ret := KEYSERVER_OK } else r).st
          = r.st := by
      intro r; split <;> rfl
    rw [h]
    split
    · exact (by
      refine List.IsPrefix.trans ?_ (send_key_fail_output _ _ _ _ _)
      exact List.prefix_refl _)
    · split
      · exact (by
      refine List.IsPrefix.trans ?_ (send_key_fail_output _ _ _ _ _)
      exact List.prefix_refl _)
      · split
        · exact (by
      refine List.IsPrefix.trans ?_ (send_key_fail_output _ _ _ _ _)
      exact List.prefix_refl _)
        · exact (by
      refine List.IsPrefix.trans ?_ (send_key_fail_output _ _ _ _ _)
      exact List.prefix_refl _)

theorem send_loop_output (b : Build) (srv : Server) (fuel : Nat) :
    ∀ (failed : Nat) (st : State), st.output <+: (send_loop b srv fuel failed st).2.output := by
  induction fuel with
  | zero => intro failed st; exact List.prefix_refl _
  | succ n ih =>
    intro failed st
    unfold send_loop
    simp only []
    have hr : st.output <+:
        (if st.real_ldap then send_key b.charSigned srv st
          else send_key_keyserver srv st).st.output := by
      split
      · exact send_key_output _ _ _
      · exact send_key_keyserver_output _ _
    generalize (if st.real_ldap then send_key b.charSigned srv st
      else send_key_keyserver srv st) = R at hr ⊢
    split
    · exact hr
    · exact List.IsPrefix.trans hr (ih _ _)

theorem fail_all_output (keylist : List (List Char)) (action err : Int) (st : State) :
    st.output <+: (fail_all keylist action err st).output := by
  unfold fail_all
  split
  · exact List.prefix_refl _
  · split <;> exact List.prefix_append _ _

theorem find_in_contexts_output (srv : Server) (ctxs : List (List Char)) :
    ∀ st : State, (find_in_contexts srv ctxs st).2.output = st.output := by
  induction ctxs with
  | nil => intro st; rfl
  | cons c rest ih =>
    intro st
    unfold find_in_contexts
    split
    · rfl
    · simp only []
      split
      · rfl
      · rw [ih]
        split <;> rfl

theorem find_basekeyspacedn_output (srv : Server) (st : State) :
    (find_basekeyspacedn srv st).2.output = st.output := by
  unfold find_basekeyspacedn
  simp only []
  split
  · split
    · rfl
    · rw [find_in_contexts_output]; rfl
  · split
    · rfl
    · simp only []
      split <;> split <;> (try split) <;> rfl

theorem dispatch_output (b : Build) (srv : Server) (action : Int) (keylist : List (List Char))
    (st : State) : st.output <+: (dispatch b srv action keylist st).2.output := by
  unfold dispatch
  split
  · exact get_loop_output _ _ _ _
  · split
    · exact send_loop_output _ _ _ _ _
    · split
      · exact search_key_output_prefix _ _ _ _
      · exact List.prefix_refl _
theorem main_connect_output (b : Build) (srv : Server) (loc : Locals)
    (keylist : List (List Char)) (st : State) :
    st.output <+: (main_connect b srv loc keylist st).st.output := by
  unfold main_connect
  simp only []
  split
  · refine List.IsPrefix.trans ?_ (fail_all_output _ _ _ _)
    exact List.prefix_refl _
  · split
    · rename_i e st1 heq
      have h1 : st1.output = st.output := by
        have h := congrArg (fun x => x.2.output) heq
        simp only [] at h
        rw [← h]
        split <;> (try split) <;> (try split) <;> rfl
      refine List.IsPrefix.trans ?_ (fail_all_output _ _ _ _)
      rw [h1]
    · rename_i st1 heq
      have h1 : st1.output = st.output := by
        have h := congrArg (fun x => x.2.output) heq
        simp only [] at h
        rw [← h]
        split <;> (try split) <;> (try split) <;> rfl
      split
      · refine List.IsPrefix.trans ?_ (fail_all_output _ _ _ _)
        rw [find_basekeyspacedn_output, h1]
      · split
        · rename_i e st2 heq2
          have h2 : st2.output = st.output := by
            have h := congrArg (fun x => x.2.output) heq2
            simp only [] at h
            rw [← h, ← h1, ← find_basekeyspacedn_output srv st1]
            split <;> (try split) <;> (try split) <;> (try split) <;> rfl
          refine List.IsPrefix.trans ?_ (fail_all_output _ _ _ _)
          rw [h2]
        · rename_i st2 heq2
          have h2 : st2.output = st.output := by
            have h := congrArg (fun x => x.2.output) heq2
            simp only [] at h
            rw [← h, ← h1, ← find_basekeyspacedn_output srv st1]
            split <;> (try split) <;> (try split) <;> (try split) <;> rfl
          split
          · refine List.IsPrefix.trans ?_ (fail_all_output _ _ _ _)
            show st.output <+: st2.output
            rw [h2]
          · simp only []
            refine List.IsPrefix.trans ?_ (dispatch_output _ _ _ _ _)
            show st.output <+: st2.output
            rw [h2]

theorem streams_ite (st : State) (c : Prop) [Decidable c] (x y : Locals × State)
    (hx : x.2.output = st.output ∧ x.2.calls = st.calls)
    (hy : y.2.output = st.output ∧ y.2.calls = st.calls) :
    (if c then x else y).2.output = st.output ∧ (if c then x else y).2.calls = st.calls := by
  split <;> assumption

theorem parse_option_streams (o : List Char) (loc : Locals) (st : State) :
    (parse_option o loc st).2.output = st.output
      ∧ (parse_option o loc st).2.calls = st.calls := by
  unfold parse_option
  simp only []
  repeat (first | exact ⟨rfl, rfl⟩ | apply streams_ite)

/-- A header line changes neither the output nor the LDAP trace. -/
theorem header_line_streams (b : Build) (line : List Char) (loc : Locals) (st : State)
    (p : Locals × State) (h : header_line b line loc st = some p) :
    p.2.output = st.output ∧ p.2.calls = st.calls := by
  unfold header_line at h
  split at h
  · cases h; exact ⟨rfl, rfl⟩
  · split at h
    · cases h; exact ⟨rfl, rfl⟩
    · split at h
      · cases h; exact ⟨rfl, rfl⟩
      · split at h
        · cases h; exact ⟨rfl, rfl⟩
        · split at h
          · split at h
            · cases h
            · cases h; exact ⟨rfl, rfl⟩
          · split at h
            · cases h; exact parse_option_streams _ _ _
            · cases h; exact ⟨rfl, rfl⟩

/-- The header loop changes neither the output nor the LDAP trace. -/
theorem parse_header_streams (b : Build) (lines : List (List Char)) :
    ∀ (loc : Locals) (st : State),
      (parse_header b lines loc st).2.2.output = st.output
        ∧ (parse_header b lines loc st).2.2.calls = st.calls := by
  induction lines with
  | nil => intro loc st; exact ⟨rfl, rfl⟩
  | cons line rest ih =>
    intro loc st
    unfold parse_header
    split
    · exact ⟨rfl, rfl⟩
    · split
      · exact ih loc st
      · cases hl : header_line b line loc st with
        | none => exact ⟨rfl, rfl⟩
        | some p =>
          simp only []
          obtain ⟨h1, h2⟩ := header_line_streams b line loc st p hl
          obtain ⟨i1, i2⟩ := ih p.1 p.2
          exact ⟨i1.trans h1, i2.trans h2⟩

/-- A header loop left at the blank separator was not left at a VERSION
mismatch. -/
theorem header_reaches_blank_flag (b : Build) (lines : List (List Char)) :
    ∀ (loc : Locals) (st : State), header_reaches_blank b lines loc st = true →
      (parse_header b lines loc st).1 = false := by
  induction lines with
  | nil => intro loc st _; rfl
  | cons line rest ih =>
    intro loc st h
    unfold header_reaches_blank at h
    unfold parse_header
    split
    · rfl
    · rename_i h1
      rw [if_neg h1] at h
      split
      · rename_i h2
        rw [if_pos h2] at h
        exact ih loc st h
      · rename_i h2
        rw [if_neg h2] at h
        cases hl : header_line b line loc st with
        | none => rw [hl] at h; exact absurd h Bool.false_ne_true
        | some p =>
          rw [hl] at h
          exact ih p.1 p.2 h

/-- C19 (counterexample): a header that reaches the blank separator without
a COMMAND line makes `main` write nothing. -/
theorem main_no_command_no_preamble :
    header_reaches_blank demoBuild (input_lines "HOST h\n\n".toList) Locals.initial
        (State.initial (input_lines "HOST h\n\n".toList)) = true
      ∧ (main demoBuild okServer "HOST h\n\n".toList).st.output = []
      ∧ (main demoBuild okServer "HOST h\n\n".toList).ret = some KEYSERVER_INTERNAL_ERROR := by
  decide

/-- C19 (amended): for every input in which header parsing reaches the blank
separator line and the header selected a command (get, send or search), the
bytes `main` writes to the output stream begin with
`VERSION <KEYSERVER_PROTO_VERSION>\nPROGRAM <VERSION>\n\n`. -/
theorem main_output_preamble (b : Build) (srv : Server) (stream : List Char)
    (hblank : header_reaches_blank b (input_lines stream) Locals.initial
      (State.initial (input_lines stream)) = true)
    (hcmd : (main_header b stream).2.1.action = GET
      ∨ (main_header b stream).2.1.action = SEND
      ∨ (main_header b stream).2.1.action = SEARCH) :
    ("VERSION ".toList ++ fmt_d b.proto_version ++ "\nPROGRAM ".toList ++ b.version
        ++ "\n\n".toList) <+: (main b srv stream).st.output := by
  have hflag : (main_header b stream).1 = false :=
    header_reaches_blank_flag b _ _ _ hblank
  have hout : (main_header b stream).2.2.output = [] :=
    (parse_header_streams b _ _ _).1
  unfold main main_request
  generalize (main_header b stream) = H at hflag hout hcmd ⊢
  obtain ⟨flag, loc, st1⟩ := H
  simp only [] at hflag hout hcmd ⊢
  subst hflag
  simp only [Bool.false_eq_true, if_false]
  split
  · refine List.IsPrefix.trans ?_ (main_connect_output _ _ _ _ _)
    simp [write_output, hout]
  · split
    · refine List.IsPrefix.trans ?_ (main_connect_output _ _ _ _ _)
      simp [write_output, hout]
    · rename_i h1 h2
      rcases hcmd with h | h | h
      · exact absurd (Or.inl h) h2
      · exact absurd h h1
      · exact absurd (Or.inr h) h2

theorem main_output_preamble_witness :
    "VERSION 1\nPROGRAM 1.4\n\n".toList
      <+: (main demoBuild demoServer "COMMAND search\nHOST h\n\nalice\n".toList).st.output :=
  main_output_preamble demoBuild demoServer "COMMAND search\nHOST h\n\nalice\n".toList
    (by decide) (by decide)

/-- A line on which `sscanf(line,"VERSION %d\n",&version)` reads a number
other than the protocol version sends the header loop to `fail`. -/
theorem header_line_version (b : Build) (vline : List Char) (n : Int) (loc : Locals)
    (st : State) (hv : scan_number "VERSION".toList vline = some n)
    (hn : n ≠ b.proto_version) :
    vline.head? = some 'V' ∧ header_line b vline loc st = none := by
  have hp : "VERSION".toList.isPrefixOf vline = true := by
    unfold scan_number at hv
    by_cases h : "VERSION".toList.isPrefixOf vline = true
    · exact h
    · rw [if_neg h] at hv
      exact Option.noConfusion hv
  obtain ⟨t, ht⟩ := List.isPrefixOf_iff_prefix.mp hp
  subst ht
  refine ⟨rfl, ?_⟩
  have h1 : scan_word "COMMAND".toList 6 ("VERSION".toList ++ t) = none := rfl
  have h2 : scan_word "HOST".toList 79 ("VERSION".toList ++ t) = none := rfl
  have h3 : scan_word "PORT".toList 9 ("VERSION".toList ++ t) = none := rfl
  have h4 : scan_word "SCHEME".toList 79 ("VERSION".toList ++ t) = none := rfl
  unfold header_line
  simp only [h1, h2, h3, h4, hv]
  rw [if_pos hn]

/-- A header loop that meets a VERSION mismatch before any blank line is
left by `goto fail`. -/
theorem parse_header_version (b : Build) (vline : List Char) (post : List (List Char))
    (n : Int) (hv : scan_number "VERSION".toList vline = some n) (hn : n ≠ b.proto_version)
    (pre : List (List Char)) :
    ∀ (loc : Locals) (st : State), (∀ l ∈ pre, l.head? ≠ some '\n') →
      (parse_header b (pre ++ vline :: post) loc st).1 = true := by
  induction pre with
  | nil =>
    intro loc st _
    obtain ⟨hh, hl⟩ := header_line_version b vline n loc st hv hn
    rw [List.nil_append]
    unfold parse_header
    rw [hh, hl]
    rfl
  | cons l pre ih =>
    intro loc st hpre
    have hl : l.head? ≠ some '\n' := hpre l (List.mem_cons_self _ _)
    have hrest : ∀ x ∈ pre, x.head? ≠ some '\n' := fun x hx =>
      hpre x (List.mem_cons_of_mem _ hx)
    rw [List.cons_append]
    unfold parse_header
    rw [if_neg hl]
    split
    · exact ih loc st hrest
    · cases header_line b l loc st with
      | none => rfl
      | some p => exact ih p.1 p.2 hrest

theorem send_key_fail_calls (ret : Int) (begin : Bool) (keyid : List Char) (eof : Bool)
    (st : State) : (send_key_fail ret begin keyid eof st).st.calls = st.calls := by
  unfold send_key_fail
  simp only []
  split <;> rfl

theorem send_result_ite_calls (c : Prop) [Decidable c] (a b : SendResult) (l : List LdapCall)
    (ha : a.st.calls = l) (hb : b.st.calls = l) : (if c then a else b).st.calls = l := by
  split <;> assumption

/-- The LDAP calls of the end of `send_key`: one add, followed by one modify
of the same DN and list exactly when the add answers `LDAP_ALREADY_EXISTS`;
a successful modify gives the result ok and leaves the output as it was. -/
theorem send_key_submit_trace (srv : Server) (dn : List Char) (m0 : List LDAPMod)
    (key keyid : List Char) (st : State) :
    ∃ m : List LDAPMod,
      ((srv st.calls (LdapCall.add dn m)).err ≠ LDAP_ALREADY_EXISTS
        ∧ (send_key_submit srv dn m0 key keyid st).st.calls = st.calls ++ [LdapCall.add dn m])
      ∨ ((srv st.calls (LdapCall.add dn m)).err = LDAP_ALREADY_EXISTS
        ∧ (send_key_submit srv dn m0 key keyid st).st.calls
            = st.calls ++ [LdapCall.add dn m, LdapCall.modify dn m]
        ∧ ((srv (st.calls ++ [LdapCall.add dn m]) (LdapCall.modify dn m)).err = LDAP_SUCCESS →
            (send_key_submit srv dn m0 key keyid st).ret = KEYSERVER_OK
              ∧ (send_key_submit srv dn m0 key keyid st).st.output = st.output)) := by
  refine ⟨make_one_attr (make_one_attr m0 "objectClass".toList "pgpKeyInfo".toList)
    "pgpKey".toList key, ?_⟩
  unfold send_key_submit
  simp only [ldap_call]
  by_cases hae : (srv st.calls (LdapCall.add dn
      (make_one_attr (make_one_attr m0 "objectClass".toList "pgpKeyInfo".toList)
        "pgpKey".toList key))).err = LDAP_ALREADY_EXISTS
  · refine Or.inr ⟨hae, ?_, ?_⟩
    · simp only [hae, if_true]
      apply send_result_ite_calls
      · rw [send_key_fail_calls]
        simp [write_printed]
      · rw [send_key_fail_calls]
        simp
    · intro hok
      simp only [hae, if_true, hok, ne_eq, not_true_eq_false, if_false]
      exact ⟨rfl, rfl⟩
  · refine Or.inl ⟨hae, ?_⟩
    simp only [hae, if_false]
    apply send_result_ite_calls
    · rw [send_key_fail_calls]
      rfl
    · rw [send_key_fail_calls]

/-- Scenario S5 on a concrete run: the add answers `LDAP_ALREADY_EXISTS`, the
modify repeats DN and list, the result is ok and nothing is written. -/
theorem send_key_s5_run :
    (send_key true existsServer { s4State with real_ldap := true }).ret = KEYSERVER_OK
      ∧ (send_key true existsServer { s4State with real_ldap := true }).st.output = []
      ∧ (send_key true existsServer { s4State with real_ldap := true }).st.calls
        = [LdapCall.add "pgpCertID=AAAAAAAAAAAAAAAA,OU=X".toList
            (publishAttrs "AAAAAAAAAAAAAAAA".toList "DSS/DH".toList "02048".toList "1".toList
              none "0".toList "0".toList "-----BEGIN PGP PUBLIC KEY BLOCK-----\n".toList),
           LdapCall.modify "pgpCertID=AAAAAAAAAAAAAAAA,OU=X".toList
            (publishAttrs "AAAAAAAAAAAAAAAA".toList "DSS/DH".toList "02048".toList "1".toList
              none "0".toList "0".toList "-----BEGIN PGP PUBLIC KEY BLOCK-----\n".toList)] := by
  decide

/-- C27 (counterexample): the add of a legacy publish answers
`LDAP_ALREADY_EXISTS`; `send_key_keyserver` returns ok, and the output
carries the record `KEY AAAAAAAAAAAAAAAA FAILED 7`. -/
theorem send_key_keyserver_failed_record :
    (send_key_keyserver existsServer s6State).ret = KEYSERVER_OK
      ∧ (send_key_keyserver existsServer s6State).st.calls
        = [LdapCall.add "pgpCertid=virtual,OU=X".toList
            [⟨LDAP_MOD_ADD, "pgpKeyV2".toList,
              ["-----BEGIN PGP PUBLIC KEY BLOCK-----\n".toList]⟩]]
      ∧ (send_key_keyserver existsServer s6State).st.output
        = "KEY AAAAAAAAAAAAAAAA FAILED 7\n".toList := by
  decide

/-- C27 (amended): when the add issued by `send_key_keyserver` answers
`LDAP_ALREADY_EXISTS`, the publish is not fatal: `send_key_keyserver`
returns ok, and it writes the record `KEY <keyid> FAILED <key-exists>` to
the output. -/
theorem send_key_keyserver_exists (srv : Server) (st : State) (dn : List Char)
    (m : List LDAPMod)
    (hcall : (send_key_keyserver srv st).st.calls = st.calls ++ [LdapCall.add dn m])
    (hae : (srv st.calls (LdapCall.add dn m)).err = LDAP_ALREADY_EXISTS) :
    (send_key_keyserver srv st).ret = KEYSERVER_OK
      ∧ ∃ keyid : List Char, (send_key_keyserver srv st).st.output
          = st.output ++ ("KEY ".toList ++ keyid ++ " FAILED ".toList
              ++ fmt_d KEYSERVER_KEY_EXISTS ++ "\n".toList) := by
  have hnil : ∀ l : List LdapCall, l ≠ l ++ [LdapCall.add dn m] := by
    intro l h
    have := congrArg List.length h
    simp at this
  have hmap : ∀ r : SendResult,
      (if r.ret = KEYSERVER_KEY_EXISTS then { r with ret := KEYSERVER_OK } else r).st
        = r.st := by
    intro r; split <;> rfl
  unfold send_key_keyserver at hcall ⊢
  split at hcall
  · exact absurd hcall (hnil _)
  · rename_i base hb
    simp only [] at hcall ⊢
    rw [hmap] at hcall
    rw [hmap]
    split at hcall
    · rw [send_key_fail_calls] at hcall
      exact absurd hcall (hnil _)
    · split at hcall
      · rw [send_key_fail_calls] at hcall
        exact absurd hcall (hnil _)
      · rename_i keyid2 key inp2 hrk
        have hc2 : st.calls ++ [LdapCall.add ("pgpCertid=virtual,".toList ++ base)
              [⟨LDAP_MOD_ADD, st.pgpkeystr, [key]⟩]]
            = st.calls ++ [LdapCall.add dn m] := by
          rw [← hcall]
          split <;> (rw [send_key_fail_calls]; rfl)
        have hcm := List.append_cancel_left hc2
        have hc3 : LdapCall.add ("pgpCertid=virtual,".toList ++ base)
              [⟨LDAP_MOD_ADD, st.pgpkeystr, [key]⟩] = LdapCall.add dn m :=
          List.head_eq_of_cons_eq hcm
        have herr : (ldap_call srv
            (LdapCall.add ("pgpCertid=virtual,".toList ++ base)
              [⟨LDAP_MOD_ADD, st.pgpkeystr, [key]⟩])
            { st with input := inp2 }).1.err = LDAP_ALREADY_EXISTS := by
          rw [hc3]; exact hae
        have hne : LDAP_ALREADY_EXISTS ≠ LDAP_SUCCESS := by decide
        simp only [herr, hne, ne_eq, not_false_eq_true, if_true]
        refine ⟨rfl, keyid2, rfl⟩

theorem send_key_keyserver_exists_witness :
    (send_key_keyserver existsServer s6State).ret = KEYSERVER_OK
      ∧ ∃ keyid : List Char, (send_key_keyserver existsServer s6State).st.output
          = s6State.output ++ ("KEY ".toList ++ keyid ++ " FAILED ".toList
              ++ fmt_d KEYSERVER_KEY_EXISTS ++ "\n".toList) :=
  send_key_keyserver_exists existsServer s6State "pgpCertid=virtual,OU=X".toList
    [⟨LDAP_MOD_ADD, "pgpKeyV2".toList, ["-----BEGIN PGP PUBLIC KEY BLOCK-----\n".toList]⟩]
    (by decide) (by decide)

/-- C28 (failing input): an INFO block whose keyid has 3 bytes makes
`send_key` write `bad` with `printf`, that is to standard output, next to
the record `KEY ABC FAILED 8` on the output stream; an add that fails with
error 50 makes it write `err 50` the same way. -/
theorem send_key_printf_text :
    (send_key true okServer
        { State.initial ["INFO ABC BEGIN\n".toList] with
          basekeyspacedn := some "OU=X".toList }).st.printed = "bad\n".toList
      ∧ (send_key true okServer
        { State.initial ["INFO ABC BEGIN\n".toList] with
          basekeyspacedn := some "OU=X".toList }).st.output = "KEY ABC FAILED 8\n".toList
      ∧ (send_key true (fun _ _ => ⟨50, []⟩) s4State).st.printed = "err 50\n".toList
      ∧ (send_key true (fun _ _ => ⟨50, []⟩) s4State).st.output
        = "KEY AAAAAAAAAAAAAAAA FAILED 4\n".toList := by
  decide

/-- C24 (failing input): on a server whose probe ends without a base DN
`main` goes on: for a get request it binds, runs `get_key` (the search has a
NULL base) and returns 0 with no item marked by `fail_all`; for a send
request `send_key_keyserver` dereferences the NULL base DN. -/
theorem main_probe_without_base :
    (find_basekeyspacedn noBaseServer (State.initial [])).1 = LDAP_SUCCESS
      ∧ (find_basekeyspacedn noBaseServer (State.initial [])).2.basekeyspacedn = none
      ∧ (main demoBuild noBaseServer "COMMAND get\nHOST h\n\n0xDEADBEEF\n".toList).dispatched
        = true
      ∧ (main demoBuild noBaseServer "COMMAND get\nHOST h\n\n0xDEADBEEF\n".toList).ret
        = some KEYSERVER_OK
      ∧ (main demoBuild noBaseServer "COMMAND get\nHOST h\n\n0xDEADBEEF\n".toList).st.output
        = ("VERSION 1\nPROGRAM 1.4\n\nKEY 0xDEADBEEF BEGIN\n"
            ++ "KEY 0xDEADBEEF FAILED 6\n").toList
      ∧ LdapCall.search none LDAP_SCOPE_SUBTREE "(pgpkeyid=DEADBEEF)".toList
          ["pgpKey".toList, "pgpcertid".toList]
        ∈ (main demoBuild noBaseServer "COMMAND get\nHOST h\n\n0xDEADBEEF\n".toList).st.calls
      ∧ (main demoBuild noBaseServer
          "COMMAND send\nHOST h\n\n\nKEY AAAAAAAAAAAAAAAA BEGIN\n".toList).st.crashed = true
      ∧ (main demoBuild noBaseServer
          "COMMAND send\nHOST h\n\n\nKEY AAAAAAAAAAAAAAAA BEGIN\n".toList).st.output
        = "VERSION 1\nPROGRAM 1.4\n\n".toList := by
  decide

/-- C29 (failing input): with `opt_ttytype` set to `xterm`, `opt_ttyname`
NULL, `GPG_TTY=/dev/pts/1` and `TERM=vt100`, the command sent is
`OPTION ttytype=vt100`: the value is chosen by testing `opt_ttyname`, not
`opt_ttytype`.  With `TERM` unset the command carries a NULL string. -/
theorem send_pinentry_environment_ttytype :
    (send_pinentry_environment (fun e => e) (fun _ _ => 0)
        { display := none, gpg_tty := some "/dev/pts/1".toList, term := some "vt100".toList,
          ttyname0 := none, lc_ctype := none, lc_messages := none }
        none none (some "xterm".toList) none none)
      = (0, ["OPTION ttyname=/dev/pts/1".toList, "OPTION ttytype=vt100".toList])
    ∧ (send_pinentry_environment (fun e => e) (fun _ _ => 0)
        { display := none, gpg_tty := none, term := none,
          ttyname0 := none, lc_ctype := none, lc_messages := none }
        none none (some "xterm".toList) none none)
      = (0, ["OPTION ttytype=(null)".toList]) := by
  decide

/-- The KEY loop on a block of lines closed by `KEY <keyid> END`, for a
keyid of at most 16 bytes. -/
theorem read_key_block (K : List Char) (hne : K ≠ []) (hK : K.length ≤ 16)
    (hKs : ∀ c ∈ K, isspace c = false) (rest : List (List Char)) (keylines : List (List Char)) :
    ∀ acc : List Char, (∀ l ∈ keylines, scan_word "KEY".toList 16 l = none) →
      read_key (keylines ++ frameLine "KEY".toList K "END".toList :: rest) acc
        = (some K, acc ++ keylines.flatten, rest) := by
  have hend : scan_word "KEY".toList 16 (frameLine "KEY".toList K "END".toList) = some K :=
    scan_word_line _ K _ 16 hne hKs hK
  induction keylines with
  | nil =>
    intro acc _
    rw [List.nil_append]
    unfold read_key
    rw [hend]
    simp
  | cons l ls ih =>
    intro acc h
    have hl := h l (List.mem_cons_self _ _)
    have e := ih (acc ++ l) (fun x hx => h x (List.mem_cons_of_mem _ hx))
    have step : read_key (l :: (ls ++ frameLine "KEY".toList K "END".toList :: rest)) acc
        = read_key (ls ++ frameLine "KEY".toList K "END".toList :: rest) (acc ++ l) := by
      conv_lhs => unfold read_key
      simp only [hl]
    rw [List.cons_append, step, e]
    simp

/-- The add a legacy publish sends for a KEY block. -/
theorem send_key_keyserver_block (srv : Server) (st : State) (base K : List Char)
    (keylines rest : List (List Char))
    (hbase : st.basekeyspacedn = some base)
    (hne : K ≠ []) (hK : K.length ≤ 16) (hKs : ∀ c ∈ K, isspace c = false)
    (hkey : ∀ l ∈ keylines, scan_word "KEY".toList 16 l = none)
    (hin : st.input = frameLine "KEY".toList K "BEGIN".toList
      :: (keylines ++ frameLine "KEY".toList K "END".toList :: rest)) :
    (send_key_keyserver srv st).st.calls
      = st.calls ++ [LdapCall.add ("pgpCertid=virtual,".toList ++ base)
          [⟨LDAP_MOD_ADD, st.pgpkeystr, [keylines.flatten]⟩]] := by
  have hbegin : scan_word "KEY".toList 16 (frameLine "KEY".toList K "BEGIN".toList) = some K :=
    scan_word_line _ K _ 16 hne hKs hK
  have hmap : ∀ r : SendResult,
      (if r.ret = KEYSERVER_KEY_EXISTS then { r with ret := KEYSERVER_OK } else r).st
        = r.st := by
    intro r; split <;> rfl
  unfold send_key_keyserver
  rw [hbase]
  simp only []
  rw [hmap, hin]
  simp only [skip_to, hbegin, read_key_block K hne hK hKs rest keylines [] hkey]
  apply send_result_ite_calls
  · rw [send_key_fail_calls]; simp [ldap_call]
  · rw [send_key_fail_calls]; simp [ldap_call]

/-- `main_connect` written with its LDAPS and TLS blocks named. -/
theorem main_connect_stages (b : Build) (srv : Server) (loc : Locals)
    (keylist : List (List Char)) (st : State) :
    main_connect b srv loc keylist st =
      (if (ldap_call srv (LdapCall.init st.host loc.port) st).1.err ≠ 0 then
        ⟨some KEYSERVER_INTERNAL_ERROR, 0, false,
          fail_all keylist loc.action KEYSERVER_INTERNAL_ERROR
            (ldap_call srv (LdapCall.init st.host loc.port) st).2⟩
      else
        match connect_ssl srv loc (ldap_call srv (LdapCall.init st.host loc.port) st).2 with
        | (some e, st1) =>
          ⟨some KEYSERVER_INTERNAL_ERROR, 0, false, fail_all keylist loc.action e st1⟩
        | (none, st1) =>
          if (find_basekeyspacedn srv st1).1 ≠ 0 then
            ⟨some KEYSERVER_INTERNAL_ERROR, 0, false,
              fail_all keylist loc.action (ldap_err_to_gpg_err (find_basekeyspacedn srv st1).1)
                (find_basekeyspacedn srv st1).2⟩
          else
            match connect_tls srv loc (find_basekeyspacedn srv st1).2 with
            | (some e, st2) =>
              ⟨some KEYSERVER_INTERNAL_ERROR, 0, false, fail_all keylist loc.action e st2⟩
            | (none, st2) =>
              if (ldap_call srv LdapCall.simple_bind st2).1.err ≠ 0 then
                ⟨some KEYSERVER_INTERNAL_ERROR, 0, false,
                  fail_all keylist loc.action
                    (ldap_err_to_gpg_err (ldap_call srv LdapCall.simple_bind st2).1.err)
                    (ldap_call srv LdapCall.simple_bind st2).2⟩
              else
                ⟨if (dispatch b srv loc.action keylist
                      (ldap_call srv LdapCall.simple_bind st2).2).2.crashed then none
                  else some (if (dispatch b srv loc.action keylist
                      (ldap_call srv LdapCall.simple_bind st2).2).1 = 0
                    then KEYSERVER_OK else KEYSERVER_INTERNAL_ERROR),
                  (dispatch b srv loc.action keylist
                    (ldap_call srv LdapCall.simple_bind st2).2).1, true,
                  (dispatch b srv loc.action keylist
                    (ldap_call srv LdapCall.simple_bind st2).2).2⟩) := by
  rfl

theorem connect_ssl_output (srv : Server) (loc : Locals) (st : State) :
    (connect_ssl srv loc st).2.output = st.output := by
  unfold connect_ssl
  simp only [ldap_call]
  split <;> (try split) <;> (try split) <;> rfl

theorem connect_tls_output (srv : Server) (loc : Locals) (st : State) :
    (connect_tls srv loc st).2.output = st.output := by
  unfold connect_tls
  simp only [ldap_call]
  split <;> (try split) <;> (try split) <;> (try split) <;> rfl

theorem joinWords_flatMap (w a c : List Char) (keys : List (List Char)) :
    joinWords (w :: (keys ++ [a, c]))
      = w ++ ' ' :: (keys.flatMap (fun k => k ++ " ".toList) ++ a ++ ' ' :: c) := by
  induction keys generalizing w with
  | nil => simp [joinWords]
  | cons k ks ih =>
    rw [List.cons_append]
    unfold joinWords
    rw [ih k]
    simp

/-- What `fail_all` writes is what the spec words: one `KEY` line per key
for an action other than search, one `SEARCH` line for a search with a
non-empty key list, nothing for an empty key list. -/
theorem fail_all_spec (keylist : List (List Char)) (action : Int) (m : Int) (st : State) :
    (action ≠ SEARCH → (fail_all keylist action m st).output
        = st.output ++ keyFailedLines keylist m)
      ∧ (action = SEARCH → keylist ≠ [] → (fail_all keylist action m st).output
        = st.output ++ searchFailedLine keylist m)
      ∧ (keylist = [] → (fail_all keylist action m st).output = st.output) := by
  refine ⟨?_, ?_, ?_⟩
  · intro ha
    unfold fail_all keyFailedLines
    cases keylist with
    | nil => simp
    | cons k ks =>
      simp only [List.isEmpty_cons, Bool.false_eq_true, if_false, if_neg ha, write_output]
      simp [joinWords]
  · intro ha hne
    unfold fail_all searchFailedLine
    cases keylist with
    | nil => exact absurd rfl hne
    | cons k ks =>
      simp only [List.isEmpty_cons, Bool.false_eq_true, if_false, if_pos ha, write_output]
      rw [joinWords_flatMap]
      simp
  · intro hnil
    subst hnil
    rfl

/-- C23 (counterexample): a search request with an empty key list whose bind
fails with `LDAP_SERVER_DOWN`: no driver runs and nothing is written after
the preamble, no `SEARCH ... FAILED` line. -/
theorem main_search_no_keys_bind_fails :
    (main demoBuild bindDownServer "COMMAND search\nHOST h\n\n".toList).dispatched = false
      ∧ (main demoBuild bindDownServer "COMMAND search\nHOST h\n\n".toList).st.output
        = "VERSION 1\nPROGRAM 1.4\n\n".toList
      ∧ (bindDownServer
          (main demoBuild bindDownServer "COMMAND search\nHOST h\n\n".toList).st.calls.dropLast
          LdapCall.simple_bind).err = LDAP_SERVER_DOWN := by
  decide

/-- C23 (amended): when the probe, or the probe having succeeded the
anonymous bind, fails with LDAP error `e`, `main` runs no operation driver
and passes the mapped code `m` (key-exists for `LDAP_ALREADY_EXISTS`,
unreachable for `LDAP_SERVER_DOWN`, general-error otherwise) to `fail_all`:
for get it writes one `KEY <k> FAILED <m>` line per key of the key list in
input order, for search with a non-empty key list it writes the single line
`SEARCH <k1> <k2> ... FAILED <m>`, and for an empty key list it writes
nothing. -/
theorem main_connect_fail_all (b : Build) (srv : Server) (loc : Locals)
    (keylist : List (List Char)) (st st1 : State) (e : Int)
    (hinit : (srv st.calls (LdapCall.init st.host loc.port)).err = 0)
    (hssl : connect_ssl srv loc (ldap_call srv (LdapCall.init st.host loc.port) st).2
      = (none, st1))
    (he : e ≠ 0)
    (hfail : (find_basekeyspacedn srv st1).1 = e
      ∨ ((find_basekeyspacedn srv st1).1 = 0
        ∧ ∃ st2, connect_tls srv loc (find_basekeyspacedn srv st1).2 = (none, st2)
          ∧ (srv st2.calls LdapCall.simple_bind).err = e)) :
    (main_connect b srv loc keylist st).dispatched = false
      ∧ (loc.action = GET → (main_connect b srv loc keylist st).st.output
          = st.output ++ keyFailedLines keylist (mappedCode e))
      ∧ (loc.action = SEARCH → keylist ≠ [] → (main_connect b srv loc keylist st).st.output
          = st.output ++ searchFailedLine keylist (mappedCode e))
      ∧ (keylist = [] → (main_connect b srv loc keylist st).st.output = st.output) := by
  have hi : ¬ (ldap_call srv (LdapCall.init st.host loc.port) st).1.err ≠ 0 := by
    simpa [ldap_call] using hinit
  have hget : GET ≠ SEARCH := by decide
  have ho1 : st1.output = st.output := by
    have h := congrArg (fun x => x.2.output) hssl
    simp only [] at h
    rw [← h, connect_ssl_output]
    rfl
  rw [main_connect_stages, if_neg hi, hssl]
  simp only []
  rcases hfail with hp | ⟨hp, st2, htls, hb⟩
  · have hpe : (find_basekeyspacedn srv st1).1 ≠ 0 := by rw [hp]; exact he
    rw [if_pos hpe, hp]
    have hsp := fail_all_spec keylist loc.action (ldap_err_to_gpg_err e)
      (find_basekeyspacedn srv st1).2
    rw [find_basekeyspacedn_output, ho1] at hsp
    exact ⟨rfl, fun ha => hsp.1 (by rw [ha]; exact hget), hsp.2.1, hsp.2.2⟩
  · have hpe : ¬ (find_basekeyspacedn srv st1).1 ≠ 0 := by rw [hp]; simp
    have ho2 : st2.output = st.output := by
      have h := congrArg (fun x => x.2.output) htls
      simp only [] at h
      rw [← h, connect_tls_output, find_basekeyspacedn_output, ho1]
    have hbe : (ldap_call srv LdapCall.simple_bind st2).1.err ≠ 0 := by
      show (srv st2.calls LdapCall.simple_bind).err ≠ 0
      rw [hb]; exact he
    rw [if_neg hpe, htls]
    simp only []
    rw [if_pos hbe]
    have hsp := fail_all_spec keylist loc.action
      (ldap_err_to_gpg_err (ldap_call srv LdapCall.simple_bind st2).1.err)
      (ldap_call srv LdapCall.simple_bind st2).2
    have hb2 : (ldap_call srv LdapCall.simple_bind st2).1.err = e := hb
    have ho3 : (ldap_call srv LdapCall.simple_bind st2).2.output = st.output := ho2
    rw [hb2, ho3] at hsp
    rw [hb2]
    exact ⟨rfl, fun ha => hsp.1 (by rw [ha]; exact hget), hsp.2.1, hsp.2.2⟩

theorem main_connect_fail_all_witness :
    (main_connect demoBuild bindDownServer { Locals.initial with action := SEARCH }
        ["alice".toList, "bob".toList] (State.initial [])).dispatched = false
      ∧ (main_connect demoBuild bindDownServer { Locals.initial with action := SEARCH }
          ["alice".toList, "bob".toList] (State.initial [])).st.output
        = "SEARCH alice bob FAILED 9\n".toList
      ∧ (main_connect demoBuild bindDownServer { Locals.initial with action := GET }
          ["0xDEADBEEF".toList, "0x12345678".toList] (State.initial [])).st.output
        = "KEY 0xDEADBEEF FAILED 9\nKEY 0x12345678 FAILED 9\n".toList :=
  have hs := main_connect_fail_all demoBuild bindDownServer
    { Locals.initial with action := SEARCH } ["alice".toList, "bob".toList] (State.initial [])
    { State.initial [] with calls := [LdapCall.init [] 0] } LDAP_SERVER_DOWN
    (by decide) (by decide) (by decide)
    (Or.inr ⟨by decide,
      (find_basekeyspacedn bindDownServer
        { State.initial [] with calls := [LdapCall.init [] 0] }).2,
      by decide, by decide⟩)
  ⟨hs.1, hs.2.2.1 rfl (by decide),
    (main_connect_fail_all demoBuild bindDownServer
      { Locals.initial with action := GET } ["0xDEADBEEF".toList, "0x12345678".toList]
      (State.initial []) { State.initial [] with calls := [LdapCall.init [] 0] }
      LDAP_SERVER_DOWN (by decide) (by decide) (by decide)
      (Or.inr ⟨by decide,
        (find_basekeyspacedn bindDownServer
          { State.initial [] with calls := [LdapCall.init [] 0] }).2,
        by decide, by decide⟩)).2.1 rfl⟩

theorem upper_toNat (c : Char) (h : 'A' ≤ c ∧ c ≤ 'Z') : 65 ≤ c.toNat ∧ c.toNat ≤ 90 := by
  obtain ⟨h1, h2⟩ := h
  rw [Char.le_def] at h1 h2
  exact ⟨h1, h2⟩

theorem tolower_eq_equals (c : Char) (h : tolower c = '=') : c = '=' := by
  unfold tolower at h
  by_cases hu : 'A' ≤ c ∧ c ≤ 'Z'
  · rw [if_pos hu] at h
    obtain ⟨h1, h2⟩ := upper_toNat c hu
    have hne : ∀ n, 65 ≤ n → n ≤ 90 → Char.ofNat (n + 32) ≠ '=' := by
      intro n a b
      interval_cases n <;> decide
    exact absurd h (hne _ h1 h2)
  · rw [if_neg hu] at h
    exact h

theorem getD_map_tolower (name : List Char) (n : Nat) :
    (name.map tolower).getD n NUL = tolower (name.getD n NUL) := by
  have h0 : tolower NUL = NUL := by decide
  induction name generalizing n with
  | nil => simp [h0]
  | cons c cs ih =>
    cases n with
    | zero => simp
    | succ k => simpa using ih k

theorem getD_lower_equals (name : List Char) (n : Nat)
    (h : (name.map tolower).getD n NUL = '=') : name.getD n NUL = '=' := by
  rw [getD_map_tolower] at h
  exact tolower_eq_equals _ h

theorem getD_nul_length (name : List Char) (n : Nat) (hnul : NUL ∉ name)
    (h : name.getD n NUL = NUL) : name.length ≤ n := by
  by_contra hlt
  have hlt2 : n < name.length := by omega
  have hm : name.getD n NUL ∈ name := by
    rw [List.getD_eq_getElem _ _ hlt2]
    exact List.getElem_mem hlt2
  rw [h] at hm
  exact hnul hm

theorem strcasecmp_eq_lower (s X : List Char) (hX : X.map tolower = X) :
    strcasecmp_eq s X = (s.map tolower == X) := by
  unfold strcasecmp_eq
  rw [hX]

theorem strncasecmp_eq_lower (s X : List Char) (n : Nat) (hX : (X.take n).map tolower = X) :
    strncasecmp_eq s X n = ((s.map tolower).take n == X) := by
  unfold strncasecmp_eq
  rw [hX, List.map_take]

/-- A lower-case text that starts with `tls` and has `=` as its fourth byte
starts with `tls=`. -/
theorem tls_equals_prefix (l : List Char) (h3 : l.take 3 = "tls".toList)
    (h4 : l.getD 3 NUL = '=') : "tls=".toList.isPrefixOf l = true := by
  rcases l with _ | ⟨a, _ | ⟨b, _ | ⟨c, _ | ⟨d, r⟩⟩⟩⟩
  · exact absurd h3 (by decide)
  · exact absurd (congrArg List.length h3) (by simp)
  · exact absurd (congrArg List.length h3) (by simp)
  · have h4a : NUL = '=' := h4
    exact absurd h4a (by decide)
  · have h3a : [a, b, c] = "tls".toList := h3
    have ha : a = 't' := by injection h3a
    have hb : b = 'l' := by
      injection h3a with _ t; injection t
    have hc : c = 's' := by
      injection h3a with _ t; injection t with _ t2; injection t2
    have hd : d = '=' := h4
    subst ha hb hc hd
    simp [List.isPrefixOf]

/-- A lower-case text whose first three bytes are `no-` and whose next three
are `tls` starts with `no-tls`. -/
theorem no_tls_prefix (l : List Char) (h3 : l.take 3 = "no-".toList)
    (h6 : (l.drop 3).take 3 = "tls".toList) : "no-tls".toList.isPrefixOf l = true := by
  rcases l with _ | ⟨a, _ | ⟨b, _ | ⟨c, r⟩⟩⟩
  · exact absurd h3 (by decide)
  · exact absurd (congrArg List.length h3) (by simp)
  · exact absurd (congrArg List.length h3) (by simp)
  · have h3a : [a, b, c] = "no-".toList := h3
    have ha : a = 'n' := by injection h3a
    have hb : b = 'o' := by
      injection h3a with _ t; injection t
    have hc : c = '-' := by
      injection h3a with _ t; injection t with _ t2; injection t2
    subst ha hb hc
    have h6a : r.take 3 = "tls".toList := h6
    rcases r with _ | ⟨x, _ | ⟨y, _ | ⟨z, q⟩⟩⟩
    · exact absurd h6a (by decide)
    · exact absurd (congrArg List.length h6a) (by simp)
    · exact absurd (congrArg List.length h6a) (by simp)
    · have h6b : [x, y, z] = "tls".toList := h6a
      have hx : x = 't' := by injection h6b
      have hy : y = 'l' := by
        injection h6b with _ t; injection t
      have hz : z = 's' := by
        injection h6b with _ t; injection t with _ t2; injection t2
      subst hx hy hz
      simp [List.isPrefixOf]
/-- An option that is none of the known names and does not start with
`no-tls` changes nothing. -/
theorem parse_option_unknown (name : List Char) (loc : Locals) (st : State)
    (hnul : NUL ∉ name) (hk : isKnownOption name = false)
    (hnt : "no-tls".toList.isPrefixOf (name.map tolower) = false) :
    parse_option name loc st = (loc, st) := by
  have hX1 : "verbose".toList.map tolower = "verbose".toList := by decide
  have hX2 : "include-disabled".toList.map tolower = "include-disabled".toList := by decide
  have hX3 : "include-revoked".toList.map tolower = "include-revoked".toList := by decide
  have hX4 : "include-subkeys".toList.map tolower = "include-subkeys".toList := by decide
  have hX5 : ("tls".toList.take 3).map tolower = "tls".toList := by decide
  have hX6 : ("no-".toList.take 3).map tolower = "no-".toList := by decide
  unfold isKnownOption at hk
  simp only [Bool.or_eq_false_iff] at hk
  obtain ⟨⟨⟨⟨⟨k1, k2⟩, k3⟩, k4⟩, k5⟩, k6⟩ := hk
  unfold parse_option
  simp only []
  rw [strncasecmp_eq_lower name _ 3 hX6]
  by_cases hno : ((name.map tolower).take 3 == "no-".toList) = true
  · have hl3 : (name.map tolower).take 3 = "no-".toList := beq_iff_eq.mp hno
    have hbase : optionBase name = (name.map tolower).drop 3 := by
      unfold optionBase; rw [if_pos hl3]
    rw [hbase] at k1 k2 k3 k4 k5 k6
    have htls : (((name.map tolower).drop 3).take 3 == "tls".toList) = false := by
      cases h : (((name.map tolower).drop 3).take 3 == "tls".toList) with
      | false => rfl
      | true =>
        have := no_tls_prefix _ hl3 (beq_iff_eq.mp h)
        rw [hnt] at this
        exact absurd this (by decide)
    simp only [hno, if_true, strcasecmp_eq_lower _ _ hX1, strcasecmp_eq_lower _ _ hX2,
      strcasecmp_eq_lower _ _ hX3, strcasecmp_eq_lower _ _ hX4,
      strncasecmp_eq_lower _ _ 3 hX5, List.map_drop, k1, k2, k3, k4, htls,
      Bool.false_eq_true, if_false]
  · have hbase : optionBase name = name.map tolower := by
      unfold optionBase
      rw [if_neg (fun h => hno (beq_iff_eq.mpr h))]
    rw [hbase] at k1 k2 k3 k4 k5 k6
    simp only [hno, if_false, strcasecmp_eq_lower _ _ hX1, strcasecmp_eq_lower _ _ hX2,
      strcasecmp_eq_lower _ _ hX3, strcasecmp_eq_lower _ _ hX4,
      strncasecmp_eq_lower _ _ 3 hX5, k1, k2, k3, k4, Bool.false_eq_true]
    by_cases htls : ((name.map tolower).take 3 == "tls".toList) = true
    · have ht3 : (name.map tolower).take 3 = "tls".toList := beq_iff_eq.mp htls
      have hne : ¬ name.getD 3 NUL = '=' := by
        intro he
        have h4 : (name.map tolower).getD 3 NUL = '=' := by
          rw [getD_map_tolower, he]; decide
        have := tls_equals_prefix _ ht3 h4
        rw [k6] at this
        exact absurd this (by decide)
      have hnn : ¬ name.getD 3 NUL = NUL := by
        intro he
        have hlen := getD_nul_length name 3 hnul he
        have hfull : (name.map tolower).take 3 = name.map tolower :=
          List.take_of_length_le (by simpa using hlen)
        rw [hfull] at ht3
        rw [ht3] at k5
        exact absurd k5 (by decide)
      simp only [htls, if_true, if_neg hne, if_neg hnn]
    · simp only [htls, Bool.false_eq_true, if_false]

/-- The tls mode an option of the spec's list sets. -/
theorem parse_option_tls_mode (name : List Char) (loc : Locals) (st : State) (mode : Nat)
    (h : tlsModeSpec name = some mode) : (parse_option name loc st).1.use_tls = mode := by
  have hX1 : "verbose".toList.map tolower = "verbose".toList := by decide
  have hX2 : "include-disabled".toList.map tolower = "include-disabled".toList := by decide
  have hX3 : "include-revoked".toList.map tolower = "include-revoked".toList := by decide
  have hX4 : "include-subkeys".toList.map tolower = "include-subkeys".toList := by decide
  have hX5 : ("tls".toList.take 3).map tolower = "tls".toList := by decide
  have hX6 : ("no-".toList.take 3).map tolower = "no-".toList := by decide
  have hV1 : "no".toList.map tolower = "no".toList := by decide
  have hV2 : "try".toList.map tolower = "try".toList := by decide
  have hV3 : "warn".toList.map tolower = "warn".toList := by decide
  have hV4 : "require".toList.map tolower = "require".toList := by decide
  have hval : ∀ l : List Char, name.map tolower = l → l.getD 3 NUL = '=' →
      name[3]?.getD NUL = '=' := by
    intro l hl h4
    rw [← List.getD_eq_getElem?_getD]
    exact getD_lower_equals name 3 (by rw [hl]; exact h4)
  have hlen3 : name.map tolower = "tls".toList → name[3]?.getD NUL = NUL := by
    intro hl
    have : name.length = 3 := by
      have := congrArg List.length hl
      simpa using this
    rw [← List.getD_eq_getElem?_getD, List.getD_eq_default _ _ (by omega)]
  have hNe : ¬ (NUL = '=') := by decide
  unfold tlsModeSpec at h
  unfold parse_option
  simp only []
  rw [strncasecmp_eq_lower name _ 3 hX6]
  split at h
  · rename_i hl
    cases h
    simp only [hl, strcasecmp_eq_lower _ _ hX1, strcasecmp_eq_lower _ _ hX2,
      strcasecmp_eq_lower _ _ hX3, strcasecmp_eq_lower _ _ hX4,
      strncasecmp_eq_lower _ _ 3 hX5, List.map_drop]
    simp [hl, List.map_drop]
  · split at h
    · rename_i hl
      cases h
      have hg := hval _ hl (by decide)
      simp only [hl, strcasecmp_eq_lower _ _ hX1, strcasecmp_eq_lower _ _ hX2,
        strcasecmp_eq_lower _ _ hX3, strcasecmp_eq_lower _ _ hX4,
        strcasecmp_eq_lower _ _ hV1, strcasecmp_eq_lower _ _ hV2,
        strcasecmp_eq_lower _ _ hV3, strcasecmp_eq_lower _ _ hV4,
        strncasecmp_eq_lower _ _ 3 hX5, List.map_drop]
      simp [hl, hg, List.map_drop]
    · split at h
      · rename_i hl
        cases h
        have hg := hval _ hl (by decide)
        simp only [hl, strcasecmp_eq_lower _ _ hX1, strcasecmp_eq_lower _ _ hX2,
          strcasecmp_eq_lower _ _ hX3, strcasecmp_eq_lower _ _ hX4,
          strcasecmp_eq_lower _ _ hV1, strcasecmp_eq_lower _ _ hV2,
          strcasecmp_eq_lower _ _ hV3, strcasecmp_eq_lower _ _ hV4,
          strncasecmp_eq_lower _ _ 3 hX5, List.map_drop]
        simp [hl, hg, List.map_drop]
      · split at h
        · rename_i hl
          cases h
          have hg := hval _ hl (by decide)
          simp only [hl, strcasecmp_eq_lower _ _ hX1, strcasecmp_eq_lower _ _ hX2,
            strcasecmp_eq_lower _ _ hX3, strcasecmp_eq_lower _ _ hX4,
            strcasecmp_eq_lower _ _ hV1, strcasecmp_eq_lower _ _ hV2,
            strcasecmp_eq_lower _ _ hV3, strcasecmp_eq_lower _ _ hV4,
            strncasecmp_eq_lower _ _ 3 hX5, List.map_drop]
          simp [hl, hg, List.map_drop]
        · split at h
          · rename_i hl
            cases h
            have hg := hval _ hl (by decide)
            simp only [hl, strcasecmp_eq_lower _ _ hX1, strcasecmp_eq_lower _ _ hX2,
              strcasecmp_eq_lower _ _ hX3, strcasecmp_eq_lower _ _ hX4,
              strcasecmp_eq_lower _ _ hV1, strcasecmp_eq_lower _ _ hV2,
              strcasecmp_eq_lower _ _ hV3, strcasecmp_eq_lower _ _ hV4,
              strncasecmp_eq_lower _ _ 3 hX5, List.map_drop]
            simp [hl, hg, List.map_drop]
          · split at h
            · rename_i hl
              cases h
              have hg := hlen3 hl
              simp only [hl, strcasecmp_eq_lower _ _ hX1,
                strcasecmp_eq_lower _ _ hX2,
                strcasecmp_eq_lower _ _ hX3, strcasecmp_eq_lower _ _ hX4,
                strncasecmp_eq_lower _ _ 3 hX5, List.map_drop]
              simp [hl, hg, hNe, List.map_drop]
            · cases h

/-- An option whose name starts with `no-tls` turns the tls mode off. -/
theorem parse_option_no_tls (name : List Char) (loc : Locals) (st : State)
    (h : "no-tls".toList.isPrefixOf (name.map tolower) = true) :
    (parse_option name loc st).1.use_tls = 0 := by
  have hX1 : "verbose".toList.map tolower = "verbose".toList := by decide
  have hX2 : "include-disabled".toList.map tolower = "include-disabled".toList := by decide
  have hX3 : "include-revoked".toList.map tolower = "include-revoked".toList := by decide
  have hX4 : "include-subkeys".toList.map tolower = "include-subkeys".toList := by decide
  have hX5 : ("tls".toList.take 3).map tolower = "tls".toList := by decide
  have hX6 : ("no-".toList.take 3).map tolower = "no-".toList := by decide
  obtain ⟨t, ht⟩ := List.isPrefixOf_iff_prefix.mp h
  have hl : name.map tolower = "no-tls".toList ++ t := ht.symm
  unfold parse_option
  simp only []
  rw [strncasecmp_eq_lower name _ 3 hX6]
  have hno : ((name.map tolower).take 3 == "no-".toList) = true := by
    rw [hl]; rfl
  simp only [hno, if_true, strcasecmp_eq_lower _ _ hX1, strcasecmp_eq_lower _ _ hX2,
    strcasecmp_eq_lower _ _ hX3, strcasecmp_eq_lower _ _ hX4,
    strncasecmp_eq_lower _ _ 3 hX5, List.map_drop]
  have hd : (name.map tolower).drop 3 = 't' :: 'l' :: 's' :: t := by
    rw [hl]; rfl
  simp [hd]

/-- C21 (counterexample): after `OPTION tls=require` the option
`no-tlsfoo`, which is none of the names of the list, sets the tls mode from
require back to off. -/
theorem option_no_tlsfoo :
    isKnownOption "no-tlsfoo".toList = false
      ∧ (main_header demoBuild "OPTION tls=require\n\n".toList).2.1.use_tls = 3
      ∧ (main_header demoBuild "OPTION tls=require\nOPTION no-tlsfoo\n\n".toList).2.1.use_tls
        = 0 := by
  decide

/-- C21 (amended): processing a line `OPTION <name>` (the name as `%29s`
reads it) sets the tls mode to off for `no-tls`, to off / try-silently /
try-loudly / require for `tls=no` / `tls=try` / `tls=warn` / `tls=require`,
and to try-silently for bare `tls`, names compared without regard to case;
a name that is none of verbose, include-disabled, include-revoked,
include-subkeys, tls or tls=<value> (with optional `no-` prefix) and does
not start with `no-tls` leaves the local variables and the state unchanged,
while every name that starts with `no-tls` sets the tls mode to off. -/
theorem option_line_tls (b : Build) (line name : List Char) (loc : Locals) (st : State)
    (hscan : scan_word "OPTION".toList 29 line = some name) (hnul : NUL ∉ name) :
    header_line b line loc st = some (parse_option name loc st)
      ∧ (∀ mode, tlsModeSpec name = some mode → (parse_option name loc st).1.use_tls = mode)
      ∧ (isKnownOption name = false →
          "no-tls".toList.isPrefixOf (name.map tolower) = false →
          parse_option name loc st = (loc, st))
      ∧ ("no-tls".toList.isPrefixOf (name.map tolower) = true →
          (parse_option name loc st).1.use_tls = 0) := by
  refine ⟨?_, fun mode h => parse_option_tls_mode name loc st mode h,
    fun hk hnt => parse_option_unknown name loc st hnul hk hnt,
    fun h => parse_option_no_tls name loc st h⟩
  have hp : "OPTION".toList.isPrefixOf line = true := by
    unfold scan_word at hscan
    by_cases h : "OPTION".toList.isPrefixOf line = true
    · exact h
    · rw [if_neg h] at hscan
      exact Option.noConfusion hscan
  obtain ⟨t, ht⟩ := List.isPrefixOf_iff_prefix.mp hp
  subst ht
  have h1 : scan_word "COMMAND".toList 6 ("OPTION".toList ++ t) = none := rfl
  have h2 : scan_word "HOST".toList 79 ("OPTION".toList ++ t) = none := rfl
  have h3 : scan_word "PORT".toList 9 ("OPTION".toList ++ t) = none := rfl
  have h4 : scan_word "SCHEME".toList 79 ("OPTION".toList ++ t) = none := rfl
  have h5 : scan_number "VERSION".toList ("OPTION".toList ++ t) = none := rfl
  unfold header_line
  simp only [h1, h2, h3, h4, h5, hscan]

theorem option_line_tls_witness :
    header_line demoBuild "OPTION TLS=Warn\n".toList Locals.initial (State.initial [])
        = some (parse_option "TLS=Warn".toList Locals.initial (State.initial []))
      ∧ (parse_option "TLS=Warn".toList Locals.initial (State.initial [])).1.use_tls = 2 :=
  have h := option_line_tls demoBuild "OPTION TLS=Warn\n".toList "TLS=Warn".toList
    Locals.initial (State.initial []) (by decide) (by decide)
  ⟨h.1, h.2.1 2 (by decide)⟩

theorem skip_to_length (lit : List Char) (lines : List (List Char)) :
    ((skip_to lit lines).1 = none → (skip_to lit lines).2 = [])
      ∧ ((skip_to lit lines).1 ≠ none → (skip_to lit lines).2.length < lines.length) := by
  induction lines with
  | nil => exact ⟨fun _ => rfl, fun h => absurd rfl h⟩
  | cons l rest ih =>
    unfold skip_to
    cases scan_word lit 16 l with
    | some k => exact ⟨fun h => Option.noConfusion h, fun _ => Nat.lt_succ_self _⟩
    | none =>
      simp only []
      exact ⟨ih.1, fun h => Nat.lt_succ_of_lt (ih.2 h)⟩

theorem read_info_length (cs : Bool) (lines : List (List Char)) :
    ∀ m : List LDAPMod, (read_info cs lines m).2.2.length ≤ lines.length := by
  induction lines with
  | nil => intro m; exact Nat.le_refl _
  | cons l rest ih =>
    intro m
    unfold read_info
    cases scan_word "INFO".toList 16 l with
    | some k => exact Nat.le_succ _
    | none =>
      simp only []
      exact Nat.le_succ_of_le (ih _)

theorem read_key_length (lines : List (List Char)) :
    ∀ acc : List Char, (read_key lines acc).2.2.length ≤ lines.length := by
  induction lines with
  | nil => intro acc; exact Nat.le_refl _
  | cons l rest ih =>
    intro acc
    unfold read_key
    cases scan_word "KEY".toList 16 l with
    | some k => exact Nat.le_succ _
    | none =>
      simp only []
      exact Nat.le_succ_of_le (ih _)

theorem send_key_fail_fields (ret : Int) (begin : Bool) (keyid : List Char) (eof : Bool)
    (st : State) :
    (send_key_fail ret begin keyid eof st).eof = eof
      ∧ (send_key_fail ret begin keyid eof st).ret = ret
      ∧ (send_key_fail ret begin keyid eof st).st.input = st.input := by
  unfold send_key_fail
  refine ⟨rfl, rfl, ?_⟩
  simp only []
  split <;> rfl

theorem ite_pred {α : Type} (P : α → Prop) (c : Prop) [Decidable c] (a b : α)
    (ha : P a) (hb : P b) : P (if c then a else b) := by
  split <;> assumption

theorem send_key_submit_input (srv : Server) (dn : List Char) (m : List LDAPMod)
    (key keyid : List Char) (st : State) :
    (send_key_submit srv dn m key keyid st).st.input = st.input
      ∧ (send_key_submit srv dn m key keyid st).eof = false := by
  unfold send_key_submit
  simp only [ldap_call]
  refine ite_pred (fun r : SendResult => r.st.input = st.input ∧ r.eof = false) _ _ _ ?_ ?_
  · refine ⟨?_, rfl⟩
    rw [(send_key_fail_fields _ _ _ _ _).2.2]
    split <;> rfl
  · refine ⟨?_, rfl⟩
    rw [(send_key_fail_fields _ _ _ _ _).2.2]
    split <;> rfl

/-- A call of `send_key` that does not set `eof` has consumed input, and a
call on exhausted input sets `eof` and returns ok. -/
theorem send_key_progress (cs : Bool) (srv : Server) (st : State) :
    ((send_key cs srv st).eof = false →
        (send_key cs srv st).st.input.length < st.input.length)
      ∧ (st.input = [] →
        (send_key cs srv st).eof = true ∧ (send_key cs srv st).ret = KEYSERVER_OK) := by
  have hsk := skip_to_length "INFO".toList st.input
  refine ⟨?_, ?_⟩
  · unfold send_key
    split
    · intro h; exact absurd h (by simp [send_key_fail])
    · rename_i keyid inp heq
      have h1 : (skip_to "INFO".toList st.input).1 ≠ none := by rw [heq]; simp
      have h2 : inp.length < st.input.length := by
        have := hsk.2 h1
        rw [heq] at this
        exact this
      split
      · intro h; exact absurd h (by simp [send_key_fail])
      · split
        · intro h; exact absurd h (by simp)
        · split
          · intro h; exact absurd h (by simp [send_key_fail])
          · rename_i keyid2 modlist inp2 heq2
            have h3 : inp2.length ≤ inp.length := by
              have := read_info_length cs inp []
              rw [heq2] at this
              exact this
            unfold send_key_keyblock
            simp only []
            have hsk2 := skip_to_length "KEY".toList inp2
            split
            · intro h; exact absurd h (by simp [send_key_fail])
            · rename_i keyid3 inp3 heq3
              have h4 : inp3.length < inp2.length := by
                have := hsk2.2 (by rw [heq3]; simp)
                rw [heq3] at this
                exact this
              split
              · intro h; exact absurd h (by simp [send_key_fail])
              · rename_i keyid4 key inp4 heq4
                have h5 : inp4.length ≤ inp3.length := by
                  have := read_key_length inp3 []
                  rw [heq4] at this
                  exact this
                intro _
                rw [(send_key_submit_input _ _ _ _ _ _).1]
                show inp4.length < st.input.length
                omega
  · intro hin
    unfold send_key
    rw [hin]
    exact ⟨rfl, rfl⟩

/-- A call of `send_key_keyserver` that does not set `eof` has consumed
input, and a call on exhausted input, the base DN being there, sets `eof`
and returns ok. -/
theorem send_key_keyserver_progress (srv : Server) (st : State) :
    ((send_key_keyserver srv st).eof = false →
        (send_key_keyserver srv st).st.input.length < st.input.length)
      ∧ (st.input = [] → st.basekeyspacedn ≠ none →
        (send_key_keyserver srv st).eof = true
          ∧ (send_key_keyserver srv st).ret = KEYSERVER_OK) := by
  have hmap : ∀ r : SendResult,
      (if r.ret = KEYSERVER_KEY_EXISTS then { r with ret := KEYSERVER_OK } else r).st = r.st
        ∧ (if r.ret = KEYSERVER_KEY_EXISTS then { r with ret := KEYSERVER_OK } else r).eof
          = r.eof := by
    intro r; split <;> exact ⟨rfl, rfl⟩
  have hsk := skip_to_length "KEY".toList st.input
  refine ⟨?_, ?_⟩
  · unfold send_key_keyserver
    split
    · intro h; exact absurd h (by simp)
    · simp only []
      rw [(hmap _).1, (hmap _).2]
      split
      · intro h; exact absurd h (by simp [send_key_fail])
      · rename_i keyid inp heq
        have h2 : inp.length < st.input.length := by
          have := hsk.2 (by rw [heq]; simp)
          rw [heq] at this
          exact this
        split
        · intro h; exact absurd h (by simp [send_key_fail])
        · rename_i keyid2 key inp2 heq2
          have h3 : inp2.length ≤ inp.length := by
            have := read_key_length inp []
            rw [heq2] at this
            exact this
          intro _
          refine ite_pred (fun r : SendResult => r.st.input.length < st.input.length) _ _ _ ?_ ?_
          · beta_reduce
            rw [(send_key_fail_fields _ _ _ _ _).2.2]
            show inp2.length < st.input.length
            omega
          · beta_reduce
            rw [(send_key_fail_fields _ _ _ _ _).2.2]
            show inp2.length < st.input.length
            omega
  · intro hin hbase
    unfold send_key_keyserver
    cases hb : st.basekeyspacedn with
    | none => exact absurd hb hbase
    | some base =>
      simp only []
      rw [hin]
      exact ⟨rfl, rfl⟩

/-- The SEND loop ends on its own within one pass more than there are input
lines. -/
theorem send_loop_run_ends (b : Build) (srv : Server) (fuel : Nat) :
    ∀ (failed : Nat) (st : State), st.input.length < fuel →
      send_loop_run b srv fuel failed st = some (send_loop b srv fuel failed st) := by
  induction fuel with
  | zero => intro failed st h; exact absurd h (Nat.not_lt_zero _)
  | succ n ih =>
    intro failed st h
    have hprog : (if st.real_ldap then send_key b.charSigned srv st
          else send_key_keyserver srv st).eof = false →
        (if st.real_ldap then send_key b.charSigned srv st
          else send_key_keyserver srv st).st.input.length < st.input.length := by
      split
      · exact (send_key_progress _ _ _).1
      · exact (send_key_keyserver_progress _ _).1
    unfold send_loop_run send_loop
    simp only []
    generalize (if st.real_ldap then send_key b.charSigned srv st
      else send_key_keyserver srv st) = R at hprog ⊢
    by_cases hc : R.eof = true ∨ R.st.crashed = true
    · rw [if_pos hc, if_pos hc]
    · rw [if_neg hc, if_neg hc]
      have he : R.eof = false := by
        cases h2 : R.eof with
        | false => rfl
        | true => exact absurd (Or.inl h2) hc
      exact ih _ _ (by have := hprog he; omega)

/-- C30: the publish loop ends on every finite input.  A call of `send_key`
or of `send_key_keyserver` that returns without setting `eof` leaves fewer
input lines than it found; on exhausted input `send_key` sets `eof` and
returns ok, and so does `send_key_keyserver` when the base DN is there;
hence the do-while loop of `main` over the publish driver ends of itself
after at most one call more than there are input lines. -/
theorem publish_loop_terminates (b : Build) (cs : Bool) (srv : Server) (failed : Nat)
    (st : State) :
    ((send_key cs srv st).eof = false →
        (send_key cs srv st).st.input.length < st.input.length)
      ∧ ((send_key_keyserver srv st).eof = false →
        (send_key_keyserver srv st).st.input.length < st.input.length)
      ∧ (st.input = [] →
        (send_key cs srv st).eof = true ∧ (send_key cs srv st).ret = KEYSERVER_OK)
      ∧ (st.input = [] → st.basekeyspacedn ≠ none →
        (send_key_keyserver srv st).eof = true
          ∧ (send_key_keyserver srv st).ret = KEYSERVER_OK)
      ∧ send_loop_run b srv (st.input.length + 1) failed st
          = some (send_loop b srv (st.input.length + 1) failed st) :=
  ⟨(send_key_progress cs srv st).1, (send_key_keyserver_progress srv st).1,
    (send_key_progress cs srv st).2, (send_key_keyserver_progress srv st).2,
    send_loop_run_ends b srv _ failed st (Nat.lt_succ_self _)⟩

/-- One `fgets` result: a line of at most `n-2` bytes before its newline is
read whole. -/
theorem fgets_chunks_line (n : Nat) (k rest : List Char) (hk : '\n' ∉ k) :
    ∀ cur : List Char, cur.length + k.length + 2 ≤ n →
      fgets_chunks n cur (k ++ '\n' :: rest)
        = (cur.reverse ++ k ++ ['\n']) :: fgets_chunks n [] rest := by
  induction k with
  | nil =>
    intro cur _
    rw [List.nil_append]
    conv_lhs => unfold fgets_chunks
    simp
  | cons c cs ih =>
    intro cur hlen
    have hc : c ≠ '\n' := fun e => hk (by rw [e]; exact List.mem_cons_self _ _)
    have hcs : '\n' ∉ cs := fun e => hk (List.mem_cons_of_mem _ e)
    have hn : ¬ (c = '\n' ∨ cur.length + 2 = n) := by
      intro h
      rcases h with h | h
      · exact hc h
      · simp only [List.length_cons] at hlen
        omega
    rw [List.cons_append]
    conv_lhs => unfold fgets_chunks
    rw [if_neg hn, ih hcs (c :: cur) (by simp only [List.length_cons] at hlen ⊢; omega)]
    simp

theorem cstr_line (k : List Char) (hk : NUL ∉ k) : cstr (k ++ ['\n']) = k ++ ['\n'] := by
  unfold cstr
  rw [List.takeWhile_eq_self_iff]
  intro c hc
  rcases List.mem_append.mp hc with h | h
  · have : c ≠ NUL := fun e => hk (e ▸ h)
    simpa using this
  · have : c = '\n' := by simpa using h
    rw [this]
    decide

/-- The lines `main` sees for a text made of short lines. -/
theorem input_lines_lines (lines : List (List Char)) (tail : List Char)
    (h : ∀ l ∈ lines, '\n' ∉ l ∧ NUL ∉ l ∧ l.length ≤ 254) :
    input_lines (lines.flatMap (fun l => l ++ ['\n']) ++ tail)
      = lines.map (fun l => l ++ ['\n']) ++ input_lines tail := by
  unfold input_lines
  induction lines with
  | nil => rfl
  | cons l ls ih =>
    obtain ⟨h1, h2, h3⟩ := h l (List.mem_cons_self _ _)
    have hrest := ih (fun x hx => h x (List.mem_cons_of_mem _ hx))
    rw [List.flatMap_cons, List.append_assoc, List.append_assoc]
    have hstep := fgets_chunks_line MAX_LINE l
      (ls.flatMap (fun l => l ++ ['\n']) ++ tail) h1 []
      (by simp only [List.length_nil, MAX_LINE]; omega)
    rw [List.singleton_append, hstep]
    simp only [List.reverse_nil, List.nil_append, List.map_cons, cstr_line l h2]
    rw [hrest]
    rfl
/-- A header loop that is not left at a VERSION mismatch and meets its first
blank line after `pre` leaves the lines after that blank line as input. -/
theorem parse_header_blank (b : Build) (blank : List Char) (rest : List (List Char))
    (hb : blank.head? = some '\n') (pre : List (List Char)) :
    ∀ (loc : Locals) (st : State), (∀ l ∈ pre, l.head? ≠ some '\n') →
      (parse_header b (pre ++ blank :: rest) loc st).1 = false →
      (parse_header b (pre ++ blank :: rest) loc st).2.2.input = rest := by
  induction pre with
  | nil =>
    intro loc st _ _
    rw [List.nil_append]
    unfold parse_header
    rw [if_pos hb]
  | cons l pre ih =>
    intro loc st hpre
    have hl : l.head? ≠ some '\n' := hpre l (List.mem_cons_self _ _)
    have hrest : ∀ x ∈ pre, x.head? ≠ some '\n' := fun x hx =>
      hpre x (List.mem_cons_of_mem _ hx)
    rw [List.cons_append]
    unfold parse_header
    rw [if_neg hl]
    split
    · exact ih loc st hrest
    · cases header_line b l loc st with
      | none => intro h; exact Bool.noConfusion h
      | some p => exact ih p.1 p.2 hrest

/-- The key-list loop on key lines followed by the end of the input or by a
blank line. -/
theorem read_keylist_keys (keys : List (List Char)) (T : List (List Char))
    (hk : ∀ k ∈ keys, k ≠ [] ∧ '\n' ∉ k)
    (hT : T = [] ∨ ∃ t rest, T = ('\n' :: t) :: rest) :
    (read_keylist (keys.map (fun k => k ++ ['\n']) ++ T)).1 = keys := by
  induction keys with
  | nil =>
    rcases hT with h | ⟨t, rest, h⟩
    · rw [h]; rfl
    · rw [h]; rfl
  | cons k ks ih =>
    obtain ⟨hne, hnl⟩ := hk k (List.mem_cons_self _ _)
    have hrest := ih (fun x hx => hk x (List.mem_cons_of_mem _ hx))
    rw [List.map_cons, List.cons_append]
    unfold read_keylist
    have hcond : ¬ ((k ++ ['\n']).head? = some '\n' ∨ (k ++ ['\n']).isEmpty = true) := by
      cases k with
      | nil => exact absurd rfl hne
      | cons c cs =>
        have hc : c ≠ '\n' := fun e => hnl (by rw [e]; exact List.mem_cons_self _ _)
        simp [hc]
    rw [if_neg hcond]
    simp only [List.dropLast_concat, hrest]

/-- C22 (counterexample): a key line of 300 bytes gives two keys, of 254 and
of 45 bytes, and `get_key` is run for each. -/
theorem main_long_key_line :
    (read_keylist (main_header demoBuild
        ("COMMAND get\n\n".toList ++ List.replicate 300 'A' ++ ['\n'])).2.2.input).1
      = [List.replicate 254 'A', List.replicate 45 'A']
    ∧ (main demoBuild okServer
        ("COMMAND get\n\n".toList ++ List.replicate 300 'A' ++ ['\n'])).st.output
      = "VERSION 1\nPROGRAM 1.4\n\n".toList
        ++ ("KEY 0x".toList ++ List.replicate 254 'A' ++ " BEGIN\n".toList)
        ++ ("KEY 0x".toList ++ List.replicate 254 'A' ++ " FAILED 6\n".toList)
        ++ ("KEY 0x".toList ++ List.replicate 45 'A' ++ " BEGIN\n".toList)
        ++ ("KEY 0x".toList ++ List.replicate 45 'A' ++ " FAILED 6\n".toList) := by
  decide

/-- A last key line that is not ended by a newline loses its last byte. -/
theorem main_key_without_newline :
    (read_keylist (main_header demoBuild "COMMAND get\n\n0xDEADBEEF".toList).2.2.input).1
      = ["0xDEADBEE".toList] := by
  decide

/-- C22 (amended): for every get or search request whose header lines and key
lines are ended by a newline, hold no NUL byte and have at most 254 bytes
before the newline, the key list `main` hands on (to `fail_all` and to the
drivers) is exactly the sequence of lines after the header's blank separator
up to the first blank line or the end of the input, each without its
newline, in input order. -/
theorem main_keylist_lines (b : Build) (srv : Server) (header keys : List (List Char))
    (tail : List Char)
    (hh : ∀ l ∈ header, l ≠ [] ∧ '\n' ∉ l ∧ NUL ∉ l ∧ l.length ≤ 254)
    (hk : ∀ k ∈ keys, k ≠ [] ∧ '\n' ∉ k ∧ NUL ∉ k ∧ k.length ≤ 254)
    (htail : tail = [] ∨ ∃ t, tail = '\n' :: t)
    (hflag : (main_header b (requestText header keys tail)).1 = false)
    (hact : (main_header b (requestText header keys tail)).2.1.action = GET
      ∨ (main_header b (requestText header keys tail)).2.1.action = SEARCH) :
    (read_keylist (main_header b (requestText header keys tail)).2.2.input).1 = keys
      ∧ main b srv (requestText header keys tail)
        = main_connect b srv (main_header b (requestText header keys tail)).2.1 keys
            (write_output
              ("VERSION ".toList ++ fmt_d b.proto_version ++ "\nPROGRAM ".toList ++ b.version
                ++ "\n\n".toList)
              { (main_header b (requestText header keys tail)).2.2 with
                input :=
                  (read_keylist (main_header b (requestText header keys tail)).2.2.input).2 })
      := by
  have htext : requestText header keys tail
      = (header ++ [] :: keys).flatMap (fun l => l ++ ['\n']) ++ tail := by
    unfold requestText
    simp
  have hall : ∀ l ∈ header ++ [] :: keys, '\n' ∉ l ∧ NUL ∉ l ∧ l.length ≤ 254 := by
    intro l hl
    rcases List.mem_append.mp hl with h | h
    · exact (hh l h).2
    · rcases List.mem_cons.mp h with h | h
      · rw [h]; exact ⟨by simp, by simp, by simp⟩
      · exact (hk l h).2
  have hT : input_lines tail = [] ∨ ∃ t rest, input_lines tail = ('\n' :: t) :: rest := by
    rcases htail with h | ⟨t, h⟩
    · left; rw [h]; rfl
    · right
      have := input_lines_lines [[]] t (by simp)
      simp only [List.flatMap_cons, List.flatMap_nil, List.nil_append, List.append_nil,
        List.map_cons, List.map_nil, List.singleton_append] at this
      exact ⟨[], input_lines t, by rw [h]; exact this⟩
  have hlines : input_lines (requestText header keys tail)
      = header.map (fun l => l ++ ['\n'])
        ++ ['\n'] :: (keys.map (fun k => k ++ ['\n']) ++ input_lines tail) := by
    rw [htext, input_lines_lines _ _ hall]
    simp
  have hpre : ∀ l ∈ header.map (fun l => l ++ ['\n']), l.head? ≠ some '\n' := by
    intro l hl
    obtain ⟨x, hx, rfl⟩ := List.mem_map.mp hl
    obtain ⟨hne, hnl, _, _⟩ := hh x hx
    cases x with
    | nil => exact absurd rfl hne
    | cons c cs =>
      have hc : c ≠ '\n' := fun e => hnl (by rw [e]; exact List.mem_cons_self _ _)
      simp [hc]
  have hin : (main_header b (requestText header keys tail)).2.2.input
      = keys.map (fun k => k ++ ['\n']) ++ input_lines tail := by
    unfold main_header at hflag ⊢
    rw [hlines] at hflag ⊢
    exact parse_header_blank b ['\n'] _ rfl _ _ _ hpre hflag
  have hkl : (read_keylist (main_header b (requestText header keys tail)).2.2.input).1
      = keys := by
    rw [hin]
    exact read_keylist_keys keys _ (fun k h => ⟨(hk k h).1, (hk k h).2.1⟩) hT
  have hns : ¬ ((main_header b (requestText header keys tail)).2.1.action = SEND) := by
    intro h
    rcases hact with h2 | h2
    · rw [h] at h2; exact absurd h2 (by decide)
    · rw [h] at h2; exact absurd h2 (by decide)
  refine ⟨hkl, ?_⟩
  unfold main main_request
  rw [hflag]
  simp only [Bool.false_eq_true, if_false, if_neg hns, if_pos hact, hkl]

theorem main_keylist_lines_witness :
    (read_keylist (main_header demoBuild
        (requestText ["COMMAND search".toList, "HOST h".toList]
          ["alice".toList, "bob".toList] "\nrest".toList)).2.2.input).1
      = ["alice".toList, "bob".toList] :=
  (main_keylist_lines demoBuild demoServer ["COMMAND search".toList, "HOST h".toList]
    ["alice".toList, "bob".toList] "\nrest".toList (by decide) (by decide)
    (Or.inr ⟨"rest".toList, rfl⟩) (by decide) (by decide)).1

/-- The length of the filter `search_key` formats when neither disabled nor
revoked keys are included: 46 bytes around the search string. -/
theorem search_key_filter_length (searchkey : List Char) :
    (search_key_filter false false searchkey).length = searchkey.length + 46 := by
  simp [search_key_filter]

/-- The LDAP calls of `get_key`: none for a key of 32 characters, otherwise
its one search followed only by error-number queries. -/
theorem get_key_calls (srv : Server) (getkey : List Char) (st : State) :
    (get_key srv getkey st).2.calls = st.calls
      ∨ ∃ n, (get_key srv getkey st).2.calls
        = st.calls
          ++ LdapCall.search st.basekeyspacedn LDAP_SCOPE_SUBTREE
              (get_key_filter st.include_subkeys (strip_0x getkey)) (get_key_attrs st)
            :: List.replicate n LdapCall.get_errno := by
  unfold get_key
  simp only [get_key_search]
  split
  · exact Or.inl rfl
  · right
    split
    · exact ⟨0, by simp [write_output, ldap_call, get_key_attrs]⟩
    · split
      · exact ⟨0, by simp [write_output, ldap_call, get_key_attrs]⟩
      · obtain ⟨n, hn⟩ := get_key_entries_calls srv (strip_0x getkey)
          (ldap_call srv
            (LdapCall.search
              (write_output ("KEY 0x".toList ++ strip_0x getkey ++ " BEGIN\n".toList)
                st).basekeyspacedn LDAP_SCOPE_SUBTREE
              (get_key_filter
                (write_output ("KEY 0x".toList ++ strip_0x getkey ++ " BEGIN\n".toList)
                  st).include_subkeys (strip_0x getkey))
              (get_key_attrs
                (write_output ("KEY 0x".toList ++ strip_0x getkey ++ " BEGIN\n".toList) st)))
            (write_output ("KEY 0x".toList ++ strip_0x getkey ++ " BEGIN\n".toList)
              st)).1.entries []
          (ldap_call srv
            (LdapCall.search
              (write_output ("KEY 0x".toList ++ strip_0x getkey ++ " BEGIN\n".toList)
                st).basekeyspacedn LDAP_SCOPE_SUBTREE
              (get_key_filter
                (write_output ("KEY 0x".toList ++ strip_0x getkey ++ " BEGIN\n".toList)
                  st).include_subkeys (strip_0x getkey))
              (get_key_attrs
                (write_output ("KEY 0x".toList ++ strip_0x getkey ++ " BEGIN\n".toList) st)))
            (write_output ("KEY 0x".toList ++ strip_0x getkey ++ " BEGIN\n".toList) st)).2
        refine ⟨n, ?_⟩
        rw [hn]
        simp [write_output, ldap_call, get_key_attrs]

/-- C32: for every key string and either setting of include-subkeys the
filter `get_key` formats has at most 61 bytes, so that with its terminating
NUL it fits the array `search` of 62 bytes; the bound is reached by a key of
16 characters with include-subkeys set; and the only search `get_key` makes
carries that filter. -/
theorem get_key_filter_fits (srv : Server) (include_subkeys : Bool) (getkey : List Char)
    (st : State) :
    (get_key_filter include_subkeys getkey).length ≤ 61
      ∧ (get_key_filter include_subkeys getkey).length + 1 ≤ get_key_search_size
      ∧ (get_key_filter true "0123456789ABCDEF".toList).length = 61
      ∧ ((get_key srv getkey st).2.calls = st.calls
        ∨ ∃ n, (get_key srv getkey st).2.calls
          = st.calls
            ++ LdapCall.search st.basekeyspacedn LDAP_SCOPE_SUBTREE
                (get_key_filter st.include_subkeys (strip_0x getkey)) (get_key_attrs st)
              :: List.replicate n LdapCall.get_errno) := by
  have hlen : (get_key_filter include_subkeys getkey).length ≤ 61 := by
    unfold get_key_filter
    split
    · simp only []
      split
      · simp
        omega
      · simp
    · split
      · split
        · simp
          omega
        · simp
      · simp
  refine ⟨hlen, ?_, by decide, get_key_calls srv getkey st⟩
  unfold get_key_search_size
  omega

/-- C31 (failing input): a search request with two key lines of 200 bytes.
The request parser accepts both keys, `main` joins them to a search string
of 401 bytes, and the filter `search_key` formats and sends has 447 bytes:
with its terminating NUL it needs 448 bytes, the array `search` has 303.
With the default options the filter fits the array exactly when the search
string has at most 256 bytes. -/
theorem search_key_filter_overflow :
    (read_keylist (main_header demoBuild longSearchRequest).2.2.input).1
        = [List.replicate 200 'a', List.replicate 200 'b']
      ∧ (main demoBuild probeServer longSearchRequest).dispatched = true
      ∧ (main demoBuild probeServer longSearchRequest).st.calls.getLast?
        = some (LdapCall.search (some "OU=X".toList) LDAP_SCOPE_SUBTREE
            (search_key_filter false false
              (List.replicate 200 'a' ++ '*' :: List.replicate 200 'b')) search_key_attrs)
      ∧ (search_key_filter false false
          (List.replicate 200 'a' ++ '*' :: List.replicate 200 'b')).length = 447
      ∧ search_key_search_size = 303
      ∧ ∀ searchkey : List Char,
          (search_key_filter false false searchkey).length + 1 ≤ search_key_search_size
            ↔ searchkey.length ≤ 256 := by
  refine ⟨by decide, by decide, by decide, by decide, by decide, ?_⟩
  intro searchkey
  rw [search_key_filter_length]
  unfold search_key_search_size MAX_LINE
  omega

theorem ssl_ite (loc : Locals) (st : State) (c : Prop) [Decidable c] (x y : Locals × State)
    (hx : x.1.use_ssl = loc.use_ssl ∧ x.2.real_ldap = st.real_ldap)
    (hy : y.1.use_ssl = loc.use_ssl ∧ y.2.real_ldap = st.real_ldap) :
    (if c then x else y).1.use_ssl = loc.use_ssl
      ∧ (if c then x else y).2.real_ldap = st.real_ldap := by
  split <;> assumption

/-- An OPTION line changes neither `use_ssl` nor `real_ldap`. -/
theorem parse_option_ssl (o : List Char) (loc : Locals) (st : State) :
    (parse_option o loc st).1.use_ssl = loc.use_ssl
      ∧ (parse_option o loc st).2.real_ldap = st.real_ldap := by
  unfold parse_option
  simp only []
  repeat (first | exact ⟨rfl, rfl⟩ | apply ssl_ite)

/-- A header line never clears `use_ssl` and never changes `real_ldap`. -/
theorem header_line_ssl (b : Build) (line : List Char) (loc : Locals) (st : State)
    (p : Locals × State) (h : header_line b line loc st = some p) :
    (loc.use_ssl = true → p.1.use_ssl = true) ∧ p.2.real_ldap = st.real_ldap := by
  unfold header_line at h
  split at h
  · cases h
    refine ⟨fun hs => ?_, rfl⟩
    simp only []
    split
    · exact hs
    · split
      · exact hs
      · split <;> exact hs
  · split at h
    · cases h; exact ⟨fun hs => hs, rfl⟩
    · split at h
      · cases h; exact ⟨fun hs => hs, rfl⟩
      · split at h
        · cases h
          refine ⟨fun hs => ?_, rfl⟩
          simp only []
          split
          · rfl
          · exact hs
        · split at h
          · split at h
            · cases h
            · cases h; exact ⟨fun hs => hs, rfl⟩
          · split at h
            · cases h
              have hp := parse_option_ssl ‹List Char› loc st
              exact ⟨fun hs => hp.1.trans hs, hp.2⟩
            · cases h; exact ⟨fun hs => hs, rfl⟩

/-- The header loop never clears `use_ssl` and never changes `real_ldap`. -/
theorem parse_header_ssl (b : Build) (lines : List (List Char)) :
    ∀ (loc : Locals) (st : State),
      (loc.use_ssl = true → (parse_header b lines loc st).2.1.use_ssl = true)
        ∧ (parse_header b lines loc st).2.2.real_ldap = st.real_ldap := by
  induction lines with
  | nil => intro loc st; exact ⟨fun hs => hs, rfl⟩
  | cons line rest ih =>
    intro loc st
    unfold parse_header
    split
    · exact ⟨fun hs => hs, rfl⟩
    · split
      · exact ih loc st
      · cases hl : header_line b line loc st with
        | none => exact ⟨fun hs => hs, rfl⟩
        | some p =>
          simp only []
          obtain ⟨h1, h2⟩ := header_line_ssl b line loc st p hl
          obtain ⟨i1, i2⟩ := ih p.1 p.2
          exact ⟨fun hs => i1 (h1 hs), i2.trans h2⟩

/-- A line on which `SCHEME %79s` reads a word equal to `ldaps` without
regard to case sets the port to 636 and `use_ssl`. -/
theorem header_line_scheme (b : Build) (line w : List Char) (loc : Locals) (st : State)
    (hs : scan_word "SCHEME".toList 79 line = some w)
    (hw : strcasecmp_eq w "ldaps".toList = true) :
    "SCHEME".toList.isPrefixOf line = true
      ∧ header_line b line loc st = some ({ loc with port := 636, use_ssl := true }, st) := by
  have hp : "SCHEME".toList.isPrefixOf line = true := by
    unfold scan_word at hs
    by_cases h : "SCHEME".toList.isPrefixOf line = true
    · exact h
    · rw [if_neg h] at hs
      exact Option.noConfusion hs
  refine ⟨hp, ?_⟩
  obtain ⟨t, ht⟩ := List.isPrefixOf_iff_prefix.mp hp
  subst ht
  have h1 : scan_word "COMMAND".toList 6 ("SCHEME".toList ++ t) = none := rfl
  have h2 : scan_word "HOST".toList 79 ("SCHEME".toList ++ t) = none := rfl
  have h3 : scan_word "PORT".toList 9 ("SCHEME".toList ++ t) = none := rfl
  unfold header_line
  simp only [h1, h2, h3, hs, hw, if_true]

/-- A header loop that is not left at a VERSION mismatch and meets a
`SCHEME ldaps` line before any blank line ends with `use_ssl` set. -/
theorem parse_header_scheme (b : Build) (sline w : List Char) (post : List (List Char))
    (hs : scan_word "SCHEME".toList 79 sline = some w)
    (hw : strcasecmp_eq w "ldaps".toList = true) (pre : List (List Char)) :
    ∀ (loc : Locals) (st : State), (∀ l ∈ pre, l.head? ≠ some '\n') →
      (parse_header b (pre ++ sline :: post) loc st).1 = false →
      (parse_header b (pre ++ sline :: post) loc st).2.1.use_ssl = true := by
  induction pre with
  | nil =>
    intro loc st _ _
    obtain ⟨hp, hl⟩ := header_line_scheme b sline w loc st hs hw
    obtain ⟨t, ht⟩ := List.isPrefixOf_iff_prefix.mp hp
    subst ht
    rw [List.nil_append]
    unfold parse_header
    have hn1 : ¬ (("SCHEME".toList ++ t).head? = some '\n') := by simp
    have hn2 : ¬ (("SCHEME".toList ++ t).head? = some '#') := by simp
    rw [if_neg hn1, if_neg hn2, hl]
    exact (parse_header_ssl b post _ st).1 rfl
  | cons l pre ih =>
    intro loc st hpre
    have hl : l.head? ≠ some '\n' := hpre l (List.mem_cons_self _ _)
    have hrest : ∀ x ∈ pre, x.head? ≠ some '\n' := fun x hx =>
      hpre x (List.mem_cons_of_mem _ hx)
    rw [List.cons_append]
    unfold parse_header
    rw [if_neg hl]
    split
    · exact ih loc st hrest
    · cases header_line b l loc st with
      | none => intro h; exact Bool.noConfusion h
      | some p => exact ih p.1 p.2 hrest

/-- The LDAPS branch of `main` in a state where `real_ldap` is still false:
after a successful `ldap_init` every pending item is failed with the
internal-error code and nothing else is done. -/
theorem main_connect_ldaps (b : Build) (srv : Server) (loc : Locals)
    (keylist : List (List Char)) (st : State)
    (hssl : loc.use_ssl = true) (hreal : st.real_ldap = false)
    (hinit : (srv st.calls (LdapCall.init st.host loc.port)).err = 0) :
    main_connect b srv loc keylist st
      = ⟨some KEYSERVER_INTERNAL_ERROR, 0, false,
          fail_all keylist loc.action KEYSERVER_INTERNAL_ERROR
            { st with calls := st.calls ++ [LdapCall.init st.host loc.port] }⟩ := by
  have hi : ¬ (ldap_call srv (LdapCall.init st.host loc.port) st).1.err ≠ 0 := by
    simpa [ldap_call] using hinit
  have hc : connect_ssl srv loc (ldap_call srv (LdapCall.init st.host loc.port) st).2
      = (some KEYSERVER_INTERNAL_ERROR,
          { st with calls := st.calls ++ [LdapCall.init st.host loc.port] }) := by
    unfold connect_ssl
    simp [ldap_call, hssl, hreal]
  rw [main_connect_stages, if_neg hi, hc]

theorem fail_all_calls (keylist : List (List Char)) (action : Int) (m : Int) (st : State) :
    (fail_all keylist action m st).calls = st.calls := by
  unfold fail_all
  split
  · rfl
  · split <;> rfl

/-- What the LDAPS branch of `main` leaves: the internal-error code, no
driver, the `ldap_init` as only new call, and the lines of `fail_all`. -/
theorem main_connect_ldaps_spec (b : Build) (srv : Server) (loc : Locals)
    (keylist : List (List Char)) (st : State) (cs : List LdapCall) (out : List Char)
    (hssl : loc.use_ssl = true) (hreal : st.real_ldap = false)
    (hcs : st.calls = cs) (hout : st.output = out)
    (hinit : (srv cs (LdapCall.init st.host loc.port)).err = 0) :
    (main_connect b srv loc keylist st).ret = some KEYSERVER_INTERNAL_ERROR
      ∧ (main_connect b srv loc keylist st).dispatched = false
      ∧ (main_connect b srv loc keylist st).st.calls
        = cs ++ [LdapCall.init st.host loc.port]
      ∧ (loc.action ≠ SEARCH → (main_connect b srv loc keylist st).st.output
          = out ++ keyFailedLines keylist KEYSERVER_INTERNAL_ERROR)
      ∧ (loc.action = SEARCH → keylist ≠ [] → (main_connect b srv loc keylist st).st.output
          = out ++ searchFailedLine keylist KEYSERVER_INTERNAL_ERROR)
      ∧ (keylist = [] → (main_connect b srv loc keylist st).st.output = out) := by
  subst hcs hout
  rw [main_connect_ldaps b srv loc keylist st hssl hreal hinit]
  have hsp := fail_all_spec keylist loc.action KEYSERVER_INTERNAL_ERROR
    { st with calls := st.calls ++ [LdapCall.init st.host loc.port] }
  exact ⟨rfl, rfl, fail_all_calls _ _ _ _, hsp.1, hsp.2.1, hsp.2.2⟩

/-- C33: for every request whose header holds, before any blank line, a line
on which `SCHEME ldaps` is read (so that `use_ssl` is set), that is not left
at a VERSION mismatch and selects a command, once `ldap_init` succeeds
`main` takes the branch `not supported by the NAI LDAP keyserver`, because
`real_ldap` is still false there: its only LDAP call is the `ldap_init`
(no probe, no bind), no operation driver runs, every pending item is failed
with the internal-error code (for get one `KEY <k> FAILED <code>` line per
key, for search one `SEARCH ... FAILED <code>` line, nothing when no item
is pending, as for send), and `main` returns the internal-error code. -/
theorem main_ldaps_not_supported (b : Build) (srv : Server) (stream : List Char)
    (pre : List (List Char)) (sline w : List Char) (post : List (List Char))
    (hlines : input_lines stream = pre ++ sline :: post)
    (hpre : ∀ l ∈ pre, l.head? ≠ some '\n')
    (hs : scan_word "SCHEME".toList 79 sline = some w)
    (hw : strcasecmp_eq w "ldaps".toList = true)
    (hflag : (main_header b stream).1 = false)
    (hact : (main_header b stream).2.1.action = GET
      ∨ (main_header b stream).2.1.action = SEND
      ∨ (main_header b stream).2.1.action = SEARCH)
    (hinit : (srv [] (LdapCall.init (main_header b stream).2.2.host
      (main_header b stream).2.1.port)).err = 0) :
    (main_header b stream).2.1.use_ssl = true
      ∧ (main_header b stream).2.2.real_ldap = false
      ∧ (main b srv stream).ret = some KEYSERVER_INTERNAL_ERROR
      ∧ (main b srv stream).dispatched = false
      ∧ (main b srv stream).st.calls
        = [LdapCall.init (main_header b stream).2.2.host (main_header b stream).2.1.port]
      ∧ ((main_header b stream).2.1.action = GET →
          (main b srv stream).st.output
            = "VERSION ".toList ++ fmt_d b.proto_version ++ "\nPROGRAM ".toList ++ b.version
              ++ "\n\n".toList
              ++ keyFailedLines (read_keylist (main_header b stream).2.2.input).1
                  KEYSERVER_INTERNAL_ERROR)
      ∧ ((main_header b stream).2.1.action = SEARCH →
          (read_keylist (main_header b stream).2.2.input).1 ≠ [] →
          (main b srv stream).st.output
            = "VERSION ".toList ++ fmt_d b.proto_version ++ "\nPROGRAM ".toList ++ b.version
              ++ "\n\n".toList
              ++ searchFailedLine (read_keylist (main_header b stream).2.2.input).1
                  KEYSERVER_INTERNAL_ERROR)
      ∧ ((main_header b stream).2.1.action = SEND
          ∨ (read_keylist (main_header b stream).2.2.input).1 = [] →
          (main b srv stream).st.output
            = "VERSION ".toList ++ fmt_d b.proto_version ++ "\nPROGRAM ".toList ++ b.version
              ++ "\n\n".toList) := by
  have hssl : (main_header b stream).2.1.use_ssl = true := by
    unfold main_header at hflag ⊢
    rw [hlines] at hflag ⊢
    exact parse_header_scheme b sline w post hs hw pre _ _ hpre hflag
  have hreal : (main_header b stream).2.2.real_ldap = false :=
    (parse_header_ssl b (input_lines stream) Locals.initial
      (State.initial (input_lines stream))).2
  have hst := parse_header_streams b (input_lines stream) Locals.initial
    (State.initial (input_lines stream))
  have hout : (main_header b stream).2.2.output = [] := hst.1
  have hcalls : (main_header b stream).2.2.calls = [] := hst.2
  have hgs : GET ≠ SEND := by decide
  have hss : SEARCH ≠ SEND := by decide
  have hgq : GET ≠ SEARCH := by decide
  refine ⟨hssl, hreal, ?_⟩
  unfold main main_request
  rw [hflag]
  simp only [Bool.false_eq_true, if_false]
  by_cases hsend : (main_header b stream).2.1.action = SEND
  · rw [if_pos hsend]
    have h := main_connect_ldaps_spec b srv (main_header b stream).2.1 []
      (write_output
        ("VERSION ".toList ++ fmt_d b.proto_version ++ "\nPROGRAM ".toList ++ b.version
          ++ "\n\n".toList)
        { (main_header b stream).2.2 with
          input := skip_recipients (main_header b stream).2.2.input })
      [] ("VERSION ".toList ++ fmt_d b.proto_version ++ "\nPROGRAM ".toList ++ b.version
          ++ "\n\n".toList)
      hssl hreal hcalls (by
        show (main_header b stream).2.2.output ++ _ = _
        rw [hout]; rfl) hinit
    refine ⟨h.1, h.2.1, h.2.2.1, ?_, ?_, ?_⟩
    · intro hg; rw [hsend] at hg; exact absurd hg.symm hgs
    · intro hq; rw [hsend] at hq; exact absurd hq.symm hss
    · intro _
      exact h.2.2.2.2.2 rfl
  · have hgq2 : (main_header b stream).2.1.action = GET
        ∨ (main_header b stream).2.1.action = SEARCH := by
      rcases hact with h | h | h
      · exact Or.inl h
      · exact absurd h hsend
      · exact Or.inr h
    rw [if_neg hsend, if_pos hgq2]
    have h := main_connect_ldaps_spec b srv (main_header b stream).2.1
      (read_keylist (main_header b stream).2.2.input).1
      (write_output
        ("VERSION ".toList ++ fmt_d b.proto_version ++ "\nPROGRAM ".toList ++ b.version
          ++ "\n\n".toList)
        { (main_header b stream).2.2 with
          input := (read_keylist (main_header b stream).2.2.input).2 })
      [] ("VERSION ".toList ++ fmt_d b.proto_version ++ "\nPROGRAM ".toList ++ b.version
          ++ "\n\n".toList)
      hssl hreal hcalls (by
        show (main_header b stream).2.2.output ++ _ = _
        rw [hout]; rfl) hinit
    refine ⟨h.1, h.2.1, h.2.2.1, ?_, ?_, ?_⟩
    · intro hg
      exact h.2.2.2.1 (by rw [hg]; exact hgq)
    · intro hq hne
      exact h.2.2.2.2.1 hq hne
    · intro hc
      rcases hc with hc | hc
      · exact absurd hc hsend
      · exact h.2.2.2.2.2 hc

theorem main_ldaps_not_supported_witness :
    (main demoBuild okServer "COMMAND get\nSCHEME ldaps\nHOST h\n\n0xDEADBEEF\n".toList).ret
        = some KEYSERVER_INTERNAL_ERROR
      ∧ (main demoBuild okServer
          "COMMAND get\nSCHEME ldaps\nHOST h\n\n0xDEADBEEF\n".toList).dispatched = false
      ∧ (main demoBuild okServer
          "COMMAND get\nSCHEME ldaps\nHOST h\n\n0xDEADBEEF\n".toList).st.calls
        = [LdapCall.init "h".toList 636]
      ∧ (main demoBuild okServer
          "COMMAND get\nSCHEME ldaps\nHOST h\n\n0xDEADBEEF\n".toList).st.output
        = "VERSION 1\nPROGRAM 1.4\n\nKEY 0xDEADBEEF FAILED 1\n".toList :=
  have h := main_ldaps_not_supported demoBuild okServer
    "COMMAND get\nSCHEME ldaps\nHOST h\n\n0xDEADBEEF\n".toList
    ["COMMAND get\n".toList] "SCHEME ldaps\n".toList "ldaps".toList
    ["HOST h\n".toList, "\n".toList, "0xDEADBEEF\n".toList]
    (by decide) (by decide) (by decide) (by decide) (by decide) (Or.inl (by decide))
    (by decide)
  ⟨h.2.2.1, h.2.2.2.1, h.2.2.2.2.1, (h.2.2.2.2.2.1 (by decide)).trans (by decide)⟩

theorem toInt32_of_range (n : Int) (h0 : -2147483648 ≤ n) (h1 : n < 2147483648) :
    toInt32 (clampLong n) = n := by
  unfold toInt32 clampLong
  have a : ¬ n < -9223372036854775808 := by omega
  have b : ¬ 9223372036854775807 < n := by omega
  rw [if_neg a, if_neg b]
  omega

theorem digitsVal_append (ds : List Char) (c : Char) :
    digitsVal (ds ++ [c]) = 10 * digitsVal ds + (c.toNat - 48) := by
  unfold digitsVal
  rw [List.foldl_append]
  rfl

/-- The value `atoi` accumulates over a run of digits is the number the
numeral denotes. -/
theorem digitsVal_ofDigits (v : List Char) :
    digitsVal v = Nat.ofDigits 10 ((v.map (fun c => c.toNat - '0'.toNat)).reverse) := by
  induction v using List.reverseRecOn with
  | nil => rfl
  | append_singleton ds c ih =>
    rw [digitsVal_append, ih, List.map_append, List.reverse_append]
    simp only [List.map_cons, List.map_nil, List.reverse_cons, List.reverse_nil,
      List.nil_append, List.singleton_append, Nat.ofDigits_cons]
    have : '0'.toNat = 48 := by decide
    rw [this]
    omega

/-- `atoi` on a decimal numeral below 2^31 gives the number it denotes. -/
theorem atoi_numeral (v : List Char) (n : Nat) (hv : numeralValue v = some n)
    (hn : n < 2147483648) : atoi v = (n : Int) := by
  unfold numeralValue at hv
  by_cases hc : v ≠ [] ∧ v.all isdigit = true
  · rw [if_pos hc] at hv
    have hval : digitsVal v = n := by
      rw [digitsVal_ofDigits]
      exact Option.some.inj hv
    obtain ⟨hne, hall⟩ := hc
    have hd : ∀ c ∈ v, isdigit c = true := by
      simpa [List.all_eq_true] using hall
    cases v with
    | nil => exact absurd rfl hne
    | cons c cs =>
      have hcd : isdigit c = true := hd c (List.mem_cons_self _ _)
      have hsp : isspace c = false := isdigit_not_isspace c hcd
      have hsg := isdigit_not_sign c hcd
      have htw : (c :: cs).takeWhile isdigit = c :: cs := by
        rw [List.takeWhile_eq_self_iff]
        exact hd
      unfold atoi
      have hdw : (c :: cs).dropWhile isspace = c :: cs := by
        simp [List.dropWhile, hsp]
      rw [hdw]
      have hsd : signedDigits (c :: cs) = ((digitsVal (c :: cs) : Nat) : Int) := by
        unfold signedDigits
        split
        · rename_i r heq
          have : c = '-' := by injection heq with h1 _
          exact absurd this hsg.1
        · rename_i r heq
          have : c = '+' := by injection heq with h1 _
          exact absurd this hsg.2
        · rw [htw]
      rw [hsd, hval]
      exact toInt32_of_range _ (by omega) (by omega)
  · rw [if_neg hc] at hv
    exact Option.noConfusion hv
theorem toDigitsCore_append (n : Nat) : ∀ (fuel : Nat) (ds : List Char), n < fuel →
    Nat.toDigitsCore 10 fuel n ds = Nat.toDigitsCore 10 (n + 1) n [] ++ ds := by
  induction n using Nat.strong_induction_on with
  | _ n ih =>
    intro fuel ds hf
    cases fuel with
    | zero => omega
    | succ f =>
      by_cases h0 : n / 10 = 0
      · simp [Nat.toDigitsCore, h0]
      · have hlt : n / 10 < n := by omega
        have e1 : Nat.toDigitsCore 10 (f + 1) n ds
            = Nat.toDigitsCore 10 f (n / 10) (Nat.digitChar (n % 10) :: ds) := by
          simp [Nat.toDigitsCore, h0]
        have e2 : Nat.toDigitsCore 10 (n + 1) n []
            = Nat.toDigitsCore 10 n (n / 10) [Nat.digitChar (n % 10)] := by
          simp [Nat.toDigitsCore, h0]
        rw [e1, e2, ih (n / 10) hlt f _ (by omega), ih (n / 10) hlt n _ hlt]
        simp

/-- The decimal digits of a number: the digits of its tenth, then its last
digit. -/
theorem decimal_step (n : Nat) (h : 10 ≤ n) :
    decimal n = decimal (n / 10) ++ [Nat.digitChar (n % 10)] := by
  have h0 : ¬ n / 10 = 0 := by omega
  unfold decimal Nat.toDigits
  have e2 : Nat.toDigitsCore 10 (n + 1) n []
      = Nat.toDigitsCore 10 n (n / 10) [Nat.digitChar (n % 10)] := by
    simp [Nat.toDigitsCore, h0]
  rw [e2, toDigitsCore_append (n / 10) n _ (by omega)]

theorem decimal_digit (n : Nat) (h : n < 10) : decimal n = [Nat.digitChar n] := by
  revert n
  decide

/-- The five-digit zero-padded form of a number below 100000 is the list of
its five decimal digits. -/
theorem zeroPad_five (n : Nat) (h : n < 100000) : zeroPad 5 (decimal n) = fiveDigits n := by
  unfold fiveDigits
  by_cases h1 : n < 10
  · rw [decimal_digit n h1]
    have a : n / 10000 % 10 = 0 := by omega
    have b : n / 1000 % 10 = 0 := by omega
    have c : n / 100 % 10 = 0 := by omega
    have d : n / 10 % 10 = 0 := by omega
    have e : n % 10 = n := by omega
    rw [a, b, c, d, e]
    rfl
  · rw [decimal_step n (by omega)]
    by_cases h2 : n < 100
    · rw [decimal_digit (n / 10) (by omega)]
      have a : n / 10000 % 10 = 0 := by omega
      have b : n / 1000 % 10 = 0 := by omega
      have c : n / 100 % 10 = 0 := by omega
      have d : n / 10 % 10 = n / 10 := by omega
      rw [a, b, c, d]
      rfl
    · rw [decimal_step (n / 10) (by omega)]
      by_cases h3 : n < 1000
      · rw [decimal_digit (n / 10 / 10) (by omega)]
        have a : n / 10000 % 10 = 0 := by omega
        have b : n / 1000 % 10 = 0 := by omega
        have c : n / 100 % 10 = n / 10 / 10 := by omega
        have d : n / 10 % 10 = n / 10 % 10 := rfl
        rw [a, b, c]
        rfl
      · rw [decimal_step (n / 10 / 10) (by omega)]
        by_cases h4 : n < 10000
        · rw [decimal_digit (n / 10 / 10 / 10) (by omega)]
          have a : n / 10000 % 10 = 0 := by omega
          have b : n / 1000 % 10 = n / 10 / 10 / 10 := by omega
          have c : n / 100 % 10 = n / 10 / 10 % 10 := by omega
          rw [a, b, c]
          rfl
        · rw [decimal_step (n / 10 / 10 / 10) (by omega),
            decimal_digit (n / 10 / 10 / 10 / 10) (by omega)]
          have a : n / 10000 % 10 = n / 10 / 10 / 10 / 10 := by omega
          have b : n / 1000 % 10 = n / 10 / 10 / 10 % 10 := by omega
          have c : n / 100 % 10 = n / 10 / 10 % 10 := by omega
          rw [a, b, c]
          rfl

/-- What `VERSION %d` stores for a decimal numeral below 2^31 followed by
the end of the line: the number it denotes. -/
theorem scan_number_numeral (v : List Char) (n : Nat) (hv : numeralValue v = some n)
    (hn : n < 2147483648) :
    scan_number "VERSION".toList ("VERSION ".toList ++ v ++ ['\n']) = some (n : Int) := by
  unfold numeralValue at hv
  by_cases hc : v ≠ [] ∧ v.all isdigit = true
  · rw [if_pos hc] at hv
    have hval : digitsVal v = n := by
      rw [digitsVal_ofDigits]
      exact Option.some.inj hv
    obtain ⟨hne, hall⟩ := hc
    have hd : ∀ c ∈ v, isdigit c = true := by
      simpa [List.all_eq_true] using hall
    cases v with
    | nil => exact absurd rfl hne
    | cons c cs =>
      have hcd : isdigit c = true := hd c (List.mem_cons_self _ _)
      have hsp : isspace c = false := isdigit_not_isspace c hcd
      have hsg := isdigit_not_sign c hcd
      have hpre : "VERSION".toList.isPrefixOf ("VERSION ".toList ++ (c :: cs) ++ ['\n']) = true := by
        simp [List.isPrefixOf]
      have hdrop : ("VERSION ".toList ++ (c :: cs) ++ ['\n']).drop "VERSION".toList.length
          = ' ' :: ((c :: cs) ++ ['\n']) := by
        simp
      have hlen : ("VERSION ".toList ++ (c :: cs) ++ ['\n']).length = cs.length + 10 := by
        simp
      have htk : ((c :: cs) ++ ['\n']).take (cs.length + 10) = (c :: cs) ++ ['\n'] := by
        apply List.take_of_length_le
        simp
      have htw : ((c :: cs) ++ ['\n']).takeWhile isdigit = c :: cs := by
        rw [List.takeWhile_append_of_pos hd]
        simp [List.takeWhile]
        decide
      unfold scan_number
      rw [if_pos hpre, hdrop, hlen]
      unfold scan_int
      have hdw : (' ' :: ((c :: cs) ++ ['\n'])).dropWhile isspace = (c :: cs) ++ ['\n'] := by
        have h1 : isspace ' ' = true := by decide
        simp [List.dropWhile, h1, hsp]
      simp only [hdw, htk]
      split
      · rename_i r heq
        have : c = '-' := by
          rw [List.cons_append] at heq
          injection heq with h1 _
        exact absurd this hsg.1
      · rename_i r heq
        have : c = '+' := by
          rw [List.cons_append] at heq
          injection heq with h1 _
        exact absurd this hsg.2
      · rw [htw]
        simp only [List.length_cons, Nat.succ_ne_zero, if_false, Option.map_some']
        rw [hval, toInt32_of_range _ (by omega) (by omega)]
  · rw [if_neg hc] at hv
    exact Option.noConfusion hv

/-- C20 (counterexample): with protocol version 1 the line
`VERSION 4294967297` is read into the `int` as 1, so the header is accepted:
`main` goes on, makes LDAP calls, fetches the key and returns 0. -/
theorem main_version_wraps :
    scan_number "VERSION".toList "VERSION 4294967297\n".toList = some 1
      ∧ demoBuild.proto_version = 1
      ∧ (main demoBuild oneKeyServer
          "COMMAND get\nHOST h\nVERSION 4294967297\n\n0xDEADBEEF\n".toList).ret
        = some KEYSERVER_OK
      ∧ (main demoBuild oneKeyServer
          "COMMAND get\nHOST h\nVERSION 4294967297\n\n0xDEADBEEF\n".toList).st.output
        = "VERSION 1\nPROGRAM 1.4\n\nKEY 0xDEADBEEF BEGIN\nk1\nKEY 0xDEADBEEF END\n".toList
      ∧ (main demoBuild oneKeyServer
          "COMMAND get\nHOST h\nVERSION 4294967297\n\n0xDEADBEEF\n".toList).st.calls.length
        = 4 := by
  decide

/-- C20 (amended): for every input whose header holds, before any blank
line, a line on which `VERSION %d` stores an `int` n different from
KEYSERVER_PROTO_VERSION, `main` returns the version-error code, writes
nothing to the output stream and makes no LDAP call; on a line `VERSION <m>`
with a decimal numeral below 2^31 the stored n is the number m. -/
theorem main_version_mismatch (b : Build) (srv : Server) (stream : List Char)
    (pre : List (List Char)) (vline : List Char) (post : List (List Char)) (n : Int)
    (hlines : input_lines stream = pre ++ vline :: post)
    (hpre : ∀ l ∈ pre, l.head? ≠ some '\n')
    (hv : scan_number "VERSION".toList vline = some n)
    (hn : n ≠ b.proto_version) :
    (main b srv stream).ret = some KEYSERVER_VERSION_ERROR
      ∧ (main b srv stream).st.output = []
      ∧ (main b srv stream).st.calls = []
      ∧ ∀ (v : List Char) (m : Nat), numeralValue v = some m → m < 2147483648 →
          vline = "VERSION ".toList ++ v ++ ['\n'] → n = (m : Int) := by
  have hnum : ∀ (v : List Char) (m : Nat), numeralValue v = some m → m < 2147483648 →
      vline = "VERSION ".toList ++ v ++ ['\n'] → n = (m : Int) := by
    intro v m hvm hm hl
    rw [hl, scan_number_numeral v m hvm hm] at hv
    exact (Option.some.inj hv).symm
  have hflag : (main_header b stream).1 = true := by
    unfold main_header
    rw [hlines]
    exact parse_header_version b vline post n hv hn pre _ _ hpre
  have hs := parse_header_streams b (input_lines stream) Locals.initial
    (State.initial (input_lines stream))
  unfold main main_request
  rw [hflag]
  exact ⟨rfl, hs.1, hs.2, hnum⟩

theorem main_version_mismatch_witness :
    scan_number "VERSION".toList "VERSION 2\n".toList = some 2
      ∧ (main demoBuild demoServer "COMMAND get\nHOST h\nVERSION 2\n\n0xDEADBEEF\n".toList).ret
        = some KEYSERVER_VERSION_ERROR
      ∧ (main demoBuild demoServer
          "COMMAND get\nHOST h\nVERSION 2\n\n0xDEADBEEF\n".toList).st.output = []
      ∧ (main demoBuild demoServer
          "COMMAND get\nHOST h\nVERSION 2\n\n0xDEADBEEF\n".toList).st.calls = [] :=
  have h := main_version_mismatch demoBuild demoServer
    "COMMAND get\nHOST h\nVERSION 2\n\n0xDEADBEEF\n".toList
    ["COMMAND get\n".toList, "HOST h\n".toList] "VERSION 2\n".toList
    ["\n".toList, "0xDEADBEEF\n".toList] 2 (by decide) (by decide) (by decide) (by decide)
  ⟨by decide, h.1, h.2.1, h.2.2.1⟩

/-- The publish drivers take a data line that begins with `KEY` and a word
for the end of the KEY block: `sscanf(line,"KEY %16s END\n",keyid)` returns 1
as soon as the word is read.  Here the block ends at its second data line
and only the first is published. -/
theorem key_block_line_taken_for_end :
    scan_word "KEY".toList 16 "KEYzR3abc\n".toList = some "zR3abc".toList
      ∧ (send_key_keyserver okServer keyLineState).st.calls
        = [LdapCall.add "pgpCertid=virtual,OU=X".toList
            [⟨LDAP_MOD_ADD, "pgpKeyV2".toList, ["mQENBF\n".toList]⟩]] := by
  decide

/-- C25 (counterexample): the `cn=pgpServerInfo` entry holds the version
`4294967296`, a number greater than 1; `atoi` returns an `int`, here 0, and
the probe leaves the key attribute name `pgpKey`. -/
theorem legacy_version_wraps :
    numeralValue "4294967296".toList = some 4294967296
      ∧ atoi "4294967296".toList = 0
      ∧ (find_basekeyspacedn wideVersionServer (State.initial [])).1 = LDAP_SUCCESS
      ∧ (find_basekeyspacedn wideVersionServer (State.initial [])).2.basekeyspacedn
        = some "OU=X".toList
      ∧ (find_basekeyspacedn wideVersionServer (State.initial [])).2.pgpkeystr
        = "pgpKey".toList := by
  decide

/-- C25 (amended): when the namingContexts search fails and the
`cn=pgpServerInfo` entry holds baseKeySpaceDN `B` and version `v`, the probe
succeeds, leaves `real_ldap` false, sets the base DN to `B`, and sets the key
attribute name to `pgpKeyV2` exactly when the `int` that `atoi` returns for
`v` is greater than 1 (for a decimal numeral below 2^31: when the number is
greater than 1) and leaves it `pgpKey` otherwise; a publish made in a state
with that base DN and key attribute name on a KEY block none of whose data
lines is read as `KEY <word>` sends one add to the DN `pgpCertid=virtual,B`
with the single attribute of that name, added with the concatenated lines of
the block as its value. -/
theorem legacy_dialect_publish (srv : Server) (st : State) (reply : LdapReply)
    (B v : List Char)
    (hreal : st.real_ldap = false) (hkeystr : st.pgpkeystr = "pgpKey".toList)
    (hnc : (srv st.calls (LdapCall.search (some []) LDAP_SCOPE_BASE "(objectClass=*)".toList
      ["namingContexts".toList])).err ≠ LDAP_SUCCESS)
    (hsi : srv (st.calls ++ [LdapCall.search (some []) LDAP_SCOPE_BASE "(objectClass=*)".toList
        ["namingContexts".toList]])
      (LdapCall.search (some "cn=pgpServerInfo".toList) LDAP_SCOPE_BASE
        "(objectClass=*)".toList
        ["pgpBaseKeySpaceDN".toList, "version".toList, "software".toList]) = reply)
    (hok : reply.err = LDAP_SUCCESS)
    (hB : first_value (reply.entries.headD []) "baseKeySpaceDN".toList = some B)
    (hv : first_value (reply.entries.headD []) "version".toList = some v) :
    (find_basekeyspacedn srv st).1 = LDAP_SUCCESS
      ∧ (find_basekeyspacedn srv st).2.real_ldap = false
      ∧ (find_basekeyspacedn srv st).2.basekeyspacedn = some B
      ∧ (find_basekeyspacedn srv st).2.pgpkeystr
          = (if 1 < atoi v then "pgpKeyV2".toList else "pgpKey".toList)
      ∧ (∀ n : Nat, numeralValue v = some n → n < 2147483648 →
          ((find_basekeyspacedn srv st).2.pgpkeystr = "pgpKeyV2".toList ↔ 1 < n))
      ∧ ∀ (srv2 : Server) (st2 : State) (K : List Char) (keylines rest : List (List Char)),
          st2.basekeyspacedn = (find_basekeyspacedn srv st).2.basekeyspacedn →
          st2.pgpkeystr = (find_basekeyspacedn srv st).2.pgpkeystr →
          K ≠ [] → K.length ≤ 16 → (∀ c ∈ K, isspace c = false) →
          (∀ l ∈ keylines, scan_word "KEY".toList 16 l = none) →
          st2.input = frameLine "KEY".toList K "BEGIN".toList
            :: (keylines ++ frameLine "KEY".toList K "END".toList :: rest) →
          (send_key_keyserver srv2 st2).st.calls
            = st2.calls ++ [LdapCall.add ("pgpCertid=virtual,".toList ++ B)
                [⟨LDAP_MOD_ADD, if 1 < atoi v then "pgpKeyV2".toList else "pgpKey".toList,
                  [keylines.flatten]⟩]] := by
  have hprobe : find_basekeyspacedn srv st
      = (LDAP_SUCCESS,
          if 1 < atoi v then
            { st with
              calls := st.calls ++ [LdapCall.search (some []) LDAP_SCOPE_BASE
                  "(objectClass=*)".toList ["namingContexts".toList],
                LdapCall.search (some "cn=pgpServerInfo".toList) LDAP_SCOPE_BASE
                  "(objectClass=*)".toList
                  ["pgpBaseKeySpaceDN".toList, "version".toList, "software".toList]],
              basekeyspacedn := some B, pgpkeystr := "pgpKeyV2".toList }
          else
            { st with
              calls := st.calls ++ [LdapCall.search (some []) LDAP_SCOPE_BASE
                  "(objectClass=*)".toList ["namingContexts".toList],
                LdapCall.search (some "cn=pgpServerInfo".toList) LDAP_SCOPE_BASE
                  "(objectClass=*)".toList
                  ["pgpBaseKeySpaceDN".toList, "version".toList, "software".toList]],
              basekeyspacedn := some B }) := by
    unfold find_basekeyspacedn
    simp only [ldap_call, hnc, if_false, hsi, hok, ne_eq, not_true_eq_false, hB, hv]
    split <;> simp
  have h3 : (find_basekeyspacedn srv st).2.basekeyspacedn = some B := by
    rw [hprobe]; split <;> rfl
  have h4 : (find_basekeyspacedn srv st).2.pgpkeystr
      = (if 1 < atoi v then "pgpKeyV2".toList else "pgpKey".toList) := by
    rw [hprobe]
    by_cases h : 1 < atoi v
    · simp only [if_pos h]
    · simp only [if_neg h]; exact hkeystr
  refine ⟨by rw [hprobe], ?_, h3, h4, ?_, ?_⟩
  · rw [hprobe]; split <;> exact hreal
  · intro n hnum hn
    rw [h4, atoi_numeral v n hnum hn]
    by_cases h : (1 : Int) < (n : Int)
    · rw [if_pos h]
      exact ⟨fun _ => by omega, fun _ => rfl⟩
    · rw [if_neg h]
      exact ⟨fun e => absurd e (by decide), fun e => absurd (by omega) h⟩
  · intro srv2 st2 K keylines rest hb hp hne hK hKs hkey hin
    rw [send_key_keyserver_block srv2 st2 B K keylines rest (hb.trans h3) hne hK hKs hkey hin,
      hp, h4]

theorem legacy_dialect_publish_witness :
    (find_basekeyspacedn legacyServer (State.initial [])).1 = LDAP_SUCCESS
      ∧ (find_basekeyspacedn legacyServer (State.initial [])).2.real_ldap = false
      ∧ (find_basekeyspacedn legacyServer (State.initial [])).2.basekeyspacedn
          = some "OU=X".toList
      ∧ (find_basekeyspacedn legacyServer (State.initial [])).2.pgpkeystr = "pgpKeyV2".toList
      ∧ (send_key_keyserver legacyServer s6State).st.calls
          = [LdapCall.add "pgpCertid=virtual,OU=X".toList
              [⟨LDAP_MOD_ADD, "pgpKeyV2".toList,
                ["-----BEGIN PGP PUBLIC KEY BLOCK-----\n".toList]⟩]] :=
  have h := legacy_dialect_publish legacyServer (State.initial [])
    ⟨0, [[("baseKeySpaceDN".toList, ["OU=X".toList]), ("version".toList, ["2".toList])]]⟩
    "OU=X".toList "2".toList rfl rfl (by decide) rfl rfl (by decide) (by decide)
  ⟨h.1, h.2.1, h.2.2.1, h.2.2.2.1,
    h.2.2.2.2.2 legacyServer s6State "AAAAAAAAAAAAAAAA".toList
      ["-----BEGIN PGP PUBLIC KEY BLOCK-----\n".toList] [] (by decide) (by decide)
      (by decide) (by decide) (by decide) (by decide) rfl⟩

theorem numeral_no_colon (v : List Char) (n : Nat) (hv : numeralValue v = some n) :
    ':' ∉ v := by
  unfold numeralValue at hv
  by_cases hc : v ≠ [] ∧ v.all isdigit = true
  · intro hmem
    have hd : ∀ c ∈ v, isdigit c = true := by
      simpa [List.all_eq_true] using hc.2
    exact absurd (hd ':' hmem) (by decide)
  · rw [if_neg hc] at hv
    exact Option.noConfusion hv

/-- C10 (counterexample): a `pub:` line whose created field is 2147483648
and whose expires field is 4102444800, both positive numbers: `atoi` returns
them as negative `int`s and the add carries neither pgpKeyCreateTime nor
pgpKeyExpireTime. -/
theorem send_key_created_wraps :
    atoi "2147483648".toList = -2147483648
      ∧ atoi "4102444800".toList = -192522496
      ∧ (send_key true okServer
          { State.initial
              (publishInput "AAAAAAAAAAAAAAAA".toList "17".toList "2048".toList
                "2147483648".toList "4102444800".toList [] ["k\n".toList] []) with
            basekeyspacedn := some "OU=X".toList }).st.calls
        = [LdapCall.add "pgpCertID=AAAAAAAAAAAAAAAA,OU=X".toList
            [⟨LDAP_MOD_REPLACE, "pgpCertID".toList, ["AAAAAAAAAAAAAAAA".toList]⟩,
             ⟨LDAP_MOD_REPLACE, "pgpKeyID".toList, ["AAAAAAAA".toList]⟩,
             ⟨LDAP_MOD_REPLACE, "pgpKeyType".toList, ["DSS/DH".toList]⟩,
             ⟨LDAP_MOD_REPLACE, "pgpKeySize".toList, ["02048".toList]⟩,
             ⟨LDAP_MOD_REPLACE, "pgpDisabled".toList, ["0".toList]⟩,
             ⟨LDAP_MOD_REPLACE, "pgpRevoked".toList, ["0".toList]⟩,
             ⟨LDAP_MOD_REPLACE, "objectClass".toList, ["pgpKeyInfo".toList]⟩,
             ⟨LDAP_MOD_REPLACE, "pgpKey".toList, ["k\n".toList]⟩]] := by
  decide

/-- C10 (amended): for an INFO block for a 16-character keyid `K` holding the
single line `pub:K:<algo>:<size>:<created>:<expires>:<flags>`, the fields
decimal numerals with algo 1 or 17, 0 < size < 99999, 0 < created < 2^31 and
expires empty or below 2^31, followed by a KEY block none of whose data
lines is read as `KEY <word>`, `send_key` calls add with DN
`pgpCertID=K,<basekeyspacedn>` and exactly the attributes pgpCertID,
pgpKeyID (last 8 characters of `K`), pgpKeyType (RSA for 1, DSS/DH for 17),
pgpKeySize (the five decimal digits of the size), pgpKeyCreateTime (the
created text), pgpKeyExpireTime (the expires text, only when expires > 0),
pgpDisabled, pgpRevoked, objectClass=pgpKeyInfo and pgpKey (the KEY-block
lines concatenated); when the add succeeds nothing is written and the result
is ok. -/
theorem send_key_publish (cs : Bool) (srv : Server) (st : State)
    (K algo size created expires flags base : List Char) (keylines rest : List (List Char))
    (a n c e : Nat)
    (hK : K.length = 16) (hKs : ∀ x ∈ K, isspace x = false) (hKc : ':' ∉ K)
    (halgo : numeralValue algo = some a) (ha : a = 1 ∨ a = 17)
    (hsize : numeralValue size = some n) (hn : 0 < n ∧ n < 99999)
    (hcreated : numeralValue created = some c) (hc : 0 < c ∧ c < 2147483648)
    (hexpires : (expires = [] ∧ e = 0) ∨ (numeralValue expires = some e ∧ e < 2147483648))
    (hf : ':' ∉ flags)
    (hbase : st.basekeyspacedn = some base)
    (hkey : ∀ l ∈ keylines, scan_word "KEY".toList 16 l = none)
    (hin : st.input = publishInput K algo size created expires flags keylines rest) :
    (send_key cs srv st).st.calls.take (st.calls.length + 1)
      = st.calls ++ [LdapCall.add ("pgpCertID=".toList ++ K ++ ",".toList ++ base)
          (publishAttrs K (if a = 1 then "RSA".toList else "DSS/DH".toList) (fiveDigits n)
            created (if 0 < e then some expires else none)
            (flagValue 'd' 'D' (strip_trailing (flags ++ ['\n'])))
            (flagValue 'r' 'R' (strip_trailing (flags ++ ['\n']))) keylines.flatten)]
    ∧ ((srv st.calls (LdapCall.add ("pgpCertID=".toList ++ K ++ ",".toList ++ base)
          (publishAttrs K (if a = 1 then "RSA".toList else "DSS/DH".toList) (fiveDigits n)
            created (if 0 < e then some expires else none)
            (flagValue 'd' 'D' (strip_trailing (flags ++ ['\n'])))
            (flagValue 'r' 'R' (strip_trailing (flags ++ ['\n']))) keylines.flatten))).err
          = LDAP_SUCCESS →
        (send_key cs srv st).ret = KEYSERVER_OK
        ∧ (send_key cs srv st).eof = false
        ∧ (send_key cs srv st).st.output = st.output
        ∧ (send_key cs srv st).st.printed = st.printed
        ∧ (send_key cs srv st).st.input = rest
        ∧ (send_key cs srv st).st.calls
            = st.calls ++ [LdapCall.add ("pgpCertID=".toList ++ K ++ ",".toList ++ base)
                (publishAttrs K (if a = 1 then "RSA".toList else "DSS/DH".toList)
                  (fiveDigits n) created (if 0 < e then some expires else none)
                  (flagValue 'd' 'D' (strip_trailing (flags ++ ['\n'])))
                  (flagValue 'r' 'R' (strip_trailing (flags ++ ['\n']))) keylines.flatten)]) := by
  have hA : atoi algo = (a : Int) := atoi_numeral algo a halgo (by omega)
  have hN : atoi size = (n : Int) := atoi_numeral size n hsize (by omega)
  have hC : atoi created = (c : Int) := atoi_numeral created c hcreated hc.2
  have hE : atoi expires = (e : Int) := by
    rcases hexpires with ⟨h1, h2⟩ | ⟨h1, h2⟩
    · rw [h1, h2]; decide
    · exact atoi_numeral expires e h1 h2
  have hec : ':' ∉ expires := by
    rcases hexpires with ⟨h1, _⟩ | ⟨h1, _⟩
    · rw [h1]; simp
    · exact numeral_no_colon expires e h1
  have hsend := send_key_publishInput cs srv st K algo size created expires flags base keylines
    rest hK hKs hbase hkey hin
  have hattrs := publishAttrs_eq cs K algo size created expires flags keylines.flatten hK hKc
    (numeral_no_colon algo a halgo) (numeral_no_colon size n hsize)
    (numeral_no_colon created c hcreated) hec hf
    (by rw [hA]; omega) (by rw [hN]; omega) (by rw [hC]; omega)
  have h1 : (if atoi algo = 1 then "RSA".toList else "DSS/DH".toList)
      = (if a = 1 then "RSA".toList else "DSS/DH".toList) := by
    rw [hA]
    by_cases h : a = 1
    · rw [if_pos h, if_pos (by omega)]
    · rw [if_neg h, if_neg (by omega)]
  have h2 : zeroPad 5 (decimal (atoi size).toNat) = fiveDigits n := by
    rw [hN, Int.toNat_ofNat, zeroPad_five n (by omega)]
  have h3 : (if 0 < atoi expires then some expires else none)
      = (if 0 < e then some expires else none) := by
    rw [hE]
    by_cases h : 0 < e
    · rw [if_pos h, if_pos (by omega)]
    · rw [if_neg h, if_neg (by omega)]
  rw [h1, h2, h3] at hattrs
  rw [hsend]
  refine ⟨?_, ?_⟩
  · have := send_key_submit_calls srv ("pgpCertID=".toList ++ K ++ ",".toList ++ base)
      (build_attrs cs [] (pubLine K algo size created expires flags)) keylines.flatten K
      { st with input := rest }
    rw [hattrs] at this
    exact this
  · intro hok
    have := send_key_submit_ok srv ("pgpCertID=".toList ++ K ++ ",".toList ++ base)
      (build_attrs cs [] (pubLine K algo size created expires flags)) keylines.flatten K
      { st with input := rest } (by rw [hattrs]; exact hok)
    rw [this, hattrs]
    exact ⟨rfl, rfl, rfl, rfl, rfl, rfl⟩

theorem send_key_publish_witness :
    (send_key true okServer s4State).ret = KEYSERVER_OK
    ∧ (send_key true okServer s4State).st.output = []
    ∧ (send_key true okServer s4State).st.calls
        = [LdapCall.add "pgpCertID=AAAAAAAAAAAAAAAA,OU=X".toList
            [⟨LDAP_MOD_REPLACE, "pgpCertID".toList, ["AAAAAAAAAAAAAAAA".toList]⟩,
             ⟨LDAP_MOD_REPLACE, "pgpKeyID".toList, ["AAAAAAAA".toList]⟩,
             ⟨LDAP_MOD_REPLACE, "pgpKeyType".toList, ["DSS/DH".toList]⟩,
             ⟨LDAP_MOD_REPLACE, "pgpKeySize".toList, ["02048".toList]⟩,
             ⟨LDAP_MOD_REPLACE, "pgpKeyCreateTime".toList, ["1".toList]⟩,
             ⟨LDAP_MOD_REPLACE, "pgpDisabled".toList, ["0".toList]⟩,
             ⟨LDAP_MOD_REPLACE, "pgpRevoked".toList, ["0".toList]⟩,
             ⟨LDAP_MOD_REPLACE, "objectClass".toList, ["pgpKeyInfo".toList]⟩,
             ⟨LDAP_MOD_REPLACE, "pgpKey".toList,
               ["-----BEGIN PGP PUBLIC KEY BLOCK-----\n".toList]⟩]] :=
  have h := send_key_publish true okServer s4State "AAAAAAAAAAAAAAAA".toList "17".toList
    "2048".toList "1".toList "0".toList [] "OU=X".toList
    ["-----BEGIN PGP PUBLIC KEY BLOCK-----\n".toList] [] 17 2048 1 0
    (by decide) (by decide) (by decide) (by decide) (by decide) (by decide) (by decide)
    (by decide) (by decide) (Or.inr (by decide)) (by decide) rfl (by decide) rfl
  ⟨(h.2 rfl).1, (h.2 rfl).2.2.1, (h.2 rfl).2.2.2.2.2⟩

/-- The key-size field of a `pub:` line is the one of the spec when the
pgpkeysize value is a decimal numeral below 2^31. -/
theorem pub_size_spec (e : Entry)
    (h : ∀ v, first_value e "pgpkeysize".toList = some v →
      ∃ n, numeralValue v = some n ∧ n < 2147483648) :
    pub_size e = sizeFieldSpec ((first_value e "pgpkeysize".toList).bind numeralValue) := by
  unfold pub_size sizeFieldSpec
  cases hv : first_value e "pgpkeysize".toList with
  | none => rfl
  | some v =>
    obtain ⟨n, hn, hlt⟩ := h v hv
    simp only [Option.some_bind, hn, atoi_numeral v n hn hlt]
    by_cases h0 : 0 < n
    · rw [if_pos h0, if_pos (by omega)]
      unfold fmt_d decimal
      rw [if_neg (by omega), Int.toNat_ofNat]
    · rw [if_neg h0, if_neg (by omega)]

theorem flag_numeral (t letter : List Char) (n : Nat) (hn : numeralValue t = some n)
    (hlt : n < 2147483648) :
    (if atoi t = 1 then letter else [])
      = (if (some t).bind numeralValue = some 1 then letter else []) := by
  simp only [Option.some_bind, hn, atoi_numeral t n hn hlt]
  by_cases h1 : n = 1
  · rw [if_pos (by omega), if_pos (by rw [h1])]
  · rw [if_neg (by omega), if_neg (fun e => h1 (Option.some.inj e))]

/-- The flags field of a `pub:` line is the one of the spec when the
pgprevoked and pgpdisabled values are decimal numerals below 2^31. -/
theorem pub_flags_spec (e : Entry)
    (hr : ∀ v, first_value e "pgprevoked".toList = some v →
      ∃ n, numeralValue v = some n ∧ n < 2147483648)
    (hd : ∀ v, first_value e "pgpdisabled".toList = some v →
      ∃ n, numeralValue v = some n ∧ n < 2147483648) :
    pub_flags e
      = flagsFieldSpec ((first_value e "pgprevoked".toList).bind numeralValue)
          ((first_value e "pgpdisabled".toList).bind numeralValue) := by
  unfold pub_flags flagsFieldSpec
  cases h1 : first_value e "pgprevoked".toList with
  | none =>
    cases h2 : first_value e "pgpdisabled".toList with
    | none => rfl
    | some t =>
      obtain ⟨n, hn, hlt⟩ := hd t h2
      simp only [flag_numeral t "d".toList n hn hlt]
      rfl
  | some r =>
    obtain ⟨m, hm, hmlt⟩ := hr r h1
    cases h2 : first_value e "pgpdisabled".toList with
    | none =>
      simp only [flag_numeral r "r".toList m hm hmlt]
      rfl
    | some t =>
      obtain ⟨n, hn, hlt⟩ := hd t h2
      simp only [flag_numeral r "r".toList m hm hmlt, flag_numeral t "d".toList n hn hlt]

/-- A key size of 4294969344 is printed as 2048 and a pgprevoked value of
4294967297 counts as 1: `atoi` returns an `int`. -/
theorem search_key_size_wraps :
    (search_key true wideSizeServer "alice".toList (State.initial [])).2.output
      = ("SEARCH alice BEGIN\ninfo:1:1\npub:DEADBEEFDEADBEEF::2048:::r\nuid:Alice\n"
          ++ "SEARCH alice END\n").toList := by
  decide

/-- C17 (amended): when a search whose filter fits the array `search`
succeeds with one entry carrying certid `C`, the key size, pgprevoked and
pgpdisabled values of the entry are decimal numerals below 2^31, and the UTC
epoch seconds of a 15-character pgpkeycreatetime or pgpkeyexpiretime value
lie in [0, 2^32), `search_key` returns ok and writes the BEGIN line,
`info:1:1`, the record `pub:C:<a>:<s>:<c>:<e>:<f>` followed by
`uid:<printquoted userid>`, and the END line, where a is `1` for RSA, `17`
for DSS/DH and empty otherwise, s the decimal key size when positive, c and
e the epoch seconds when the value has exactly 15 characters, f is `r` for
pgprevoked=1 followed by `d` for pgpdisabled=1.  In particular the entry of
scenario S2 gives `pub:DEADBEEFDEADBEEF:1:2048:1262304000::` and
`uid:Alice%3aExample <a@e>`. -/
theorem search_key_single_record (cs : Bool) (srv : Server) (searchkey : List Char)
    (st : State) (e : Entry) (C : List Char)
    (hfit : (search_key_filter st.include_disabled st.include_revoked searchkey).length + 1
      ≤ search_key_search_size)
    (hres : srv st.calls (search_key_search st searchkey) = ⟨LDAP_SUCCESS, [e]⟩)
    (hC : first_value e "pgpcertid".toList = some C)
    (hsize : ∀ v, first_value e "pgpkeysize".toList = some v →
      ∃ n, numeralValue v = some n ∧ n < 2147483648)
    (hrev : ∀ v, first_value e "pgprevoked".toList = some v →
      ∃ n, numeralValue v = some n ∧ n < 2147483648)
    (hdis : ∀ v, first_value e "pgpdisabled".toList = some v →
      ∃ n, numeralValue v = some n ∧ n < 2147483648)
    (hcreate : ∀ v, first_value e "pgpkeycreatetime".toList = some v → v.length = 15 →
      0 ≤ ldap2epochtime v ∧ ldap2epochtime v < 4294967296)
    (hexpire : ∀ v, first_value e "pgpkeyexpiretime".toList = some v → v.length = 15 →
      0 ≤ ldap2epochtime v ∧ ldap2epochtime v < 4294967296) :
    (search_key cs srv searchkey st).1 = KEYSERVER_OK
      ∧ (search_key cs srv searchkey st).2.output =
        st.output ++ ("SEARCH ".toList ++ searchkey ++ " BEGIN\n".toList)
          ++ "info:1:1\n".toList
          ++ searchRecordSpec cs C (first_value e "pgpkeytype".toList)
              ((first_value e "pgpkeysize".toList).bind numeralValue)
              (first_value e "pgpkeycreatetime".toList)
              (first_value e "pgpkeyexpiretime".toList)
              ((first_value e "pgprevoked".toList).bind numeralValue)
              ((first_value e "pgpdisabled".toList).bind numeralValue)
              (first_value e "pgpuserid".toList)
          ++ ("SEARCH ".toList ++ searchkey ++ " END\n".toList)
      ∧ searchRecordSpec cs "DEADBEEFDEADBEEF".toList (some "RSA".toList) (some 2048)
          (some "20100101000000Z".toList) none none none (some "Alice:Example <a@e>".toList)
        = "pub:DEADBEEFDEADBEEF:1:2048:1262304000::\nuid:Alice%3aExample <a@e>\n".toList := by
  have hnf : ¬ (search_key_search_size
      < (search_key_filter st.include_disabled st.include_revoked searchkey).length + 1) := by
    omega
  have hr1 : (ldap_call srv
      (search_key_search (write_output ("SEARCH ".toList ++ searchkey ++ " BEGIN\n".toList) st)
        searchkey)
      (write_output ("SEARCH ".toList ++ searchkey ++ " BEGIN\n".toList) st)).1
        = ⟨LDAP_SUCCESS, [e]⟩ := hres
  have hfs : first_seen [e] [] = [(e, C)] := by
    simp only [first_seen, hC]
    rfl
  have hok : (search_key cs srv searchkey st).1 = KEYSERVER_OK := by
    unfold search_key
    simp only [hr1, if_neg hnf]
    rfl
  refine ⟨hok, ?_, by cases cs <;> decide⟩
  rw [search_key_output_eq cs srv searchkey st hok, hres]
  simp only [hfs, List.length_singleton, List.flatMap_cons, List.flatMap_nil, List.append_nil]
  have h1 : fmt_d ((1 : Nat) : Int) = "1".toList := by decide
  have hu : search_key_uids cs C [e]
      = "uid:".toList
        ++ (match first_value e "pgpuserid".toList with
            | some u => printquoted cs u ':'
            | none => [])
        ++ "\n".toList := by
    simp only [search_key_uids, hC, strcasecmp_eq_refl, if_true, List.append_nil]
    cases first_value e "pgpuserid".toList <;> rfl
  have ha : pub_algo e = algoFieldSpec (first_value e "pgpkeytype".toList) := by
    unfold pub_algo algoFieldSpec
    cases first_value e "pgpkeytype".toList <;> rfl
  rw [h1, hu]
  unfold search_key_pub search_key_pub_text searchRecordSpec
  rw [ha, pub_size_spec e hsize, pub_flags_spec e hrev hdis, pub_time_spec e _ hcreate,
    pub_time_spec e _ hexpire]
  simp only [List.append_assoc]
  rfl

theorem search_key_single_record_witness :
    (search_key true s2Server "alice".toList (State.initial [])).1 = KEYSERVER_OK
      ∧ (search_key true s2Server "alice".toList (State.initial [])).2.output
        = ("SEARCH alice BEGIN\ninfo:1:1\npub:DEADBEEFDEADBEEF:1:2048:1262304000::\n"
            ++ "uid:Alice%3aExample <a@e>\nSEARCH alice END\n").toList :=
  have h := search_key_single_record true s2Server "alice".toList (State.initial [])
    [("pgpCertID".toList, ["DEADBEEFDEADBEEF".toList]),
     ("pgpUserID".toList, ["Alice:Example <a@e>".toList]),
     ("pgpKeyType".toList, ["RSA".toList]),
     ("pgpKeySize".toList, ["2048".toList]),
     ("pgpKeyCreateTime".toList, ["20100101000000Z".toList])]
    "DEADBEEFDEADBEEF".toList (by decide) rfl (by decide)
    (fun v hv => by
      have h2 : some "2048".toList = some v := hv
      have : v = "2048".toList := (Option.some.inj h2).symm
      subst this
      exact ⟨2048, by decide, by decide⟩)
    (fun v hv => by
      have h2 : (none : Option (List Char)) = some v := hv
      exact Option.noConfusion h2)
    (fun v hv => by
      have h2 : (none : Option (List Char)) = some v := hv
      exact Option.noConfusion h2)
    (fun v hv _ => by
      have : v = "20100101000000Z".toList := by
        have h2 : some "20100101000000Z".toList = some v := hv
        exact (Option.some.inj h2).symm
      subst this
      decide)
    (fun v hv _ => by
      have h2 : (none : Option (List Char)) = some v := hv
      exact Option.noConfusion h2)
  ⟨h.1, h.2.1.trans (by decide)⟩

/-- An empty result is not a failure, as long as the filter fits the array
`search`.  When the search of `get_key` (key not 32 characters long, so that
a search is made) succeeds with zero entries, `get_key` writes
`KEY 0x<key> BEGIN` then `KEY 0x<key> FAILED <key-not-found>` and returns ok;
when the search of `search_key` succeeds with zero entries and the filter
fits, `search_key` writes exactly `SEARCH <terms> BEGIN`, `info:1:0`,
`SEARCH <terms> END` and returns ok. -/
theorem empty_result_when_fits (charSigned : Bool) (srv : Server) (key terms : List Char)
    (st : State) (hlen : (strip_0x key).length ≠ 32)
    (hget : (srv st.calls (get_key_search st (strip_0x key))).err = LDAP_SUCCESS
      ∧ (srv st.calls (get_key_search st (strip_0x key))).entries = [])
    (hfit : (search_key_filter st.include_disabled st.include_revoked terms).length + 1
      ≤ search_key_search_size)
    (hsearch : (srv st.calls (search_key_search st terms)).err = LDAP_SUCCESS
      ∧ (srv st.calls (search_key_search st terms)).entries = []) :
    (get_key srv key st).1 = KEYSERVER_OK
      ∧ (get_key srv key st).2.output
          = st.output ++ ("KEY 0x".toList ++ strip_0x key ++ " BEGIN\n".toList)
            ++ ("KEY 0x".toList ++ strip_0x key ++ " FAILED ".toList
              ++ fmt_d KEYSERVER_KEY_NOT_FOUND ++ "\n".toList)
      ∧ (search_key charSigned srv terms st).1 = KEYSERVER_OK
      ∧ (search_key charSigned srv terms st).2.output
          = st.output ++ ("SEARCH ".toList ++ terms ++ " BEGIN\n".toList)
            ++ "info:1:0\n".toList ++ ("SEARCH ".toList ++ terms ++ " END\n".toList) := by
  have hg1 : (ldap_call srv
      (get_key_search (write_output ("KEY 0x".toList ++ strip_0x key ++ " BEGIN\n".toList) st)
        (strip_0x key))
      (write_output ("KEY 0x".toList ++ strip_0x key ++ " BEGIN\n".toList) st)).1.err = 0 :=
    hget.1
  have hg2 : (ldap_call srv
      (get_key_search (write_output ("KEY 0x".toList ++ strip_0x key ++ " BEGIN\n".toList) st)
        (strip_0x key))
      (write_output ("KEY 0x".toList ++ strip_0x key ++ " BEGIN\n".toList) st)).1.entries = [] :=
    hget.2
  have hs1 : (ldap_call srv
      (search_key_search (write_output ("SEARCH ".toList ++ terms ++ " BEGIN\n".toList) st)
        terms)
      (write_output ("SEARCH ".toList ++ terms ++ " BEGIN\n".toList) st)).1.err = LDAP_SUCCESS :=
    hsearch.1
  have hs2 : (ldap_call srv
      (search_key_search (write_output ("SEARCH ".toList ++ terms ++ " BEGIN\n".toList) st)
        terms)
      (write_output ("SEARCH ".toList ++ terms ++ " BEGIN\n".toList) st)).1.entries = [] :=
    hsearch.2
  have hget_eq : get_key srv key st = (KEYSERVER_OK,
      write_output
        ("KEY 0x".toList ++ strip_0x key ++ " FAILED ".toList ++ fmt_d KEYSERVER_KEY_NOT_FOUND
          ++ "\n".toList)
        (ldap_call srv
          (get_key_search
            (write_output ("KEY 0x".toList ++ strip_0x key ++ " BEGIN\n".toList) st)
            (strip_0x key))
          (write_output ("KEY 0x".toList ++ strip_0x key ++ " BEGIN\n".toList) st)).2) := by
    unfold get_key
    simp only [if_neg hlen, hg1, hg2]
    rfl
  have hsearch_eq : search_key charSigned srv terms st = (KEYSERVER_OK,
      write_output ("SEARCH ".toList ++ terms ++ " END\n".toList)
        (write_output "info:1:0\n".toList
          (ldap_call srv
            (search_key_search
              (write_output ("SEARCH ".toList ++ terms ++ " BEGIN\n".toList) st) terms)
            (write_output ("SEARCH ".toList ++ terms ++ " BEGIN\n".toList) st)).2)) := by
    have hnf : ¬ (search_key_search_size
        < (search_key_filter st.include_disabled st.include_revoked terms).length + 1) := by
      omega
    unfold search_key
    simp only [if_neg hnf, hs1, hs2, search_key_count]
    rfl
  rw [hget_eq, hsearch_eq]
  exact ⟨rfl, rfl, rfl, rfl⟩

theorem empty_result_when_fits_witness :
    (strip_0x "0xDEADBEEF".toList).length ≠ 32
      ∧ (get_key okServer "0xDEADBEEF".toList (State.initial [])).1 = KEYSERVER_OK
      ∧ (get_key okServer "0xDEADBEEF".toList (State.initial [])).2.output
          = "KEY 0xDEADBEEF BEGIN\nKEY 0xDEADBEEF FAILED 6\n".toList
      ∧ (search_key true okServer "nobody".toList (State.initial [])).1 = KEYSERVER_OK
      ∧ (search_key true okServer "nobody".toList (State.initial [])).2.output
          = "SEARCH nobody BEGIN\ninfo:1:0\nSEARCH nobody END\n".toList :=
  ⟨by decide,
    empty_result_when_fits true okServer "0xDEADBEEF".toList "nobody".toList
      (State.initial []) (by decide) ⟨rfl, rfl⟩ (by decide) ⟨rfl, rfl⟩⟩

/-- C15 (failing input): a search request with two key lines of 200 bytes on
a server whose search succeeds with zero entries.  The joined search string
has 401 bytes and the filter with its NUL 448, where the array `search`
holds 303: the search is made and answered with success and no entry, but
the run ends in the overflow; after the BEGIN line neither `info:1:0` nor
the END line is written and `main` returns nothing.  The same server and a
short search string give the three lines and the return value 0. -/
theorem empty_search_overflow :
    (read_keylist (main_header demoBuild longSearchRequest).2.2.input).1
        = [List.replicate 200 'a', List.replicate 200 'b']
      ∧ (search_key_filter false false
          (List.replicate 200 'a' ++ '*' :: List.replicate 200 'b')).length + 1 = 448
      ∧ search_key_search_size = 303
      ∧ (main demoBuild emptySearchServer longSearchRequest).st.calls.getLast?
        = some (LdapCall.search (some "OU=X".toList) LDAP_SCOPE_SUBTREE
            (search_key_filter false false
              (List.replicate 200 'a' ++ '*' :: List.replicate 200 'b')) search_key_attrs)
      ∧ emptySearchServer (main demoBuild emptySearchServer longSearchRequest).st.calls.dropLast
          (LdapCall.search (some "OU=X".toList) LDAP_SCOPE_SUBTREE
            (search_key_filter false false
              (List.replicate 200 'a' ++ '*' :: List.replicate 200 'b')) search_key_attrs)
        = ⟨LDAP_SUCCESS, []⟩
      ∧ (main demoBuild emptySearchServer longSearchRequest).st.crashed = true
      ∧ (main demoBuild emptySearchServer longSearchRequest).ret = none
      ∧ (main demoBuild emptySearchServer longSearchRequest).st.output
        = "VERSION 1\nPROGRAM 1.4\n\nSEARCH ".toList
          ++ (List.replicate 200 'a' ++ '*' :: List.replicate 200 'b') ++ " BEGIN\n".toList
      ∧ (main demoBuild emptySearchServer "COMMAND search\nHOST h\n\nnobody\n".toList).ret
        = some KEYSERVER_OK
      ∧ (main demoBuild emptySearchServer
          "COMMAND search\nHOST h\n\nnobody\n".toList).st.output
        = "VERSION 1\nPROGRAM 1.4\n\nSEARCH nobody BEGIN\ninfo:1:0\nSEARCH nobody END\n".toList
      := by
  decide

theorem strip_0x_prefixed (key : List Char) : strip_0x ("0x".toList ++ key) = key := by
  unfold strip_0x strncmp_eq
  simp

theorem strip_0x_plain (key : List Char) (h : "0x".toList.isPrefixOf key = false) :
    strip_0x key = key := by
  unfold strip_0x strncmp_eq
  have hne : (key.take 2 == "0x".toList.take 2) = false := by
    cases key with
    | nil => rfl
    | cons c r =>
      cases r with
      | nil =>
        cases hc : ([c].take 2 == "0x".toList.take 2) with
        | false => rfl
        | true =>
          have := congrArg List.length (beq_iff_eq.mp hc)
          simp at this
      | cons d r2 =>
        cases hc : ((c :: d :: r2).take 2 == "0x".toList.take 2) with
        | false => rfl
        | true =>
          have he := beq_iff_eq.mp hc
          simp only [List.take_succ_cons, List.take_zero, String.toList] at he
          have h1 : c = '0' := by injection he
          have h2 : d = 'x' := by
            injection he with _ t
            injection t
          subst h1 h2
          simp [List.isPrefixOf] at h
  rw [hne]
  simp

/-- The key text `get_key` works on is the input with a leading `0x`
removed. -/
theorem strip_0x_spec (getkey key : List Char)
    (h : getkey = "0x".toList ++ key ∨ (getkey = key ∧ "0x".toList.isPrefixOf key = false)) :
    strip_0x getkey = key := by
  rcases h with h | ⟨h, hp⟩
  · rw [h]; exact strip_0x_prefixed key
  · rw [h]; exact strip_0x_plain key hp

/-- The LDAP calls of `get_key` for a key whose stripped form is not 32
characters long: one subtree search with the filter of the spec, then
error-number queries only. -/
theorem get_key_filter_calls (srv : Server) (getkey : List Char) (st : State)
    (h : (strip_0x getkey).length ≠ 32) :
    ∃ n, (get_key srv getkey st).2.calls
      = st.calls
        ++ LdapCall.search st.basekeyspacedn LDAP_SCOPE_SUBTREE
            (getFilterSpec st.include_subkeys (strip_0x getkey)) (get_key_attrs st)
          :: List.replicate n LdapCall.get_errno := by
  unfold get_key
  simp only [if_neg h, get_key_search, get_key_filter_spec]
  split
  · exact ⟨0, by simp [write_output, ldap_call, get_key_attrs]⟩
  · split
    · exact ⟨0, by simp [write_output, ldap_call, get_key_attrs]⟩
    · obtain ⟨n, hn⟩ := get_key_entries_calls srv (strip_0x getkey)
        (ldap_call srv
          (LdapCall.search
            (write_output ("KEY 0x".toList ++ strip_0x getkey ++ " BEGIN\n".toList)
              st).basekeyspacedn LDAP_SCOPE_SUBTREE
            (getFilterSpec
              (write_output ("KEY 0x".toList ++ strip_0x getkey ++ " BEGIN\n".toList)
                st).include_subkeys (strip_0x getkey))
            (get_key_attrs
              (write_output ("KEY 0x".toList ++ strip_0x getkey ++ " BEGIN\n".toList) st)))
          (write_output ("KEY 0x".toList ++ strip_0x getkey ++ " BEGIN\n".toList) st)).1.entries []
        (ldap_call srv
          (LdapCall.search
            (write_output ("KEY 0x".toList ++ strip_0x getkey ++ " BEGIN\n".toList)
              st).basekeyspacedn LDAP_SCOPE_SUBTREE
            (getFilterSpec
              (write_output ("KEY 0x".toList ++ strip_0x getkey ++ " BEGIN\n".toList)
                st).include_subkeys (strip_0x getkey))
            (get_key_attrs
              (write_output ("KEY 0x".toList ++ strip_0x getkey ++ " BEGIN\n".toList) st)))
          (write_output ("KEY 0x".toList ++ strip_0x getkey ++ " BEGIN\n".toList) st)).2
      refine ⟨n, ?_⟩
      rw [hn]
      simp [write_output, ldap_call, get_key_attrs]

/-- C14: for every key, given with or without a leading `0x`, whose length
after removing that `0x` is not 32, `get_key` makes exactly one search, and
its filter is the one of the spec for the key without the `0x`:
`(pgpcertid=X)` with `X` the last 16 characters when the key is longer than
16, `(pgpcertid=X)` with `X` the key for 9 to 16 characters, `(pgpkeyid=X)`
with `X` the key for at most 8 characters, the two long-id forms becoming
`(|(pgpcertid=X)(pgpsubkeyid=X))` when include-subkeys is set. -/
theorem get_key_filter_sent (srv : Server) (getkey key : List Char) (st : State)
    (h0x : getkey = "0x".toList ++ key
      ∨ (getkey = key ∧ "0x".toList.isPrefixOf key = false))
    (h : key.length ≠ 32) :
    ∃ n, (get_key srv getkey st).2.calls
      = st.calls
        ++ LdapCall.search st.basekeyspacedn LDAP_SCOPE_SUBTREE
            (getFilterSpec st.include_subkeys key) (get_key_attrs st)
          :: List.replicate n LdapCall.get_errno := by
  have hs := strip_0x_spec getkey key h0x
  obtain ⟨n, hn⟩ := get_key_filter_calls srv getkey st (by rw [hs]; exact h)
  rw [hs] at hn
  exact ⟨n, hn⟩

theorem get_key_filter_sent_witness :
    (∃ n, (get_key demoServer "0xDEADBEEF".toList (State.initial [])).2.calls
        = [] ++ LdapCall.search none LDAP_SCOPE_SUBTREE "(pgpkeyid=DEADBEEF)".toList
            ["pgpKey".toList, "pgpcertid".toList]
          :: List.replicate n LdapCall.get_errno)
      ∧ (∃ n, (get_key demoServer "0x0123456789ABCDEF0123456789ABCDEF01234567".toList
          { State.initial [] with include_subkeys := true }).2.calls
        = [] ++ LdapCall.search none LDAP_SCOPE_SUBTREE
            "(|(pgpcertid=89ABCDEF01234567)(pgpsubkeyid=89ABCDEF01234567))".toList
            ["pgpKey".toList, "pgpcertid".toList]
          :: List.replicate n LdapCall.get_errno)
      ∧ (∃ n, (get_key demoServer "0123456789ABCDEF".toList (State.initial [])).2.calls
        = [] ++ LdapCall.search none LDAP_SCOPE_SUBTREE "(pgpcertid=0123456789ABCDEF)".toList
            ["pgpKey".toList, "pgpcertid".toList]
          :: List.replicate n LdapCall.get_errno) :=
  ⟨get_key_filter_sent demoServer "0xDEADBEEF".toList "DEADBEEF".toList (State.initial [])
      (Or.inl rfl) (by decide),
    get_key_filter_sent demoServer "0x0123456789ABCDEF0123456789ABCDEF01234567".toList
      "0123456789ABCDEF0123456789ABCDEF01234567".toList
      { State.initial [] with include_subkeys := true } (Or.inl rfl) (by decide),
    get_key_filter_sent demoServer "0123456789ABCDEF".toList "0123456789ABCDEF".toList
      (State.initial []) (Or.inr ⟨rfl, by decide⟩) (by decide)⟩

/-- C2 (amended): for every key, given with or without a leading `0x`, and
every LDAP search outcome that is an error, zero entries, or a list of
entries that all carry the same pgpcertid value (compared case-insensitively,
shorter than 256 bytes), `get_key` writes exactly one `KEY 0x<key> BEGIN`
line followed by exactly one closing record: either one line
`KEY 0x<key> FAILED <n>`, or the key blob of the first entry followed by the
line `KEY 0x<key> END`, where `<key>` is the input without the leading
`0x`. -/
theorem get_key_one_closing (srv : Server) (getkey key : List Char) (st : State)
    (c : List Char)
    (h0x : getkey = "0x".toList ++ key
      ∨ (getkey = key ∧ "0x".toList.isPrefixOf key = false))
    (hsame : ∀ e ∈ (srv st.calls (get_key_search st key)).entries,
      (first_value e "pgpcertid".toList).isSome = true
        ∧ strcasecmp_eq ((first_value e "pgpcertid".toList).getD []) c = true
        ∧ ((first_value e "pgpcertid".toList).getD []).length < MAX_LINE) :
    ∃ closing : List Char,
      (get_key srv getkey st).2.output =
        st.output ++ ("KEY 0x".toList ++ key ++ " BEGIN\n".toList) ++ closing
      ∧ ((∃ n : Int, closing =
            "KEY 0x".toList ++ key ++ " FAILED ".toList ++ fmt_d n ++ "\n".toList)
          ∨ ∃ (e : Entry) (es : List Entry) (blob : List Char),
            (srv st.calls (get_key_search st key)).entries = e :: es
              ∧ first_value e st.pgpkeystr = some blob
              ∧ closing = blob ++ "KEY 0x".toList ++ key ++ " END\n".toList) := by
  have hs := strip_0x_spec getkey key h0x
  simp only [get_key, ldap_call, write_output, get_key_search, hs] at hsame ⊢
  by_cases h32 : key.length = 32
  · rw [if_pos h32]
    exact ⟨"KEY 0x".toList ++ key ++ " FAILED ".toList ++ fmt_d KEYSERVER_NOT_SUPPORTED
      ++ "\n".toList, by simp, Or.inl ⟨KEYSERVER_NOT_SUPPORTED, rfl⟩⟩
  · rw [if_neg h32]
    have hattrs : ∀ o : List Char, get_key_attrs { st with output := o } = get_key_attrs st :=
      fun _ => rfl
    simp only [hattrs]
    generalize hr : srv st.calls (LdapCall.search st.basekeyspacedn LDAP_SCOPE_SUBTREE
      (get_key_filter st.include_subkeys key) (get_key_attrs st)) = r at hsame ⊢
    by_cases herr : r.err ≠ 0
    · rw [if_pos herr]
      exact ⟨"KEY 0x".toList ++ key ++ " FAILED ".toList ++ fmt_d (ldap_err_to_gpg_err r.err)
        ++ "\n".toList, by simp, Or.inl ⟨_, rfl⟩⟩
    · rw [if_neg herr]
      by_cases hcount : r.entries.length < 1
      · rw [if_pos hcount]
        exact ⟨"KEY 0x".toList ++ key ++ " FAILED ".toList ++ fmt_d KEYSERVER_KEY_NOT_FOUND
          ++ "\n".toList, by simp, Or.inl ⟨_, rfl⟩⟩
      · rw [if_neg hcount]
        cases hes : r.entries with
        | nil => rw [hes] at hcount; simp at hcount
        | cons e es =>
          rw [hes] at hsame
          obtain ⟨hs, hc, hl⟩ := hsame e (List.mem_cons_self _ _)
          obtain ⟨v, hv⟩ := Option.isSome_iff_exists.mp hs
          rw [hv] at hc hl
          simp only [Option.getD_some] at hc hl
          have htake : add_key_to_keylist v [] = [v] := by
            unfold add_key_to_keylist
            rw [List.take_of_length_le]
            unfold MAX_LINE at hl ⊢
            omega
          have hrest : ∀ x ∈ es, ∃ w, first_value x "pgpcertid".toList = some w
              ∧ key_in_keylist w [v] = true := by
            intro x hx
            obtain ⟨xs, xc, _⟩ := hsame x (List.mem_cons_of_mem _ hx)
            obtain ⟨w, hw⟩ := Option.isSome_iff_exists.mp xs
            rw [hw] at xc
            simp only [Option.getD_some] at xc
            refine ⟨w, hw, ?_⟩
            simp only [key_in_keylist, List.any_cons, List.any_nil, Bool.or_false]
            unfold strcasecmp_eq at xc hc ⊢
            rw [beq_iff_eq] at xc hc ⊢
            rw [xc, hc]
          simp only [get_key_entries, hv, key_in_keylist, List.any_nil, Bool.false_eq_true,
            if_false]
          cases hb : first_value e st.pgpkeystr with
          | none =>
            simp only []
            rw [htake, get_key_entries_skip srv key es [v] _ hrest]
            exact ⟨"KEY 0x".toList ++ key ++ " FAILED ".toList
              ++ fmt_d (ldap_to_gpg_err srv { st with
                  output := st.output ++ ("KEY 0x".toList ++ key ++ " BEGIN\n".toList),
                  calls := st.calls ++ [LdapCall.search st.basekeyspacedn LDAP_SCOPE_SUBTREE
                    (get_key_filter st.include_subkeys key) (get_key_attrs st)] }).1
              ++ "\n".toList,
              by simp [write_output, ldap_to_gpg_err, ldap_call], Or.inl ⟨_, rfl⟩⟩
          | some blob =>
            simp only []
            rw [htake, get_key_entries_skip srv key es [v] _ hrest]
            refine ⟨blob ++ "KEY 0x".toList ++ key ++ " END\n".toList, ?_,
              Or.inr ⟨e, es, blob, rfl, hb, rfl⟩⟩
            simp [write_output]

theorem get_key_one_closing_witness :
    (∃ closing : List Char,
      (get_key oneKeyServer "0xDEADBEEF".toList (State.initial [])).2.output =
        (State.initial []).output ++ ("KEY 0x".toList ++ "DEADBEEF".toList ++ " BEGIN\n".toList)
          ++ closing
      ∧ ((∃ n : Int, closing =
            "KEY 0x".toList ++ "DEADBEEF".toList ++ " FAILED ".toList ++ fmt_d n
              ++ "\n".toList)
          ∨ ∃ (e : Entry) (es : List Entry) (blob : List Char),
            (oneKeyServer (State.initial []).calls
                (get_key_search (State.initial []) "DEADBEEF".toList)).entries = e :: es
              ∧ first_value e (State.initial []).pgpkeystr = some blob
              ∧ closing = blob ++ "KEY 0x".toList ++ "DEADBEEF".toList ++ " END\n".toList))
      ∧ (get_key oneKeyServer "0xDEADBEEF".toList (State.initial [])).2.output
        = "KEY 0xDEADBEEF BEGIN\nk1\nKEY 0xDEADBEEF END\n".toList :=
  ⟨get_key_one_closing oneKeyServer "0xDEADBEEF".toList "DEADBEEF".toList (State.initial [])
      "DEADBEEFDEADBEEF".toList (Or.inl rfl) (by decide),
    by decide⟩

/-- On every run of `send_key` the LDAP calls it adds to the trace are none,
or one add that does not answer `LDAP_ALREADY_EXISTS`, or one add that
answers `LDAP_ALREADY_EXISTS` followed by exactly one modify with the same
DN and the same modification list; in the last case a successful modify
makes `send_key` return ok with nothing written to the output. -/
theorem send_key_trace_cases (cs : Bool) (srv : Server) (st : State) :
    (send_key cs srv st).st.calls = st.calls
      ∨ ∃ (dn : List Char) (m : List LDAPMod),
        ((srv st.calls (LdapCall.add dn m)).err ≠ LDAP_ALREADY_EXISTS
          ∧ (send_key cs srv st).st.calls = st.calls ++ [LdapCall.add dn m])
        ∨ ((srv st.calls (LdapCall.add dn m)).err = LDAP_ALREADY_EXISTS
          ∧ (send_key cs srv st).st.calls
              = st.calls ++ [LdapCall.add dn m, LdapCall.modify dn m]
          ∧ ((srv (st.calls ++ [LdapCall.add dn m]) (LdapCall.modify dn m)).err
                = LDAP_SUCCESS →
              (send_key cs srv st).ret = KEYSERVER_OK
                ∧ (send_key cs srv st).st.output = st.output)) := by
  unfold send_key
  split
  · exact Or.inl (send_key_fail_calls _ _ _ _ _)
  · split
    · exact Or.inl (send_key_fail_calls _ _ _ _ _)
    · split
      · exact Or.inl rfl
      · split
        · exact Or.inl (send_key_fail_calls _ _ _ _ _)
        · rename_i base _ keyid2 modlist inp2 _
          unfold send_key_keyblock
          split
          · exact Or.inl (send_key_fail_calls _ _ _ _ _)
          · split
            · exact Or.inl (send_key_fail_calls _ _ _ _ _)
            · rename_i keyid4 key inp4 _
              obtain ⟨m, hm⟩ := send_key_submit_trace srv _ modlist key keyid4
                { (({ st with input := inp2 } : State)) with input := inp4 }
              exact Or.inr ⟨_, m, hm⟩

/-- The end of `send_key` with the modification list written out: the add,
and the modify of the same DN and list exactly when the add answers
`LDAP_ALREADY_EXISTS`. -/
theorem send_key_submit_cases (srv : Server) (dn : List Char) (m0 : List LDAPMod)
    (key keyid : List Char) (st : State) :
    ((srv st.calls (LdapCall.add dn
          (make_one_attr (make_one_attr m0 "objectClass".toList "pgpKeyInfo".toList)
            "pgpKey".toList key))).err = LDAP_ALREADY_EXISTS →
        (send_key_submit srv dn m0 key keyid st).st.calls
            = st.calls ++ [LdapCall.add dn
                (make_one_attr (make_one_attr m0 "objectClass".toList "pgpKeyInfo".toList)
                  "pgpKey".toList key),
              LdapCall.modify dn
                (make_one_attr (make_one_attr m0 "objectClass".toList "pgpKeyInfo".toList)
                  "pgpKey".toList key)]
          ∧ ((srv (st.calls ++ [LdapCall.add dn
                (make_one_attr (make_one_attr m0 "objectClass".toList "pgpKeyInfo".toList)
                  "pgpKey".toList key)])
              (LdapCall.modify dn
                (make_one_attr (make_one_attr m0 "objectClass".toList "pgpKeyInfo".toList)
                  "pgpKey".toList key))).err = LDAP_SUCCESS →
            (send_key_submit srv dn m0 key keyid st).ret = KEYSERVER_OK
              ∧ (send_key_submit srv dn m0 key keyid st).st.output = st.output))
      ∧ ((srv st.calls (LdapCall.add dn
          (make_one_attr (make_one_attr m0 "objectClass".toList "pgpKeyInfo".toList)
            "pgpKey".toList key))).err ≠ LDAP_ALREADY_EXISTS →
        (send_key_submit srv dn m0 key keyid st).st.calls
            = st.calls ++ [LdapCall.add dn
                (make_one_attr (make_one_attr m0 "objectClass".toList "pgpKeyInfo".toList)
                  "pgpKey".toList key)]) := by
  unfold send_key_submit
  simp only [ldap_call]
  refine ⟨fun hae => ⟨?_, ?_⟩, fun hae => ?_⟩
  · simp only [hae, if_true]
    apply send_result_ite_calls
    · rw [send_key_fail_calls]
      simp [write_printed]
    · rw [send_key_fail_calls]
      simp
  · intro hok
    simp only [hae, if_true, hok, ne_eq, not_true_eq_false, if_false]
    exact ⟨rfl, rfl⟩
  · simp only [hae, if_false]
    apply send_result_ite_calls
    · rw [send_key_fail_calls]
      rfl
    · rw [send_key_fail_calls]

/-- C26: real-LDAP publish of an existing key (scenario S5, generalised).
For an INFO block for a 16-character keyid `K` with one `pub:` line followed
by a KEY block, `send_key` issues the add; when the add answers
`LDAP_ALREADY_EXISTS` it issues exactly one modify, with the same DN and the
identical modification list, and nothing else, and when that modify
succeeds `send_key` returns ok and writes nothing to the output (no
`KEY <keyid> FAILED` record); when the add answers anything else no modify
follows.  On every run of `send_key`, whatever the input, an add that
answers `LDAP_ALREADY_EXISTS` is followed by exactly one modify of the same
DN and list, with result ok and no output when that modify succeeds, and a
modify occurs among the calls only as the second of exactly two calls,
after an add of the same DN and list that answered
`LDAP_ALREADY_EXISTS`. -/
theorem send_key_modify_on_exists (cs : Bool) (srv : Server) (st : State)
    (K algo size created expires flags base : List Char) (keylines rest : List (List Char))
    (hK : K.length = 16) (hKs : ∀ x ∈ K, isspace x = false)
    (hbase : st.basekeyspacedn = some base)
    (hkey : ∀ l ∈ keylines, scan_word "KEY".toList 16 l = none)
    (hin : st.input = publishInput K algo size created expires flags keylines rest) :
    ((srv st.calls (LdapCall.add ("pgpCertID=".toList ++ K ++ ",".toList ++ base)
          (make_one_attr
            (make_one_attr (build_attrs cs [] (pubLine K algo size created expires flags))
              "objectClass".toList "pgpKeyInfo".toList)
            "pgpKey".toList keylines.flatten))).err = LDAP_ALREADY_EXISTS →
        (send_key cs srv st).st.calls
            = st.calls ++ [LdapCall.add ("pgpCertID=".toList ++ K ++ ",".toList ++ base)
                (make_one_attr
                  (make_one_attr (build_attrs cs [] (pubLine K algo size created expires flags))
                    "objectClass".toList "pgpKeyInfo".toList)
                  "pgpKey".toList keylines.flatten),
              LdapCall.modify ("pgpCertID=".toList ++ K ++ ",".toList ++ base)
                (make_one_attr
                  (make_one_attr (build_attrs cs [] (pubLine K algo size created expires flags))
                    "objectClass".toList "pgpKeyInfo".toList)
                  "pgpKey".toList keylines.flatten)]
          ∧ ((srv (st.calls ++ [LdapCall.add ("pgpCertID=".toList ++ K ++ ",".toList ++ base)
                (make_one_attr
                  (make_one_attr (build_attrs cs [] (pubLine K algo size created expires flags))
                    "objectClass".toList "pgpKeyInfo".toList)
                  "pgpKey".toList keylines.flatten)])
              (LdapCall.modify ("pgpCertID=".toList ++ K ++ ",".toList ++ base)
                (make_one_attr
                  (make_one_attr (build_attrs cs [] (pubLine K algo size created expires flags))
                    "objectClass".toList "pgpKeyInfo".toList)
                  "pgpKey".toList keylines.flatten))).err = LDAP_SUCCESS →
            (send_key cs srv st).ret = KEYSERVER_OK
              ∧ (send_key cs srv st).st.output = st.output))
      ∧ ((srv st.calls (LdapCall.add ("pgpCertID=".toList ++ K ++ ",".toList ++ base)
          (make_one_attr
            (make_one_attr (build_attrs cs [] (pubLine K algo size created expires flags))
              "objectClass".toList "pgpKeyInfo".toList)
            "pgpKey".toList keylines.flatten))).err ≠ LDAP_ALREADY_EXISTS →
        (send_key cs srv st).st.calls
            = st.calls ++ [LdapCall.add ("pgpCertID=".toList ++ K ++ ",".toList ++ base)
                (make_one_attr
                  (make_one_attr (build_attrs cs [] (pubLine K algo size created expires flags))
                    "objectClass".toList "pgpKeyInfo".toList)
                  "pgpKey".toList keylines.flatten)])
      ∧ (∀ (cs2 : Bool) (srv2 : Server) (st2 : State) (dn2 : List Char) (m2 : List LDAPMod),
          LdapCall.add dn2 m2 ∈ (send_key cs2 srv2 st2).st.calls.drop st2.calls.length →
          (srv2 st2.calls (LdapCall.add dn2 m2)).err = LDAP_ALREADY_EXISTS →
          (send_key cs2 srv2 st2).st.calls
              = st2.calls ++ [LdapCall.add dn2 m2, LdapCall.modify dn2 m2]
            ∧ ((srv2 (st2.calls ++ [LdapCall.add dn2 m2]) (LdapCall.modify dn2 m2)).err
                  = LDAP_SUCCESS →
                (send_key cs2 srv2 st2).ret = KEYSERVER_OK
                  ∧ (send_key cs2 srv2 st2).st.output = st2.output))
      ∧ ∀ (cs2 : Bool) (srv2 : Server) (st2 : State) (dn2 : List Char) (m2 : List LDAPMod),
          LdapCall.modify dn2 m2 ∈ (send_key cs2 srv2 st2).st.calls.drop st2.calls.length →
          (srv2 st2.calls (LdapCall.add dn2 m2)).err = LDAP_ALREADY_EXISTS
            ∧ (send_key cs2 srv2 st2).st.calls
              = st2.calls ++ [LdapCall.add dn2 m2, LdapCall.modify dn2 m2] := by
  have hsend := send_key_publishInput cs srv st K algo size created expires flags base keylines
    rest hK hKs hbase hkey hin
  have hsub := send_key_submit_cases srv ("pgpCertID=".toList ++ K ++ ",".toList ++ base)
    (build_attrs cs [] (pubLine K algo size created expires flags)) keylines.flatten K
    { st with input := rest }
  rw [hsend]
  refine ⟨hsub.1, hsub.2, ?_, ?_⟩
  · intro cs2 srv2 st2 dn2 m2 hmem hex
    rcases send_key_trace_cases cs2 srv2 st2 with h | ⟨dn, m, h | h⟩
    · rw [h] at hmem
      simp at hmem
    · rw [h.2] at hmem
      simp at hmem
      obtain ⟨h1, h2⟩ := hmem
      subst h1 h2
      exact absurd hex h.1
    · rw [h.2.1] at hmem
      simp at hmem
      obtain ⟨h1, h2⟩ := hmem
      subst h1 h2
      exact ⟨h.2.1, h.2.2⟩
  intro cs2 srv2 st2 dn2 m2 hmem
  rcases send_key_trace_cases cs2 srv2 st2 with h | ⟨dn, m, h | h⟩
  · rw [h] at hmem
    simp at hmem
  · rw [h.2] at hmem
    simp at hmem
  · rw [h.2.1] at hmem
    simp at hmem
    obtain ⟨h1, h2⟩ := hmem
    subst h1 h2
    exact ⟨h.1, h.2.1⟩

theorem send_key_modify_on_exists_witness :
    (send_key true existsServer { s4State with real_ldap := true }).st.calls
        = [LdapCall.add "pgpCertID=AAAAAAAAAAAAAAAA,OU=X".toList
            [⟨LDAP_MOD_REPLACE, "pgpCertID".toList, ["AAAAAAAAAAAAAAAA".toList]⟩,
             ⟨LDAP_MOD_REPLACE, "pgpKeyID".toList, ["AAAAAAAA".toList]⟩,
             ⟨LDAP_MOD_REPLACE, "pgpKeyType".toList, ["DSS/DH".toList]⟩,
             ⟨LDAP_MOD_REPLACE, "pgpKeySize".toList, ["02048".toList]⟩,
             ⟨LDAP_MOD_REPLACE, "pgpKeyCreateTime".toList, ["1".toList]⟩,
             ⟨LDAP_MOD_REPLACE, "pgpDisabled".toList, ["0".toList]⟩,
             ⟨LDAP_MOD_REPLACE, "pgpRevoked".toList, ["0".toList]⟩,
             ⟨LDAP_MOD_REPLACE, "objectClass".toList, ["pgpKeyInfo".toList]⟩,
             ⟨LDAP_MOD_REPLACE, "pgpKey".toList,
               ["-----BEGIN PGP PUBLIC KEY BLOCK-----\n".toList]⟩],
           LdapCall.modify "pgpCertID=AAAAAAAAAAAAAAAA,OU=X".toList
            [⟨LDAP_MOD_REPLACE, "pgpCertID".toList, ["AAAAAAAAAAAAAAAA".toList]⟩,
             ⟨LDAP_MOD_REPLACE, "pgpKeyID".toList, ["AAAAAAAA".toList]⟩,
             ⟨LDAP_MOD_REPLACE, "pgpKeyType".toList, ["DSS/DH".toList]⟩,
             ⟨LDAP_MOD_REPLACE, "pgpKeySize".toList, ["02048".toList]⟩,
             ⟨LDAP_MOD_REPLACE, "pgpKeyCreateTime".toList, ["1".toList]⟩,
             ⟨LDAP_MOD_REPLACE, "pgpDisabled".toList, ["0".toList]⟩,
             ⟨LDAP_MOD_REPLACE, "pgpRevoked".toList, ["0".toList]⟩,
             ⟨LDAP_MOD_REPLACE, "objectClass".toList, ["pgpKeyInfo".toList]⟩,
             ⟨LDAP_MOD_REPLACE, "pgpKey".toList,
               ["-----BEGIN PGP PUBLIC KEY BLOCK-----\n".toList]⟩]]
      ∧ (send_key true existsServer { s4State with real_ldap := true }).ret = KEYSERVER_OK
      ∧ (send_key true existsServer { s4State with real_ldap := true }).st.output = [] :=
  have h := send_key_modify_on_exists true existsServer { s4State with real_ldap := true }
    "AAAAAAAAAAAAAAAA".toList "17".toList "2048".toList "1".toList "0".toList [] "OU=X".toList
    ["-----BEGIN PGP PUBLIC KEY BLOCK-----\n".toList] []
    (by decide) (by decide) rfl (by decide) rfl
  ⟨(h.1 (by decide)).1, ((h.1 (by decide)).2 (by decide)).1,
    ((h.1 (by decide)).2 (by decide)).2⟩

theorem get_loop_failed (srv : Server) (keys : List (List Char)) :
    ∀ (failed : Nat) (st : State),
      (get_loop srv keys failed st).1
        = failed + ((get_results srv keys st).filter (fun r => decide (r ≠ KEYSERVER_OK))).length
      := by
  induction keys with
  | nil => intro failed st; rfl
  | cons k rest ih =>
    intro failed st
    unfold get_loop get_results
    simp only []
    rw [ih]
    by_cases h : (get_key srv k st).1 ≠ KEYSERVER_OK
    · simp only [if_pos h, List.filter_cons, decide_eq_true h, if_true, List.length_cons]
      omega
    · simp only [if_neg h, List.filter_cons, decide_eq_false h, Bool.false_eq_true, if_false]

theorem send_loop_failed (b : Build) (srv : Server) (fuel : Nat) :
    ∀ (failed : Nat) (st : State),
      (send_loop b srv fuel failed st).1
        = failed
          + ((send_results b srv fuel st).filter (fun r => decide (r ≠ KEYSERVER_OK))).length
      := by
  induction fuel with
  | zero => intro failed st; rfl
  | succ f ih =>
    intro failed st
    unfold send_loop send_results
    simp only []
    generalize (if st.real_ldap then send_key b.charSigned srv st
      else send_key_keyserver srv st) = R
    by_cases hc : R.eof = true ∨ R.st.crashed = true
    · rw [if_pos hc, if_pos hc]
      by_cases h : R.ret ≠ KEYSERVER_OK
      · simp [h]
      · simp [h]
    · rw [if_neg hc, if_neg hc, ih]
      by_cases h : R.ret ≠ KEYSERVER_OK
      · simp only [if_pos h, List.filter_cons, decide_eq_true h, if_true, List.length_cons]
        omega
      · simp only [if_neg h, List.filter_cons, decide_eq_false h, Bool.false_eq_true, if_false]

/-- The counter `failed` of `main` is the number of driver calls that did not
return ok. -/
theorem dispatch_failed (b : Build) (srv : Server) (action : Int) (keylist : List (List Char))
    (st : State) :
    (dispatch b srv action keylist st).1
      = ((driver_results b srv action keylist st).filter
          (fun r => decide (r ≠ KEYSERVER_OK))).length := by
  unfold dispatch driver_results
  by_cases hg : action = GET
  · rw [if_pos hg, if_pos hg, get_loop_failed]
    simp
  · rw [if_neg hg, if_neg hg]
    by_cases hs : action = SEND
    · rw [if_pos hs, if_pos hs, send_loop_failed]
      simp
    · rw [if_neg hs, if_neg hs]
      by_cases hq : action = SEARCH
      · rw [if_pos hq, if_pos hq]
        simp only []
        by_cases h : (search_key b.charSigned srv (join_searchkey keylist) st).1 ≠ KEYSERVER_OK
        · simp [h]
        · simp [h]
      · rw [if_neg hq, if_neg hq]
        rfl

/-- No item failed exactly when every driver call returned ok. -/
theorem dispatch_failed_zero (b : Build) (srv : Server) (action : Int)
    (keylist : List (List Char)) (st : State) :
    (dispatch b srv action keylist st).1 = 0
      ↔ ∀ r ∈ driver_results b srv action keylist st, r = KEYSERVER_OK := by
  rw [dispatch_failed, List.length_eq_zero, List.filter_eq_nil_iff]
  constructor
  · intro h r hr
    have := h r hr
    simpa using this
  · intro h r hr
    simp [h r hr]

theorem crashed_ite (st : State) (c : Prop) [Decidable c] (x y : Locals × State)
    (hx : x.2.crashed = st.crashed) (hy : y.2.crashed = st.crashed) :
    (if c then x else y).2.crashed = st.crashed := by
  split <;> assumption

theorem parse_option_crashed (o : List Char) (loc : Locals) (st : State) :
    (parse_option o loc st).2.crashed = st.crashed := by
  unfold parse_option
  simp only []
  repeat (first | exact rfl | apply crashed_ite)

theorem header_line_crashed (b : Build) (line : List Char) (loc : Locals) (st : State)
    (p : Locals × State) (h : header_line b line loc st = some p) :
    p.2.crashed = st.crashed := by
  unfold header_line at h
  split at h
  · cases h; rfl
  · split at h
    · cases h; rfl
    · split at h
      · cases h; rfl
      · split at h
        · cases h; rfl
        · split at h
          · split at h
            · cases h
            · cases h; rfl
          · split at h
            · cases h; exact parse_option_crashed _ _ _
            · cases h; rfl

theorem parse_header_crashed (b : Build) (lines : List (List Char)) :
    ∀ (loc : Locals) (st : State), (parse_header b lines loc st).2.2.crashed = st.crashed := by
  induction lines with
  | nil => intro loc st; rfl
  | cons line rest ih =>
    intro loc st
    unfold parse_header
    split
    · rfl
    · split
      · exact ih loc st
      · cases hl : header_line b line loc st with
        | none => rfl
        | some p =>
          simp only []
          exact (ih p.1 p.2).trans (header_line_crashed b line loc st p hl)

theorem fail_all_crashed (keylist : List (List Char)) (action err : Int) (st : State) :
    (fail_all keylist action err st).crashed = st.crashed := by
  unfold fail_all
  split
  · rfl
  · split <;> rfl

theorem find_in_contexts_crashed (srv : Server) (ctxs : List (List Char)) :
    ∀ st : State, (find_in_contexts srv ctxs st).2.crashed = st.crashed := by
  induction ctxs with
  | nil => intro st; rfl
  | cons c rest ih =>
    intro st
    unfold find_in_contexts
    split
    · rfl
    · simp only []
      split
      · rfl
      · rw [ih]
        split <;> rfl

theorem find_basekeyspacedn_crashed (srv : Server) (st : State) :
    (find_basekeyspacedn srv st).2.crashed = st.crashed := by
  unfold find_basekeyspacedn
  simp only []
  split
  · split
    · rfl
    · rw [find_in_contexts_crashed]; rfl
  · split
    · rfl
    · simp only []
      split <;> split <;> (try split) <;> rfl

theorem connect_ssl_crashed (srv : Server) (loc : Locals) (st : State) :
    (connect_ssl srv loc st).2.crashed = st.crashed := by
  unfold connect_ssl
  simp only [ldap_call]
  split <;> (try split) <;> (try split) <;> rfl

theorem connect_tls_crashed (srv : Server) (loc : Locals) (st : State) :
    (connect_tls srv loc st).2.crashed = st.crashed := by
  unfold connect_tls
  simp only [ldap_call]
  split <;> (try split) <;> (try split) <;> (try split) <;> rfl

/-- What `main` does after the preamble, in terms of the connection: when a
step of the connection fails `main` returns the internal-error code without
entering the switch and without a crash; otherwise the drivers run from the
connected state, a crash there leaves no return value, and the return value
is 0 exactly when the counter `failed` is 0. -/
theorem main_connect_connected (b : Build) (srv : Server) (loc : Locals)
    (keylist : List (List Char)) (st : State) :
    (connected srv loc st = none →
        (main_connect b srv loc keylist st).ret = some KEYSERVER_INTERNAL_ERROR
          ∧ (main_connect b srv loc keylist st).st.crashed = st.crashed)
      ∧ (∀ s, connected srv loc st = some s →
          main_connect b srv loc keylist st
            = ⟨if (dispatch b srv loc.action keylist s).2.crashed then none
                else some (if (dispatch b srv loc.action keylist s).1 = 0 then KEYSERVER_OK
                  else KEYSERVER_INTERNAL_ERROR),
              (dispatch b srv loc.action keylist s).1, true,
              (dispatch b srv loc.action keylist s).2⟩) := by
  rw [main_connect_stages]
  unfold connected
  by_cases hi : (ldap_call srv (LdapCall.init st.host loc.port) st).1.err ≠ 0
  · rw [if_pos hi, if_pos hi]
    exact ⟨fun _ => ⟨rfl, fail_all_crashed _ _ _ _⟩, fun s h => Option.noConfusion h⟩
  · rw [if_neg hi, if_neg hi]
    have hc1 := connect_ssl_crashed srv loc (ldap_call srv (LdapCall.init st.host loc.port) st).2
    cases hssl : connect_ssl srv loc (ldap_call srv (LdapCall.init st.host loc.port) st).2 with
    | mk o1 st1 =>
      rw [hssl] at hc1
      have hst1 : st1.crashed = st.crashed := hc1
      cases o1 with
      | some e =>
        exact ⟨fun _ => ⟨rfl, (fail_all_crashed _ _ _ _).trans hst1⟩,
          fun s h => Option.noConfusion h⟩
      | none =>
        simp only []
        by_cases hp : (find_basekeyspacedn srv st1).1 ≠ 0
        · rw [if_pos hp, if_pos hp]
          exact ⟨fun _ => ⟨rfl, (fail_all_crashed _ _ _ _).trans
            ((find_basekeyspacedn_crashed srv st1).trans hst1)⟩, fun s h => Option.noConfusion h⟩
        · rw [if_neg hp, if_neg hp]
          have hc2 := connect_tls_crashed srv loc (find_basekeyspacedn srv st1).2
          cases htls : connect_tls srv loc (find_basekeyspacedn srv st1).2 with
          | mk o2 st2 =>
            rw [htls] at hc2
            have hst2 : st2.crashed = st.crashed :=
              hc2.trans ((find_basekeyspacedn_crashed srv st1).trans hst1)
            cases o2 with
            | some e =>
              exact ⟨fun _ => ⟨rfl, (fail_all_crashed _ _ _ _).trans hst2⟩,
                fun s h => Option.noConfusion h⟩
            | none =>
              simp only []
              by_cases hb : (ldap_call srv LdapCall.simple_bind st2).1.err ≠ 0
              · rw [if_pos hb, if_pos hb]
                exact ⟨fun _ => ⟨rfl, (fail_all_crashed _ _ _ _).trans hst2⟩,
                  fun s h => Option.noConfusion h⟩
              · rw [if_neg hb, if_neg hb]
                refine ⟨fun h => Option.noConfusion h, fun s h => ?_⟩
                have hs : (ldap_call srv LdapCall.simple_bind st2).2 = s := Option.some.inj h
                rw [hs]

/-- The header loop is left by `goto fail` only on a line on which
`VERSION %d` stores a value other than the protocol version. -/
theorem header_line_none (b : Build) (line : List Char) (loc : Locals) (st : State)
    (h : header_line b line loc st = none) :
    ∃ n, scan_number "VERSION".toList line = some n ∧ n ≠ b.proto_version := by
  unfold header_line at h
  split at h
  · cases h
  · split at h
    · cases h
    · split at h
      · cases h
      · split at h
        · cases h
        · split at h
          · rename_i version hv
            split at h
            · rename_i hne
              exact ⟨version, hv, hne⟩
            · cases h
          · split at h
            · cases h
            · cases h

theorem parse_header_flag (b : Build) (lines : List (List Char)) :
    ∀ (loc : Locals) (st : State), (parse_header b lines loc st).1 = true →
      ∃ (pre : List (List Char)) (vline : List Char) (post : List (List Char)) (n : Int),
        lines = pre ++ vline :: post ∧ (∀ l ∈ pre, l.head? ≠ some '\n')
          ∧ scan_number "VERSION".toList vline = some n ∧ n ≠ b.proto_version := by
  induction lines with
  | nil => intro loc st h; exact Bool.noConfusion h
  | cons line rest ih =>
    intro loc st h
    unfold parse_header at h
    by_cases hb : line.head? = some '\n'
    · rw [if_pos hb] at h
      exact Bool.noConfusion h
    · rw [if_neg hb] at h
      have hstep : ∀ (loc2 : Locals) (st2 : State), (parse_header b rest loc2 st2).1 = true →
          ∃ (pre : List (List Char)) (vline : List Char) (post : List (List Char)) (n : Int),
            line :: rest = pre ++ vline :: post ∧ (∀ l ∈ pre, l.head? ≠ some '\n')
              ∧ scan_number "VERSION".toList vline = some n ∧ n ≠ b.proto_version := by
        intro loc2 st2 h2
        obtain ⟨pre, vline, post, n, he, hp, hv, hn⟩ := ih loc2 st2 h2
        refine ⟨line :: pre, vline, post, n, by rw [he]; rfl, ?_, hv, hn⟩
        intro l hl
        rcases List.mem_cons.mp hl with e | e
        · rw [e]; exact hb
        · exact hp l e
      by_cases hc : line.head? = some '#'
      · rw [if_pos hc] at h
        exact hstep loc st h
      · rw [if_neg hc] at h
        cases hl : header_line b line loc st with
        | none =>
          obtain ⟨n, hv, hn⟩ := header_line_none b line loc st hl
          exact ⟨[], line, rest, n, rfl, fun l hl => absurd hl (List.not_mem_nil l), hv, hn⟩
        | some p =>
          rw [hl] at h
          exact hstep p.1 p.2 h

/-- The return value of `main` after the preamble, from a state that is not
crashed. -/
theorem main_connect_return (b : Build) (srv : Server) (loc : Locals)
    (keylist : List (List Char)) (st : State) (hst : st.crashed = false) :
    ((main_connect b srv loc keylist st).ret = none
        ↔ (main_connect b srv loc keylist st).st.crashed = true)
      ∧ (∀ v, (main_connect b srv loc keylist st).ret = some v →
          v = KEYSERVER_OK ∨ v = KEYSERVER_INTERNAL_ERROR)
      ∧ ((main_connect b srv loc keylist st).ret = some KEYSERVER_OK ↔
          ∃ s, connected srv loc st = some s
            ∧ (∀ r ∈ driver_results b srv loc.action keylist s, r = KEYSERVER_OK)
            ∧ (main_connect b srv loc keylist st).st.crashed = false) := by
  have hne : KEYSERVER_INTERNAL_ERROR ≠ KEYSERVER_OK := by decide
  obtain ⟨hnone, hsome⟩ := main_connect_connected b srv loc keylist st
  cases hconn : connected srv loc st with
  | none =>
    obtain ⟨hr, hc⟩ := hnone hconn
    rw [hr, hc, hst]
    refine ⟨⟨fun h => Option.noConfusion h, fun h => absurd h Bool.false_ne_true⟩, ?_, ?_⟩
    · intro v hv
      exact Or.inr (Option.some.inj hv).symm
    · constructor
      · intro h
        exact absurd (Option.some.inj h) hne
      · intro ⟨s, hs, _⟩
        exact Option.noConfusion hs
  | some s =>
    rw [hsome s hconn]
    show ((if (dispatch b srv loc.action keylist s).2.crashed = true then none
          else some (if (dispatch b srv loc.action keylist s).1 = 0 then KEYSERVER_OK
            else KEYSERVER_INTERNAL_ERROR)) = none
        ↔ (dispatch b srv loc.action keylist s).2.crashed = true)
      ∧ (∀ v, (if (dispatch b srv loc.action keylist s).2.crashed = true then none
          else some (if (dispatch b srv loc.action keylist s).1 = 0 then KEYSERVER_OK
            else KEYSERVER_INTERNAL_ERROR)) = some v →
          v = KEYSERVER_OK ∨ v = KEYSERVER_INTERNAL_ERROR)
      ∧ ((if (dispatch b srv loc.action keylist s).2.crashed = true then none
          else some (if (dispatch b srv loc.action keylist s).1 = 0 then KEYSERVER_OK
            else KEYSERVER_INTERNAL_ERROR)) = some KEYSERVER_OK ↔
          ∃ s2, some s = some s2
            ∧ (∀ r ∈ driver_results b srv loc.action keylist s2, r = KEYSERVER_OK)
            ∧ (dispatch b srv loc.action keylist s).2.crashed = false)
    cases hcr : (dispatch b srv loc.action keylist s).2.crashed with
    | true =>
      rw [if_pos rfl]
      refine ⟨⟨fun _ => rfl, fun _ => rfl⟩, fun v hv => Option.noConfusion hv, ?_⟩
      constructor
      · intro h; exact Option.noConfusion h
      · intro ⟨_, _, _, h⟩
        exact absurd h.symm Bool.false_ne_true
    | false =>
      rw [if_neg Bool.false_ne_true]
      refine ⟨⟨fun h => Option.noConfusion h, fun h => absurd h Bool.false_ne_true⟩, ?_, ?_⟩
      · intro v hv
        have := Option.some.inj hv
        by_cases h0 : (dispatch b srv loc.action keylist s).1 = 0
        · rw [if_pos h0] at this; exact Or.inl this.symm
        · rw [if_neg h0] at this; exact Or.inr this.symm
      · constructor
        · intro h
          have h2 := Option.some.inj h
          by_cases h0 : (dispatch b srv loc.action keylist s).1 = 0
          · exact ⟨s, rfl, (dispatch_failed_zero b srv loc.action keylist s).mp h0, rfl⟩
          · rw [if_neg h0] at h2
            exact absurd h2 hne
        · intro ⟨s2, hs2, hall, _⟩
          have : s2 = s := (Option.some.inj hs2).symm
          subst this
          rw [if_pos ((dispatch_failed_zero b srv loc.action keylist s2).mpr hall)]

/-- C1 (amended): for every request envelope and every LDAP outcome, `main`
returns nothing when the process is killed and otherwise 0, the
internal-error code or the version-error code: the version-error code
exactly when the header holds, before any blank line, a line on which
`VERSION %d` stores a value other than KEYSERVER_PROTO_VERSION; 0 exactly
when the connection was set up and every call of an operation driver
returned ok, that is when every request item succeeded; and the
internal-error code after any other failure, whatever helper code that
failure carried. -/
theorem main_return_value (b : Build) (srv : Server) (stream : List Char) :
    ((main b srv stream).ret = none ↔ (main b srv stream).st.crashed = true)
      ∧ (∀ v, (main b srv stream).ret = some v →
          v = KEYSERVER_OK ∨ v = KEYSERVER_INTERNAL_ERROR ∨ v = KEYSERVER_VERSION_ERROR)
      ∧ ((main b srv stream).ret = some KEYSERVER_VERSION_ERROR ↔
          ∃ (pre : List (List Char)) (vline : List Char) (post : List (List Char)) (n : Int),
            input_lines stream = pre ++ vline :: post ∧ (∀ l ∈ pre, l.head? ≠ some '\n')
              ∧ scan_number "VERSION".toList vline = some n ∧ n ≠ b.proto_version)
      ∧ ((main b srv stream).ret = some KEYSERVER_OK ↔
          ∃ s, main_switch_state b srv stream = some s
            ∧ (∀ r ∈ driver_results b srv (main_header b stream).2.1.action
                (main_keylist b stream) s, r = KEYSERVER_OK)
            ∧ (main b srv stream).st.crashed = false) := by
  have h30 : KEYSERVER_VERSION_ERROR ≠ KEYSERVER_OK := by decide
  have h10 : KEYSERVER_INTERNAL_ERROR ≠ KEYSERVER_OK := by decide
  have h13 : KEYSERVER_INTERNAL_ERROR ≠ KEYSERVER_VERSION_ERROR := by decide
  have h03 : KEYSERVER_OK ≠ KEYSERVER_VERSION_ERROR := by decide
  have hhc : (main_header b stream).2.2.crashed = false :=
    parse_header_crashed b (input_lines stream) Locals.initial
      (State.initial (input_lines stream))
  have hflag_iff : (main_header b stream).1 = true ↔
      ∃ (pre : List (List Char)) (vline : List Char) (post : List (List Char)) (n : Int),
        input_lines stream = pre ++ vline :: post ∧ (∀ l ∈ pre, l.head? ≠ some '\n')
          ∧ scan_number "VERSION".toList vline = some n ∧ n ≠ b.proto_version := by
    constructor
    · intro h
      exact parse_header_flag b (input_lines stream) Locals.initial
        (State.initial (input_lines stream)) h
    · intro ⟨pre, vline, post, n, he, hp, hv, hn⟩
      unfold main_header
      rw [he]
      exact parse_header_version b vline post n hv hn pre _ _ hp
  rw [← hflag_iff]
  cases hflag : (main_header b stream).1 with
  | true =>
    have hm : main b srv stream
        = ⟨some KEYSERVER_VERSION_ERROR, 0, false, (main_header b stream).2.2⟩ := by
      unfold main main_request
      rw [hflag, if_pos rfl]
    have hsw : main_switch_state b srv stream = none := by
      unfold main_switch_state
      rw [hflag, if_pos rfl]
    rw [hm, hsw]
    refine ⟨⟨fun h => Option.noConfusion h,
      fun h => absurd (hhc.symm.trans h) Bool.false_ne_true⟩, ?_, ?_, ?_⟩
    · intro v hv
      exact Or.inr (Or.inr (Option.some.inj hv).symm)
    · exact ⟨fun _ => rfl, fun _ => rfl⟩
    · constructor
      · intro h; exact absurd (Option.some.inj h) h30
      · intro ⟨s, hs, _⟩; exact Option.noConfusion hs
  | false =>
    by_cases hact : (main_header b stream).2.1.action = GET
        ∨ (main_header b stream).2.1.action = SEND
        ∨ (main_header b stream).2.1.action = SEARCH
    · have hprep : (main_prepared b stream).crashed = false := hhc
      have hm : main b srv stream
          = main_connect b srv (main_header b stream).2.1 (main_keylist b stream)
              (main_prepared b stream) := by
        unfold main main_request main_keylist main_prepared
        rw [hflag]
        simp only [Bool.false_eq_true, if_false]
        by_cases hs : (main_header b stream).2.1.action = SEND
        · simp only [if_pos hs]
        · have hgq : (main_header b stream).2.1.action = GET
              ∨ (main_header b stream).2.1.action = SEARCH := by
            rcases hact with h | h | h
            · exact Or.inl h
            · exact absurd h hs
            · exact Or.inr h
          simp only [if_neg hs, if_pos hgq]
      have hsw : main_switch_state b srv stream
          = connected srv (main_header b stream).2.1 (main_prepared b stream) := by
        unfold main_switch_state
        rw [hflag, if_neg (by simp), if_pos hact]
      obtain ⟨c1, c2, c3⟩ := main_connect_return b srv (main_header b stream).2.1
        (main_keylist b stream) (main_prepared b stream) hprep
      rw [hm, hsw]
      refine ⟨c1, ?_, ?_, c3⟩
      · intro v hv
        rcases c2 v hv with h | h
        · exact Or.inl h
        · exact Or.inr (Or.inl h)
      · constructor
        · intro h
          rcases c2 _ h with e | e
          · exact absurd e.symm h03
          · exact absurd e h13.symm
        · intro h; exact Bool.noConfusion h
    · have hm : main b srv stream
          = ⟨some KEYSERVER_INTERNAL_ERROR, 0, false, (main_header b stream).2.2⟩ := by
        unfold main main_request
        rw [hflag]
        have hs : ¬ (main_header b stream).2.1.action = SEND := fun h =>
          hact (Or.inr (Or.inl h))
        have hgq : ¬ ((main_header b stream).2.1.action = GET
            ∨ (main_header b stream).2.1.action = SEARCH) := by
          intro h
          rcases h with h | h
          · exact hact (Or.inl h)
          · exact hact (Or.inr (Or.inr h))
        simp only [Bool.false_eq_true, if_false, if_neg hs, if_neg hgq]
      have hsw : main_switch_state b srv stream = none := by
        unfold main_switch_state
        rw [hflag, if_neg (by simp), if_neg hact]
      rw [hm, hsw]
      refine ⟨⟨fun h => Option.noConfusion h,
        fun h => absurd (hhc.symm.trans h) Bool.false_ne_true⟩, ?_, ?_, ?_⟩
      · intro v hv
        exact Or.inr (Or.inl (Option.some.inj hv).symm)
      · constructor
        · intro h; exact absurd (Option.some.inj h) h13
        · intro h; exact Bool.noConfusion h
      · constructor
        · intro h; exact absurd (Option.some.inj h) h10
        · intro ⟨s, hs, _⟩; exact Option.noConfusion hs

end GpgkeysLdap
